import Mathlib

/-!
# argparse (zul): a shallow embedding of `argparse.h` / `argparse.cpp`

Conventions of the embedding.

* A `const char *` is a `String`; a pointer that may be null is an `Option String`. A `char`
  is the character whose code is its byte (0 to 255); as a number it is signed
  (`char_to_int`).
* A member function that mutates its object and may throw is a function into `Res`: the object
  as the call left it (also when it threw) together with the exception raised, if any.  A `const`
  member function that may throw is a function into `Except Exn`.
* `std::shared_ptr<Arg>` handles are integers: every `Arg` owned by a `Command` is stored once,
  in `argid_2_arg_`, under the id `Command::arg` / `Command::add_help_arg` gave it, and the other
  containers (`longname_2_arg_`, `shortname_2_arg_`, `conflict_with_all_args_`, `position_args_`)
  hold that id.  Every object handed to `Command::arg` is taken to be a fresh one.
* A function into `Res` or `Except Exn` is the call on the empty global buffer
  `internel::error_msg`. The functions that write to the buffer are translated a second time
  with the content of the buffer as part of the state (the functions named `..._buf`), which
  shows that the buffer is empty whenever a library call starts.
* `getopt_long_only`, `std::stod` and `std::stof` belong to the C / C++ library; they are fields
  of `Libc`, a parameter of everything that calls them.
* `std::cout` output of `print_usage_help` is not modelled.
-/

namespace zul

/-- Exceptions that leave the library. `undefined_behaviour` marks an execution that reaches
undefined behaviour in the C++ source (reading past the end of `argv`, `pop_back` on an empty
string). -/
inductive Exn where
  | ParseArgsError (error_msg_ : String)
  | invalid_argument
  | out_of_range
  | undefined_behaviour
deriving DecidableEq, Repr

/-- Outcome of a call on a mutable object: the object as the call left it, and what it threw. -/
structure Res (σ : Type) where
  state : σ
  thrown : Option Exn
deriving Repr

/-- Normal return. -/
def Res.ok {σ : Type} (s : σ) : Res σ := ⟨s, none⟩

/-- Return by exception. -/
def Res.throw {σ : Type} (s : σ) (e : Exn) : Res σ := ⟨s, some e⟩

/-- Sequencing of statements: the next statement runs only when nothing was thrown. -/
def Res.bind {σ : Type} (r : Res σ) (f : σ → Res σ) : Res σ :=
  match r.thrown with
  | none => f r.state
  | some _ => r

/-- A statement that leaves the object alone and may throw. -/
def Res.check {σ : Type} (r : Res σ) (f : σ → Option Exn) : Res σ :=
  r.bind (fun s => ⟨s, f s⟩)

namespace internel

/-- `exit_or_throw` for `config_exit_when_error == false`: the exception thrown for the buffer
content, and the buffer as it is left. -/
def exit_or_throw (error_msg : String) : Exn × String :=
  (Exn.ParseArgsError error_msg, "")

/-- The exception raised by `error_msg << text; exit_or_throw(error_msg);` on the empty buffer,
which is the buffer between any two calls of the library (`between_calls_empty`); the
functions with the buffer as an argument are the `..._buf` functions below. -/
def fail (text : String) : Exn := (exit_or_throw text).1

/-- Lexicographic comparison of the `unsigned char` sequences, as `strcmp(s1, s2) < 0`. -/
def strcmp_lt : List Char → List Char → Bool
  | [], [] => false
  | [], _ :: _ => true
  | _ :: _, [] => false
  | a :: as, b :: bs =>
    if a.toNat < b.toNat then true
    else if b.toNat < a.toNat then false
    else strcmp_lt as bs

/-- Translation of `CStrCmp::operator()`. -/
def CStrCmp (s1 s2 : String) : Bool := strcmp_lt s1.data s2.data

/-- Conversion of a `char` to `int`. `char` is a signed byte: the bytes 0x80 to 0xFF, kept here
as the characters of these codes, are the values -128 to -1. -/
def char_to_int (c : Char) : Int :=
  if 128 ≤ c.toNat ∧ c.toNat < 256 then (c.toNat : Int) - 256 else (c.toNat : Int)

/-- Ordering of `char` keys in `std::map<char, _>`: `std::less<char>`, on the signed values. -/
def char_lt (a b : Char) : Bool := decide (char_to_int a < char_to_int b)

/-- Ordering of `int` keys in `std::map<int, _>`. -/
def int_lt (a b : Int) : Bool := decide (a < b)

/-- `m[k] = v` on a `std::map` kept as its sorted list of entries. -/
def map_assign {K V : Type} [DecidableEq K] (lt : K → K → Bool) (k : K) (v : V) :
    List (K × V) → List (K × V)
  | [] => [(k, v)]
  | (k1, v1) :: m =>
    if k1 = k then (k1, v) :: m
    else if lt k k1 then (k, v) :: (k1, v1) :: m
    else (k1, v1) :: map_assign lt k v m

/-- `m.find(k)`: the mapped value, `none` for `m.end()`. -/
def map_find {K V : Type} [DecidableEq K] (k : K) : List (K × V) → Option V
  | [] => none
  | (k1, v1) :: m => if k1 = k then some v1 else map_find k m

/-- `s.insert(x)` on a `std::set<const char *, CStrCmp>` kept as its sorted list. -/
def set_insert (x : String) : List String → List String
  | [] => [x]
  | y :: ys =>
    if y = x then y :: ys
    else if CStrCmp x y then x :: y :: ys
    else y :: set_insert x ys

/-- Range constructor `std::set<const char *, CStrCmp>(first, last)`. -/
def set_of_range (xs : List String) : List String :=
  xs.foldl (fun s x => set_insert x s) []

/-- `std::string::pop_back`; `none` on the empty string, where the call is undefined. -/
def pop_back (s : String) : Option String :=
  if s.data = [] then none else some ⟨s.data.dropLast⟩

/-- `isspace` in the "C" locale. -/
def isspace (c : Char) : Bool :=
  c.toNat = 32 || (9 ≤ c.toNat && c.toNat ≤ 13)

/-- Leading white space is skipped by `strtol` / `strtoul`. -/
def skip_space : List Char → List Char
  | [] => []
  | c :: cs => if isspace c then skip_space cs else c :: cs

/-- The decimal digits at the front of the text. -/
def digit_run : List Char → List Char
  | [] => []
  | c :: cs => if 48 ≤ c.toNat ∧ c.toNat ≤ 57 then c :: digit_run cs else []

/-- Value of a run of decimal digits. -/
def digits_value (ds : List Char) : Nat :=
  ds.foldl (fun acc d => 10 * acc + (d.toNat - 48)) 0

/-- What `strtol` / `strtoul` read in base 10: white space, an optional sign, then digits up to
the first other character. Result: whether the sign was `-`, and the magnitude; `none` when no
digit is found (no conversion). -/
def scan_integer (s : String) : Option (Bool × Nat) :=
  match skip_space s.data with
  | '-' :: r => if digit_run r = [] then none else some (true, digits_value (digit_run r))
  | '+' :: r => if digit_run r = [] then none else some (false, digits_value (digit_run r))
  | r => if digit_run r = [] then none else some (false, digits_value (digit_run r))

/-- `std::stol(str)`, 64-bit `long`. -/
def stol (s : String) : Except Exn Int :=
  match scan_integer s with
  | none => .error .invalid_argument
  | some (neg, n) =>
    let v : Int := if neg then -(n : Int) else (n : Int)
    if v < -(2 : Int) ^ 63 ∨ (2 : Int) ^ 63 - 1 < v then .error .out_of_range else .ok v

/-- `std::stoi(str)`: `strtol` followed by the check against the range of `int`. -/
def stoi (s : String) : Except Exn Int :=
  match scan_integer s with
  | none => .error .invalid_argument
  | some (neg, n) =>
    let v : Int := if neg then -(n : Int) else (n : Int)
    if v < -(2 : Int) ^ 31 ∨ (2 : Int) ^ 31 - 1 < v then .error .out_of_range else .ok v

/-- `std::stoul(str)`, 64-bit `unsigned long`: a magnitude above `ULONG_MAX` is out of range, a
leading `-` negates the magnitude modulo `2^64`. -/
def stoul (s : String) : Except Exn Nat :=
  match scan_integer s with
  | none => .error .invalid_argument
  | some (neg, n) =>
    if 2 ^ 64 - 1 < n then .error .out_of_range
    else .ok (if neg then (2 ^ 64 - n) % 2 ^ 64 else n)

end internel

/-- A `double` as far as its comparisons go: not-a-number, the infinities, or a finite value. -/
inductive Double where
  | nan
  | neg_inf
  | finite (q : ℚ)
  | pos_inf
deriving DecidableEq

/-- IEEE-754 `<` on `double`: false as soon as one operand is a NaN. -/
def Double.lt : Double → Double → Bool
  | .nan, _ => false
  | _, .nan => false
  | _, .neg_inf => false
  | .neg_inf, _ => true
  | .pos_inf, _ => false
  | .finite _, .pos_inf => true
  | .finite x, .finite y => decide (x < y)

/-- IEEE-754 `<=` on `double`: false as soon as one operand is a NaN. -/
def Double.le : Double → Double → Bool
  | .nan, _ => false
  | _, .nan => false
  | .neg_inf, _ => true
  | _, .neg_inf => false
  | _, .pos_inf => true
  | .pos_inf, .finite _ => false
  | .finite x, .finite y => decide (x ≤ y)

instance : LT Double := ⟨fun x y => Double.lt x y = true⟩

instance : LE Double := ⟨fun x y => Double.le x y = true⟩

instance (x y : Double) : Decidable (x < y) := inferInstanceAs (Decidable (Double.lt x y = true))

instance (x y : Double) : Decidable (x ≤ y) := inferInstanceAs (Decidable (Double.le x y = true))

/-- Entry of the `getopt` long-option table (`struct option`; the `flag` member is always
`NULL`). The terminator has `name = none`. -/
structure option where
  name : Option String
  has_arg : Int
  val : Int
deriving DecidableEq, Repr

/-- Value of `no_argument` in `getopt.h`. -/
def no_argument : Int := 0

/-- Value of `required_argument` in `getopt.h`. -/
def required_argument : Int := 1

/-- What the `while ((ret = getopt_long_only(...)) != -1)` loop can observe of the scanner: the
successive return values other than `-1`, each with the `optarg` it left, then `optind` and the
(permuted) `argv` at the time `-1` is returned. -/
structure GetoptRun where
  events : List (Int × Option String)
  optind : Int
  argv : List String
deriving Repr

/-- The library functions the program calls and this development does not define. -/
structure Libc where
  getopt_long_only : List String → String → List option → GetoptRun
  stod : String → Except Exn Double
  stof : String → Except Exn Double

inductive ArgType where
  | FLAG
  | REQUIRED
  | OPTIONAL
  | POSITION
deriving DecidableEq, Repr

inductive NumType where
  | INT
  | UINT
  | DOUBlE
deriving DecidableEq, Repr

/-- The data members of `class Arg` (the back pointer `command_` is never read and is left out),
with their default member initialisers. -/
structure Arg where
  long_name_ : Option String := none
  short_name_ : Char := ' '
  arg_id_ : Int := -2147483648
  position_id_ : Int := -1
  arg_type_ : ArgType := ArgType.REQUIRED
  is_hit_ : Bool := false
  values_ : List String := []
  default_values_ : List String := []
  has_default_value_ : Bool := false
  is_default_value_cleared_ : Bool := false
  left_ : Option String := none
  right_ : Option String := none
  include_left_ : Bool := true
  include_right_ : Bool := true
  num_type_ : NumType := NumType.INT
  is_range_ : Bool := false
  choices_ : List String := []
  is_choice_ : Bool := false
  is_conflict_with_all_ : Bool := false
deriving DecidableEq

instance : Inhabited Arg := ⟨{}⟩

namespace internel

/-- `strlen`: the number of bytes before the terminator. -/
def strlen (s : String) : Nat := (s.data.map Char.utf8Size).sum

end internel

open internel

namespace Arg

/-- Translation of `Arg::new_arg` (constructor `Arg(Private, ArgType)`). -/
def new_arg (type : ArgType) : Arg := { arg_type_ := type }

/-- Translation of `Arg::new_help_arg` (constructor `Arg(Private, "help", 'h', FLAG)`). -/
def new_help_arg : Arg :=
  { long_name_ := some "help", short_name_ := 'h', arg_type_ := ArgType.FLAG }

/-- Text shared by `long_name` and `short_name` for the reserved help option. -/
def help_reserved_msg : String :=
  "The option of --help and -h have been automatically added. Just run: xx.bin " ++
  "--help or xx.bin -h " ++ "to show the usage help."

/-- Translation of `Arg::long_name`. -/
def long_name (a : Arg) (name : String) : Res Arg :=
  if a.arg_type_ = ArgType.POSITION then
    Res.throw a (fail "Position argument can not set long name.")
  else if name.data.take 4 = ['h', 'e', 'l', 'p'] then
    Res.throw a (fail help_reserved_msg)
  else if strlen name < 2 then
    Res.throw a (fail "The length of long option must be greater than 2.")
  else if name.data.take 1 = ['-'] then
    Res.throw a (fail "The name cannot start with -- or - .")
  else if name.data.any (fun elem => elem = ' ') then
    Res.throw a (fail "The long option can not contain spaces.")
  else
    Res.ok { a with long_name_ := some name }

/-- Translation of `Arg::short_name`. -/
def short_name (a : Arg) (name : Char) : Res Arg :=
  if a.arg_type_ = ArgType.POSITION then
    Res.throw a (fail "Position argument can not set short name.")
  else if name = 'h' then
    Res.throw a (fail help_reserved_msg)
  else if name = ' ' then
    Res.throw a (fail "The short option can not be a space.")
  else
    Res.ok { a with short_name_ := name }

/-- Translation of `Arg::conflicts_with_all`. -/
def conflicts_with_all (a : Arg) : Res Arg :=
  if a.arg_type_ = ArgType.REQUIRED ∨ a.arg_type_ = ArgType.POSITION then
    Res.throw a (fail "The required argument or position argument can not set related options.")
  else
    Res.ok { a with is_conflict_with_all_ := true }

/-- Translation of `Arg::set_hit`. -/
def set_hit (a : Arg) : Arg := { a with is_hit_ := true }

/-- Translation of `Arg::set_position_id`. -/
def set_position_id (a : Arg) (position_id : Int) : Arg := { a with position_id_ := position_id }

/-- Translation of `Arg::set_argid`. -/
def set_argid (a : Arg) (opt_id : Int) : Arg := { a with arg_id_ := opt_id }

/-- Translation of `Arg::get_choice_description`; `none` when a `pop_back` hits the empty
string. -/
def get_choice_description (a : Arg) : Option String :=
  let description := a.choices_.foldl (fun d elem => d ++ elem ++ ", ") "["
  match pop_back description with
  | none => none
  | some d1 =>
    match pop_back d1 with
    | none => none
    | some d2 => some (d2 ++ "]")

/-- Translation of `Arg::get_boundary_description`. -/
def get_boundary_description (a : Arg) : String :=
  (if a.include_left_ then "[" else "(") ++ a.left_.getD "" ++ ", " ++ a.right_.getD "" ++
  (if a.include_right_ then "]" else ")")

/-- Translation of the member template `bool Arg::check_range(T value, T left, T right)`. -/
def check_range {T : Type} [LT T] [LE T] [∀ x y : T, Decidable (x < y)]
    [∀ x y : T, Decidable (x ≤ y)] (a : Arg) (value left right : T) : Bool :=
  if a.include_left_ ∧ value < left then false
  else if ¬ a.include_left_ ∧ value ≤ left then false
  else if a.include_right_ ∧ value > right then false
  else if ¬ a.include_right_ ∧ value ≥ right then false
  else true

/-- The three conversions of `Arg::check_range()` in source order (candidate, left bound, right
bound), then the comparison. -/
def range_verdict {T : Type} [LT T] [LE T] [∀ x y : T, Decidable (x < y)]
    [∀ x y : T, Decidable (x ≤ y)] (a : Arg) (conv : String → Except Exn T)
    (v l r : String) : Except Exn Bool :=
  match conv v with
  | .error e => .error e
  | .ok value =>
    match conv l with
    | .error e => .error e
    | .ok left =>
      match conv r with
      | .error e => .error e
      | .ok right => .ok (a.check_range value left right)

/-- Message written by `Arg::check_range()` when the comparison fails. -/
def range_msg (a : Arg) : String :=
  if a.position_id_ ≠ -1 then
    "The value of position argument (position index " ++ toString a.position_id_ ++
    ") is not within the range of " ++ a.get_boundary_description ++ "."
  else
    match a.long_name_ with
    | some long =>
      "The value of option --" ++ long ++ " is not in the range of " ++
      a.get_boundary_description ++ "."
    | none =>
      if a.short_name_ ≠ ' ' then
        "The value of option -" ++ String.singleton a.short_name_ ++ " is not in the range of " ++
        a.get_boundary_description ++ "."
      else
        "A argument must have at least a long name or a short name or a position id."

/-- Translation of the nullary overload `void Arg::check_range()`: what it throws, if anything.
The checked value is `values_.back()`. -/
def check_range_void (L : Libc) (a : Arg) : Option Exn :=
  if a.is_range_ then
    match a.values_.getLast?, a.left_, a.right_ with
    | some v, some l, some r =>
      let verdict : Except Exn Bool :=
        match a.num_type_ with
        | NumType.INT => a.range_verdict stol v l r
        | NumType.UINT => a.range_verdict stoul v l r
        | NumType.DOUBlE => a.range_verdict L.stod v l r
      match verdict with
      | .error e => some e
      | .ok true => none
      | .ok false => some (fail a.range_msg)
    | _, _, _ => some Exn.undefined_behaviour
  else none

/-- Message written by `Arg::check_choice()`. Inserting the null `long_name_` of a short-only
argument into the stream sets its badbit, so the text stops there. -/
def choice_msg (a : Arg) (description : String) : String :=
  if a.position_id_ ≠ -1 then
    "The value of position argument (position index " ++ toString a.position_id_ ++
    ") is not within " ++ description ++ "."
  else
    match a.long_name_ with
    | some long => "The value of option --" ++ long ++ " is not within " ++ description ++ "."
    | none => "The value of option --"

/-- Translation of `Arg::check_choice`: what it throws, if anything. `choices_.find` compares
by `CStrCmp`, under which two keys are equivalent iff their texts are equal. -/
def check_choice (a : Arg) : Option Exn :=
  if a.is_choice_ then
    match a.values_.getLast? with
    | none => some Exn.undefined_behaviour
    | some v =>
      if a.choices_.any (fun c => !CStrCmp c v && !CStrCmp v c) then none
      else
        match a.get_choice_description with
        | none => some Exn.undefined_behaviour
        | some d => some (fail (a.choice_msg d))
  else none

/-- The tail `check_range(); check_choice();` of the value-storing members. -/
def check_last (L : Libc) (a : Arg) : Res Arg :=
  ((Res.ok a).check (check_range_void L)).check check_choice

/-- Translation of `Arg::default_value`. -/
def default_value (L : Libc) (a : Arg) (value : String) : Res Arg :=
  if a.arg_type_ ≠ ArgType.OPTIONAL then
    Res.throw a (fail "Only optional argument can set default value.")
  else
    check_last L { a with
      values_ := a.values_ ++ [value]
      default_values_ := a.default_values_ ++ [value]
      has_default_value_ := true }

/-- Translation of `Arg::default_values`. -/
def default_values (L : Libc) (a : Arg) (values : List String) : Res Arg :=
  if a.arg_type_ ≠ ArgType.OPTIONAL then
    Res.throw a (fail "Only optional argument can set default values.")
  else if values = [] then
    Res.throw a (fail "The default values can not empty.")
  else
    check_last L { a with
      values_ := values
      default_values_ := values
      has_default_value_ := true }

/-- Translation of `Arg::range`; both inclusivity flags default to `true` in the header. -/
def range (a : Arg) (type : NumType) (left right : String) (include_left : Bool)
    (include_right : Bool) : Res Arg :=
  if a.arg_type_ = ArgType.FLAG then
    Res.throw a (fail "The flag option can not set value range.")
  else if a.is_choice_ then
    Res.throw a (fail ("The selection value has been set for the option, and the range value " ++
      "can not be set again."))
  else
    Res.ok { a with
      left_ := some left
      right_ := some right
      include_left_ := include_left
      include_right_ := include_right
      num_type_ := type
      is_range_ := true }

/-- Translation of `Arg::choices`. -/
def choices (a : Arg) (choices : List String) : Res Arg :=
  if a.arg_type_ = ArgType.FLAG then
    Res.throw a (fail "The flag option can not set value choices.")
  else if a.is_range_ then
    Res.throw a (fail ("The range value has been set for the option, and the selection value " ++
      "can not be set again."))
  else if choices = [] then
    Res.throw a (fail "The value choices vector can not empty.")
  else if set_of_range choices = [] then
    Res.throw { a with choices_ := set_of_range choices }
      (fail "The value choices set can not empty.")
  else
    Res.ok { a with choices_ := set_of_range choices, is_choice_ := true }

/-- The first statement of the non-flag branch of `Arg::set_value`: a default that is still in
place is dropped. -/
def clear_default (a : Arg) : Arg :=
  if a.has_default_value_ ∧ ¬ a.is_default_value_cleared_ then
    { a with values_ := [], is_default_value_cleared_ := true }
  else a

/-- The statement `values_.push_back(value)`. -/
def push_back (a : Arg) (value : String) : Arg := { a with values_ := a.values_ ++ [value] }

/-- Translation of `Arg::set_value`. -/
def set_value (L : Libc) (a : Arg) (value : String) : Res Arg :=
  if a.arg_type_ = ArgType.FLAG then
    Res.ok { a with values_ := value :: a.values_.tail }
  else
    check_last L (a.clear_default.push_back value)

/-- The argument object as `Command::arg` leaves it after registering it: `if
(arg->get_arg_type() == ArgType::FLAG) arg->set_value("0");` and, for a Positional argument,
`arg->set_position_id(current_position_id_++)`. -/
def filed (L : Libc) (a : Arg) (position_id : Int) : Arg :=
  let a2 := if a.arg_type_ = ArgType.FLAG then (a.set_value L "0").state else a
  if a2.arg_type_ = ArgType.POSITION then a2.set_position_id position_id else a2

/-- Translation of `Arg::reset_status_info`. -/
def reset_status_info (a : Arg) : Arg :=
  if a.has_default_value_ then
    { a with is_hit_ := false, values_ := a.default_values_, is_default_value_cleared_ := false }
  else
    { a with is_hit_ := false }

end Arg

namespace internel

/-- Insertion of a `const char *` into the error stream, followed by further text. A null
pointer sets the badbit of the stream, after which nothing more is written. -/
def insert_cstr (buf : String) (p : Option String) (rest : String) : String :=
  match p with
  | some text => buf ++ text ++ rest
  | none => buf

/-- `to_value<int>`. -/
def to_value_int (str : String) : Except Exn Int := stoi str

/-- `to_value<int64_t>`. -/
def to_value_int64 (str : String) : Except Exn Int := stol str

/-- `to_value<uint32_t>`: `static_cast<uint32_t>(std::stoul(str))`. -/
def to_value_uint32 (str : String) : Except Exn Nat :=
  match stoul str with
  | .error e => .error e
  | .ok n => .ok (n % 2 ^ 32)

/-- `to_value<uint64_t>`. -/
def to_value_uint64 (str : String) : Except Exn Nat := stoul str

/-- `to_value<std::string>` and `to_value<std::string_view>`. -/
def to_value_string (str : String) : Except Exn String := .ok str

/-- `std::transform` with a converter that may throw: the first failing element throws. -/
def transform {T : Type} (conv : String → Except Exn T) : List String → Except Exn (List T)
  | [] => .ok []
  | v :: vs =>
    match conv v with
    | .error e => .error e
    | .ok x =>
      match transform conv vs with
      | .error e => .error e
      | .ok xs => .ok (x :: xs)

end internel

/-- The data members of `class Command` other than the sub-command map and the current
sub-command name, with their default member initialisers. `usage_format2_` and `line_size_`
are kept together as the list of lines. -/
structure CommandMembers where
  current_argid_ : Int := -2
  current_position_id_ : Int := 0
  longname_2_arg_ : List (String × Int) := []
  shortname_2_arg_ : List (Char × Int) := []
  argid_2_arg_ : List (Int × Arg) := []
  conflict_with_all_args_ : List Int := []
  related_groups_ : List (List String) := []
  conflict_groups_ : List (List String) := []
  one_required_groups_ : List (List String) := []
  position_args_ : List Int := []
  position_values_ : List String := []
  c_short_opts_ : String := ""
  c_long_opts_ : List option := []
  command_name_ : String := ""
  usage_format1_ : Option String := none
  usage_format2_ : List String := []

/-- Translation of `class Command`. -/
structure Command extends CommandMembers where
  subcommandname_2_subcommand_ : List (String × Command)
  current_subcommand_name_ : Option String := none

namespace Command

/-- Translation of `Command::new_command`. -/
def new_command (name : String) : Command :=
  { command_name_ := name, subcommandname_2_subcommand_ := [] }

/-- Translation of `Command::usage(const char *)`. -/
def usage (c : Command) (usage : String) : Command := { c with usage_format1_ := some usage }

/-- Translation of `Command::usage(const char *[], size_t)`. -/
def usage_lines (c : Command) (usage : List String) : Command :=
  { c with usage_format2_ := usage }

/-- Dereference of a `shared_ptr<Arg>` held by the command. -/
def arg_at (c : Command) (p : Int) : Arg := (map_find p c.argid_2_arg_).getD default

/-- Write through a `shared_ptr<Arg>` held by the command. -/
def set_arg (c : Command) (p : Int) (a : Arg) : Command :=
  { c with argid_2_arg_ := c.argid_2_arg_.map (fun e => if e.1 = p then (e.1, a) else e) }

/-- Translation of `Command::update_c_long_args`. -/
def update_c_long_args (c : Command) (arg : Arg) : Command :=
  { c with c_long_opts_ := c.c_long_opts_ ++
      [{ name := arg.long_name_
         has_arg := if arg.arg_type_ = ArgType.FLAG then no_argument else required_argument
         val := if arg.short_name_ ≠ ' ' then char_to_int arg.short_name_ else arg.arg_id_ }] }

/-- Translation of `Command::update_c_short_args`. -/
def update_c_short_args (c : Command) (arg : Arg) : Command :=
  if arg.arg_type_ = ArgType.FLAG then
    { c with c_short_opts_ := c.c_short_opts_.push arg.short_name_ }
  else
    { c with c_short_opts_ := (c.c_short_opts_.push arg.short_name_).push ':' }

/-- The statements `if (arg->get_long()) { longname_2_arg_[arg->get_long()] = arg;
update_c_long_args(arg); }` of `Command::arg`; the handle of the argument is its id. -/
def file_long (c : Command) (a : Arg) : Command :=
  match a.long_name_ with
  | some long =>
    update_c_long_args
      { c with longname_2_arg_ := map_assign CStrCmp long a.arg_id_ c.longname_2_arg_ } a
  | none => c

/-- The statements `if (arg->get_short()) { shortname_2_arg_[arg->get_short()] = arg;
update_c_short_args(arg); }` of `Command::arg`. The test is a test against the character
`'\0'`. -/
def file_short (c : Command) (a : Arg) : Command :=
  if a.short_name_ ≠ Char.ofNat 0 then
    update_c_short_args
      { c with shortname_2_arg_ := map_assign char_lt a.short_name_ a.arg_id_ c.shortname_2_arg_ }
      a
  else c

/-- The statement `if (arg->is_conflict_with_all()) conflict_with_all_args_.push_back(arg);`
of `Command::arg`. -/
def file_conflict (c : Command) (a : Arg) : Command :=
  if a.is_conflict_with_all_ then
    { c with conflict_with_all_args_ := c.conflict_with_all_args_ ++ [a.arg_id_] }
  else c

/-- The command side of `if (arg->get_arg_type() == ArgType::POSITION) {
arg->set_position_id(current_position_id_++); position_args_.push_back(arg); }` of
`Command::arg`. -/
def file_position (c : Command) (a : Arg) : Command :=
  if a.arg_type_ = ArgType.POSITION then
    { c with
      current_position_id_ := c.current_position_id_ + 1
      position_args_ := c.position_args_ ++ [a.arg_id_] }
  else c

/-- Translation of `Command::arg`. The object is stored with the updates the function makes
to it after registering it (`Arg.filed`: `set_value("0")` for a flag, `set_position_id` for a
positional). -/
def arg (L : Libc) (c : Command) (a : Arg) : Res Command :=
  if a.arg_type_ ≠ ArgType.POSITION ∧ a.long_name_ = none ∧ a.short_name_ = ' ' then
    Res.throw c (fail "The argument should have a long name or a short name.")
  else
    let a1 := a.set_argid c.current_argid_
    let c1 : Command := { c with current_argid_ := c.current_argid_ - 1 }
    let c4 := ((c1.file_long a1).file_short a1).file_conflict a1
    let c5 := c4.file_position a1
    Res.ok { c5 with
      argid_2_arg_ :=
        map_assign int_lt a1.arg_id_ (a1.filed L c4.current_position_id_) c5.argid_2_arg_ }

/-- Translation of `Command::subcommand`. -/
def subcommand (c : Command) (subcommand : Command) : Command :=
  { c with subcommandname_2_subcommand_ :=
      map_assign CStrCmp subcommand.command_name_ subcommand c.subcommandname_2_subcommand_ }

/-- Translation of `Command::related_group`. -/
def related_group (c : Command) (related_group : List String) : Command :=
  { c with related_groups_ := c.related_groups_ ++ [related_group] }

/-- Translation of `Command::conflict_group`. -/
def conflict_group (c : Command) (conflict_group : List String) : Command :=
  { c with conflict_groups_ := c.conflict_groups_ ++ [conflict_group] }

/-- Translation of `Command::one_required_group`. -/
def one_required_group (c : Command) (one_required_group : List String) : Command :=
  { c with one_required_groups_ := c.one_required_groups_ ++ [one_required_group] }

/-- Translation of `Command::get_subcommand`. Looking a null name up in a non-empty map
dereferences the null pointer in `strcmp`. -/
def get_subcommand (c : Command) : Except Exn Command :=
  match c.current_subcommand_name_ with
  | none =>
    if c.subcommandname_2_subcommand_.isEmpty then .error Exn.out_of_range
    else .error Exn.undefined_behaviour
  | some name =>
    match map_find name c.subcommandname_2_subcommand_ with
    | none => .error Exn.out_of_range
    | some sub => .ok sub

/-- Translation of `Command::command_name` / `command_name_sv`. -/
def command_name (c : Command) : String := c.command_name_

/-- Translation of `Command::has_arg(const char *)`. -/
def has_arg (c : Command) (long_name : String) : Bool :=
  match map_find long_name c.longname_2_arg_ with
  | none => false
  | some p => (c.arg_at p).is_hit_

/-- Translation of `Command::has_arg(char)`. -/
def has_arg_short (c : Command) (short_name : Char) : Bool :=
  match map_find short_name c.shortname_2_arg_ with
  | none => false
  | some p => (c.arg_at p).is_hit_

/-- Translation of `Command::reset_arg_status`. -/
def reset_arg_status (c : Command) : Command :=
  let c1 := c.longname_2_arg_.foldl
    (fun (c : Command) e => c.set_arg e.2 (c.arg_at e.2).reset_status_info) c
  let c2 := c1.shortname_2_arg_.foldl
    (fun (c : Command) e => c.set_arg e.2 (c.arg_at e.2).reset_status_info) c1
  { c2 with position_values_ := [] }

/-- Translation of `Command::add_help_arg`. -/
def add_help_arg (L : Libc) (c : Command) : Command :=
  let argid := c.current_argid_
  let a1 := Arg.new_help_arg.set_argid argid
  let c1 : Command := { c with current_argid_ := argid - 1 }
  let c2 : Command :=
    update_c_long_args
      { c1 with longname_2_arg_ :=
          map_assign CStrCmp (a1.long_name_.getD "") argid c1.longname_2_arg_ } a1
  let c3 : Command :=
    update_c_short_args
      { c2 with shortname_2_arg_ := map_assign char_lt a1.short_name_ argid c2.shortname_2_arg_ }
      a1
  let a2 := ((a1.set_value L "0").state.conflicts_with_all).state
  { c3 with argid_2_arg_ := map_assign int_lt argid a2 c3.argid_2_arg_ }

/-- Translation of `Command::print_usage_help`: the usage text goes to `std::cout`, then
`exit_or_throw` runs on the (empty) error buffer. -/
def print_usage_help (_c : Command) : Exn := fail ""

/-- The statements `arg->set_hit(); if (optarg) arg->set_value(optarg); else
arg->set_value("1");` of the scan loop. -/
def hit_and_set (L : Libc) (c : Command) (p : Int) (optarg : Option String) : Res Command :=
  let r := (c.arg_at p).set_hit.set_value L (optarg.getD "1")
  ⟨c.set_arg p r.state, r.thrown⟩

/-- One turn of the `while` loop of `do_parse_args_internel`, for the return value `ret` of
`getopt_long_only` and the `optarg` it left. The key `static_cast<char>(ret)` of the lookup in
the short-name map is the low byte of `ret`. -/
def scan_event (L : Libc) (c : Command) (ev : Int × Option String) : Res Command :=
  if ev.1 < 0 then
    match map_find "help" c.longname_2_arg_ with
    | none => Res.throw c Exn.out_of_range
    | some h =>
      if ev.1 = (c.arg_at h).arg_id_ then Res.throw c c.print_usage_help
      else
        match map_find ev.1 c.argid_2_arg_ with
        | none => Res.throw c Exn.out_of_range
        | some _ => c.hit_and_set L ev.1 ev.2
  else if ev.1 = 63 ∨ ev.1 = 58 then
    Res.throw c (fail (c.command_name_ ++ ": Function `getopt_long_only` returned an error."))
  else if ev.1 = 104 then Res.throw c c.print_usage_help
  else
    match map_find (Char.ofNat (ev.1.toNat % 256)) c.shortname_2_arg_ with
    | none => Res.throw c Exn.out_of_range
    | some p => c.hit_and_set L p ev.2

/-- The `while` loop of `do_parse_args_internel` over the return values of the scanner. -/
def scan_events (L : Libc) (c : Command) : List (Int × Option String) → Res Command
  | [] => Res.ok c
  | ev :: evs => (c.scan_event L ev).bind (fun c1 => scan_events L c1 evs)

/-- Is the argument behind `p` a Required argument that was not hit. -/
def missing_required (c : Command) (p : Int) : Bool :=
  decide ((c.arg_at p).arg_type_ = ArgType.REQUIRED) && !(c.arg_at p).is_hit_

/-- Translation of `Command::check_required_args`: what it throws, if anything. -/
def check_required_args (c : Command) : Option Exn :=
  match c.longname_2_arg_.find? (fun e => c.missing_required e.2) with
  | some e =>
    some (fail (insert_cstr (c.command_name_ ++ ": Missing required option: --")
      (c.arg_at e.2).long_name_ "."))
  | none =>
    match c.shortname_2_arg_.find? (fun e => c.missing_required e.2) with
    | some e =>
      some (fail (c.command_name_ ++ ": Missing required option: -" ++
        String.singleton (c.arg_at e.2).short_name_ ++ "."))
    | none => none

/-- Body of the outer loop of `check_conflict_with_all_args` for the hit argument `arg`. The
comparison `arg->get_long() == arg2->get_long()` is a comparison of pointers; it is taken on
the texts, two distinct long names of one command being distinct texts. -/
def conflict_of (c : Command) (arg : Arg) : Option Exn :=
  match c.longname_2_arg_.find?
      (fun e => decide (arg.long_name_ ≠ (c.arg_at e.2).long_name_) && (c.arg_at e.2).is_hit_) with
  | some _ =>
    some (fail (insert_cstr
      (c.command_name_ ++ ": The conflict relationship is not satisfied. Option --")
      arg.long_name_ " is conflict with all other options."))
  | none =>
    match c.shortname_2_arg_.find?
        (fun e => decide (arg.short_name_ ≠ (c.arg_at e.2).short_name_) &&
          (c.arg_at e.2).is_hit_) with
    | some _ =>
      some (fail (c.command_name_ ++ ": The conflict relationship is not satisfied. Option -" ++
        String.singleton arg.short_name_ ++ " is conflict with all other options."))
    | none => none

/-- The outer loop of `check_conflict_with_all_args` over `conflict_with_all_args_`. -/
def conflict_scan (c : Command) : List Int → Option Exn
  | [] => none
  | p :: ps =>
    if (c.arg_at p).is_hit_ then
      match c.conflict_of (c.arg_at p) with
      | some e => some e
      | none => conflict_scan c ps
    else conflict_scan c ps

/-- Translation of `Command::check_conflict_with_all_args`: what it throws, if anything. -/
def check_conflict_with_all_args (c : Command) : Option Exn :=
  c.conflict_scan c.conflict_with_all_args_

/-- The predicate handed to `std::count_if` by the three group checks. -/
def member_hit (c : Command) (name : String) : Except Exn Bool :=
  if strlen name = 1 then
    match map_find (name.data.headD (Char.ofNat 0)) c.shortname_2_arg_ with
    | none => .error (fail (c.command_name_ ++ ": Can not find -" ++ name ++ " option."))
    | some p => .ok (c.arg_at p).is_hit_
  else
    match map_find name c.longname_2_arg_ with
    | none => .error (fail (c.command_name_ ++ ": Can not find --" ++ name ++ " option."))
    | some p => .ok (c.arg_at p).is_hit_

/-- `std::count_if(group.begin(), group.end(), ...)` with the predicate `member_hit`. -/
def group_count (c : Command) : List String → Except Exn Nat
  | [] => .ok 0
  | name :: rest =>
    match c.member_hit name with
    | .error e => .error e
    | .ok b =>
      match group_count c rest with
      | .error e => .error e
      | .ok n => .ok (if b then n + 1 else n)

/-- Translation of `Command::get_description`; `none` when a `pop_back` hits the empty
string. Only the dashes of each member are appended. -/
def get_description (group : List String) : Option String :=
  let description :=
    group.foldl (fun d arg => d ++ (if strlen arg = 1 then "-" else "--") ++ ", ") "["
  match pop_back description with
  | none => none
  | some d1 =>
    match pop_back d1 with
    | none => none
    | some d2 => some (d2 ++ "]")

/-- The exception of a violated group: the message is built around `get_description`. -/
def group_failure (c : Command) (group : List String) (before after : String) : Exn :=
  match get_description group with
  | none => Exn.undefined_behaviour
  | some d => fail (c.command_name_ ++ before ++ d ++ after)

/-- The loop of `check_related_groups` over the remaining groups. -/
def related_scan (c : Command) : List (List String) → Option Exn
  | [] => none
  | group :: groups =>
    match c.group_count group with
    | .error e => some e
    | .ok count =>
      if count ≠ 0 ∧ count ≠ group.length then
        some (c.group_failure group ": The related relationship is not satisfied. "
          ": is related with each other.")
      else related_scan c groups

/-- Translation of `Command::check_related_groups`: what it throws, if anything. -/
def check_related_groups (c : Command) : Option Exn := c.related_scan c.related_groups_

/-- The loop of `check_conflict_groups` over the remaining groups. -/
def conflict_groups_scan (c : Command) : List (List String) → Option Exn
  | [] => none
  | group :: groups =>
    match c.group_count group with
    | .error e => some e
    | .ok count =>
      if count > 1 then
        some (c.group_failure group ": The conflict relationship is not satisfied. "
          ": is conflict with each other.")
      else conflict_groups_scan c groups

/-- Translation of `Command::check_conflict_groups`: what it throws, if anything. -/
def check_conflict_groups (c : Command) : Option Exn :=
  c.conflict_groups_scan c.conflict_groups_

/-- The loop of `check_one_required_group` over the remaining groups. -/
def one_required_scan (c : Command) : List (List String) → Option Exn
  | [] => none
  | group :: groups =>
    match c.group_count group with
    | .error e => some e
    | .ok count =>
      if count < 1 then
        some (c.group_failure group ": The one of require relationship is not satisfied. "
          ": at least one option should exist.")
      else one_required_scan c groups

/-- Translation of `Command::check_one_required_group`: what it throws, if anything. -/
def check_one_required_group (c : Command) : Option Exn :=
  c.one_required_scan c.one_required_groups_

/-- The statement `position_values_.emplace_back(argv[i])`. -/
def push_position (c : Command) (tok : String) : Command :=
  { c with position_values_ := c.position_values_ ++ [tok] }

/-- The `for` loop of `do_parse_args_internel` over the remaining tokens, `i` being the loop
index of the first of them. -/
def capture (L : Libc) (c : Command) (i : Nat) : List String → Res Command
  | [] => Res.ok c
  | tok :: toks =>
    match (c.push_position tok).position_args_[i]? with
    | some p =>
      let r := ((c.push_position tok).arg_at p).set_value L tok
      (Res.mk ((c.push_position tok).set_arg p r.state) r.thrown).bind
        (fun c2 => capture L c2 (i + 1) toks)
    | none => capture L (c.push_position tok) (i + 1) toks

/-- The part of `do_parse_args_internel` after `check_required_args`: `argc -= optind; argv +=
optind;`, the test for missing positional arguments and the capture loop. A negative `argc`
converts to a huge `size_t`, so that the loop reads past the tokens of the command. -/
def capture_positions (L : Libc) (c : Command) (argc : Int) (run : GetoptRun) : Res Command :=
  if argc - run.optind < 0 then Res.throw c Exn.undefined_behaviour
  else if (argc - run.optind).toNat < c.position_args_.length then
    Res.throw c (fail (c.command_name_ ++ ": Missing required position arguments."))
  else
    c.capture L 0 ((run.argv.drop run.optind.toNat).take (argc - run.optind).toNat)

/-- Translation of `Command::do_parse_args_internel`; `argv` holds the `argc` tokens the
command is given. -/
def do_parse_args_internel (L : Libc) (c : Command) (argv : List String) : Res Command :=
  let run := L.getopt_long_only argv c.c_short_opts_ c.c_long_opts_
  ((c.scan_events L run.events).check check_required_args).bind
    (fun c1 => c1.capture_positions L argv.length run)

/-- The statements the two branches of `do_parse_args` have in common: `add_help_arg`, the
terminator of the long-option table, `do_parse_args_internel` and the four group checks. -/
def parse_own_level (L : Libc) (c : Command) (argv : List String) : Res Command :=
  let c1 := c.add_help_arg L
  let c2 : Command := { c1 with c_long_opts_ := c1.c_long_opts_ ++ [{ name := none, has_arg := 0, val := 0 }] }
  ((((c2.do_parse_args_internel L argv).check check_conflict_with_all_args).check
    check_related_groups).check check_conflict_groups).check check_one_required_group

/-- The index of the first token that is the name of a registered sub-command, `argc` when
there is none (the `for` loop at the head of the second branch of `do_parse_args`). -/
def subcommand_index (subs : List (String × Command)) (argv : List String) : Nat :=
  argv.findIdx (fun tok => (map_find tok subs).isSome)

mutual
/-- Translation of `Command::do_parse_args`. -/
def do_parse_args (L : Libc) : Command → List String → Res Command
  | ⟨members, subs, current⟩, argv =>
    if subs.isEmpty then
      parse_own_level L ⟨members, subs, current⟩ argv
    else
      let idx := subcommand_index subs argv
      let r := parse_own_level L ⟨members, subs, current⟩ (argv.take idx)
      match r.thrown with
      | some _ => r
      | none =>
        match argv[idx]? with
        | none => Res.throw r.state (fail (r.state.command_name_ ++ ": Missing subcommand."))
        | some name =>
          let r2 := dispatch L subs name (argv.drop idx)
          ⟨{ r.state with
              current_subcommand_name_ := some name
              subcommandname_2_subcommand_ := r2.state }, r2.thrown⟩
/-- The call `subcommandname_2_subcommand_.at(argv[idx])->do_parse_args(argc - idx, argv + idx)`:
the child registered under `name` is parsed in place. -/
def dispatch (L : Libc) : List (String × Command) → String → List String →
    Res (List (String × Command))
  | [], _, _ => Res.throw [] Exn.out_of_range
  | (k, child) :: rest, name, argv =>
    if k = name then
      let r := do_parse_args L child argv
      ⟨(k, r.state) :: rest, r.thrown⟩
    else
      let r := dispatch L rest name argv
      ⟨(k, child) :: r.state, r.thrown⟩
end

/-- Translation of `Command::parse_args` (both overloads). -/
def parse_args (L : Libc) (c : Command) (args : List String) : Res Command :=
  do_parse_args L c.reset_arg_status args

/-- Translation of `Command::get_one_value<T>(const char *)`, `conv` being `to_value<T>`. -/
def get_one_value {T : Type} (conv : String → Except Exn T) (c : Command) (long_name : String) :
    Except Exn T :=
  match map_find long_name c.longname_2_arg_ with
  | none => .error (fail ("Can not find --" ++ long_name ++ " option."))
  | some p =>
    match (c.arg_at p).values_ with
    | [] => .error (fail ("Option --" ++ long_name ++ " does not have a value."))
    | v :: _ => conv v

/-- Translation of `Command::get_one_value<T>(char)`. -/
def get_one_value_short {T : Type} (conv : String → Except Exn T) (c : Command)
    (short_name : Char) : Except Exn T :=
  match map_find short_name c.shortname_2_arg_ with
  | none => .error (fail ("Can not find -" ++ String.singleton short_name ++ " option."))
  | some p =>
    match (c.arg_at p).values_ with
    | [] => .error (fail ("Option -" ++ String.singleton short_name ++ " does not have a value."))
    | v :: _ => conv v

/-- Translation of `Command::get_many_values<T>(const char *)`. -/
def get_many_values {T : Type} (conv : String → Except Exn T) (c : Command)
    (long_name : String) : Except Exn (List T) :=
  match map_find long_name c.longname_2_arg_ with
  | none => .error (fail ("Can not find --" ++ long_name ++ " option."))
  | some p => transform conv (c.arg_at p).values_

/-- Translation of `Command::get_many_values<T>(char)`. -/
def get_many_values_short {T : Type} (conv : String → Except Exn T) (c : Command)
    (short_name : Char) : Except Exn (List T) :=
  match map_find short_name c.shortname_2_arg_ with
  | none => .error (fail ("Can not find -" ++ String.singleton short_name ++ " option."))
  | some p => transform conv (c.arg_at p).values_

/-- Translation of `Command::get_one_position_value<T>`. -/
def get_one_position_value {T : Type} (conv : String → Except Exn T) (c : Command)
    (position : Nat) : Except Exn T :=
  match c.position_values_[position]? with
  | none => .error (fail "No corresponding position argument.")
  | some v => conv v

/-- Translation of `Command::get_all_position_values<T>`. -/
def get_all_position_values {T : Type} (conv : String → Except Exn T) (c : Command) :
    Except Exn (List T) :=
  transform conv c.position_values_

end Command

/-! ## Notions used to state the claims -/

/-- How a group member name is resolved: a name of one byte in the short-name map, any other
name in the long-name map. -/
def Command.resolve (c : Command) (name : String) : Option Int :=
  if strlen name = 1 then map_find (name.data.headD (Char.ofNat 0)) c.shortname_2_arg_
  else map_find name c.longname_2_arg_

/-- Is the argument a member name resolves to hit. -/
def Command.member_is_hit (c : Command) (name : String) : Bool :=
  match c.resolve name with
  | some p => (c.arg_at p).is_hit_
  | none => false

/-- The number of hit members of a group. -/
def Command.hit_count (c : Command) (group : List String) : Nat :=
  group.countP c.member_is_hit

/-- All member names of the group resolve. -/
def Command.group_resolves (c : Command) (group : List String) : Prop :=
  ∀ name ∈ group, (c.resolve name).isSome = true

instance (c : Command) (g : List String) : Decidable (c.group_resolves g) :=
  inferInstanceAs (Decidable (∀ name ∈ g, (c.resolve name).isSome = true))

/-- The argument a scanner event is routed to by the scan loop: the id itself for a negative
return value, the entry of the short-name map under the low byte of any other. -/
def Command.event_target (c : Command) (ev : Int × Option String) : Option Int :=
  if ev.1 < 0 then some ev.1 else map_find (Char.ofNat (ev.1.toNat % 256)) c.shortname_2_arg_

/-- The tokens `parse_args` hands to the scanner for the command itself: all of them without
sub-commands, those before the first sub-command name otherwise. -/
def Command.own_tokens (c : Command) (args : List String) : List String :=
  if c.subcommandname_2_subcommand_.isEmpty then args
  else args.take (Command.subcommand_index c.subcommandname_2_subcommand_ args)

/-- The command as `parse_args` presents it to the scanner: per-parse state reset, help
argument added, long-option table terminated. -/
def Command.prepared (L : Libc) (c : Command) : Command :=
  { c.reset_arg_status.add_help_arg L with
    c_long_opts_ := (c.reset_arg_status.add_help_arg L).c_long_opts_ ++
      [{ name := none, has_arg := 0, val := 0 }] }

/-- What the scanner reports for the command itself during `parse_args`. -/
def Command.own_run (L : Libc) (c : Command) (args : List String) : GetoptRun :=
  L.getopt_long_only (c.own_tokens args) (c.prepared L).c_short_opts_ (c.prepared L).c_long_opts_

/-- The scan phase of `parse_args` on the command itself. -/
def Command.scanned (L : Libc) (c : Command) (args : List String) : Res Command :=
  (c.prepared L).scan_events L (c.own_run L args).events

/-- The values with which the argument behind `p` occurs in this parse, in order of
occurrence; an occurrence without `optarg` counts with the sentinel "1". -/
def Command.occurrences (L : Libc) (c : Command) (args : List String) (p : Int) : List String :=
  ((c.own_run L args).events.filter
    (fun ev => decide ((c.prepared L).event_target ev = some p))).map (fun ev => ev.2.getD "1")

/-- The fields of a command that only declarations change: everything but the stored arguments,
the positional values and the sub-commands; the stored arguments keep their ids. -/
structure Command.Frame (c c1 : Command) : Prop where
  current_argid : c1.current_argid_ = c.current_argid_
  current_position_id : c1.current_position_id_ = c.current_position_id_
  longname : c1.longname_2_arg_ = c.longname_2_arg_
  shortname : c1.shortname_2_arg_ = c.shortname_2_arg_
  conflict_with_all : c1.conflict_with_all_args_ = c.conflict_with_all_args_
  related : c1.related_groups_ = c.related_groups_
  conflict : c1.conflict_groups_ = c.conflict_groups_
  one_required : c1.one_required_groups_ = c.one_required_groups_
  position_args : c1.position_args_ = c.position_args_
  short_opts : c1.c_short_opts_ = c.c_short_opts_
  long_opts : c1.c_long_opts_ = c.c_long_opts_
  command_name : c1.command_name_ = c.command_name_
  ids : c1.argid_2_arg_.map Prod.fst = c.argid_2_arg_.map Prod.fst

/-- The argument behind `q` is held by the long-name map or by the short-name map. -/
def Command.registered (c : Command) (q : Int) : Prop :=
  q ∈ c.longname_2_arg_.map Prod.snd ∨ q ∈ c.shortname_2_arg_.map Prod.snd

instance (c : Command) (q : Int) : Decidable (c.registered q) :=
  inferInstanceAs (Decidable (_ ∨ _))

/-- The help argument as `add_help_arg` stores it under the id `argid`. -/
def Arg.stored_help (argid : Int) : Arg :=
  { Arg.new_help_arg with arg_id_ := argid, values_ := ["0"], is_conflict_with_all_ := true }

/-- The argument after the occurrences with the values `vals`, in order: each one is
`set_hit` followed by `set_value`. -/
def Arg.replay (L : Libc) (a : Arg) (vals : List String) : Arg :=
  vals.foldl (fun a v => (a.set_hit.set_value L v).state) a

/-- Invariant of the commands the API builds and parses: the handles held by the name maps
and the positional list are ids already given out, they point to stored arguments, the
positional list holds Positional arguments only, and an argument filed under the reserved names
`help` / `h` is the (flag) help argument of an earlier parse. -/
structure Command.WF (c : Command) : Prop where
  long_fresh : ∀ e ∈ c.longname_2_arg_, c.current_argid_ < e.2
  short_fresh : ∀ e ∈ c.shortname_2_arg_, c.current_argid_ < e.2
  position_fresh : ∀ p ∈ c.position_args_, c.current_argid_ < p
  long_present : ∀ e ∈ c.longname_2_arg_, (map_find e.2 c.argid_2_arg_).isSome = true
  short_present : ∀ e ∈ c.shortname_2_arg_, (map_find e.2 c.argid_2_arg_).isSome = true
  position_kind : ∀ p ∈ c.position_args_, (c.arg_at p).arg_type_ = ArgType.POSITION
  help_long : ∀ e ∈ c.longname_2_arg_, e.1 = "help" → (c.arg_at e.2).arg_type_ = ArgType.FLAG
  help_short : ∀ e ∈ c.shortname_2_arg_, e.1 = 'h' → (c.arg_at e.2).arg_type_ = ArgType.FLAG

/-- What an argument with a default is expected to hold after a parse: its occurrences of
this parse if there is one, its default sequence otherwise. -/
def Command.values_after (L : Libc) (c : Command) (args : List String) (p : Int) :
    List String :=
  if c.occurrences L args p = [] then (c.arg_at p).default_values_ else c.occurrences L args p

deriving instance DecidableEq for Except

/-- Every entry of a name map points to an argument that carries the name it is filed
under. -/
def Command.names_filed (c : Command) : Prop :=
  (∀ e ∈ c.longname_2_arg_, (c.arg_at e.2).long_name_ = some e.1) ∧
    (∀ e ∈ c.shortname_2_arg_, (c.arg_at e.2).short_name_ = e.1)

/-- The argument behind `q` is a named argument of the command: it is filed under a long name
or under a short name other than the blank, the value of `short_name_` of an argument without
short name. -/
def Command.named (c : Command) (q : Int) : Prop :=
  (∃ e ∈ c.longname_2_arg_, e.2 = q) ∨ (∃ e ∈ c.shortname_2_arg_, e.1 ≠ ' ' ∧ e.2 = q)

/-- Every argument marked `conflicts_with_all` is a named argument, and it is the one filed
under each of its names (no later argument was declared under one of them). -/
def Command.marked_filed (c : Command) : Prop :=
  ∀ p ∈ c.conflict_with_all_args_, c.named p ∧
    (∀ e ∈ c.longname_2_arg_, (c.arg_at p).long_name_ = some e.1 → e.2 = p) ∧
    (∀ e ∈ c.shortname_2_arg_, e.1 ≠ ' ' → (c.arg_at p).short_name_ = e.1 → e.2 = p)

/-- No argument was hit through the blank short option: the argument filed under the blank,
when hit, is also filed under a long name. -/
def Command.blank_unhit (c : Command) : Prop :=
  ∀ e ∈ c.shortname_2_arg_, e.1 = ' ' → (c.arg_at e.2).is_hit_ = true →
    ∃ e2 ∈ c.longname_2_arg_, e2.2 = e.2

instance (c : Command) : Decidable c.names_filed :=
  inferInstanceAs (Decidable (_ ∧ _))

instance (c : Command) (q : Int) : Decidable (c.named q) :=
  inferInstanceAs (Decidable (_ ∨ _))

instance (c : Command) : Decidable c.marked_filed :=
  inferInstanceAs (Decidable (∀ p ∈ c.conflict_with_all_args_, _))

instance (c : Command) : Decidable c.blank_unhit :=
  inferInstanceAs (Decidable (∀ e ∈ c.shortname_2_arg_, _))

/-- An argument as the builder methods of `Arg` make it before it is handed to a command:
`new_arg` followed by any number of builder calls that return. -/
inductive Arg.Built (L : Libc) : Arg → Prop
  | new_arg (type : ArgType) : Arg.Built L (Arg.new_arg type)
  | long_name (a : Arg) (name : String) :
      Arg.Built L a → (a.long_name name).thrown = none → Arg.Built L (a.long_name name).state
  | short_name (a : Arg) (name : Char) :
      Arg.Built L a → (a.short_name name).thrown = none → Arg.Built L (a.short_name name).state
  | conflicts_with_all (a : Arg) :
      Arg.Built L a → a.conflicts_with_all.thrown = none → Arg.Built L a.conflicts_with_all.state
  | default_value (a : Arg) (value : String) :
      Arg.Built L a → (a.default_value L value).thrown = none →
      Arg.Built L (a.default_value L value).state
  | default_values (a : Arg) (values : List String) :
      Arg.Built L a → (a.default_values L values).thrown = none →
      Arg.Built L (a.default_values L values).state
  | range (a : Arg) (type : NumType) (left right : String) (il ir : Bool) :
      Arg.Built L a → (a.range type left right il ir).thrown = none →
      Arg.Built L (a.range type left right il ir).state
  | choices (a : Arg) (values : List String) :
      Arg.Built L a → (a.choices values).thrown = none → Arg.Built L (a.choices values).state

/-- A freshly built command without sub-commands: `new_command` followed by any number of
declarations (`usage`, `arg`, the three group declarations) that return; no parse has run
on it. -/
inductive Command.Fresh (L : Libc) : Command → Prop
  | new_command (name : String) : Command.Fresh L (Command.new_command name)
  | usage (c : Command) (text : String) : Command.Fresh L c → Command.Fresh L (c.usage text)
  | usage_lines (c : Command) (lines : List String) :
      Command.Fresh L c → Command.Fresh L (c.usage_lines lines)
  | arg (c : Command) (a : Arg) :
      Command.Fresh L c → Arg.Built L a → (c.arg L a).thrown = none →
      Command.Fresh L (c.arg L a).state
  | related_group (c : Command) (group : List String) :
      Command.Fresh L c → Command.Fresh L (c.related_group group)
  | conflict_group (c : Command) (group : List String) :
      Command.Fresh L c → Command.Fresh L (c.conflict_group group)
  | one_required_group (c : Command) (group : List String) :
      Command.Fresh L c → Command.Fresh L (c.one_required_group group)

/-- The commands the API produces at top level: `new_command` followed by any number of
declarations that return and of calls of `parse_args`, whatever their outcome. -/
inductive Command.Reachable (L : Libc) : Command → Prop
  | new_command (name : String) : Command.Reachable L (Command.new_command name)
  | usage (c : Command) (text : String) :
      Command.Reachable L c → Command.Reachable L (c.usage text)
  | usage_lines (c : Command) (lines : List String) :
      Command.Reachable L c → Command.Reachable L (c.usage_lines lines)
  | arg (c : Command) (a : Arg) :
      Command.Reachable L c → Arg.Built L a → (c.arg L a).thrown = none →
      Command.Reachable L (c.arg L a).state
  | subcommand (c sub : Command) : Command.Reachable L c → Command.Reachable L (c.subcommand sub)
  | related_group (c : Command) (group : List String) :
      Command.Reachable L c → Command.Reachable L (c.related_group group)
  | conflict_group (c : Command) (group : List String) :
      Command.Reachable L c → Command.Reachable L (c.conflict_group group)
  | one_required_group (c : Command) (group : List String) :
      Command.Reachable L c → Command.Reachable L (c.one_required_group group)
  | parse_args (c : Command) (args : List String) :
      Command.Reachable L c → Command.Reachable L (c.parse_args L args).state

/-- The tokens the scanner left for positional capture on the command itself: those from
`optind` on, among the `argc` tokens handed to the scanner. -/
def Command.remaining (L : Libc) (c : Command) (args : List String) : List String :=
  ((c.own_run L args).argv.drop (c.own_run L args).optind.toNat).take
    (((c.own_tokens args).length : Int) - (c.own_run L args).optind).toNat

/-- Invariant of the positional list of the commands the API builds and parses: it holds each
Positional argument once, in declaration order, every entry points to a stored Positional
argument, and the entry at index `i` carries the position id `i`. -/
structure Command.PositionsWF (c : Command) : Prop where
  nodup : c.position_args_.Nodup
  present : ∀ p ∈ c.position_args_, (map_find p c.argid_2_arg_).isSome = true
  kind : ∀ p ∈ c.position_args_, (c.arg_at p).arg_type_ = ArgType.POSITION
  ids : ∀ (i : Nat) (p : Int), c.position_args_[i]? = some p → (c.arg_at p).position_id_ = i
  count : c.current_position_id_ = c.position_args_.length

/-- The exception is not the missing-positional failure of any command. -/
def Exn.not_missing_position (e : Exn) : Prop :=
  ∀ name : String, e ≠ Exn.ParseArgsError (name ++ ": Missing required position arguments.")

/-- The conversion `std::stod` of the library throws `std::invalid_argument` or
`std::out_of_range` only. -/
def Libc.stod_standard (L : Libc) : Prop :=
  ∀ (s : String) (e : Exn), L.stod s = .error e →
    e = Exn.invalid_argument ∨ e = Exn.out_of_range

/-- The command as `do_parse_args` presents it to the scanner: help argument added,
long-option table terminated. `parse_args` resets the command first; the call on a matched
sub-command does not. -/
def Command.presented (L : Libc) (c : Command) : Command :=
  { c.add_help_arg L with
    c_long_opts_ := (c.add_help_arg L).c_long_opts_ ++
      [{ name := none, has_arg := 0, val := 0 }] }

/-- What the scanner reports to `do_parse_args_internel` for the tokens `argv` of the
command. -/
def Command.level_run (L : Libc) (c : Command) (argv : List String) : GetoptRun :=
  L.getopt_long_only argv (c.presented L).c_short_opts_ (c.presented L).c_long_opts_

/-- The scan phase of `do_parse_args` on the command for the tokens `argv`. -/
def Command.level_scan (L : Libc) (c : Command) (argv : List String) : Res Command :=
  (c.presented L).scan_events L (c.level_run L argv).events

/-- The values with which the argument behind `p` occurs among the tokens `argv` that
`do_parse_args` hands to the scanner, in order of occurrence. -/
def Command.level_occurrences (L : Libc) (c : Command) (argv : List String) (p : Int) :
    List String :=
  ((c.level_run L argv).events.filter
    (fun ev => decide ((c.presented L).event_target ev = some p))).map (fun ev => ev.2.getD "1")

/-- An argument as any sequence of configuration calls leaves it: `new_arg` followed by any
number of calls of the builder methods of `Arg`, whether they return or throw. -/
inductive Arg.Configured (L : Libc) : Arg → Prop
  | new_arg (type : ArgType) : Arg.Configured L (Arg.new_arg type)
  | long_name (a : Arg) (name : String) :
      Arg.Configured L a → Arg.Configured L (a.long_name name).state
  | short_name (a : Arg) (name : Char) :
      Arg.Configured L a → Arg.Configured L (a.short_name name).state
  | conflicts_with_all (a : Arg) : Arg.Configured L a → Arg.Configured L a.conflicts_with_all.state
  | default_value (a : Arg) (value : String) :
      Arg.Configured L a → Arg.Configured L (a.default_value L value).state
  | default_values (a : Arg) (values : List String) :
      Arg.Configured L a → Arg.Configured L (a.default_values L values).state
  | range (a : Arg) (type : NumType) (left right : String) (il ir : Bool) :
      Arg.Configured L a → Arg.Configured L (a.range type left right il ir).state
  | choices (a : Arg) (values : List String) :
      Arg.Configured L a → Arg.Configured L (a.choices values).state


/-- The verdict of `Arg::check_range()` on the text `v` for the range of the argument: the
conversions of the candidate and of the two bounds in the numeric type of the range, then the
comparison. -/
def Arg.range_verdict_of (L : Libc) (a : Arg) (v : String) : Except Exn Bool :=
  match a.num_type_ with
  | NumType.INT => a.range_verdict stol v (a.left_.getD "") (a.right_.getD "")
  | NumType.UINT => a.range_verdict stoul v (a.left_.getD "") (a.right_.getD "")
  | NumType.DOUBlE => a.range_verdict L.stod v (a.left_.getD "") (a.right_.getD "")

/-- The text violates the constraint set on the argument: with a range, the text and the two
bounds convert and the comparison with the bounds fails; with choices, the text is not one of
them. -/
def Arg.violates (L : Libc) (a : Arg) (v : String) : Prop :=
  (a.is_range_ = true ∧ a.range_verdict_of L v = .ok false) ∨
    (a.is_choice_ = true ∧ v ∉ a.choices_)

instance (L : Libc) (a : Arg) (v : String) : Decidable (a.violates L v) :=
  inferInstanceAs (Decidable (_ ∨ _))

/-- The text passes the constraint set on the argument: with a range, the text and the two
bounds convert and the comparison with the bounds holds; with choices, the text is one of
them. -/
def Arg.passes (L : Libc) (a : Arg) (v : String) : Prop :=
  (a.is_range_ = true → a.range_verdict_of L v = .ok true) ∧
    (a.is_choice_ = true → v ∈ a.choices_)

instance (L : Libc) (a : Arg) (v : String) : Decidable (a.passes L v) :=
  inferInstanceAs (Decidable (_ ∧ _))


/-- The positional phase of `parse_args` on the command itself (the missing-positional test
followed by the capture loop), run on the state the scan left. -/
def Command.captured (L : Libc) (c : Command) (args : List String) : Res Command :=
  (c.scanned L args).state.capture_positions L (c.own_tokens args).length (c.own_run L args)


/-- The scanner event is the help option of a parse of the command: its return value is the
character `h` (104), which the option table gives for the injected `--help` and `-h`, or the
(negative) id `add_help_arg` gives to the injected help argument. -/
def Command.help_event (c : Command) (ev : Int × Option String) : Prop :=
  ev.1 = 104 ∨ (ev.1 < 0 ∧ ev.1 = c.current_argid_)

instance (c : Command) (ev : Int × Option String) : Decidable (c.help_event ev) :=
  inferInstanceAs (Decidable (_ ∨ _))

/-- Translation of `Command::reset_arg_status` together with the global buffer
`internel::error_msg`, which its last statement replaces by an empty stream: the command and
the buffer as the call leaves them. -/
def Command.reset_arg_status_buffer (c : Command) (_error_msg : String) : Command × String :=
  (c.reset_arg_status, "")

/-- What `member_hit` throws for a name that does not resolve. -/
def Command.unresolved_error (c : Command) (name : String) : Exn :=
  if strlen name = 1 then
    Exn.ParseArgsError (c.command_name_ ++ ": Can not find -" ++ name ++ " option.")
  else Exn.ParseArgsError (c.command_name_ ++ ": Can not find --" ++ name ++ " option.")


mutual
/-- The height of the command tree below and including the command: 1 for a command without
sub-commands. -/
def Command.depth : Command → Nat
  | ⟨_, subs, _⟩ => 1 + Command.depth_of_children subs
/-- The greatest height among the registered sub-commands, 0 when there is none. -/
def Command.depth_of_children : List (String × Command) → Nat
  | [] => 0
  | (_, child) :: rest => max (Command.depth child) (Command.depth_of_children rest)
end

/-- Write through the `shared_ptr<Command>` registered under `name`: the entry of the
sub-command map found under `name` holds the object `child`. -/
def Command.store_child (name : String) (child : Command) :
    List (String × Command) → List (String × Command)
  | [] => []
  | (k, x) :: rest =>
    if k = name then (k, child) :: rest else (k, x) :: Command.store_child name child rest

/-- `Command::do_parse_args` as the recursive function the source defines, with a bound on
the depth of the nested calls: `none` when a call would have to be made at depth `fuel`. The
callee is the object found by `subcommandname_2_subcommand_.at(argv[idx])`. -/
def Command.do_parse_args_fuel (L : Libc) : Nat → Command → List String → Option (Res Command)
  | 0, _, _ => none
  | fuel + 1, c, argv =>
    if c.subcommandname_2_subcommand_.isEmpty then some (c.parse_own_level L argv)
    else
      match (c.parse_own_level L
          (argv.take (Command.subcommand_index c.subcommandname_2_subcommand_ argv))).thrown with
      | some _ =>
        some (c.parse_own_level L
          (argv.take (Command.subcommand_index c.subcommandname_2_subcommand_ argv)))
      | none =>
        match argv[Command.subcommand_index c.subcommandname_2_subcommand_ argv]? with
        | none =>
          some (Res.throw
            (c.parse_own_level L
              (argv.take (Command.subcommand_index c.subcommandname_2_subcommand_ argv))).state
            (fail ((c.parse_own_level L
              (argv.take
                (Command.subcommand_index c.subcommandname_2_subcommand_ argv))).state.command_name_
              ++ ": Missing subcommand.")))
        | some name =>
          match map_find name c.subcommandname_2_subcommand_ with
          | none =>
            some ⟨{ (c.parse_own_level L
                (argv.take
                  (Command.subcommand_index c.subcommandname_2_subcommand_ argv))).state with
              current_subcommand_name_ := some name
              subcommandname_2_subcommand_ := c.subcommandname_2_subcommand_ },
              some Exn.out_of_range⟩
          | some child =>
            match Command.do_parse_args_fuel L fuel child
                (argv.drop (Command.subcommand_index c.subcommandname_2_subcommand_ argv)) with
            | none => none
            | some r2 =>
              some ⟨{ (c.parse_own_level L
                  (argv.take
                    (Command.subcommand_index c.subcommandname_2_subcommand_ argv))).state with
                current_subcommand_name_ := some name
                subcommandname_2_subcommand_ :=
                  Command.store_child name r2.state c.subcommandname_2_subcommand_ },
                r2.thrown⟩

/-- The value `getopt_long_only` returns for an occurrence of the argument: the `val` of its
entry in the long-option table (`update_c_long_args`), which for an argument with a short name
is the value of its character, as the scanner also returns it for the short option. -/
def Arg.return_code (a : Arg) : Int :=
  if a.short_name_ ≠ ' ' then char_to_int a.short_name_ else a.arg_id_

/-- The phases of `parse_args` on the command itself that follow the required check all pass:
the positional phase and the four group checks. -/
def Command.later_checks_pass (L : Libc) (c : Command) (args : List String) : Prop :=
  (c.captured L args).thrown = none ∧
    (c.captured L args).state.check_conflict_with_all_args = none ∧
    (c.captured L args).state.check_related_groups = none ∧
    (c.captured L args).state.check_conflict_groups = none ∧
    (c.captured L args).state.check_one_required_group = none

instance (L : Libc) (c : Command) (args : List String) : Decidable (c.later_checks_pass L args) :=
  inferInstanceAs (Decidable (_ ∧ _))

/-! ## The library with its error buffer

The functions of the library that write to the global buffer `internel::error_msg`, translated
once more with the content of the buffer as part of the state: each takes the content of the
buffer when the call starts and gives the content when the call is left. -/

/-- Outcome of a call on a mutable object together with the global buffer: the object as the
call left it, what it threw, and the content of `internel::error_msg` when the call is left. -/
structure Out (σ : Type) where
  state : σ
  thrown : Option Exn
  error_msg : String

/-- Normal return; the buffer was not written. -/
def Out.ok {σ : Type} (s : σ) (error_msg : String) : Out σ := ⟨s, none, error_msg⟩

/-- The call `internel::exit_or_throw(internel::error_msg)` on the buffer content
`error_msg`. -/
def Out.exit_or_throw {σ : Type} (s : σ) (error_msg : String) : Out σ :=
  ⟨s, some (internel.exit_or_throw error_msg).1, (internel.exit_or_throw error_msg).2⟩

/-- The statements `internel::error_msg << text; internel::exit_or_throw(internel::error_msg);`
on a buffer that holds `error_msg`. -/
def Out.fail {σ : Type} (s : σ) (error_msg text : String) : Out σ :=
  Out.exit_or_throw s (error_msg ++ text)

/-- An exception that does not come from `exit_or_throw` (`std::out_of_range` of `at`, the
exception of a conversion); the buffer is not touched. -/
def Out.throw {σ : Type} (s : σ) (e : Exn) (error_msg : String) : Out σ := ⟨s, some e, error_msg⟩

/-- Sequencing of statements: the next statement runs, on the buffer as it is, only when
nothing was thrown. -/
def Out.bind {σ : Type} (r : Out σ) (f : σ → String → Out σ) : Out σ :=
  match r.thrown with
  | none => f r.state r.error_msg
  | some _ => r

/-- The outcome without the buffer. -/
def Out.res {σ : Type} (r : Out σ) : Res σ := ⟨r.state, r.thrown⟩

namespace Arg

/-- Translation of `Arg::long_name`, with the buffer. -/
def long_name_buf (a : Arg) (name : String) (error_msg : String) : Out Arg :=
  if a.arg_type_ = ArgType.POSITION then
    Out.fail a error_msg "Position argument can not set long name."
  else if name.data.take 4 = ['h', 'e', 'l', 'p'] then
    Out.fail a error_msg help_reserved_msg
  else if strlen name < 2 then
    Out.fail a error_msg "The length of long option must be greater than 2."
  else if name.data.take 1 = ['-'] then
    Out.fail a error_msg "The name cannot start with -- or - ."
  else if name.data.any (fun elem => elem = ' ') then
    Out.fail a error_msg "The long option can not contain spaces."
  else
    Out.ok { a with long_name_ := some name } error_msg

/-- Translation of `Arg::short_name`, with the buffer. -/
def short_name_buf (a : Arg) (name : Char) (error_msg : String) : Out Arg :=
  if a.arg_type_ = ArgType.POSITION then
    Out.fail a error_msg "Position argument can not set short name."
  else if name = 'h' then
    Out.fail a error_msg help_reserved_msg
  else if name = ' ' then
    Out.fail a error_msg "The short option can not be a space."
  else
    Out.ok { a with short_name_ := name } error_msg

/-- Translation of `Arg::conflicts_with_all`, with the buffer. -/
def conflicts_with_all_buf (a : Arg) (error_msg : String) : Out Arg :=
  if a.arg_type_ = ArgType.REQUIRED ∨ a.arg_type_ = ArgType.POSITION then
    Out.fail a error_msg
      "The required argument or position argument can not set related options."
  else
    Out.ok { a with is_conflict_with_all_ := true } error_msg

/-- Translation of the nullary overload `void Arg::check_range()`, with the buffer. The
conversions throw before anything is written. -/
def check_range_void_buf (L : Libc) (a : Arg) (error_msg : String) : Out Arg :=
  if a.is_range_ then
    match a.values_.getLast?, a.left_, a.right_ with
    | some v, some l, some r =>
      let verdict : Except Exn Bool :=
        match a.num_type_ with
        | NumType.INT => a.range_verdict stol v l r
        | NumType.UINT => a.range_verdict stoul v l r
        | NumType.DOUBlE => a.range_verdict L.stod v l r
      match verdict with
      | .error e => Out.throw a e error_msg
      | .ok true => Out.ok a error_msg
      | .ok false => Out.fail a error_msg a.range_msg
    | _, _, _ => Out.throw a Exn.undefined_behaviour error_msg
  else Out.ok a error_msg

/-- Translation of `Arg::check_choice`, with the buffer. -/
def check_choice_buf (a : Arg) (error_msg : String) : Out Arg :=
  if a.is_choice_ then
    match a.values_.getLast? with
    | none => Out.throw a Exn.undefined_behaviour error_msg
    | some v =>
      if a.choices_.any (fun c => !CStrCmp c v && !CStrCmp v c) then Out.ok a error_msg
      else
        match a.get_choice_description with
        | none => Out.throw a Exn.undefined_behaviour error_msg
        | some d => Out.fail a error_msg (a.choice_msg d)
  else Out.ok a error_msg

/-- The tail `check_range(); check_choice();` of the value-storing members, with the buffer. -/
def check_last_buf (L : Libc) (a : Arg) (error_msg : String) : Out Arg :=
  (check_range_void_buf L a error_msg).bind check_choice_buf

/-- Translation of `Arg::default_value`, with the buffer. -/
def default_value_buf (L : Libc) (a : Arg) (value : String) (error_msg : String) : Out Arg :=
  if a.arg_type_ ≠ ArgType.OPTIONAL then
    Out.fail a error_msg "Only optional argument can set default value."
  else
    check_last_buf L { a with
      values_ := a.values_ ++ [value]
      default_values_ := a.default_values_ ++ [value]
      has_default_value_ := true } error_msg

/-- Translation of `Arg::default_values`, with the buffer. -/
def default_values_buf (L : Libc) (a : Arg) (values : List String) (error_msg : String) :
    Out Arg :=
  if a.arg_type_ ≠ ArgType.OPTIONAL then
    Out.fail a error_msg "Only optional argument can set default values."
  else if values = [] then
    Out.fail a error_msg "The default values can not empty."
  else
    check_last_buf L { a with
      values_ := values
      default_values_ := values
      has_default_value_ := true } error_msg

/-- Translation of `Arg::range`, with the buffer. -/
def range_buf (a : Arg) (type : NumType) (left right : String) (include_left : Bool)
    (include_right : Bool) (error_msg : String) : Out Arg :=
  if a.arg_type_ = ArgType.FLAG then
    Out.fail a error_msg "The flag option can not set value range."
  else if a.is_choice_ then
    Out.fail a error_msg ("The selection value has been set for the option, and the range " ++
      "value can not be set again.")
  else
    Out.ok { a with
      left_ := some left
      right_ := some right
      include_left_ := include_left
      include_right_ := include_right
      num_type_ := type
      is_range_ := true } error_msg

/-- Translation of `Arg::choices`, with the buffer. -/
def choices_buf (a : Arg) (choices : List String) (error_msg : String) : Out Arg :=
  if a.arg_type_ = ArgType.FLAG then
    Out.fail a error_msg "The flag option can not set value choices."
  else if a.is_range_ then
    Out.fail a error_msg ("The range value has been set for the option, and the selection " ++
      "value can not be set again.")
  else if choices = [] then
    Out.fail a error_msg "The value choices vector can not empty."
  else if set_of_range choices = [] then
    Out.fail { a with choices_ := set_of_range choices } error_msg
      "The value choices set can not empty."
  else
    Out.ok { a with choices_ := set_of_range choices, is_choice_ := true } error_msg

/-- Translation of `Arg::set_value`, with the buffer. -/
def set_value_buf (L : Libc) (a : Arg) (value : String) (error_msg : String) : Out Arg :=
  if a.arg_type_ = ArgType.FLAG then
    Out.ok { a with values_ := value :: a.values_.tail } error_msg
  else
    check_last_buf L (a.clear_default.push_back value) error_msg

end Arg

namespace Command

/-- Translation of `Command::arg`, with the buffer: it is written by the first test only
(`set_value("0")` on a flag stores without checking). -/
def arg_buf (L : Libc) (c : Command) (a : Arg) (error_msg : String) : Out Command :=
  if a.arg_type_ ≠ ArgType.POSITION ∧ a.long_name_ = none ∧ a.short_name_ = ' ' then
    Out.fail c error_msg "The argument should have a long name or a short name."
  else
    let a1 := a.set_argid c.current_argid_
    let c1 : Command := { c with current_argid_ := c.current_argid_ - 1 }
    let c4 := ((c1.file_long a1).file_short a1).file_conflict a1
    let c5 := c4.file_position a1
    Out.ok { c5 with
      argid_2_arg_ :=
        map_assign int_lt a1.arg_id_ (a1.filed L c4.current_position_id_) c5.argid_2_arg_ }
      error_msg

/-- Translation of `Command::print_usage_help`, with the buffer: the usage text goes to
`std::cout`, then `exit_or_throw` runs on the buffer as it is. -/
def print_usage_help_buf (c : Command) (error_msg : String) : Out Command :=
  Out.exit_or_throw c error_msg

/-- The statements `arg->set_hit(); if (optarg) arg->set_value(optarg); else
arg->set_value("1");` of the scan loop, with the buffer. -/
def hit_and_set_buf (L : Libc) (c : Command) (p : Int) (optarg : Option String)
    (error_msg : String) : Out Command :=
  let r := (c.arg_at p).set_hit.set_value_buf L (optarg.getD "1") error_msg
  ⟨c.set_arg p r.state, r.thrown, r.error_msg⟩

/-- One turn of the `while` loop of `do_parse_args_internel`, with the buffer. -/
def scan_event_buf (L : Libc) (c : Command) (ev : Int × Option String) (error_msg : String) :
    Out Command :=
  if ev.1 < 0 then
    match map_find "help" c.longname_2_arg_ with
    | none => Out.throw c Exn.out_of_range error_msg
    | some h =>
      if ev.1 = (c.arg_at h).arg_id_ then c.print_usage_help_buf error_msg
      else
        match map_find ev.1 c.argid_2_arg_ with
        | none => Out.throw c Exn.out_of_range error_msg
        | some _ => c.hit_and_set_buf L ev.1 ev.2 error_msg
  else if ev.1 = 63 ∨ ev.1 = 58 then
    Out.fail c error_msg (c.command_name_ ++ ": Function `getopt_long_only` returned an error.")
  else if ev.1 = 104 then c.print_usage_help_buf error_msg
  else
    match map_find (Char.ofNat (ev.1.toNat % 256)) c.shortname_2_arg_ with
    | none => Out.throw c Exn.out_of_range error_msg
    | some p => c.hit_and_set_buf L p ev.2 error_msg

/-- The `while` loop of `do_parse_args_internel` over the return values of the scanner, with
the buffer. -/
def scan_events_buf (L : Libc) (c : Command) :
    List (Int × Option String) → String → Out Command
  | [], error_msg => Out.ok c error_msg
  | ev :: evs, error_msg =>
    (c.scan_event_buf L ev error_msg).bind (fun c1 buf => scan_events_buf L c1 evs buf)

/-- Translation of `Command::check_required_args`, with the buffer. -/
def check_required_args_buf (c : Command) (error_msg : String) : Out Command :=
  match c.longname_2_arg_.find? (fun e => c.missing_required e.2) with
  | some e =>
    Out.exit_or_throw c
      (insert_cstr (error_msg ++ (c.command_name_ ++ ": Missing required option: --"))
        (c.arg_at e.2).long_name_ ".")
  | none =>
    match c.shortname_2_arg_.find? (fun e => c.missing_required e.2) with
    | some e =>
      Out.fail c error_msg (c.command_name_ ++ ": Missing required option: -" ++
        String.singleton (c.arg_at e.2).short_name_ ++ ".")
    | none => Out.ok c error_msg

/-- Body of the outer loop of `check_conflict_with_all_args` for the hit argument `arg`, with
the buffer. -/
def conflict_of_buf (c : Command) (arg : Arg) (error_msg : String) : Out Command :=
  match c.longname_2_arg_.find?
      (fun e => decide (arg.long_name_ ≠ (c.arg_at e.2).long_name_) && (c.arg_at e.2).is_hit_) with
  | some _ =>
    Out.exit_or_throw c
      (insert_cstr
        (error_msg ++
          (c.command_name_ ++ ": The conflict relationship is not satisfied. Option --"))
        arg.long_name_ " is conflict with all other options.")
  | none =>
    match c.shortname_2_arg_.find?
        (fun e => decide (arg.short_name_ ≠ (c.arg_at e.2).short_name_) &&
          (c.arg_at e.2).is_hit_) with
    | some _ =>
      Out.fail c error_msg
        (c.command_name_ ++ ": The conflict relationship is not satisfied. Option -" ++
          String.singleton arg.short_name_ ++ " is conflict with all other options.")
    | none => Out.ok c error_msg

/-- The outer loop of `check_conflict_with_all_args` over `conflict_with_all_args_`, with the
buffer. -/
def conflict_scan_buf (c : Command) : List Int → String → Out Command
  | [], error_msg => Out.ok c error_msg
  | p :: ps, error_msg =>
    if (c.arg_at p).is_hit_ then
      (c.conflict_of_buf (c.arg_at p) error_msg).bind (fun _ buf => conflict_scan_buf c ps buf)
    else conflict_scan_buf c ps error_msg

/-- Translation of `Command::check_conflict_with_all_args`, with the buffer. -/
def check_conflict_with_all_args_buf (c : Command) (error_msg : String) : Out Command :=
  c.conflict_scan_buf c.conflict_with_all_args_ error_msg

/-- The predicate handed to `std::count_if` by the three group checks, with the buffer: its
verdict, or the exception it throws, and the buffer as it leaves it. -/
def member_hit_buf (c : Command) (name : String) (error_msg : String) :
    Except Exn Bool × String :=
  if strlen name = 1 then
    match map_find (name.data.headD (Char.ofNat 0)) c.shortname_2_arg_ with
    | none =>
      (.error (exit_or_throw (error_msg ++ (c.command_name_ ++ ": Can not find -" ++ name ++
          " option."))).1,
        (exit_or_throw (error_msg ++ (c.command_name_ ++ ": Can not find -" ++ name ++
          " option."))).2)
    | some p => (.ok (c.arg_at p).is_hit_, error_msg)
  else
    match map_find name c.longname_2_arg_ with
    | none =>
      (.error (exit_or_throw (error_msg ++ (c.command_name_ ++ ": Can not find --" ++ name ++
          " option."))).1,
        (exit_or_throw (error_msg ++ (c.command_name_ ++ ": Can not find --" ++ name ++
          " option."))).2)
    | some p => (.ok (c.arg_at p).is_hit_, error_msg)

/-- `std::count_if(group.begin(), group.end(), ...)` with the predicate `member_hit_buf`. -/
def group_count_buf (c : Command) : List String → String → Except Exn Nat × String
  | [], error_msg => (.ok 0, error_msg)
  | name :: rest, error_msg =>
    match c.member_hit_buf name error_msg with
    | (.error e, buf) => (.error e, buf)
    | (.ok b, buf) =>
      match group_count_buf c rest buf with
      | (.error e, buf2) => (.error e, buf2)
      | (.ok n, buf2) => (.ok (if b then n + 1 else n), buf2)

/-- The failure of a violated group, with the buffer; the message is built around
`get_description`. -/
def group_failure_buf (c : Command) (group : List String) (before after : String)
    (error_msg : String) : Out Command :=
  match get_description group with
  | none => Out.throw c Exn.undefined_behaviour error_msg
  | some d => Out.fail c error_msg (c.command_name_ ++ before ++ d ++ after)

/-- The loop of `check_related_groups` over the remaining groups, with the buffer. -/
def related_scan_buf (c : Command) : List (List String) → String → Out Command
  | [], error_msg => Out.ok c error_msg
  | group :: groups, error_msg =>
    match c.group_count_buf group error_msg with
    | (.error e, buf) => Out.throw c e buf
    | (.ok count, buf) =>
      if count ≠ 0 ∧ count ≠ group.length then
        c.group_failure_buf group ": The related relationship is not satisfied. "
          ": is related with each other." buf
      else related_scan_buf c groups buf

/-- Translation of `Command::check_related_groups`, with the buffer. -/
def check_related_groups_buf (c : Command) (error_msg : String) : Out Command :=
  c.related_scan_buf c.related_groups_ error_msg

/-- The loop of `check_conflict_groups` over the remaining groups, with the buffer. -/
def conflict_groups_scan_buf (c : Command) : List (List String) → String → Out Command
  | [], error_msg => Out.ok c error_msg
  | group :: groups, error_msg =>
    match c.group_count_buf group error_msg with
    | (.error e, buf) => Out.throw c e buf
    | (.ok count, buf) =>
      if count > 1 then
        c.group_failure_buf group ": The conflict relationship is not satisfied. "
          ": is conflict with each other." buf
      else conflict_groups_scan_buf c groups buf

/-- Translation of `Command::check_conflict_groups`, with the buffer. -/
def check_conflict_groups_buf (c : Command) (error_msg : String) : Out Command :=
  c.conflict_groups_scan_buf c.conflict_groups_ error_msg

/-- The loop of `check_one_required_group` over the remaining groups, with the buffer. -/
def one_required_scan_buf (c : Command) : List (List String) → String → Out Command
  | [], error_msg => Out.ok c error_msg
  | group :: groups, error_msg =>
    match c.group_count_buf group error_msg with
    | (.error e, buf) => Out.throw c e buf
    | (.ok count, buf) =>
      if count < 1 then
        c.group_failure_buf group ": The one of require relationship is not satisfied. "
          ": at least one option should exist." buf
      else one_required_scan_buf c groups buf

/-- Translation of `Command::check_one_required_group`, with the buffer. -/
def check_one_required_group_buf (c : Command) (error_msg : String) : Out Command :=
  c.one_required_scan_buf c.one_required_groups_ error_msg

/-- The `for` loop of `do_parse_args_internel` over the remaining tokens, with the buffer. -/
def capture_buf (L : Libc) (c : Command) (i : Nat) : List String → String → Out Command
  | [], error_msg => Out.ok c error_msg
  | tok :: toks, error_msg =>
    match (c.push_position tok).position_args_[i]? with
    | some p =>
      let r := ((c.push_position tok).arg_at p).set_value_buf L tok error_msg
      (Out.mk ((c.push_position tok).set_arg p r.state) r.thrown r.error_msg).bind
        (fun c2 buf => capture_buf L c2 (i + 1) toks buf)
    | none => capture_buf L (c.push_position tok) (i + 1) toks error_msg

/-- The part of `do_parse_args_internel` after `check_required_args`, with the buffer. -/
def capture_positions_buf (L : Libc) (c : Command) (argc : Int) (run : GetoptRun)
    (error_msg : String) : Out Command :=
  if argc - run.optind < 0 then Out.throw c Exn.undefined_behaviour error_msg
  else if (argc - run.optind).toNat < c.position_args_.length then
    Out.fail c error_msg (c.command_name_ ++ ": Missing required position arguments.")
  else
    c.capture_buf L 0 ((run.argv.drop run.optind.toNat).take (argc - run.optind).toNat) error_msg

/-- Translation of `Command::do_parse_args_internel`, with the buffer. -/
def do_parse_args_internel_buf (L : Libc) (c : Command) (argv : List String)
    (error_msg : String) : Out Command :=
  let run := L.getopt_long_only argv c.c_short_opts_ c.c_long_opts_
  ((c.scan_events_buf L run.events error_msg).bind check_required_args_buf).bind
    (fun c1 buf => c1.capture_positions_buf L argv.length run buf)

/-- The statements the two branches of `do_parse_args` have in common, with the buffer. -/
def parse_own_level_buf (L : Libc) (c : Command) (argv : List String) (error_msg : String) :
    Out Command :=
  let c1 := c.add_help_arg L
  let c2 : Command := { c1 with c_long_opts_ := c1.c_long_opts_ ++ [{ name := none, has_arg := 0, val := 0 }] }
  ((((c2.do_parse_args_internel_buf L argv error_msg).bind
    check_conflict_with_all_args_buf).bind check_related_groups_buf).bind
    check_conflict_groups_buf).bind check_one_required_group_buf

mutual
/-- Translation of `Command::do_parse_args`, with the buffer. -/
def do_parse_args_buf (L : Libc) : Command → List String → String → Out Command
  | ⟨members, subs, current⟩, argv, error_msg =>
    if subs.isEmpty then
      parse_own_level_buf L ⟨members, subs, current⟩ argv error_msg
    else
      let idx := subcommand_index subs argv
      let r := parse_own_level_buf L ⟨members, subs, current⟩ (argv.take idx) error_msg
      match r.thrown with
      | some _ => r
      | none =>
        match argv[idx]? with
        | none => Out.fail r.state r.error_msg (r.state.command_name_ ++ ": Missing subcommand.")
        | some name =>
          let r2 := dispatch_buf L subs name (argv.drop idx) r.error_msg
          ⟨{ r.state with
              current_subcommand_name_ := some name
              subcommandname_2_subcommand_ := r2.state }, r2.thrown, r2.error_msg⟩
/-- The call `subcommandname_2_subcommand_.at(argv[idx])->do_parse_args(argc - idx, argv + idx)`,
with the buffer. -/
def dispatch_buf (L : Libc) : List (String × Command) → String → List String → String →
    Out (List (String × Command))
  | [], _, _, error_msg => Out.throw [] Exn.out_of_range error_msg
  | (k, child) :: rest, name, argv, error_msg =>
    if k = name then
      let r := do_parse_args_buf L child argv error_msg
      ⟨(k, r.state) :: rest, r.thrown, r.error_msg⟩
    else
      let r := dispatch_buf L rest name argv error_msg
      ⟨(k, child) :: r.state, r.thrown, r.error_msg⟩
end

/-- Translation of `Command::parse_args` (both overloads), with the buffer:
`reset_arg_status`, which empties the buffer, then `do_parse_args`. -/
def parse_args_buf (L : Libc) (c : Command) (args : List String) (error_msg : String) :
    Out Command :=
  do_parse_args_buf L (c.reset_arg_status_buffer error_msg).1 args
    (c.reset_arg_status_buffer error_msg).2

/-- Translation of `Command::get_one_value<T>(const char *)`, with the buffer: the value or the
exception, and the buffer as the call leaves it. -/
def get_one_value_buf {T : Type} (conv : String → Except Exn T) (c : Command)
    (long_name : String) (error_msg : String) : Except Exn T × String :=
  match map_find long_name c.longname_2_arg_ with
  | none =>
    (.error (exit_or_throw (error_msg ++ ("Can not find --" ++ long_name ++ " option."))).1,
      (exit_or_throw (error_msg ++ ("Can not find --" ++ long_name ++ " option."))).2)
  | some p =>
    match (c.arg_at p).values_ with
    | [] =>
      (.error (exit_or_throw
          (error_msg ++ ("Option --" ++ long_name ++ " does not have a value."))).1,
        (exit_or_throw (error_msg ++ ("Option --" ++ long_name ++ " does not have a value."))).2)
    | v :: _ => (conv v, error_msg)

/-- Translation of `Command::get_one_value<T>(char)`, with the buffer. -/
def get_one_value_short_buf {T : Type} (conv : String → Except Exn T) (c : Command)
    (short_name : Char) (error_msg : String) : Except Exn T × String :=
  match map_find short_name c.shortname_2_arg_ with
  | none =>
    (.error (exit_or_throw
        (error_msg ++ ("Can not find -" ++ String.singleton short_name ++ " option."))).1,
      (exit_or_throw
        (error_msg ++ ("Can not find -" ++ String.singleton short_name ++ " option."))).2)
  | some p =>
    match (c.arg_at p).values_ with
    | [] =>
      (.error (exit_or_throw (error_msg ++
          ("Option -" ++ String.singleton short_name ++ " does not have a value."))).1,
        (exit_or_throw (error_msg ++
          ("Option -" ++ String.singleton short_name ++ " does not have a value."))).2)
    | v :: _ => (conv v, error_msg)

/-- Translation of `Command::get_many_values<T>(const char *)`, with the buffer. -/
def get_many_values_buf {T : Type} (conv : String → Except Exn T) (c : Command)
    (long_name : String) (error_msg : String) : Except Exn (List T) × String :=
  match map_find long_name c.longname_2_arg_ with
  | none =>
    (.error (exit_or_throw (error_msg ++ ("Can not find --" ++ long_name ++ " option."))).1,
      (exit_or_throw (error_msg ++ ("Can not find --" ++ long_name ++ " option."))).2)
  | some p => (transform conv (c.arg_at p).values_, error_msg)

/-- Translation of `Command::get_many_values<T>(char)`, with the buffer. -/
def get_many_values_short_buf {T : Type} (conv : String → Except Exn T) (c : Command)
    (short_name : Char) (error_msg : String) : Except Exn (List T) × String :=
  match map_find short_name c.shortname_2_arg_ with
  | none =>
    (.error (exit_or_throw
        (error_msg ++ ("Can not find -" ++ String.singleton short_name ++ " option."))).1,
      (exit_or_throw
        (error_msg ++ ("Can not find -" ++ String.singleton short_name ++ " option."))).2)
  | some p => (transform conv (c.arg_at p).values_, error_msg)

/-- Translation of `Command::get_one_position_value<T>`, with the buffer. -/
def get_one_position_value_buf {T : Type} (conv : String → Except Exn T) (c : Command)
    (position : Nat) (error_msg : String) : Except Exn T × String :=
  match c.position_values_[position]? with
  | none =>
    (.error (exit_or_throw (error_msg ++ "No corresponding position argument.")).1,
      (exit_or_throw (error_msg ++ "No corresponding position argument.")).2)
  | some v => (conv v, error_msg)

end Command

/-- What a call of the library does on a buffer that holds `buf`, given what it does on the
empty buffer: a `ParseArgsError`, which `exit_or_throw` makes from the content of the buffer,
carries `buf` in front of its text and leaves the buffer empty; every other outcome leaves the
buffer as it is. -/
def Out.of {σ : Type} (buf : String) (r : Res σ) : Out σ :=
  match r.thrown with
  | some (Exn.ParseArgsError msg) => ⟨r.state, some (Exn.ParseArgsError (buf ++ msg)), ""⟩
  | t => ⟨r.state, t, buf⟩

/-- The same for a `const` member function. -/
def Out.of_except {T : Type} (buf : String) (r : Except Exn T) : Except Exn T × String :=
  match r with
  | .error (Exn.ParseArgsError msg) => (.error (Exn.ParseArgsError (buf ++ msg)), "")
  | r => (r, buf)

/-- The exception is not a `ParseArgsError`: it does not come from `exit_or_throw`. -/
def Exn.foreign (e : Exn) : Prop := ∀ msg, e ≠ Exn.ParseArgsError msg

/-- The conversion throws the exceptions of the standard library only, never the
`ParseArgsError` of this library. -/
def internel.standard {T : Type} (conv : String → Except Exn T) : Prop :=
  ∀ (s : String) (e : Exn), conv s = .error e → e.foreign

/-- The contents the global buffer can have between two calls of the library: it is empty when
the program starts (`std::stringstream error_msg;`), and a call of a member function that
writes to it, on any object and with any arguments, leaves it as the translation of the
function says. -/
inductive internel.BetweenCalls (L : Libc) : String → Prop
  | start : internel.BetweenCalls L ""
  | long_name (buf : String) (a : Arg) (name : String) :
      internel.BetweenCalls L buf → internel.BetweenCalls L (a.long_name_buf name buf).error_msg
  | short_name (buf : String) (a : Arg) (name : Char) :
      internel.BetweenCalls L buf → internel.BetweenCalls L (a.short_name_buf name buf).error_msg
  | conflicts_with_all (buf : String) (a : Arg) :
      internel.BetweenCalls L buf → internel.BetweenCalls L (a.conflicts_with_all_buf buf).error_msg
  | default_value (buf : String) (a : Arg) (value : String) :
      internel.BetweenCalls L buf →
      internel.BetweenCalls L (a.default_value_buf L value buf).error_msg
  | default_values (buf : String) (a : Arg) (values : List String) :
      internel.BetweenCalls L buf →
      internel.BetweenCalls L (a.default_values_buf L values buf).error_msg
  | range (buf : String) (a : Arg) (type : NumType) (left right : String) (il ir : Bool) :
      internel.BetweenCalls L buf →
      internel.BetweenCalls L (a.range_buf type left right il ir buf).error_msg
  | choices (buf : String) (a : Arg) (values : List String) :
      internel.BetweenCalls L buf → internel.BetweenCalls L (a.choices_buf values buf).error_msg
  | arg (buf : String) (c : Command) (a : Arg) :
      internel.BetweenCalls L buf → internel.BetweenCalls L (c.arg_buf L a buf).error_msg
  | parse_args (buf : String) (c : Command) (args : List String) :
      internel.BetweenCalls L buf → internel.BetweenCalls L (c.parse_args_buf L args buf).error_msg
  | get_one_value (buf : String) (T : Type) (conv : String → Except Exn T) (c : Command)
      (name : String) :
      internel.BetweenCalls L buf → internel.BetweenCalls L (c.get_one_value_buf conv name buf).2
  | get_one_value_short (buf : String) (T : Type) (conv : String → Except Exn T) (c : Command)
      (name : Char) :
      internel.BetweenCalls L buf →
      internel.BetweenCalls L (c.get_one_value_short_buf conv name buf).2
  | get_many_values (buf : String) (T : Type) (conv : String → Except Exn T) (c : Command)
      (name : String) :
      internel.BetweenCalls L buf → internel.BetweenCalls L (c.get_many_values_buf conv name buf).2
  | get_many_values_short (buf : String) (T : Type) (conv : String → Except Exn T)
      (c : Command) (name : Char) :
      internel.BetweenCalls L buf →
      internel.BetweenCalls L (c.get_many_values_short_buf conv name buf).2
  | get_one_position_value (buf : String) (T : Type) (conv : String → Except Exn T)
      (c : Command) (position : Nat) :
      internel.BetweenCalls L buf →
      internel.BetweenCalls L (c.get_one_position_value_buf conv position buf).2

/-! ## Example commands -/

/-- A `Libc` whose scanner answers from a table of token lists and reports no option for any
other token list; the floating-point conversions always fail. -/
def Libc.of_table (table : List (List String × GetoptRun)) : Libc :=
  { getopt_long_only := fun argv _ _ =>
      match table.find? (fun e => e.1 = argv) with
      | some e => e.2
      | none => ⟨[], 1, argv⟩
    stod := fun _ => .error Exn.invalid_argument
    stof := fun _ => .error Exn.invalid_argument }

/-- The scanner results used by the examples, as `getopt_long_only` gives them for these token
lists and the option tables of the example commands. -/
def example_libc : Libc := Libc.of_table
  [(["my_command", "--aa", "1"], ⟨[(-2, some "1")], 3, ["my_command", "--aa", "1"]⟩),
   (["my_command", "--aa", "2"], ⟨[(-2, some "2")], 3, ["my_command", "--aa", "2"]⟩),
   (["my_command", "--aa", "1", "x"], ⟨[(-2, some "1")], 3, ["my_command", "--aa", "1", "x"]⟩),
   (["my_command", "--bb", "2", "y"], ⟨[(-3, some "2")], 3, ["my_command", "--bb", "2", "y"]⟩),
   (["my_command", "--rangearg", "2147483647"],
      ⟨[(-2, some "2147483647")], 3, ["my_command", "--rangearg", "2147483647"]⟩),
   (["my_command", "--rangearg", "2147483648"],
      ⟨[(-2, some "2147483648")], 3, ["my_command", "--rangearg", "2147483648"]⟩),
   (["my_command", "--aa", "1", "-c", "3"],
      ⟨[(-2, some "1"), (99, some "3")], 5, ["my_command", "--aa", "1", "-c", "3"]⟩),
   (["my_command", "--choarg", "1"], ⟨[(-2, some "1")], 3, ["my_command", "--choarg", "1"]⟩),
   (["my_command", "--choarg", "2"], ⟨[(-2, some "2")], 3, ["my_command", "--choarg", "2"]⟩),
   (["my_command", "--choarg", "3"], ⟨[(-2, some "3")], 3, ["my_command", "--choarg", "3"]⟩),
   (["my_command", "--choarg", "4"], ⟨[(-2, some "4")], 3, ["my_command", "--choarg", "4"]⟩),
   (["my_command", "--choarg", "01"], ⟨[(-2, some "01")], 3, ["my_command", "--choarg", "01"]⟩),
   (["my_command", "--rangearg", "5"], ⟨[(-2, some "5")], 3, ["my_command", "--rangearg", "5"]⟩),
   (["my_command", "--rangearg", "8"], ⟨[(-2, some "8")], 3, ["my_command", "--rangearg", "8"]⟩),
   (["my_command", "--rangearg", "10"],
      ⟨[(-2, some "10")], 3, ["my_command", "--rangearg", "10"]⟩),
   (["my_command", "--rangearg", "4"], ⟨[(-2, some "4")], 3, ["my_command", "--rangearg", "4"]⟩),
   (["my_command", "--rangearg", "11"],
      ⟨[(-2, some "11")], 3, ["my_command", "--rangearg", "11"]⟩),
   (["my_command", "--reqarg", "1"], ⟨[(-2, some "1")], 3, ["my_command", "--reqarg", "1"]⟩),
   (["my_command", "--flag_arg"], ⟨[(-2, none)], 2, ["my_command", "--flag_arg"]⟩),
   (["my_command", "--aa"], ⟨[(-2, none)], 2, ["my_command", "--aa"]⟩),
   (["my_command", "--aa", "--bb"], ⟨[(-2, none), (-3, none)], 3, ["my_command", "--aa", "--bb"]⟩),
   (["my_command", "--aa", "--bb", "--cc"],
      ⟨[(-2, none), (-3, none), (-4, none)], 4, ["my_command", "--aa", "--bb", "--cc"]⟩),
   (["my_command", "--bb", "--cc"],
      ⟨[(-3, none), (-4, none)], 3, ["my_command", "--bb", "--cc"]⟩),
   (["my_command", "--optional_arg", "1", "--optional_arg", "2", "--optional_arg", "3"],
      ⟨[(-2, some "1"), (-2, some "2"), (-2, some "3")], 7,
        ["my_command", "--optional_arg", "1", "--optional_arg", "2", "--optional_arg", "3"]⟩)]

/-- The command of the group tests: Optional arguments `--aa`, `--bb` and `-c`. -/
def three_optional : Command :=
  (Command.arg example_libc
    (Command.arg example_libc
      (Command.arg example_libc (Command.new_command "my_command")
        ((Arg.new_arg ArgType.OPTIONAL).long_name "aa").state).state
      ((Arg.new_arg ArgType.OPTIONAL).long_name "bb").state).state
    ((Arg.new_arg ArgType.OPTIONAL).short_name 'c').state).state

/-- Three Optional arguments in a related group, after a parse that supplied one of them. -/
def related_example : Command :=
  ((three_optional.related_group ["aa", "bb", "c"]).parse_args example_libc
    ["my_command", "--aa", "1"]).state

/-- Three Optional arguments in a conflict group, after a parse that supplied two of them. -/
def conflict_group_example : Command :=
  ((three_optional.conflict_group ["aa", "bb", "c"]).parse_args example_libc
    ["my_command", "--aa", "1", "-c", "3"]).state

/-- Three Optional arguments in a one-required group, after a parse that supplied none. -/
def one_required_example : Command :=
  ((three_optional.one_required_group ["aa", "bb", "c"]).parse_args example_libc
    ["my_command"]).state

/-- The command of `test_choices_required_long_name_arg`: a Required `--choarg` with the
choices 1, 2, 3. -/
def choice_command : Command :=
  (Command.arg example_libc (Command.new_command "my_command")
    (((Arg.new_arg ArgType.REQUIRED).long_name "choarg").state.choices ["1", "2", "3"]).state).state

/-- The command of `test_choices_position_arg`: one Positional argument with the choices
1, 2, 3. -/
def choice_position_command : Command :=
  (Command.arg example_libc (Command.new_command "my_command")
    ((Arg.new_arg ArgType.POSITION).choices ["1", "2", "3"]).state).state

/-- The command of `test_range_required_long_name_arg`: a Required `--rangearg` with the
inclusive integer range 5 to 10. -/
def range_command : Command :=
  (Command.arg example_libc (Command.new_command "my_command")
    (((Arg.new_arg ArgType.REQUIRED).long_name "rangearg").state.range NumType.INT "5" "10"
      true true).state).state

/-- The command of `test_range_position_arg`: one Positional argument with the inclusive
integer range 5 to 10. -/
def range_position_command : Command :=
  (Command.arg example_libc (Command.new_command "my_command")
    ((Arg.new_arg ArgType.POSITION).range NumType.INT "5" "10" true true).state).state

/-- A `Libc` whose `stod` reads "5", "10" and "nan" as `strtod` does, with the scanner result
for `my_command --limit nan`. -/
def nan_libc : Libc :=
  { getopt_long_only := fun argv _ _ =>
      if argv = ["my_command", "--limit", "nan"] then ⟨[(-2, some "nan")], 3, argv⟩
      else ⟨[], 1, argv⟩
    stod := fun s =>
      if s = "nan" then .ok Double.nan
      else if s = "5" then .ok (Double.finite 5)
      else if s = "10" then .ok (Double.finite 10)
      else .error Exn.invalid_argument
    stof := fun _ => .error Exn.invalid_argument }

/-- A Required `--limit` with the inclusive floating-point range 5 to 10. -/
def double_range_command : Command :=
  (Command.arg nan_libc (Command.new_command "my_command")
    (((Arg.new_arg ArgType.REQUIRED).long_name "limit").state.range NumType.DOUBlE "5" "10"
      true true).state).state

/-- The command of `test_required_long_name_arg`: a Required `--reqarg`. -/
def required_command : Command :=
  (Command.arg example_libc (Command.new_command "my_command")
    ((Arg.new_arg ArgType.REQUIRED).long_name "reqarg").state).state

/-- The same command after a first parse that supplied `--reqarg 1`. -/
def required_command_parsed : Command :=
  (required_command.parse_args example_libc ["my_command", "--reqarg", "1"]).state

/-- The command of `test_optional_long_name_arg_with_default_values`: an Optional
`--optional_arg` with the defaults 100, 200, 300. -/
def default_values_command : Command :=
  (Command.arg example_libc (Command.new_command "my_command")
    (((Arg.new_arg ArgType.OPTIONAL).long_name "optional_arg").state.default_values example_libc
      ["100", "200", "300"]).state).state

/-- The same command after a first parse that supplied the option three times. -/
def default_values_command_parsed : Command :=
  (default_values_command.parse_args example_libc
    ["my_command", "--optional_arg", "1", "--optional_arg", "2", "--optional_arg", "3"]).state

/-- The command of `test_flag_long_name_arg`: a Flag `--flag_arg`. -/
def flag_command : Command :=
  (Command.arg example_libc (Command.new_command "my_command")
    ((Arg.new_arg ArgType.FLAG).long_name "flag_arg").state).state

/-- The command of `test_long_name_conflicts_with_all_flag_arg`: the flags `--aa` (marked
`conflicts_with_all`), `--bb` and `--cc`. -/
def conflict_flags_command : Command :=
  (Command.arg example_libc
    (Command.arg example_libc
      (Command.arg example_libc (Command.new_command "my_command")
        ((Arg.new_arg ArgType.FLAG).long_name "aa").state.conflicts_with_all.state).state
      ((Arg.new_arg ArgType.FLAG).long_name "bb").state).state
    ((Arg.new_arg ArgType.FLAG).long_name "cc").state).state

/-- A flag `-a` marked `conflicts_with_all` and one Positional argument. `Command::arg` files
the Positional argument under the blank short name and adds the blank, with a colon, to the
short-option string, which becomes "a :h". -/
def blank_command : Command :=
  (Command.arg example_libc
    (Command.arg example_libc (Command.new_command "my_command")
      ((Arg.new_arg ArgType.FLAG).short_name 'a').state.conflicts_with_all.state).state
    (Arg.new_arg ArgType.POSITION)).state

/-- The scanner on `my_command -a "- " v p` with the short options "a :h": `-a` is the flag,
the token made of a dash and a blank is the short option blank, which takes `v` as its value,
and `p` is left as a positional token. -/
def blank_libc : Libc := Libc.of_table
  [(["my_command", "-a", "- ", "v", "p"],
      ⟨[(97, none), (32, some "v")], 4, ["my_command", "-a", "- ", "v", "p"]⟩)]

/-- Two Required arguments, `--aa` and `--bb`. -/
def two_required_command : Command :=
  (Command.arg example_libc
    (Command.arg example_libc (Command.new_command "my_command")
      ((Arg.new_arg ArgType.REQUIRED).long_name "aa").state).state
    ((Arg.new_arg ArgType.REQUIRED).long_name "bb").state).state

/-- The scanner results for the token lists of `test_subcommand`, level by level; for the
unknown option `--nosuch` the scanner returns `'?'`. -/
def subcommand_libc : Libc := Libc.of_table
  [(["my_command", "--detail"], ⟨[(-2, none)], 2, ["my_command", "--detail"]⟩),
   (["my_command", "--nosuch"], ⟨[(63, none)], 2, ["my_command", "--nosuch"]⟩),
   (["mydirfind", "--dirpath", "xx1", "--pattern", "yy2"],
      ⟨[(-2, some "xx1"), (-3, some "yy2")], 5,
        ["mydirfind", "--dirpath", "xx1", "--pattern", "yy2"]⟩),
   (["mygrep", "--dirpath", "uu1", "--pattern", "vv2"],
      ⟨[(-2, some "uu1"), (-3, some "vv2")], 5,
        ["mygrep", "--dirpath", "uu1", "--pattern", "vv2"]⟩)]

/-- The leaf `mydirfind` of `test_subcommand`: Required `--dirpath` and `--pattern`. -/
def mydirfind_command : Command :=
  (Command.arg subcommand_libc
    (Command.arg subcommand_libc (Command.new_command "mydirfind")
      ((Arg.new_arg ArgType.REQUIRED).long_name "dirpath").state).state
    ((Arg.new_arg ArgType.REQUIRED).long_name "pattern").state).state

/-- The leaf `myfilefind` of `test_subcommand`: Required `--filepath` and `--pattern`. -/
def myfilefind_command : Command :=
  (Command.arg subcommand_libc
    (Command.arg subcommand_libc (Command.new_command "myfilefind")
      ((Arg.new_arg ArgType.REQUIRED).long_name "filepath").state).state
    ((Arg.new_arg ArgType.REQUIRED).long_name "pattern").state).state

/-- The sub-command `myfind` of `test_subcommand`, with its two leaves. -/
def myfind_command : Command :=
  ((Command.new_command "myfind").subcommand mydirfind_command).subcommand myfilefind_command

/-- The leaf `mygrep` of `test_subcommand`: Optional `--dirpath` and `--pattern`. -/
def mygrep_command : Command :=
  (Command.arg subcommand_libc
    (Command.arg subcommand_libc (Command.new_command "mygrep")
      ((Arg.new_arg ArgType.OPTIONAL).long_name "dirpath").state).state
    ((Arg.new_arg ArgType.OPTIONAL).long_name "pattern").state).state

/-- The command tree of `test_subcommand`. -/
def subcommand_tree : Command :=
  (((Command.arg subcommand_libc
    (Command.arg subcommand_libc (Command.new_command "my_command")
      ((Arg.new_arg ArgType.FLAG).long_name "detail").state).state
    ((Arg.new_arg ArgType.OPTIONAL).long_name "debug").state).state.subcommand
      myfind_command).subcommand mygrep_command)

/-- The command of `test_position_arg`: three Positional arguments. -/
def position_command : Command :=
  (Command.arg example_libc
    (Command.arg example_libc
      (Command.arg example_libc (Command.new_command "my_command")
        (Arg.new_arg ArgType.POSITION)).state
      (Arg.new_arg ArgType.POSITION)).state
    (Arg.new_arg ArgType.POSITION)).state

/-- The command of `test_very_big_range_value`: a Required `--rangearg` with the inclusive
integer range from 5 to `NumLimit::INT32_MAX_S`. -/
def big_range_command : Command :=
  (Command.arg example_libc (Command.new_command "my_command")
    (((Arg.new_arg ArgType.REQUIRED).long_name "rangearg").state.range NumType.INT "5"
      "2147483647" true true).state).state

/-- An Optional argument configured by `range(INT, "1", "9")`, which returns, `choices({"1",
"2"})`, which throws, `default_value("5")` and `conflicts_with_all()`, which return. -/
def mixed_calls_arg : Arg :=
  (((((Arg.new_arg ArgType.OPTIONAL).range NumType.INT "1" "9" true true).state.choices
    ["1", "2"]).state.default_value example_libc "5").state.conflicts_with_all).state


/-- The command `Command::new_command("my_command")->arg(Arg::new_arg(ArgType::OPTIONAL)
->long_name("aa")->short_name('a')->default_value("abc"))`. -/
def text_default_command : Command :=
  ((Command.new_command "my_command").arg example_libc
    ((((Arg.new_arg ArgType.OPTIONAL).long_name "aa").state.short_name 'a').state.default_value
      example_libc "abc").state).state


/-- The argument `Arg::new_arg(ArgType::OPTIONAL)->long_name("limit")->range(NumType::INT, "1",
"9")`. -/
def ranged_optional_arg : Arg :=
  (((Arg.new_arg ArgType.OPTIONAL).long_name "limit").state.range NumType.INT "1" "9" true
    true).state


/-- The scanner results for the token lists of the validation-order example, as
`getopt_long_only` gives them for the option table of `order_command`. -/
def order_libc : Libc := Libc.of_table
  [(["my_command", "--aa", "--bb", "--cc"],
      ⟨[(-2, none), (-3, none), (-4, none)], 4, ["my_command", "--aa", "--bb", "--cc"]⟩),
   (["my_command", "--aa", "--bb", "--cc", "--req", "1"],
      ⟨[(-2, none), (-3, none), (-4, none), (-5, some "1")], 6,
        ["my_command", "--aa", "--bb", "--cc", "--req", "1"]⟩),
   (["my_command", "--aa", "--bb", "--cc", "--req", "1", "p"],
      ⟨[(-2, none), (-3, none), (-4, none), (-5, some "1")], 6,
        ["my_command", "--aa", "--bb", "--cc", "--req", "1", "p"]⟩),
   (["my_command", "--bb", "--cc", "--req", "1", "p"],
      ⟨[(-3, none), (-4, none), (-5, some "1")], 5,
        ["my_command", "--bb", "--cc", "--req", "1", "p"]⟩),
   (["my_command", "--bb", "--cc", "--ee", "--req", "1", "p"],
      ⟨[(-3, none), (-4, none), (-7, none), (-5, some "1")], 6,
        ["my_command", "--bb", "--cc", "--ee", "--req", "1", "p"]⟩),
   (["my_command", "--req", "1", "p"],
      ⟨[(-5, some "1")], 3, ["my_command", "--req", "1", "p"]⟩),
   (["my_command", "--cc", "--req", "1", "p"],
      ⟨[(-4, none), (-5, some "1")], 4, ["my_command", "--cc", "--req", "1", "p"]⟩),
   (["my_command", "--bb", "--help", "--cc"],
      ⟨[(-3, none), (104, none), (-4, none)], 4, ["my_command", "--bb", "--help", "--cc"]⟩),
   (["my_command", "-h"], ⟨[(104, none)], 2, ["my_command", "-h"]⟩),
   (["my_command", "--bb", "--cc"],
      ⟨[(-3, none), (-4, none)], 3, ["my_command", "--bb", "--cc"]⟩)]

/-- A command on which every validator can fail: the flags `--aa` (marked
`conflicts_with_all`), `--bb`, `--cc`, the Required `--req`, one Positional argument, the flag
`--ee`, the related group `bb`, `ee`, the conflict group `bb`, `cc` and the one-required group
`aa`, `cc`. -/
def order_command : Command :=
  ((((((((((Command.new_command "my_command").arg order_libc
    (((Arg.new_arg ArgType.FLAG).long_name "aa").state.conflicts_with_all).state).state.arg
    order_libc ((Arg.new_arg ArgType.FLAG).long_name "bb").state).state.arg
    order_libc ((Arg.new_arg ArgType.FLAG).long_name "cc").state).state.arg
    order_libc ((Arg.new_arg ArgType.REQUIRED).long_name "req").state).state.arg
    order_libc (Arg.new_arg ArgType.POSITION)).state.arg
    order_libc ((Arg.new_arg ArgType.FLAG).long_name "ee").state).state.related_group
    ["bb", "ee"]).conflict_group ["bb", "cc"]).one_required_group ["aa", "cc"])

/-- The command of the group tests with the conflict group `aa`, `x`, whose second name is
the short name of no argument. -/
def unresolved_group_command : Command := three_optional.conflict_group ["aa", "x"]

/-- The command of the group tests with the related group `help`, `h`: the names of the help
argument, which every parse adds. -/
def help_group_command : Command := three_optional.related_group ["help", "h"]


/-- The command with the Optional `--aa` and the Optional `-c`, which has no long name and
takes its value from the choices 1, 2. -/
def short_choice_command : Command :=
  (((Command.new_command "my_command").arg example_libc
    ((Arg.new_arg ArgType.OPTIONAL).long_name "aa").state).state.arg example_libc
    (((Arg.new_arg ArgType.OPTIONAL).short_name 'c').state.choices ["1", "2"]).state).state

/-- The command with the Optional `--aa` and the Optional `-c`, which has no long name and
the integer range from 5 (exclusive) to 10 (inclusive). -/
def short_range_command : Command :=
  (((Command.new_command "my_command").arg example_libc
    ((Arg.new_arg ArgType.OPTIONAL).long_name "aa").state).state.arg example_libc
    (((Arg.new_arg ArgType.OPTIONAL).short_name 'c').state.range NumType.INT "5" "10" false
      true).state).state


/-- Scanner results for commands whose arguments carry short names the scan loop does not
route to them. `-? 1` is returned as the option character `'?'` (63) with the value; `-: 1` is
an error of the scanner, which returns `'?'`; `--hi` carries the `val` -23 of the byte 0xE9;
`--nul` carries the `val` 0 of the NUL character; `--first` carries the `val` 97 of `a`. -/
def codes_libc : Libc := Libc.of_table
  [(["my_command", "-?", "1"], ⟨[(63, some "1")], 3, ["my_command", "-?", "1"]⟩),
   (["my_command", "-:", "1"], ⟨[(63, none)], 2, ["my_command", "-:", "1"]⟩),
   (["my_command", "--hi", "1"], ⟨[(-23, some "1")], 3, ["my_command", "--hi", "1"]⟩),
   (["my_command", "--nul", "1"], ⟨[(0, some "1")], 3, ["my_command", "--nul", "1"]⟩),
   (["my_command", "--first", "1"], ⟨[(97, some "1")], 3, ["my_command", "--first", "1"]⟩)]

/-- An Optional argument with the short name `?`. -/
def question_command : Command :=
  (Command.arg codes_libc (Command.new_command "my_command")
    ((Arg.new_arg ArgType.OPTIONAL).short_name '?').state).state

/-- An Optional argument with the short name `:`. -/
def colon_command : Command :=
  (Command.arg codes_libc (Command.new_command "my_command")
    ((Arg.new_arg ArgType.OPTIONAL).short_name ':').state).state

/-- An Optional argument `--hi` whose short name is the byte 0xE9. -/
def high_byte_command : Command :=
  (Command.arg codes_libc (Command.new_command "my_command")
    (((Arg.new_arg ArgType.OPTIONAL).long_name "hi").state.short_name (Char.ofNat 233)).state).state

/-- An Optional argument `--nul` whose short name is the NUL character. -/
def nul_command : Command :=
  (Command.arg codes_libc (Command.new_command "my_command")
    (((Arg.new_arg ArgType.OPTIONAL).long_name "nul").state.short_name (Char.ofNat 0)).state).state

/-- Two Optional arguments, `--first` and `--second`, both declared with the short name `a`. -/
def displaced_command : Command :=
  (Command.arg codes_libc
    (Command.arg codes_libc (Command.new_command "my_command")
      (((Arg.new_arg ArgType.OPTIONAL).long_name "first").state.short_name 'a').state).state
    (((Arg.new_arg ArgType.OPTIONAL).long_name "second").state.short_name 'a').state).state

/-- An Optional `--aa`, a Positional argument, and the related group of `--aa` alone. -/
def single_positional_command : Command :=
  ((Command.arg example_libc
    (Command.arg example_libc (Command.new_command "my_command")
      ((Arg.new_arg ArgType.OPTIONAL).long_name "aa").state).state
    (Arg.new_arg ArgType.POSITION)).state).related_group ["aa"]

/-- The scanner results for a parse of `--aa 1` followed by a parse in which `--aa` occurs
twice. -/
def reparse_libc : Libc := Libc.of_table
  [(["my_command", "--aa", "1"], ⟨[(-2, some "1")], 3, ["my_command", "--aa", "1"]⟩),
   (["my_command", "--aa", "2", "--aa", "3"],
      ⟨[(-2, some "2"), (-2, some "3")], 5, ["my_command", "--aa", "2", "--aa", "3"]⟩)]

/-! ## Lemmas -/

@[simp] theorem clear_default_arg_type (a : Arg) : a.clear_default.arg_type_ = a.arg_type_ := by
  unfold Arg.clear_default; split <;> rfl

@[simp] theorem clear_default_is_range (a : Arg) : a.clear_default.is_range_ = a.is_range_ := by
  unfold Arg.clear_default; split <;> rfl

@[simp] theorem clear_default_is_choice (a : Arg) : a.clear_default.is_choice_ = a.is_choice_ := by
  unfold Arg.clear_default; split <;> rfl

@[simp] theorem clear_default_choices (a : Arg) : a.clear_default.choices_ = a.choices_ := by
  unfold Arg.clear_default; split <;> rfl

@[simp] theorem clear_default_left (a : Arg) : a.clear_default.left_ = a.left_ := by
  unfold Arg.clear_default; split <;> rfl

@[simp] theorem clear_default_right (a : Arg) : a.clear_default.right_ = a.right_ := by
  unfold Arg.clear_default; split <;> rfl

@[simp] theorem clear_default_num_type (a : Arg) : a.clear_default.num_type_ = a.num_type_ := by
  unfold Arg.clear_default; split <;> rfl

@[simp] theorem clear_default_include_left (a : Arg) :
    a.clear_default.include_left_ = a.include_left_ := by
  unfold Arg.clear_default; split <;> rfl

@[simp] theorem clear_default_include_right (a : Arg) :
    a.clear_default.include_right_ = a.include_right_ := by
  unfold Arg.clear_default; split <;> rfl

@[simp] theorem clear_default_long_name (a : Arg) : a.clear_default.long_name_ = a.long_name_ := by
  unfold Arg.clear_default; split <;> rfl

@[simp] theorem clear_default_short_name (a : Arg) :
    a.clear_default.short_name_ = a.short_name_ := by
  unfold Arg.clear_default; split <;> rfl

@[simp] theorem clear_default_position_id (a : Arg) :
    a.clear_default.position_id_ = a.position_id_ := by
  unfold Arg.clear_default; split <;> rfl

@[simp] theorem clear_default_is_hit (a : Arg) : a.clear_default.is_hit_ = a.is_hit_ := by
  unfold Arg.clear_default; split <;> rfl

@[simp] theorem clear_default_arg_id (a : Arg) : a.clear_default.arg_id_ = a.arg_id_ := by
  unfold Arg.clear_default; split <;> rfl

@[simp] theorem clear_default_has_default (a : Arg) :
    a.clear_default.has_default_value_ = a.has_default_value_ := by
  unfold Arg.clear_default; split <;> rfl

@[simp] theorem clear_default_default_values (a : Arg) :
    a.clear_default.default_values_ = a.default_values_ := by
  unfold Arg.clear_default; split <;> rfl

@[simp] theorem clear_default_conflict (a : Arg) :
    a.clear_default.is_conflict_with_all_ = a.is_conflict_with_all_ := by
  unfold Arg.clear_default; split <;> rfl

theorem clear_default_values (a : Arg) :
    a.clear_default.values_ =
      if a.has_default_value_ = true ∧ a.is_default_value_cleared_ = false then []
      else a.values_ := by
  unfold Arg.clear_default
  cases a.has_default_value_ <;> cases a.is_default_value_cleared_ <;> simp

@[simp] theorem push_back_values (a : Arg) (v : String) :
    (a.push_back v).values_ = a.values_ ++ [v] := rfl

@[simp] theorem push_back_arg_type (a : Arg) (v : String) :
    (a.push_back v).arg_type_ = a.arg_type_ := rfl

@[simp] theorem push_back_is_range (a : Arg) (v : String) :
    (a.push_back v).is_range_ = a.is_range_ := rfl

@[simp] theorem push_back_is_choice (a : Arg) (v : String) :
    (a.push_back v).is_choice_ = a.is_choice_ := rfl

@[simp] theorem push_back_choices (a : Arg) (v : String) :
    (a.push_back v).choices_ = a.choices_ := rfl

@[simp] theorem push_back_left (a : Arg) (v : String) : (a.push_back v).left_ = a.left_ := rfl

@[simp] theorem push_back_right (a : Arg) (v : String) : (a.push_back v).right_ = a.right_ := rfl

@[simp] theorem push_back_num_type (a : Arg) (v : String) :
    (a.push_back v).num_type_ = a.num_type_ := rfl

@[simp] theorem push_back_include_left (a : Arg) (v : String) :
    (a.push_back v).include_left_ = a.include_left_ := rfl

@[simp] theorem push_back_include_right (a : Arg) (v : String) :
    (a.push_back v).include_right_ = a.include_right_ := rfl

@[simp] theorem push_back_long_name (a : Arg) (v : String) :
    (a.push_back v).long_name_ = a.long_name_ := rfl

@[simp] theorem push_back_short_name (a : Arg) (v : String) :
    (a.push_back v).short_name_ = a.short_name_ := rfl

@[simp] theorem push_back_position_id (a : Arg) (v : String) :
    (a.push_back v).position_id_ = a.position_id_ := rfl

@[simp] theorem push_back_is_hit (a : Arg) (v : String) :
    (a.push_back v).is_hit_ = a.is_hit_ := rfl

@[simp] theorem push_back_arg_id (a : Arg) (v : String) :
    (a.push_back v).arg_id_ = a.arg_id_ := rfl

@[simp] theorem push_back_has_default (a : Arg) (v : String) :
    (a.push_back v).has_default_value_ = a.has_default_value_ := rfl

@[simp] theorem push_back_default_values (a : Arg) (v : String) :
    (a.push_back v).default_values_ = a.default_values_ := rfl

@[simp] theorem push_back_conflict (a : Arg) (v : String) :
    (a.push_back v).is_conflict_with_all_ = a.is_conflict_with_all_ := rfl

theorem check_range_congr {T : Type} [LT T] [LE T] [∀ x y : T, Decidable (x < y)]
    [∀ x y : T, Decidable (x ≤ y)] (a b : Arg) (hl : b.include_left_ = a.include_left_)
    (hr : b.include_right_ = a.include_right_) (v l r : T) :
    b.check_range v l r = a.check_range v l r := by
  unfold Arg.check_range
  rw [hl, hr]

theorem fail_eq (text : String) : fail text = Exn.ParseArgsError text := rfl

theorem member_hit_of_resolve (c : Command) (name : String)
    (h : (c.resolve name).isSome = true) :
    c.member_hit name = .ok (c.member_is_hit name) := by
  unfold Command.member_hit Command.member_is_hit
  unfold Command.resolve at h ⊢
  by_cases h1 : strlen name = 1
  · simp only [h1, if_true] at h ⊢
    generalize map_find (name.data.headD (Char.ofNat 0)) c.shortname_2_arg_ = o at h ⊢
    cases o with
    | none => simp at h
    | some p => rfl
  · simp only [h1, if_false] at h ⊢
    generalize map_find name c.longname_2_arg_ = o at h ⊢
    cases o with
    | none => simp at h
    | some p => rfl

theorem group_count_of_resolves (c : Command) (group : List String)
    (h : c.group_resolves group) : c.group_count group = .ok (c.hit_count group) := by
  induction group with
  | nil => rfl
  | cons name rest ih =>
    have h1 : (c.resolve name).isSome = true := h name (List.mem_cons_self _ _)
    have h2 : c.group_resolves rest := fun n hn => h n (List.mem_cons_of_mem _ hn)
    simp only [Command.group_count, member_hit_of_resolve c name h1, ih h2, Command.hit_count]
    cases hb : c.member_is_hit name <;> simp [List.countP_cons, hb]

theorem hit_count_le (c : Command) (group : List String) : c.hit_count group ≤ group.length :=
  List.countP_le_length _

theorem description_length (group : List String) (acc : String) :
    acc.data.length + 3 * group.length ≤
      (group.foldl (fun d arg => d ++ (if strlen arg = 1 then "-" else "--") ++ ", ") acc).data.length := by
  induction group generalizing acc with
  | nil => simp
  | cons g gs ih =>
    simp only [List.foldl_cons, List.length_cons]
    refine le_trans ?_ (ih _)
    by_cases h : strlen g = 1 <;> simp [h, String.data_append] <;> omega

theorem pop_back_isSome (s : String) (h : 0 < s.data.length) :
    ∃ t, pop_back s = some t ∧ t.data.length + 1 = s.data.length := by
  unfold pop_back
  have hne : s.data ≠ [] := by
    intro h0
    rw [h0] at h
    simp at h
  refine ⟨⟨s.data.dropLast⟩, by simp [hne], ?_⟩
  show s.data.dropLast.length + 1 = s.data.length
  rw [List.length_dropLast]
  omega

theorem get_description_isSome (group : List String) (h : group ≠ []) :
    ∃ d, Command.get_description group = some d := by
  have hlen := description_length group "["
  have h3 : 0 < group.length := List.length_pos.mpr h
  obtain ⟨t1, ht1, hl1⟩ := pop_back_isSome
    (group.foldl (fun d arg => d ++ (if strlen arg = 1 then "-" else "--") ++ ", ") "[") (by omega)
  obtain ⟨t2, ht2, _⟩ := pop_back_isSome t1 (by omega)
  exact ⟨t2 ++ "]", by simp [Command.get_description, ht1, ht2]⟩

theorem group_failure_is_error (c : Command) (group : List String) (before after : String)
    (h : group ≠ []) : ∃ msg, c.group_failure group before after = Exn.ParseArgsError msg := by
  obtain ⟨d, hd⟩ := get_description_isSome group h
  refine ⟨c.command_name_ ++ before ++ d ++ after, ?_⟩
  simp [Command.group_failure, hd, fail_eq]

theorem related_scan_spec (c : Command) (groups : List (List String))
    (h : ∀ g ∈ groups, c.group_resolves g) :
    (c.related_scan groups = none ↔
        ∀ g ∈ groups, c.hit_count g = 0 ∨ c.hit_count g = g.length) ∧
      (∀ e, c.related_scan groups = some e → ∃ msg, e = Exn.ParseArgsError msg) := by
  induction groups with
  | nil => simp [Command.related_scan]
  | cons g gs ih =>
    have hg := group_count_of_resolves c g (h g (List.mem_cons_self _ _))
    have ih' := ih (fun g' hg' => h g' (List.mem_cons_of_mem _ hg'))
    simp only [Command.related_scan, hg]
    by_cases hv : c.hit_count g ≠ 0 ∧ c.hit_count g ≠ g.length
    · rw [if_pos hv]
      constructor
      · constructor
        · intro h0; cases h0
        · intro hall
          have := hall g (List.mem_cons_self _ _)
          omega
      · intro e he
        have hne : g ≠ [] := by
          intro h0
          have := hit_count_le c g
          rw [h0] at this hv
          simp at this
          omega
        obtain ⟨msg, hmsg⟩ := group_failure_is_error c g
          ": The related relationship is not satisfied. " ": is related with each other." hne
        exact ⟨msg, by rw [← hmsg]; exact (Option.some.inj he).symm⟩
    · rw [if_neg hv]
      refine ⟨?_, ih'.2⟩
      rw [ih'.1]
      constructor
      · intro hall g' hg'
        rcases List.mem_cons.mp hg' with rfl | hm
        · omega
        · exact hall g' hm
      · intro hall g' hg'
        exact hall g' (List.mem_cons_of_mem _ hg')

theorem conflict_groups_scan_spec (c : Command) (groups : List (List String))
    (h : ∀ g ∈ groups, c.group_resolves g) :
    (c.conflict_groups_scan groups = none ↔ ∀ g ∈ groups, c.hit_count g ≤ 1) ∧
      (∀ e, c.conflict_groups_scan groups = some e → ∃ msg, e = Exn.ParseArgsError msg) := by
  induction groups with
  | nil => simp [Command.conflict_groups_scan]
  | cons g gs ih =>
    have hg := group_count_of_resolves c g (h g (List.mem_cons_self _ _))
    have ih' := ih (fun g' hg' => h g' (List.mem_cons_of_mem _ hg'))
    simp only [Command.conflict_groups_scan, hg]
    by_cases hv : c.hit_count g > 1
    · rw [if_pos hv]
      constructor
      · constructor
        · intro h0; cases h0
        · intro hall
          have := hall g (List.mem_cons_self _ _)
          omega
      · intro e he
        have hne : g ≠ [] := by
          intro h0
          have := hit_count_le c g
          rw [h0] at this hv
          simp at this
          omega
        obtain ⟨msg, hmsg⟩ := group_failure_is_error c g
          ": The conflict relationship is not satisfied. " ": is conflict with each other." hne
        exact ⟨msg, by rw [← hmsg]; exact (Option.some.inj he).symm⟩
    · rw [if_neg hv]
      refine ⟨?_, ih'.2⟩
      rw [ih'.1]
      constructor
      · intro hall g' hg'
        rcases List.mem_cons.mp hg' with rfl | hm
        · omega
        · exact hall g' hm
      · intro hall g' hg'
        exact hall g' (List.mem_cons_of_mem _ hg')

theorem one_required_scan_spec (c : Command) (groups : List (List String))
    (h : ∀ g ∈ groups, c.group_resolves g) :
    (c.one_required_scan groups = none ↔ ∀ g ∈ groups, 1 ≤ c.hit_count g) ∧
      ((∀ g ∈ groups, g ≠ []) →
        ∀ e, c.one_required_scan groups = some e → ∃ msg, e = Exn.ParseArgsError msg) := by
  induction groups with
  | nil => simp [Command.one_required_scan]
  | cons g gs ih =>
    have hg := group_count_of_resolves c g (h g (List.mem_cons_self _ _))
    have ih' := ih (fun g' hg' => h g' (List.mem_cons_of_mem _ hg'))
    simp only [Command.one_required_scan, hg]
    by_cases hv : c.hit_count g < 1
    · rw [if_pos hv]
      constructor
      · constructor
        · intro h0; cases h0
        · intro hall
          have := hall g (List.mem_cons_self _ _)
          omega
      · intro hne e he
        obtain ⟨msg, hmsg⟩ := group_failure_is_error c g
          ": The one of require relationship is not satisfied. "
          ": at least one option should exist." (hne g (List.mem_cons_self _ _))
        exact ⟨msg, by rw [← hmsg]; exact (Option.some.inj he).symm⟩
    · rw [if_neg hv]
      refine ⟨?_, fun hne => ih'.2 (fun g' hg' => hne g' (List.mem_cons_of_mem _ hg'))⟩
      rw [ih'.1]
      constructor
      · intro hall g' hg'
        rcases List.mem_cons.mp hg' with rfl | hm
        · omega
        · exact hall g' hm
      · intro hall g' hg'
        exact hall g' (List.mem_cons_of_mem _ hg')

theorem hit_count_three (c : Command) (n1 n2 n3 : String) :
    c.hit_count [n1, n2, n3] =
      (if c.member_is_hit n1 then 1 else 0) + (if c.member_is_hit n2 then 1 else 0) +
        (if c.member_is_hit n3 then 1 else 0) := by
  simp only [Command.hit_count, List.countP_cons, List.countP_nil]
  omega

theorem char_toNat_inj {a b : Char} (h : a.toNat = b.toNat) : a = b := by
  apply Char.ext
  apply UInt32.ext
  exact h

theorem strcmp_lt_equiv (a b : List Char) :
    (strcmp_lt a b = false ∧ strcmp_lt b a = false) ↔ a = b := by
  induction a generalizing b with
  | nil => cases b <;> simp [strcmp_lt]
  | cons x xs ih =>
    cases b with
    | nil => simp [strcmp_lt]
    | cons y ys =>
      simp only [strcmp_lt]
      by_cases h1 : x.toNat < y.toNat
      · have h2 : x ≠ y := fun h => by rw [h] at h1; exact lt_irrefl _ h1
        simp [h1, h2]
      · by_cases h2 : y.toNat < x.toNat
        · have h3 : x ≠ y := fun h => by rw [h] at h2; exact lt_irrefl _ h2
          simp [h1, h2, h3]
        · have h3 : x = y := char_toNat_inj (by omega)
          subst h3
          simp [ih]

theorem CStrCmp_equiv (s t : String) : (!CStrCmp s t && !CStrCmp t s) = true ↔ s = t := by
  rw [String.ext_iff, ← strcmp_lt_equiv]
  simp [CStrCmp]

theorem mem_set_insert (x y : String) (s : List String) :
    y ∈ set_insert x s ↔ y = x ∨ y ∈ s := by
  induction s with
  | nil => simp [set_insert]
  | cons z zs ih =>
    simp only [set_insert]
    split
    · rename_i h
      subst h
      simp only [List.mem_cons]
      tauto
    · split
      · simp
      · simp only [List.mem_cons, ih]
        tauto

theorem mem_set_fold (xs acc : List String) (y : String) :
    y ∈ xs.foldl (fun s x => set_insert x s) acc ↔ y ∈ acc ∨ y ∈ xs := by
  induction xs generalizing acc with
  | nil => simp
  | cons x xs ih =>
    simp only [List.foldl_cons, ih, mem_set_insert, List.mem_cons]
    tauto

theorem mem_set_of_range (xs : List String) (y : String) : y ∈ set_of_range xs ↔ y ∈ xs := by
  simp [set_of_range, mem_set_fold]

theorem choice_found_iff (choices : List String) (v : String) :
    choices.any (fun c => !CStrCmp c v && !CStrCmp v c) = true ↔ v ∈ choices := by
  rw [List.any_eq_true]
  constructor
  · rintro ⟨c, hc, he⟩
    rw [(CStrCmp_equiv c v).mp he] at hc
    exact hc
  · intro hv
    exact ⟨v, hv, (CStrCmp_equiv v v).mpr rfl⟩

theorem choice_description_length (choices : List String) (acc : String) :
    acc.data.length + 2 * choices.length ≤
      (choices.foldl (fun d elem => d ++ elem ++ ", ") acc).data.length := by
  induction choices generalizing acc with
  | nil => simp
  | cons g gs ih =>
    simp only [List.foldl_cons, List.length_cons]
    refine le_trans ?_ (ih _)
    simp [String.data_append]
    omega

theorem get_choice_description_isSome (a : Arg) (h : a.choices_ ≠ []) :
    ∃ d, a.get_choice_description = some d := by
  have hlen := choice_description_length a.choices_ "["
  have h3 : 0 < a.choices_.length := List.length_pos.mpr h
  obtain ⟨t1, ht1, hl1⟩ := pop_back_isSome
    (a.choices_.foldl (fun d elem => d ++ elem ++ ", ") "[") (by omega)
  obtain ⟨t2, ht2, _⟩ := pop_back_isSome t1 (by omega)
  exact ⟨t2 ++ "]", by simp [Arg.get_choice_description, ht1, ht2]⟩

theorem getLast?_append_singleton {α : Type} (l : List α) (x : α) :
    (l ++ [x]).getLast? = some x := by
  simp

/-- What `check_choice` does on an argument with a choice set whose last value is `v`. -/
theorem check_choice_spec (a : Arg) (vs : List String) (v : String) (hc : a.is_choice_ = true)
    (hv : a.values_ = vs ++ [v]) (hne : a.choices_ ≠ []) :
    (a.check_choice = none ↔ v ∈ a.choices_) ∧
      (v ∉ a.choices_ → ∃ msg, a.check_choice = some (Exn.ParseArgsError msg)) := by
  obtain ⟨d, hd⟩ := get_choice_description_isSome a hne
  unfold Arg.check_choice
  simp only [hc, if_true, hv, getLast?_append_singleton]
  by_cases hin : v ∈ a.choices_
  · simp [(choice_found_iff a.choices_ v).mpr hin, hin]
  · have hf : a.choices_.any (fun c => !CStrCmp c v && !CStrCmp v c) = false := by
      rw [Bool.eq_false_iff]
      intro h
      exact hin ((choice_found_iff a.choices_ v).mp h)
    simp only [hf, hd, hin]
    simp [fail_eq]

theorem choices_ok (a : Arg) (S : List String) (h : (a.choices S).thrown = none) :
    a.arg_type_ ≠ ArgType.FLAG ∧ a.is_range_ = false ∧
      (a.choices S).state = { a with choices_ := set_of_range S, is_choice_ := true } ∧
      set_of_range S ≠ [] := by
  unfold Arg.choices at h ⊢
  by_cases h1 : a.arg_type_ = ArgType.FLAG
  · simp [h1, Res.throw] at h
  · by_cases h2 : a.is_range_ = true
    · simp [h1, h2, Res.throw] at h
    · by_cases h3 : S = []
      · simp [h1, h2, h3, Res.throw] at h
      · by_cases h4 : set_of_range S = []
        · simp [h1, h2, h3, h4, Res.throw] at h
        · simp [h1, h2, h3, h4, Res.ok]

/-- `set_value` on an argument that is not a flag, has no range and has a choice set. -/
theorem set_value_choice (L : Libc) (a : Arg) (v : String) (h1 : a.arg_type_ ≠ ArgType.FLAG)
    (h2 : a.is_range_ = false) (h3 : a.is_choice_ = true) (h4 : a.choices_ ≠ []) :
    ((a.set_value L v).thrown = none ↔ v ∈ a.choices_) ∧
      (v ∉ a.choices_ → ∃ msg, (a.set_value L v).thrown = some (Exn.ParseArgsError msg)) := by
  have key : ∀ b : Arg, b.is_range_ = false → b.is_choice_ = true → b.choices_ = a.choices_ →
      (∃ vs, b.values_ = vs ++ [v]) →
      ((Arg.check_last L b).thrown = none ↔ v ∈ a.choices_) ∧
        (v ∉ a.choices_ → ∃ msg, (Arg.check_last L b).thrown = some (Exn.ParseArgsError msg)) := by
    intro b hb2 hb3 hb4 ⟨vs, hvs⟩
    have hspec := check_choice_spec b vs v hb3 hvs (by rw [hb4]; exact h4)
    rw [hb4] at hspec
    have hcl : (Arg.check_last L b).thrown = b.check_choice := by
      simp [Arg.check_last, Res.check, Res.bind, Res.ok, Arg.check_range_void, hb2]
    rw [hcl]
    exact hspec
  unfold Arg.set_value
  rw [if_neg h1]
  exact key _ (by simp [h2]) (by simp [h3]) (by simp) ⟨_, rfl⟩

theorem check_range_linear {T : Type} [LinearOrder T] (a : Arg) (v l r : T) :
    a.check_range v l r = true ↔
      (if a.include_left_ = true then l ≤ v else l < v) ∧
        (if a.include_right_ = true then v ≤ r else v < r) := by
  unfold Arg.check_range
  cases a.include_left_ <;> cases a.include_right_ <;>
    simp only [Bool.false_eq_true, if_false, if_true, true_and, false_and, not_true_eq_false,
      not_false_eq_true, gt_iff_lt, ge_iff_le] <;>
    (repeat' split) <;> simp_all [not_lt, not_le]

theorem Double.lt_iff (x y : Double) : x < y ↔ Double.lt x y = true := Iff.rfl

theorem Double.le_iff (x y : Double) : x ≤ y ↔ Double.le x y = true := Iff.rfl

theorem Double.not_lt_iff (x y : Double) (hx : x ≠ Double.nan) (hy : y ≠ Double.nan) :
    ¬ x < y ↔ y ≤ x := by
  rw [Double.lt_iff, Double.le_iff]
  cases x <;> cases y <;> simp_all [Double.lt, Double.le]

theorem Double.not_le_iff (x y : Double) (hx : x ≠ Double.nan) (hy : y ≠ Double.nan) :
    ¬ x ≤ y ↔ y < x := by
  rw [Double.lt_iff, Double.le_iff]
  cases x <;> cases y <;> simp_all [Double.lt, Double.le]

theorem check_range_double (a : Arg) (v l r : Double) (hv : v ≠ Double.nan)
    (hl : l ≠ Double.nan) (hr : r ≠ Double.nan) :
    a.check_range v l r = true ↔
      (if a.include_left_ = true then l ≤ v else l < v) ∧
        (if a.include_right_ = true then v ≤ r else v < r) := by
  have h1 := Double.not_lt_iff v l hv hl
  have h2 := Double.not_le_iff v l hv hl
  have h3 := Double.not_lt_iff r v hr hv
  have h4 := Double.not_le_iff r v hr hv
  unfold Arg.check_range
  cases a.include_left_ <;> cases a.include_right_ <;>
    simp only [Bool.false_eq_true, if_false, if_true, true_and, false_and, not_true_eq_false,
      not_false_eq_true, gt_iff_lt, ge_iff_le] <;>
    (repeat' split) <;> simp_all

theorem range_ok (a : Arg) (type : NumType) (l r : String) (il ir : Bool)
    (h : (a.range type l r il ir).thrown = none) :
    a.arg_type_ ≠ ArgType.FLAG ∧ a.is_choice_ = false ∧
      (a.range type l r il ir).state = { a with
        left_ := some l, right_ := some r, include_left_ := il, include_right_ := ir,
        num_type_ := type, is_range_ := true } := by
  unfold Arg.range at h ⊢
  by_cases h1 : a.arg_type_ = ArgType.FLAG
  · simp [h1, Res.throw] at h
  · by_cases h2 : a.is_choice_ = true
    · simp [h1, h2, Res.throw] at h
    · simp [h1, h2, Res.ok]

/-- `check_range()` followed by `check_choice()` on an argument with a range and no choice
set, whose last value and bounds convert. -/
theorem check_last_range {T : Type} [LT T] [LE T] [∀ x y : T, Decidable (x < y)]
    [∀ x y : T, Decidable (x ≤ y)] (L : Libc) (b : Arg) (conv : String → Except Exn T)
    (vs : List String) (text l r : String) (v lv rv : T)
    (hr : b.is_range_ = true) (hc : b.is_choice_ = false) (hvs : b.values_ = vs ++ [text])
    (hl : b.left_ = some l) (hrt : b.right_ = some r)
    (hconv : (match b.num_type_ with
      | NumType.INT => b.range_verdict stol text l r
      | NumType.UINT => b.range_verdict stoul text l r
      | NumType.DOUBlE => b.range_verdict L.stod text l r) = b.range_verdict conv text l r)
    (h1 : conv text = .ok v) (h2 : conv l = .ok lv) (h3 : conv r = .ok rv) :
    ((Arg.check_last L b).thrown = none ↔ b.check_range v lv rv = true) ∧
      (b.check_range v lv rv = false →
        (Arg.check_last L b).thrown = some (Exn.ParseArgsError b.range_msg)) := by
  have hv : b.range_verdict conv text l r = .ok (b.check_range v lv rv) := by
    simp [Arg.range_verdict, h1, h2, h3]
  have hcr : Arg.check_range_void L b =
      if b.check_range v lv rv = true then none else some (Exn.ParseArgsError b.range_msg) := by
    unfold Arg.check_range_void
    simp only [hr, if_true, hvs, getLast?_append_singleton, hl, hrt, hconv, hv]
    cases b.check_range v lv rv <;> simp [fail_eq]
  have hcc : b.check_choice = none := by simp [Arg.check_choice, hc]
  unfold Arg.check_last
  simp only [Res.check, Res.bind, Res.ok, hcr]
  cases hb : b.check_range v lv rv <;> simp [hcc]

/-- `set_value` on an argument that is not a flag, has a range and no choice set. -/
theorem set_value_range {T : Type} [LT T] [LE T] [∀ x y : T, Decidable (x < y)]
    [∀ x y : T, Decidable (x ≤ y)] (L : Libc) (a : Arg) (conv : String → Except Exn T)
    (text l r : String) (v lv rv : T)
    (hf : a.arg_type_ ≠ ArgType.FLAG)
    (hr : a.is_range_ = true) (hc : a.is_choice_ = false)
    (hl : a.left_ = some l) (hrt : a.right_ = some r)
    (hconv : ∀ b : Arg, b.num_type_ = a.num_type_ → (match b.num_type_ with
      | NumType.INT => b.range_verdict stol text l r
      | NumType.UINT => b.range_verdict stoul text l r
      | NumType.DOUBlE => b.range_verdict L.stod text l r) = b.range_verdict conv text l r)
    (h1 : conv text = .ok v) (h2 : conv l = .ok lv) (h3 : conv r = .ok rv) :
    ((a.set_value L text).thrown = none ↔ a.check_range v lv rv = true) ∧
      (a.check_range v lv rv = false →
        ∃ msg, (a.set_value L text).thrown = some (Exn.ParseArgsError msg)) := by
  unfold Arg.set_value
  rw [if_neg hf]
  have := check_last_range L (a.clear_default.push_back text) conv a.clear_default.values_
    text l r v lv rv (by simp [hr]) (by simp [hc]) rfl (by simp [hl]) (by simp [hrt])
    (hconv _ (by simp)) h1 h2 h3
  rw [check_range_congr a (a.clear_default.push_back text) (by simp) (by simp)] at this
  exact ⟨this.1, fun hfalse => ⟨_, this.2 hfalse⟩⟩

theorem map_find_assign {K V : Type} [DecidableEq K] (lt : K → K → Bool) (k q : K) (v : V)
    (m : List (K × V)) :
    map_find q (map_assign lt k v m) = if q = k then some v else map_find q m := by
  induction m with
  | nil =>
    by_cases h : q = k
    · simp [map_assign, map_find, h]
    · have h2 : ¬ k = q := fun e => h e.symm
      simp [map_assign, map_find, h, h2]
  | cons e m ih =>
    obtain ⟨k1, v1⟩ := e
    simp only [map_assign]
    by_cases h1 : k1 = k
    · subst h1
      by_cases h : q = k1
      · subst h
        simp [map_find]
      · have h2 : ¬ k1 = q := fun e => h e.symm
        simp [map_find, h, h2]
    · rw [if_neg h1]
      by_cases h2 : lt k k1 = true
      · rw [if_pos h2]
        by_cases h : q = k
        · subst h
          simp [map_find]
        · have h3 : ¬ k = q := fun e => h e.symm
          simp [map_find, h, h3]
      · rw [if_neg h2]
        simp only [map_find, ih]
        by_cases h : q = k
        · subst h
          simp [h1]
        · simp [h]

theorem mem_map_assign_of_mem {K V : Type} [DecidableEq K] (lt : K → K → Bool) (k : K) (v : V)
    (m : List (K × V)) (e : K × V) (he : e ∈ m) (hk : e.1 ≠ k) : e ∈ map_assign lt k v m := by
  induction m with
  | nil => cases he
  | cons e1 m ih =>
    obtain ⟨k1, v1⟩ := e1
    simp only [map_assign]
    by_cases h1 : k1 = k
    · rw [if_pos h1]
      rcases List.mem_cons.mp he with rfl | hm
      · exact absurd h1 hk
      · exact List.mem_cons_of_mem _ hm
    · rw [if_neg h1]
      by_cases h2 : lt k k1 = true
      · rw [if_pos h2]
        exact List.mem_cons_of_mem _ he
      · rw [if_neg h2]
        rcases List.mem_cons.mp he with rfl | hm
        · exact List.mem_cons_self _ _
        · exact List.mem_cons_of_mem _ (ih hm)

theorem mem_of_mem_map_assign {K V : Type} [DecidableEq K] (lt : K → K → Bool) (k : K) (v : V)
    (m : List (K × V)) (e : K × V) (he : e ∈ map_assign lt k v m) : e = (k, v) ∨ e ∈ m := by
  induction m with
  | nil =>
    simp only [map_assign, List.mem_singleton] at he
    exact Or.inl he
  | cons e1 m ih =>
    obtain ⟨k1, v1⟩ := e1
    simp only [map_assign] at he
    by_cases h1 : k1 = k
    · rw [if_pos h1] at he
      rcases List.mem_cons.mp he with rfl | hm
      · exact Or.inl (by rw [h1])
      · exact Or.inr (List.mem_cons_of_mem _ hm)
    · rw [if_neg h1] at he
      by_cases h2 : lt k k1 = true
      · rw [if_pos h2] at he
        rcases List.mem_cons.mp he with rfl | hm
        · exact Or.inl rfl
        · exact Or.inr hm
      · rw [if_neg h2] at he
        rcases List.mem_cons.mp he with rfl | hm
        · exact Or.inr (List.mem_cons_self _ _)
        · rcases ih hm with h | h
          · exact Or.inl h
          · exact Or.inr (List.mem_cons_of_mem _ h)

theorem map_find_some_mem {K V : Type} [DecidableEq K] (k : K) (v : V) (m : List (K × V))
    (h : map_find k m = some v) : (k, v) ∈ m := by
  induction m with
  | nil => simp [map_find] at h
  | cons e m ih =>
    obtain ⟨k1, v1⟩ := e
    simp only [map_find] at h
    by_cases h1 : k1 = k
    · rw [if_pos h1] at h
      cases h
      rw [h1]
      exact List.mem_cons_self _ _
    · rw [if_neg h1] at h
      exact List.mem_cons_of_mem _ (ih h)

theorem map_find_isSome_of_mem {K V : Type} [DecidableEq K] (k : K) (v : V) (m : List (K × V))
    (h : (k, v) ∈ m) : (map_find k m).isSome = true := by
  induction m with
  | nil => cases h
  | cons e m ih =>
    obtain ⟨k1, v1⟩ := e
    simp only [map_find]
    by_cases h1 : k1 = k
    · simp [h1]
    · rw [if_neg h1]
      rcases List.mem_cons.mp h with he | hm
      · cases he
        exact absurd rfl h1
      · exact ih hm

theorem map_find_cons {K V : Type} [DecidableEq K] (q : K) (e : K × V) (m : List (K × V)) :
    map_find q (e :: m) = if e.1 = q then some e.2 else map_find q m := by
  cases e
  rfl

/-- Lookup in the stored arguments after a write through one handle. -/
theorem map_find_write (p q : Int) (a : Arg) (m : List (Int × Arg)) :
    map_find q (m.map (fun e => if e.1 = p then (e.1, a) else e)) =
      if q = p then (map_find q m).map (fun _ => a) else map_find q m := by
  induction m with
  | nil => simp [map_find]
  | cons e m ih =>
    rw [List.map_cons, map_find_cons, map_find_cons, ih]
    by_cases h1 : e.1 = p
    · rw [if_pos h1]
      by_cases h : q = p
      · have h2 : e.1 = q := by rw [h1, h]
        simp [h, h2, h1]
      · have h2 : ¬ e.1 = q := fun e2 => h (by rw [← e2, h1])
        simp [h, h2]
    · rw [if_neg h1]
      by_cases h : e.1 = q
      · have h2 : ¬ q = p := fun e2 => h1 (by rw [h, e2])
        simp [h, h2]
      · simp [h]

theorem keys_write (p : Int) (a : Arg) (m : List (Int × Arg)) :
    (m.map (fun e => if e.1 = p then (e.1, a) else e)).map Prod.fst = m.map Prod.fst := by
  induction m with
  | nil => rfl
  | cons e m ih =>
    simp only [List.map_cons, ih]
    by_cases h : e.1 = p <;> simp [h]

theorem map_find_isSome_iff_keys {V : Type} (q : Int) (m : List (Int × V)) :
    (map_find q m).isSome = true ↔ q ∈ m.map Prod.fst := by
  induction m with
  | nil => simp [map_find]
  | cons e m ih =>
    obtain ⟨k1, v1⟩ := e
    simp only [map_find, List.map_cons, List.mem_cons]
    by_cases h : k1 = q
    · simp [h]
    · have h2 : ¬ q = k1 := fun e => h e.symm
      simp [h, h2, ih]

theorem arg_at_set_arg (c : Command) (p q : Int) (a : Arg) :
    (c.set_arg p a).arg_at q =
      if q = p ∧ (map_find p c.argid_2_arg_).isSome = true then a else c.arg_at q := by
  unfold Command.arg_at Command.set_arg
  simp only [map_find_write]
  by_cases h : q = p
  · subst h
    cases hf : map_find q c.argid_2_arg_ <;> simp
  · simp [h]

theorem set_arg_frame (c : Command) (p : Int) (a : Arg) : Command.Frame c (c.set_arg p a) :=
  ⟨rfl, rfl, rfl, rfl, rfl, rfl, rfl, rfl, rfl, rfl, rfl, rfl, keys_write p a _⟩

theorem Command.Frame.refl (c : Command) : Command.Frame c c :=
  ⟨rfl, rfl, rfl, rfl, rfl, rfl, rfl, rfl, rfl, rfl, rfl, rfl, rfl⟩

theorem Command.Frame.trans {c c1 c2 : Command} (h1 : Command.Frame c c1)
    (h2 : Command.Frame c1 c2) : Command.Frame c c2 :=
  ⟨h2.current_argid.trans h1.current_argid,
    h2.current_position_id.trans h1.current_position_id,
    h2.longname.trans h1.longname, h2.shortname.trans h1.shortname,
    h2.conflict_with_all.trans h1.conflict_with_all, h2.related.trans h1.related,
    h2.conflict.trans h1.conflict, h2.one_required.trans h1.one_required,
    h2.position_args.trans h1.position_args, h2.short_opts.trans h1.short_opts,
    h2.long_opts.trans h1.long_opts, h2.command_name.trans h1.command_name,
    h2.ids.trans h1.ids⟩

theorem Command.Frame.present {c c1 : Command} (h : Command.Frame c c1) (q : Int) :
    (map_find q c1.argid_2_arg_).isSome = (map_find q c.argid_2_arg_).isSome := by
  rw [Bool.eq_iff_iff, map_find_isSome_iff_keys, map_find_isSome_iff_keys, h.ids]

theorem Command.Frame.event_target {c c1 : Command} (h : Command.Frame c c1)
    (ev : Int × Option String) : c1.event_target ev = c.event_target ev := by
  unfold Command.event_target
  rw [h.shortname]

theorem arg_at_absent (c : Command) (q : Int) (h : (map_find q c.argid_2_arg_).isSome = false) :
    c.arg_at q = default := by
  unfold Command.arg_at
  cases hf : map_find q c.argid_2_arg_ with
  | none => rfl
  | some a => rw [hf] at h; cases h

theorem reset_status_info_idem (a : Arg) :
    a.reset_status_info.reset_status_info = a.reset_status_info := by
  unfold Arg.reset_status_info
  cases h : a.has_default_value_ <;> simp [h]

theorem reset_status_info_default : (default : Arg).reset_status_info = default := rfl

theorem arg_at_reset_step (c : Command) (p q : Int) :
    (c.set_arg p (c.arg_at p).reset_status_info).arg_at q =
      if q = p then (c.arg_at q).reset_status_info else c.arg_at q := by
  rw [arg_at_set_arg]
  by_cases h : q = p
  · subst h
    cases hp : (map_find q c.argid_2_arg_).isSome
    · simp [arg_at_absent c q hp, reset_status_info_default]
    · simp
  · simp [h]

theorem reset_fold_arg_at {K : Type} (ids : List (K × Int)) (c : Command) (q : Int) :
    (ids.foldl (fun (c : Command) e => c.set_arg e.2 (c.arg_at e.2).reset_status_info)
        c).arg_at q =
      if q ∈ ids.map Prod.snd then (c.arg_at q).reset_status_info else c.arg_at q := by
  induction ids generalizing c with
  | nil => simp
  | cons e ids ih =>
    rw [List.foldl_cons, ih, arg_at_reset_step]
    by_cases h1 : q = e.2
    · simp [h1, reset_status_info_idem]
    · simp only [List.map_cons, List.mem_cons, h1, false_or, if_false]

theorem reset_fold_frame {K : Type} (ids : List (K × Int)) (c : Command) :
    Command.Frame c
      (ids.foldl (fun (c : Command) e => c.set_arg e.2 (c.arg_at e.2).reset_status_info) c) := by
  induction ids generalizing c with
  | nil => exact Command.Frame.refl c
  | cons e ids ih =>
    rw [List.foldl_cons]
    exact (set_arg_frame c _ _).trans (ih _)

theorem reset_frame (c : Command) : Command.Frame c c.reset_arg_status := by
  have h1 := reset_fold_frame c.longname_2_arg_ c
  have h2 := reset_fold_frame
    (c.longname_2_arg_.foldl
      (fun (c : Command) e => c.set_arg e.2 (c.arg_at e.2).reset_status_info) c).shortname_2_arg_
    (c.longname_2_arg_.foldl
      (fun (c : Command) e => c.set_arg e.2 (c.arg_at e.2).reset_status_info) c)
  have h3 := h1.trans h2
  exact ⟨h3.current_argid, h3.current_position_id, h3.longname, h3.shortname,
    h3.conflict_with_all, h3.related, h3.conflict, h3.one_required, h3.position_args,
    h3.short_opts, h3.long_opts, h3.command_name, h3.ids⟩

theorem reset_arg_at (c : Command) (q : Int) :
    c.reset_arg_status.arg_at q =
      if c.registered q then (c.arg_at q).reset_status_info else c.arg_at q := by
  have h1 := reset_fold_frame c.longname_2_arg_ c
  show (((c.longname_2_arg_.foldl
      (fun (c : Command) e => c.set_arg e.2 (c.arg_at e.2).reset_status_info) c).shortname_2_arg_.foldl
      (fun (c : Command) e => c.set_arg e.2 (c.arg_at e.2).reset_status_info)
      (c.longname_2_arg_.foldl
        (fun (c : Command) e => c.set_arg e.2 (c.arg_at e.2).reset_status_info) c))).arg_at q = _
  rw [reset_fold_arg_at, reset_fold_arg_at, h1.shortname]
  unfold Command.registered
  by_cases hl : q ∈ c.longname_2_arg_.map Prod.snd <;>
    by_cases hs : q ∈ c.shortname_2_arg_.map Prod.snd <;>
    simp [hl, hs, reset_status_info_idem]

theorem reset_position_values (c : Command) : c.reset_arg_status.position_values_ = [] := rfl

theorem reset_subcommands (c : Command) :
    c.reset_arg_status.subcommandname_2_subcommand_ = c.subcommandname_2_subcommand_ ∧
      c.reset_arg_status.current_subcommand_name_ = c.current_subcommand_name_ := by
  have key : ∀ {K : Type} (ids : List (K × Int)) (c : Command),
      (ids.foldl (fun (c : Command) e => c.set_arg e.2 (c.arg_at e.2).reset_status_info)
          c).subcommandname_2_subcommand_ = c.subcommandname_2_subcommand_ ∧
        (ids.foldl (fun (c : Command) e => c.set_arg e.2 (c.arg_at e.2).reset_status_info)
          c).current_subcommand_name_ = c.current_subcommand_name_ := by
    intro K ids
    induction ids with
    | nil => intro c; exact ⟨rfl, rfl⟩
    | cons e ids ih =>
      intro c
      rw [List.foldl_cons]
      exact ih _
  have h1 := key c.longname_2_arg_ c
  have h2 := key
    (c.longname_2_arg_.foldl
      (fun (c : Command) e => c.set_arg e.2 (c.arg_at e.2).reset_status_info) c).shortname_2_arg_
    (c.longname_2_arg_.foldl
      (fun (c : Command) e => c.set_arg e.2 (c.arg_at e.2).reset_status_info) c)
  exact ⟨h2.1.trans h1.1, h2.2.trans h1.2⟩

theorem add_help_longname (L : Libc) (c : Command) :
    (c.add_help_arg L).longname_2_arg_ =
      map_assign CStrCmp "help" c.current_argid_ c.longname_2_arg_ := rfl

theorem add_help_shortname (L : Libc) (c : Command) :
    (c.add_help_arg L).shortname_2_arg_ =
      map_assign char_lt 'h' c.current_argid_ c.shortname_2_arg_ := rfl

theorem add_help_args (L : Libc) (c : Command) :
    (c.add_help_arg L).argid_2_arg_ =
      map_assign int_lt c.current_argid_ (Arg.stored_help c.current_argid_) c.argid_2_arg_ := rfl

theorem add_help_rest (L : Libc) (c : Command) :
    (c.add_help_arg L).current_argid_ = c.current_argid_ - 1 ∧
      (c.add_help_arg L).current_position_id_ = c.current_position_id_ ∧
      (c.add_help_arg L).conflict_with_all_args_ = c.conflict_with_all_args_ ∧
      (c.add_help_arg L).related_groups_ = c.related_groups_ ∧
      (c.add_help_arg L).conflict_groups_ = c.conflict_groups_ ∧
      (c.add_help_arg L).one_required_groups_ = c.one_required_groups_ ∧
      (c.add_help_arg L).position_args_ = c.position_args_ ∧
      (c.add_help_arg L).position_values_ = c.position_values_ ∧
      (c.add_help_arg L).command_name_ = c.command_name_ ∧
      (c.add_help_arg L).subcommandname_2_subcommand_ = c.subcommandname_2_subcommand_ ∧
      (c.add_help_arg L).current_subcommand_name_ = c.current_subcommand_name_ :=
  ⟨rfl, rfl, rfl, rfl, rfl, rfl, rfl, rfl, rfl, rfl, rfl⟩

theorem add_help_arg_at (L : Libc) (c : Command) (q : Int) :
    (c.add_help_arg L).arg_at q =
      if q = c.current_argid_ then Arg.stored_help c.current_argid_ else c.arg_at q := by
  unfold Command.arg_at
  rw [add_help_args, map_find_assign]
  by_cases h : q = c.current_argid_ <;> simp [h]

theorem prepared_arg_at (L : Libc) (c : Command) (q : Int) :
    (c.prepared L).arg_at q =
      if q = c.current_argid_ then Arg.stored_help c.current_argid_
      else if c.registered q then (c.arg_at q).reset_status_info else c.arg_at q := by
  show (c.reset_arg_status.add_help_arg L).arg_at q = _
  rw [add_help_arg_at, reset_arg_at, (reset_frame c).current_argid]

theorem prepared_longname (L : Libc) (c : Command) :
    (c.prepared L).longname_2_arg_ =
      map_assign CStrCmp "help" c.current_argid_ c.longname_2_arg_ := by
  show (c.reset_arg_status.add_help_arg L).longname_2_arg_ = _
  rw [add_help_longname, (reset_frame c).current_argid, (reset_frame c).longname]

theorem prepared_shortname (L : Libc) (c : Command) :
    (c.prepared L).shortname_2_arg_ =
      map_assign char_lt 'h' c.current_argid_ c.shortname_2_arg_ := by
  show (c.reset_arg_status.add_help_arg L).shortname_2_arg_ = _
  rw [add_help_shortname, (reset_frame c).current_argid, (reset_frame c).shortname]

theorem prepared_rest (L : Libc) (c : Command) :
    (c.prepared L).conflict_with_all_args_ = c.conflict_with_all_args_ ∧
      (c.prepared L).related_groups_ = c.related_groups_ ∧
      (c.prepared L).conflict_groups_ = c.conflict_groups_ ∧
      (c.prepared L).one_required_groups_ = c.one_required_groups_ ∧
      (c.prepared L).position_args_ = c.position_args_ ∧
      (c.prepared L).position_values_ = [] ∧
      (c.prepared L).command_name_ = c.command_name_ :=
  ⟨(reset_frame c).conflict_with_all, (reset_frame c).related, (reset_frame c).conflict,
    (reset_frame c).one_required, (reset_frame c).position_args, rfl,
    (reset_frame c).command_name⟩

theorem parse_own_level_prepared (L : Libc) (c : Command) (argv : List String) :
    c.reset_arg_status.parse_own_level L argv =
      (((((c.prepared L).do_parse_args_internel L argv).check
        Command.check_conflict_with_all_args).check Command.check_related_groups).check
        Command.check_conflict_groups).check Command.check_one_required_group := rfl

theorem hit_and_set_frame (L : Libc) (c : Command) (p : Int) (optarg : Option String) :
    Command.Frame c (c.hit_and_set L p optarg).state :=
  set_arg_frame c p _

theorem hit_and_set_arg_at (L : Libc) (c : Command) (p q : Int) (optarg : Option String) :
    (c.hit_and_set L p optarg).state.arg_at q =
      if q = p ∧ (map_find p c.argid_2_arg_).isSome = true then
        ((c.arg_at p).set_hit.set_value L (optarg.getD "1")).state
      else c.arg_at q :=
  arg_at_set_arg c p q _

theorem hit_and_set_thrown (L : Libc) (c : Command) (p : Int) (optarg : Option String) :
    (c.hit_and_set L p optarg).thrown =
      ((c.arg_at p).set_hit.set_value L (optarg.getD "1")).thrown := rfl

/-- A turn of the scan loop either throws before touching the command, or is the hit of the
argument the event is routed to. -/
theorem scan_event_cases (L : Libc) (c : Command) (ev : Int × Option String) :
    (∃ e, c.scan_event L ev = Res.throw c e) ∨
      (∃ p, c.event_target ev = some p ∧ c.scan_event L ev = c.hit_and_set L p ev.2) := by
  unfold Command.scan_event Command.event_target
  by_cases h1 : ev.1 < 0
  · simp only [h1, if_true]
    cases map_find "help" c.longname_2_arg_ with
    | none => exact Or.inl ⟨_, rfl⟩
    | some h =>
      simp only
      by_cases h2 : ev.1 = (c.arg_at h).arg_id_
      · rw [if_pos h2]
        exact Or.inl ⟨_, rfl⟩
      · rw [if_neg h2]
        cases map_find ev.1 c.argid_2_arg_ with
        | none => exact Or.inl ⟨_, rfl⟩
        | some _ => exact Or.inr ⟨ev.1, rfl, rfl⟩
  · simp only [h1, if_false]
    by_cases h2 : ev.1 = 63 ∨ ev.1 = 58
    · rw [if_pos h2]
      exact Or.inl ⟨_, rfl⟩
    · rw [if_neg h2]
      by_cases h3 : ev.1 = 104
      · rw [if_pos h3]
        exact Or.inl ⟨_, rfl⟩
      · rw [if_neg h3]
        cases map_find (Char.ofNat (ev.1.toNat % 256)) c.shortname_2_arg_ with
        | none => exact Or.inl ⟨_, rfl⟩
        | some p => exact Or.inr ⟨p, rfl, rfl⟩

theorem scan_event_frame (L : Libc) (c : Command) (ev : Int × Option String) :
    Command.Frame c (c.scan_event L ev).state := by
  rcases scan_event_cases L c ev with ⟨e, h⟩ | ⟨p, _, h⟩
  · rw [h]
    exact Command.Frame.refl c
  · rw [h]
    exact hit_and_set_frame L c p ev.2

theorem scan_event_other (L : Libc) (c : Command) (ev : Int × Option String) (q : Int)
    (hq : c.event_target ev ≠ some q) : (c.scan_event L ev).state.arg_at q = c.arg_at q := by
  rcases scan_event_cases L c ev with ⟨e, h⟩ | ⟨p, hp, h⟩
  · rw [h]
    rfl
  · rw [h, hit_and_set_arg_at]
    have hne : q ≠ p := fun e => hq (by rw [hp, e])
    simp [hne]

theorem scan_event_target (L : Libc) (c : Command) (ev : Int × Option String) (q : Int)
    (hq : c.event_target ev = some q) (hp : (map_find q c.argid_2_arg_).isSome = true)
    (hok : (c.scan_event L ev).thrown = none) :
    (c.scan_event L ev).state.arg_at q =
      ((c.arg_at q).set_hit.set_value L (ev.2.getD "1")).state := by
  rcases scan_event_cases L c ev with ⟨e, h⟩ | ⟨p, hp2, h⟩
  · rw [h] at hok
    cases hok
  · rw [hq] at hp2
    cases hp2
    rw [h, hit_and_set_arg_at]
    simp [hp]

theorem scan_event_positions (L : Libc) (c : Command) (ev : Int × Option String) :
    (c.scan_event L ev).state.position_values_ = c.position_values_ ∧
      (c.scan_event L ev).state.subcommandname_2_subcommand_ = c.subcommandname_2_subcommand_ ∧
      (c.scan_event L ev).state.current_subcommand_name_ = c.current_subcommand_name_ := by
  rcases scan_event_cases L c ev with ⟨e, h⟩ | ⟨p, _, h⟩
  · rw [h]
    exact ⟨rfl, rfl, rfl⟩
  · rw [h]
    exact ⟨rfl, rfl, rfl⟩

theorem scan_events_cons (L : Libc) (c : Command) (ev : Int × Option String)
    (evs : List (Int × Option String)) :
    c.scan_events L (ev :: evs) =
      match (c.scan_event L ev).thrown with
      | none => (c.scan_event L ev).state.scan_events L evs
      | some _ => c.scan_event L ev := rfl

theorem scan_events_frame (L : Libc) (c : Command) (evs : List (Int × Option String)) :
    Command.Frame c (c.scan_events L evs).state := by
  induction evs generalizing c with
  | nil => exact Command.Frame.refl c
  | cons ev evs ih =>
    rw [scan_events_cons]
    cases h : (c.scan_event L ev).thrown with
    | none => exact (scan_event_frame L c ev).trans (ih _)
    | some e => exact scan_event_frame L c ev

theorem scan_events_positions (L : Libc) (c : Command) (evs : List (Int × Option String)) :
    (c.scan_events L evs).state.position_values_ = c.position_values_ ∧
      (c.scan_events L evs).state.subcommandname_2_subcommand_ =
        c.subcommandname_2_subcommand_ ∧
      (c.scan_events L evs).state.current_subcommand_name_ = c.current_subcommand_name_ := by
  induction evs generalizing c with
  | nil => exact ⟨rfl, rfl, rfl⟩
  | cons ev evs ih =>
    rw [scan_events_cons]
    have h0 := scan_event_positions L c ev
    cases h : (c.scan_event L ev).thrown with
    | none =>
      have h1 := ih (c.scan_event L ev).state
      exact ⟨h1.1.trans h0.1, h1.2.1.trans h0.2.1, h1.2.2.trans h0.2.2⟩
    | some e => exact h0

/-- The scan never touches an argument no event is routed to. -/
theorem scan_events_other (L : Libc) (c : Command) (evs : List (Int × Option String)) (q : Int)
    (hq : ∀ ev ∈ evs, c.event_target ev ≠ some q) :
    (c.scan_events L evs).state.arg_at q = c.arg_at q := by
  induction evs generalizing c with
  | nil => rfl
  | cons ev evs ih =>
    rw [scan_events_cons]
    have h0 := scan_event_other L c ev q (hq ev (List.mem_cons_self _ _))
    cases h : (c.scan_event L ev).thrown with
    | none =>
      simp only
      rw [ih (c.scan_event L ev).state, h0]
      intro ev2 hev2
      rw [(scan_event_frame L c ev).event_target]
      exact hq ev2 (List.mem_cons_of_mem _ hev2)
    | some e => exact h0

/-- After a scan that completes, an argument is what the occurrences routed to it made of
it. -/
theorem scan_events_replay (L : Libc) (c : Command) (evs : List (Int × Option String)) (q : Int)
    (hp : (map_find q c.argid_2_arg_).isSome = true)
    (hok : (c.scan_events L evs).thrown = none) :
    (c.scan_events L evs).state.arg_at q =
      (c.arg_at q).replay L
        ((evs.filter (fun ev => decide (c.event_target ev = some q))).map
          (fun ev => ev.2.getD "1")) := by
  induction evs generalizing c with
  | nil => rfl
  | cons ev evs ih =>
    rw [scan_events_cons] at hok ⊢
    cases h : (c.scan_event L ev).thrown with
    | some e =>
      rw [h] at hok
      simp [h] at hok
    | none =>
      rw [h] at hok
      simp only at hok ⊢
      have hfr := scan_event_frame L c ev
      rw [ih (c.scan_event L ev).state (by rw [hfr.present]; exact hp) hok]
      have hfilter : (evs.filter
          (fun ev2 => decide ((c.scan_event L ev).state.event_target ev2 = some q))) =
          evs.filter (fun ev2 => decide (c.event_target ev2 = some q)) := by
        congr 1
        funext ev2
        rw [hfr.event_target]
      rw [hfilter]
      by_cases ht : c.event_target ev = some q
      · rw [scan_event_target L c ev q ht hp h]
        simp [List.filter_cons, ht, Arg.replay]
      · rw [scan_event_other L c ev q ht]
        simp [List.filter_cons, ht]

theorem push_position_frame (c : Command) (tok : String) :
    Command.Frame c (c.push_position tok) :=
  ⟨rfl, rfl, rfl, rfl, rfl, rfl, rfl, rfl, rfl, rfl, rfl, rfl, rfl⟩

theorem push_position_arg_at (c : Command) (tok : String) (q : Int) :
    (c.push_position tok).arg_at q = c.arg_at q := rfl

theorem capture_cons (L : Libc) (c : Command) (i : Nat) (tok : String) (toks : List String) :
    c.capture L i (tok :: toks) =
      match c.position_args_[i]? with
      | some p =>
        (Res.mk ((c.push_position tok).set_arg p ((c.arg_at p).set_value L tok).state)
          ((c.arg_at p).set_value L tok).thrown).bind
          (fun c2 => c2.capture L (i + 1) toks)
      | none => (c.push_position tok).capture L (i + 1) toks := rfl

theorem capture_frame (L : Libc) (c : Command) (i : Nat) (toks : List String) :
    Command.Frame c (c.capture L i toks).state := by
  induction toks generalizing c i with
  | nil => exact Command.Frame.refl c
  | cons tok toks ih =>
    rw [capture_cons]
    cases hp : c.position_args_[i]? with
    | none => exact (push_position_frame c tok).trans (ih _ _)
    | some p =>
      simp only [Res.bind]
      have h1 : Command.Frame c
          ((c.push_position tok).set_arg p ((c.arg_at p).set_value L tok).state) :=
        (push_position_frame c tok).trans (set_arg_frame _ _ _)
      cases ((c.arg_at p).set_value L tok).thrown with
      | none => exact h1.trans (ih _ _)
      | some e => exact h1

/-- Positional capture never touches an argument outside `position_args_`. -/
theorem capture_other (L : Libc) (c : Command) (i : Nat) (toks : List String) (q : Int)
    (hq : q ∉ c.position_args_) : (c.capture L i toks).state.arg_at q = c.arg_at q := by
  induction toks generalizing c i with
  | nil => rfl
  | cons tok toks ih =>
    rw [capture_cons]
    cases hp : c.position_args_[i]? with
    | none => exact ih (c.push_position tok) (i + 1) hq
    | some p =>
      simp only [Res.bind]
      have hmem : p ∈ c.position_args_ := List.getElem?_mem hp
      have hne : q ≠ p := fun e => hq (e ▸ hmem)
      have h1 : ((c.push_position tok).set_arg p ((c.arg_at p).set_value L tok).state).arg_at q =
          c.arg_at q := by
        rw [arg_at_set_arg]
        simp only [hne, false_and, if_false]
        rfl
      cases ((c.arg_at p).set_value L tok).thrown with
      | none =>
        exact (ih ((c.push_position tok).set_arg p ((c.arg_at p).set_value L tok).state)
          (i + 1) hq).trans h1
      | some e => exact h1

theorem capture_subcommands (L : Libc) (c : Command) (i : Nat) (toks : List String) :
    (c.capture L i toks).state.subcommandname_2_subcommand_ = c.subcommandname_2_subcommand_ ∧
      (c.capture L i toks).state.current_subcommand_name_ = c.current_subcommand_name_ := by
  induction toks generalizing c i with
  | nil => exact ⟨rfl, rfl⟩
  | cons tok toks ih =>
    rw [capture_cons]
    cases hp : c.position_args_[i]? with
    | none => exact ih (c.push_position tok) (i + 1)
    | some p =>
      simp only [Res.bind]
      cases ((c.arg_at p).set_value L tok).thrown with
      | none =>
        exact ih ((c.push_position tok).set_arg p ((c.arg_at p).set_value L tok).state) (i + 1)
      | some e => exact ⟨rfl, rfl⟩

theorem capture_positions_cases (L : Libc) (c : Command) (argc : Int) (run : GetoptRun) :
    (∃ e, c.capture_positions L argc run = Res.throw c e) ∨
      (∃ toks, c.capture_positions L argc run = c.capture L 0 toks) := by
  unfold Command.capture_positions
  split
  · exact Or.inl ⟨_, rfl⟩
  · split
    · exact Or.inl ⟨_, rfl⟩
    · exact Or.inr ⟨_, rfl⟩

theorem capture_positions_frame (L : Libc) (c : Command) (argc : Int) (run : GetoptRun) :
    Command.Frame c (c.capture_positions L argc run).state := by
  rcases capture_positions_cases L c argc run with ⟨e, h⟩ | ⟨toks, h⟩
  · rw [h]
    exact Command.Frame.refl c
  · rw [h]
    exact capture_frame L c 0 toks

theorem capture_positions_other (L : Libc) (c : Command) (argc : Int) (run : GetoptRun)
    (q : Int) (hq : q ∉ c.position_args_) :
    (c.capture_positions L argc run).state.arg_at q = c.arg_at q := by
  rcases capture_positions_cases L c argc run with ⟨e, h⟩ | ⟨toks, h⟩
  · rw [h]
    rfl
  · rw [h]
    exact capture_other L c 0 toks q hq

theorem check_state {σ : Type} (r : Res σ) (f : σ → Option Exn) : (r.check f).state = r.state := by
  unfold Res.check Res.bind
  cases h : r.thrown <;> rfl

theorem check_thrown {σ : Type} (r : Res σ) (f : σ → Option Exn) :
    (r.check f).thrown = match r.thrown with
      | none => f r.state
      | some e => some e := by
  unfold Res.check Res.bind
  cases h : r.thrown with
  | none => rfl
  | some e => simp [h]

theorem bind_thrown_none {σ : Type} (r : Res σ) (f : σ → Res σ)
    (h : (r.bind f).thrown = none) : r.thrown = none ∧ (f r.state).thrown = none := by
  unfold Res.bind at h
  cases hr : r.thrown with
  | none =>
    rw [hr] at h
    exact ⟨rfl, h⟩
  | some e =>
    rw [hr] at h
    simp [hr] at h

theorem bind_of_thrown {σ : Type} (r : Res σ) (f : σ → Res σ) (e : Exn)
    (h : r.thrown = some e) : r.bind f = r := by
  unfold Res.bind
  rw [h]

theorem bind_of_ok {σ : Type} (r : Res σ) (f : σ → Res σ) (h : r.thrown = none) :
    r.bind f = f r.state := by
  unfold Res.bind
  rw [h]

theorem check_of_thrown {σ : Type} (r : Res σ) (f : σ → Option Exn) (e : Exn)
    (h : r.thrown = some e) : r.check f = r :=
  bind_of_thrown r _ e h

theorem check_thrown_none {σ : Type} (r : Res σ) (f : σ → Option Exn)
    (h : (r.check f).thrown = none) : r.thrown = none ∧ f r.state = none :=
  bind_thrown_none r _ h

/-- `do_parse_args` in terms of the fields of the command. -/
theorem do_parse_args_eq (L : Libc) (c : Command) (argv : List String) :
    c.do_parse_args L argv =
      if c.subcommandname_2_subcommand_.isEmpty then c.parse_own_level L argv
      else
        match (c.parse_own_level L
            (argv.take (Command.subcommand_index c.subcommandname_2_subcommand_ argv))).thrown with
        | some _ =>
          c.parse_own_level L
            (argv.take (Command.subcommand_index c.subcommandname_2_subcommand_ argv))
        | none =>
          match argv[Command.subcommand_index c.subcommandname_2_subcommand_ argv]? with
          | none =>
            Res.throw
              (c.parse_own_level L
                (argv.take (Command.subcommand_index c.subcommandname_2_subcommand_ argv))).state
              (fail ((c.parse_own_level L
                (argv.take
                  (Command.subcommand_index c.subcommandname_2_subcommand_ argv))).state.command_name_
                ++ ": Missing subcommand."))
          | some name =>
            ⟨{ (c.parse_own_level L
                (argv.take
                  (Command.subcommand_index c.subcommandname_2_subcommand_ argv))).state with
                current_subcommand_name_ := some name
                subcommandname_2_subcommand_ :=
                  (Command.dispatch L c.subcommandname_2_subcommand_ name
                    (argv.drop
                      (Command.subcommand_index c.subcommandname_2_subcommand_ argv))).state },
              (Command.dispatch L c.subcommandname_2_subcommand_ name
                (argv.drop
                  (Command.subcommand_index c.subcommandname_2_subcommand_ argv))).thrown⟩ := by
  cases c with
  | mk members subs current =>
    rw [Command.do_parse_args]

/-- The parse of the command's own level inside `parse_args`. -/
theorem parse_args_own (L : Libc) (c : Command) (args : List String) :
    (∀ e, (c.reset_arg_status.parse_own_level L (c.own_tokens args)).thrown = some e →
        c.parse_args L args = c.reset_arg_status.parse_own_level L (c.own_tokens args)) ∧
      ((c.parse_args L args).thrown = none →
        (c.reset_arg_status.parse_own_level L (c.own_tokens args)).thrown = none) ∧
      (c.parse_args L args).state.toCommandMembers =
        (c.reset_arg_status.parse_own_level L (c.own_tokens args)).state.toCommandMembers ∧
      (c.subcommandname_2_subcommand_.isEmpty = true →
        c.parse_args L args = c.reset_arg_status.parse_own_level L args) := by
  have hsub := (reset_subcommands c).1
  unfold Command.parse_args Command.own_tokens
  rw [do_parse_args_eq, hsub]
  cases hE : c.subcommandname_2_subcommand_.isEmpty with
  | true => simp
  | false =>
    simp only [Bool.false_eq_true, if_false]
    generalize c.reset_arg_status.parse_own_level L
      (args.take (Command.subcommand_index c.subcommandname_2_subcommand_ args)) = r
    cases hr : r.thrown with
    | some e => simp [hr]
    | none =>
      simp only
      cases args[Command.subcommand_index c.subcommandname_2_subcommand_ args]? with
      | none => simp [Res.throw]
      | some name => simp

theorem internel_eq (L : Libc) (c : Command) (argv : List String) :
    c.do_parse_args_internel L argv =
      ((c.scan_events L (L.getopt_long_only argv c.c_short_opts_ c.c_long_opts_).events).check
        Command.check_required_args).bind
        (fun c1 => c1.capture_positions L argv.length
          (L.getopt_long_only argv c.c_short_opts_ c.c_long_opts_)) := rfl

/-- The phases that follow the scan, for an arbitrary outcome `sc` of the scan. -/
theorem phases_after_scan (L : Libc) (sc : Res Command) (argc : Int) (run : GetoptRun) :
    (∀ e, sc.thrown = some e →
        (((((sc.check Command.check_required_args).bind
          (fun c1 => c1.capture_positions L argc run)).check
          Command.check_conflict_with_all_args).check Command.check_related_groups).check
          Command.check_conflict_groups).check Command.check_one_required_group = sc) ∧
      (∀ e, sc.thrown = none → sc.state.check_required_args = some e →
        (((((sc.check Command.check_required_args).bind
          (fun c1 => c1.capture_positions L argc run)).check
          Command.check_conflict_with_all_args).check Command.check_related_groups).check
          Command.check_conflict_groups).check Command.check_one_required_group =
          ⟨sc.state, some e⟩) ∧
      (((((((sc.check Command.check_required_args).bind
          (fun c1 => c1.capture_positions L argc run)).check
          Command.check_conflict_with_all_args).check Command.check_related_groups).check
          Command.check_conflict_groups).check Command.check_one_required_group).thrown = none →
        sc.thrown = none ∧ sc.state.check_required_args = none) ∧
      Command.Frame sc.state
        ((((((sc.check Command.check_required_args).bind
          (fun c1 => c1.capture_positions L argc run)).check
          Command.check_conflict_with_all_args).check Command.check_related_groups).check
          Command.check_conflict_groups).check Command.check_one_required_group).state ∧
      (∀ q, q ∉ sc.state.position_args_ →
        ((((((sc.check Command.check_required_args).bind
          (fun c1 => c1.capture_positions L argc run)).check
          Command.check_conflict_with_all_args).check Command.check_related_groups).check
          Command.check_conflict_groups).check Command.check_one_required_group).state.arg_at q =
          sc.state.arg_at q) := by
  cases hs : sc.thrown with
  | some e =>
    have h1 : (sc.check Command.check_required_args) = sc := check_of_thrown sc _ e hs
    rw [h1, bind_of_thrown sc _ e hs, check_of_thrown sc _ e hs, check_of_thrown sc _ e hs,
      check_of_thrown sc _ e hs, check_of_thrown sc _ e hs]
    refine ⟨?_, ?_, ?_, ?_, ?_⟩
    · intro _ _
      rfl
    · intro _ h
      cases h
    · intro h
      rw [hs] at h
      cases h
    · exact Command.Frame.refl _
    · intro _ _
      rfl
  | none =>
    cases hr : sc.state.check_required_args with
    | some e =>
      have h1 : (sc.check Command.check_required_args) = ⟨sc.state, some e⟩ := by
        have : sc.check Command.check_required_args =
            ⟨sc.state, sc.state.check_required_args⟩ := bind_of_ok sc _ hs
        rw [this, hr]
      rw [h1, bind_of_thrown _ _ e rfl, check_of_thrown _ _ e rfl, check_of_thrown _ _ e rfl,
        check_of_thrown _ _ e rfl, check_of_thrown _ _ e rfl]
      refine ⟨?_, ?_, ?_, ?_, ?_⟩
      · intro _ h
        cases h
      · intro e2 _ h
        cases h
        rfl
      · intro h
        cases h
      · exact Command.Frame.refl _
      · intro _ _
        rfl
    | none =>
      have h1 : (sc.check Command.check_required_args) = ⟨sc.state, none⟩ := by
        have : sc.check Command.check_required_args =
            ⟨sc.state, sc.state.check_required_args⟩ := bind_of_ok sc _ hs
        rw [this, hr]
      rw [h1, bind_of_ok _ _ rfl]
      simp only [check_state]
      refine ⟨?_, ?_, ?_, ?_, ?_⟩
      · intro _ h
        cases h
      · intro _ _ h
        cases h
      · intro _
        constructor <;> first | rfl | trivial
      · exact capture_positions_frame L sc.state _ run
      · intro q hq
        exact capture_positions_other L sc.state _ run q hq

/-- The own level of `parse_args` relative to its scan phase: a failure of the scan or of the
required check is the outcome; otherwise the later phases keep the declarations and every
argument outside `position_args_`. -/
theorem own_level_after_scan (L : Libc) (c : Command) (args : List String) :
    (∀ e, (c.scanned L args).thrown = some e →
        c.reset_arg_status.parse_own_level L (c.own_tokens args) = c.scanned L args) ∧
      (∀ e, (c.scanned L args).thrown = none →
        (c.scanned L args).state.check_required_args = some e →
        c.reset_arg_status.parse_own_level L (c.own_tokens args) =
          ⟨(c.scanned L args).state, some e⟩) ∧
      ((c.reset_arg_status.parse_own_level L (c.own_tokens args)).thrown = none →
        (c.scanned L args).thrown = none ∧
          (c.scanned L args).state.check_required_args = none) ∧
      Command.Frame (c.scanned L args).state
        (c.reset_arg_status.parse_own_level L (c.own_tokens args)).state ∧
      (∀ q, q ∉ c.position_args_ →
        (c.reset_arg_status.parse_own_level L (c.own_tokens args)).state.arg_at q =
          (c.scanned L args).state.arg_at q) := by
  have hpos : (c.scanned L args).state.position_args_ = c.position_args_ :=
    ((scan_events_frame L (c.prepared L) _).position_args).trans (prepared_rest L c).2.2.2.2.1
  have h := phases_after_scan L (c.scanned L args) (c.own_tokens args).length
    (c.own_run L args)
  rw [hpos] at h
  exact h

@[simp] theorem reset_status_info_arg_type (a : Arg) :
    a.reset_status_info.arg_type_ = a.arg_type_ := by
  unfold Arg.reset_status_info
  split <;> rfl

@[simp] theorem reset_status_info_is_hit (a : Arg) : a.reset_status_info.is_hit_ = false := by
  unfold Arg.reset_status_info
  split <;> rfl

theorem missing_msg_long (cmd : String) (long : Option String) :
    ∃ text, insert_cstr (cmd ++ ": Missing required option: --") long "." =
      cmd ++ ": Missing required option: -" ++ text := by
  cases long with
  | none =>
    refine ⟨"-", ?_⟩
    apply String.ext
    simp [insert_cstr, String.data_append]
  | some l =>
    refine ⟨"-" ++ l ++ ".", ?_⟩
    apply String.ext
    simp [insert_cstr, String.data_append]

/-- `check_required_args` throws, and then its missing-required message, iff some argument
held by the long-name or short-name map is Required and not hit. -/
theorem check_required_args_spec (c : Command) :
    (c.check_required_args = none ↔
        (∀ e ∈ c.longname_2_arg_, c.missing_required e.2 = false) ∧
          (∀ e ∈ c.shortname_2_arg_, c.missing_required e.2 = false)) ∧
      (∀ e, c.check_required_args = some e →
        ∃ text, e = Exn.ParseArgsError
          (c.command_name_ ++ ": Missing required option: -" ++ text)) := by
  unfold Command.check_required_args
  cases hl : c.longname_2_arg_.find? (fun e => c.missing_required e.2) with
  | some e =>
    simp only
    constructor
    · constructor
      · intro h
        cases h
      · intro h
        have hmem := List.mem_of_find?_eq_some hl
        have hp := List.find?_some hl
        rw [h.1 e hmem] at hp
        cases hp
    · intro e2 he2
      obtain ⟨text, ht⟩ := missing_msg_long c.command_name_ (c.arg_at e.2).long_name_
      refine ⟨text, ?_⟩
      cases he2
      rw [fail_eq, ht]
  | none =>
    simp only
    have hlong : ∀ e ∈ c.longname_2_arg_, c.missing_required e.2 = false := by
      intro e he
      have := List.find?_eq_none.mp hl e he
      simpa using this
    cases hsh : c.shortname_2_arg_.find? (fun e => c.missing_required e.2) with
    | some e =>
      simp only
      constructor
      · constructor
        · intro h
          cases h
        · intro h
          have hmem := List.mem_of_find?_eq_some hsh
          have hp := List.find?_some hsh
          rw [h.2 e hmem] at hp
          cases hp
      · intro e2 he2
        refine ⟨String.singleton (c.arg_at e.2).short_name_ ++ ".", ?_⟩
        cases he2
        rw [fail_eq]
        congr 1
        apply String.ext
        simp [String.data_append]
    | none =>
      simp only
      have hshort : ∀ e ∈ c.shortname_2_arg_, c.missing_required e.2 = false := by
        intro e he
        have := List.find?_eq_none.mp hsh e he
        simpa using this
      refine ⟨⟨fun _ => ⟨hlong, hshort⟩, fun _ => ?_⟩, fun e he => by cases he⟩
      first | rfl | trivial

theorem occurrences_nil (L : Libc) (c : Command) (args : List String) (p : Int)
    (h : c.occurrences L args p = []) :
    ∀ ev ∈ (c.own_run L args).events, (c.prepared L).event_target ev ≠ some p := by
  intro ev hev htarget
  unfold Command.occurrences at h
  have hmem : ev ∈ (c.own_run L args).events.filter
      (fun ev => decide ((c.prepared L).event_target ev = some p)) := by
    rw [List.mem_filter]
    exact ⟨hev, by simpa using htarget⟩
  rw [List.map_eq_nil_iff] at h
  rw [h] at hmem
  cases hmem

/-- An argument held by a name map of a well-formed command under a name that is not the
reserved one is still held by the map after the help argument was added. -/
theorem registered_prepared (L : Libc) (c : Command) (p : Int) (hwf : c.WF)
    (hreg : c.registered p) (hkind : (c.arg_at p).arg_type_ ≠ ArgType.FLAG) :
    p ≠ c.current_argid_ ∧
      ((∃ e ∈ (c.prepared L).longname_2_arg_, e.2 = p) ∨
        (∃ e ∈ (c.prepared L).shortname_2_arg_, e.2 = p)) := by
  rcases hreg with hl | hs
  · obtain ⟨e, he, rfl⟩ := List.mem_map.mp hl
    have hfresh := hwf.long_fresh e he
    refine ⟨by omega, Or.inl ⟨e, ?_, rfl⟩⟩
    rw [prepared_longname]
    exact mem_map_assign_of_mem _ _ _ _ e he (fun hk => hkind (hwf.help_long e he hk))
  · obtain ⟨e, he, rfl⟩ := List.mem_map.mp hs
    have hfresh := hwf.short_fresh e he
    refine ⟨by omega, Or.inr ⟨e, ?_, rfl⟩⟩
    rw [prepared_shortname]
    exact mem_map_assign_of_mem _ _ _ _ e he (fun hk => hkind (hwf.help_short e he hk))

theorem required_command_parsed_wf : required_command_parsed.WF :=
  ⟨by decide, by decide, by decide, by decide, by decide, by decide, by decide, by decide⟩

theorem check_last_state (L : Libc) (b : Arg) : (Arg.check_last L b).state = b := by
  unfold Arg.check_last
  rw [check_state, check_state]
  rfl

theorem set_value_state (L : Libc) (a : Arg) (v : String) (hf : a.arg_type_ ≠ ArgType.FLAG) :
    (a.set_value L v).state = a.clear_default.push_back v := by
  unfold Arg.set_value
  rw [if_neg hf, check_last_state]

theorem set_value_flag (L : Libc) (a : Arg) (v : String) (hf : a.arg_type_ = ArgType.FLAG) :
    a.set_value L v = Res.ok { a with values_ := v :: a.values_.tail } := by
  unfold Arg.set_value
  rw [if_pos hf]

@[simp] theorem set_hit_arg_type (a : Arg) : a.set_hit.arg_type_ = a.arg_type_ := rfl

@[simp] theorem set_hit_values (a : Arg) : a.set_hit.values_ = a.values_ := rfl

@[simp] theorem set_hit_has_default (a : Arg) :
    a.set_hit.has_default_value_ = a.has_default_value_ := rfl

@[simp] theorem set_hit_cleared (a : Arg) :
    a.set_hit.is_default_value_cleared_ = a.is_default_value_cleared_ := rfl

@[simp] theorem set_hit_is_hit (a : Arg) : a.set_hit.is_hit_ = true := rfl

theorem clear_default_cleared (a : Arg) (h : a.clear_default.has_default_value_ = true) :
    a.clear_default.is_default_value_cleared_ = true := by
  unfold Arg.clear_default at h ⊢
  cases h1 : a.has_default_value_ <;> cases h2 : a.is_default_value_cleared_ <;>
    simp_all

@[simp] theorem push_back_cleared (a : Arg) (v : String) :
    (a.push_back v).is_default_value_cleared_ = a.is_default_value_cleared_ := rfl

theorem replay_cons (L : Libc) (a : Arg) (v : String) (vs : List String) :
    a.replay L (v :: vs) = (a.set_hit.set_value L v).state.replay L vs := rfl

theorem replay_nil (L : Libc) (a : Arg) : a.replay L [] = a := rfl

/-- The values of an argument that is not a flag after at least one occurrence: a default
still in place is gone, the occurrences follow in order. -/
theorem replay_values (L : Libc) (a : Arg) (vals : List String)
    (hf : a.arg_type_ ≠ ArgType.FLAG) (hne : vals ≠ []) :
    (a.replay L vals).values_ = a.clear_default.values_ ++ vals := by
  induction vals generalizing a with
  | nil => exact absurd rfl hne
  | cons v vs ih =>
    rw [replay_cons, set_value_state L a.set_hit v (by simpa using hf)]
    have hcd : a.set_hit.clear_default.values_ = a.clear_default.values_ := by
      rw [clear_default_values, clear_default_values]
      rfl
    cases vs with
    | nil => rw [replay_nil, push_back_values, hcd]
    | cons w ws =>
      rw [ih (a.set_hit.clear_default.push_back v) (by simpa using hf) (by simp)]
      have hnot : ¬ ((a.set_hit.clear_default.push_back v).has_default_value_ = true ∧
          (a.set_hit.clear_default.push_back v).is_default_value_cleared_ = false) := by
        rintro ⟨h1, h2⟩
        rw [push_back_has_default] at h1
        rw [push_back_cleared, clear_default_cleared _ h1] at h2
        cases h2
      rw [clear_default_values, if_neg hnot, push_back_values, hcd]
      simp

theorem toMembers_arg_at (c c1 : Command) (h : c1.toCommandMembers = c.toCommandMembers)
    (q : Int) : c1.arg_at q = c.arg_at q := by
  unfold Command.arg_at
  rw [h]

theorem get_many_values_congr {T : Type} (conv : String → Except Exn T) (c c1 : Command)
    (h : c1.toCommandMembers = c.toCommandMembers) (name : String) :
    c1.get_many_values conv name = c.get_many_values conv name := by
  unfold Command.get_many_values Command.arg_at
  rw [h]

theorem get_one_value_congr {T : Type} (conv : String → Except Exn T) (c c1 : Command)
    (h : c1.toCommandMembers = c.toCommandMembers) (name : String) :
    c1.get_one_value conv name = c.get_one_value conv name := by
  unfold Command.get_one_value Command.arg_at
  rw [h]

theorem get_many_values_short_congr {T : Type} (conv : String → Except Exn T) (c c1 : Command)
    (h : c1.toCommandMembers = c.toCommandMembers) (name : Char) :
    c1.get_many_values_short conv name = c.get_many_values_short conv name := by
  unfold Command.get_many_values_short Command.arg_at
  rw [h]

theorem get_one_value_short_congr {T : Type} (conv : String → Except Exn T) (c c1 : Command)
    (h : c1.toCommandMembers = c.toCommandMembers) (name : Char) :
    c1.get_one_value_short conv name = c.get_one_value_short conv name := by
  unfold Command.get_one_value_short Command.arg_at
  rw [h]

theorem has_arg_congr (c c1 : Command) (h : c1.toCommandMembers = c.toCommandMembers)
    (name : String) : c1.has_arg name = c.has_arg name := by
  unfold Command.has_arg Command.arg_at
  rw [h]

theorem has_arg_short_congr (c c1 : Command) (h : c1.toCommandMembers = c.toCommandMembers)
    (name : Char) : c1.has_arg_short name = c.has_arg_short name := by
  unfold Command.has_arg_short Command.arg_at
  rw [h]

theorem prepared_present (L : Libc) (c : Command) (p : Int)
    (hp : (map_find p c.argid_2_arg_).isSome = true) :
    (map_find p (c.prepared L).argid_2_arg_).isSome = true := by
  show (map_find p (c.reset_arg_status.add_help_arg L).argid_2_arg_).isSome = true
  rw [add_help_args, map_find_assign]
  by_cases h : p = c.reset_arg_status.current_argid_
  · simp [h]
  · simp only [h, if_false]
    rw [(reset_frame c).present]
    exact hp

/-- The name maps after `parse_args`, whatever its outcome: those of the command with the
help argument of this parse filed under `help` and `h`. -/
theorem parsed_maps (L : Libc) (c : Command) (args : List String) :
    (c.parse_args L args).state.longname_2_arg_ =
        map_assign CStrCmp "help" c.current_argid_ c.longname_2_arg_ ∧
      (c.parse_args L args).state.shortname_2_arg_ =
        map_assign char_lt 'h' c.current_argid_ c.shortname_2_arg_ := by
  have h1 := (parse_args_own L c args).2.2.1
  have h2 := (own_level_after_scan L c args).2.2.2.1
  have h3 := scan_events_frame L (c.prepared L) (c.own_run L args).events
  constructor
  · have : (c.parse_args L args).state.longname_2_arg_ =
        (c.reset_arg_status.parse_own_level L (c.own_tokens args)).state.longname_2_arg_ :=
      congrArg CommandMembers.longname_2_arg_ h1
    rw [this, h2.longname]
    exact h3.longname.trans (prepared_longname L c)
  · have : (c.parse_args L args).state.shortname_2_arg_ =
        (c.reset_arg_status.parse_own_level L (c.own_tokens args)).state.shortname_2_arg_ :=
      congrArg CommandMembers.shortname_2_arg_ h1
    rw [this, h2.shortname]
    exact h3.shortname.trans (prepared_shortname L c)

/-- The stored argument behind a registered handle after a `parse_args` whose scan completed:
the argument as reset, then its occurrences of this parse in order. -/
theorem parsed_arg_at (L : Libc) (c : Command) (args : List String) (p : Int)
    (hne : p ≠ c.current_argid_) (hpres : (map_find p c.argid_2_arg_).isSome = true)
    (hpos : p ∉ c.position_args_) (hreg : c.registered p)
    (hscan : (c.scanned L args).thrown = none) :
    (c.parse_args L args).state.arg_at p =
      (c.arg_at p).reset_status_info.replay L (c.occurrences L args p) := by
  rw [toMembers_arg_at _ _ (parse_args_own L c args).2.2.1,
    (own_level_after_scan L c args).2.2.2.2 p hpos]
  show ((c.prepared L).scan_events L (c.own_run L args).events).state.arg_at p = _
  rw [scan_events_replay L (c.prepared L) _ p (prepared_present L c p hpres) hscan,
    prepared_arg_at]
  simp only [hne, if_false, hreg, if_true]
  rfl

theorem reset_status_info_of_default (a : Arg) (h : a.has_default_value_ = true) :
    a.reset_status_info.values_ = a.default_values_ ∧
      a.reset_status_info.has_default_value_ = true ∧
      a.reset_status_info.is_default_value_cleared_ = false := by
  unfold Arg.reset_status_info
  rw [if_pos h]
  exact ⟨rfl, h, rfl⟩

theorem transform_string (vs : List String) : transform to_value_string vs = .ok vs := by
  induction vs with
  | nil => rfl
  | cons v vs ih => simp [transform, to_value_string, ih]

theorem parse_ok_scanned (L : Libc) (c : Command) (args : List String)
    (hok : (c.parse_args L args).thrown = none) : (c.scanned L args).thrown = none :=
  ((own_level_after_scan L c args).2.2.1 ((parse_args_own L c args).2.1 hok)).1

/-- The values of an Optional argument with a default after a successful parse. -/
theorem parsed_default_values (L : Libc) (c : Command) (args : List String) (p : Int)
    (hwf : c.WF) (hreg : c.registered p)
    (hopt : (c.arg_at p).arg_type_ = ArgType.OPTIONAL)
    (hdef : (c.arg_at p).has_default_value_ = true)
    (hpres : (map_find p c.argid_2_arg_).isSome = true)
    (hok : (c.parse_args L args).thrown = none) :
    ((c.parse_args L args).state.arg_at p).values_ = c.values_after L args p := by
  have hkind : (c.arg_at p).arg_type_ ≠ ArgType.FLAG := by
    rw [hopt]
    decide
  have hne := (registered_prepared L c p hwf hreg hkind).1
  have hpos : p ∉ c.position_args_ := by
    intro hmem
    have := hwf.position_kind p hmem
    rw [hopt] at this
    cases this
  rw [parsed_arg_at L c args p hne hpres hpos hreg (parse_ok_scanned L c args hok)]
  obtain ⟨h1, h2, h3⟩ := reset_status_info_of_default (c.arg_at p) hdef
  unfold Command.values_after
  by_cases hocc : c.occurrences L args p = []
  · rw [hocc, replay_nil, h1, if_pos rfl]
  · rw [if_neg hocc, replay_values L _ _ (by simpa using hkind) hocc, clear_default_values,
      if_pos ⟨h2, h3⟩]
    rfl

theorem default_values_command_parsed_wf : default_values_command_parsed.WF :=
  ⟨by decide, by decide, by decide, by decide, by decide, by decide, by decide, by decide⟩

theorem conflict_of_spec (c : Command) (a : Arg) :
    (c.conflict_of a ≠ none ↔
        (∃ e ∈ c.longname_2_arg_,
            a.long_name_ ≠ (c.arg_at e.2).long_name_ ∧ (c.arg_at e.2).is_hit_ = true) ∨
          (∃ e ∈ c.shortname_2_arg_,
            a.short_name_ ≠ (c.arg_at e.2).short_name_ ∧ (c.arg_at e.2).is_hit_ = true)) ∧
      (∀ e, c.conflict_of a = some e → ∃ msg, e = Exn.ParseArgsError msg) := by
  unfold Command.conflict_of
  cases hl : c.longname_2_arg_.find?
      (fun e => decide (a.long_name_ ≠ (c.arg_at e.2).long_name_) && (c.arg_at e.2).is_hit_) with
  | some e =>
    simp only
    refine ⟨⟨fun _ => Or.inl ⟨e, List.mem_of_find?_eq_some hl, ?_⟩, fun _ h => by cases h⟩,
      fun e2 he2 => ⟨_, (Option.some.inj he2).symm⟩⟩
    have := List.find?_some hl
    simpa using this
  | none =>
    simp only
    have hlong : ¬ ∃ e ∈ c.longname_2_arg_,
        a.long_name_ ≠ (c.arg_at e.2).long_name_ ∧ (c.arg_at e.2).is_hit_ = true := by
      rintro ⟨e, he, h1, h2⟩
      have := List.find?_eq_none.mp hl e he
      simp [h1, h2] at this
    cases hs : c.shortname_2_arg_.find?
        (fun e => decide (a.short_name_ ≠ (c.arg_at e.2).short_name_) &&
          (c.arg_at e.2).is_hit_) with
    | some e =>
      simp only
      refine ⟨⟨fun _ => Or.inr ⟨e, List.mem_of_find?_eq_some hs, ?_⟩, fun _ h => by cases h⟩,
        fun e2 he2 => ⟨_, (Option.some.inj he2).symm⟩⟩
      have := List.find?_some hs
      simpa using this
    | none =>
      simp only
      refine ⟨⟨fun h => absurd rfl h, ?_⟩, fun e he => by cases he⟩
      rintro (h | ⟨e, he, h1, h2⟩)
      · exact absurd h hlong
      · have := List.find?_eq_none.mp hs e he
        simp [h1, h2] at this

theorem conflict_scan_spec (c : Command) (ps : List Int) :
    (c.conflict_scan ps ≠ none ↔
        ∃ p ∈ ps, (c.arg_at p).is_hit_ = true ∧ c.conflict_of (c.arg_at p) ≠ none) ∧
      (∀ e, c.conflict_scan ps = some e → ∃ msg, e = Exn.ParseArgsError msg) := by
  induction ps with
  | nil => simp [Command.conflict_scan]
  | cons p ps ih =>
    simp only [Command.conflict_scan]
    cases hh : (c.arg_at p).is_hit_ with
    | false =>
      simp only [Bool.false_eq_true, if_false]
      refine ⟨?_, ih.2⟩
      rw [ih.1]
      constructor
      · rintro ⟨q, hq, h1, h2⟩
        exact ⟨q, List.mem_cons_of_mem _ hq, h1, h2⟩
      · rintro ⟨q, hq, h1, h2⟩
        rcases List.mem_cons.mp hq with rfl | hm
        · rw [hh] at h1
          cases h1
        · exact ⟨q, hm, h1, h2⟩
    | true =>
      simp only [if_true]
      cases hc : c.conflict_of (c.arg_at p) with
      | some e =>
        simp only
        refine ⟨⟨fun _ => ⟨p, List.mem_cons_self _ _, hh, by rw [hc]; simp⟩,
          fun _ h => by cases h⟩, ?_⟩
        intro e2 he2
        cases he2
        exact (conflict_of_spec c (c.arg_at p)).2 e hc
      | none =>
        simp only
        refine ⟨?_, ih.2⟩
        rw [ih.1]
        constructor
        · rintro ⟨q, hq, h1, h2⟩
          exact ⟨q, List.mem_cons_of_mem _ hq, h1, h2⟩
        · rintro ⟨q, hq, h1, h2⟩
          rcases List.mem_cons.mp hq with rfl | hm
          · exact absurd hc h2
          · exact ⟨q, hm, h1, h2⟩

/-- For a marked argument that is filed under its names: its conflict loops find something
iff another named argument is hit. -/
theorem conflict_of_marked (c : Command) (p : Int) (hn : c.names_filed)
    (hm : c.marked_filed) (hb : c.blank_unhit) (hp : p ∈ c.conflict_with_all_args_) :
    c.conflict_of (c.arg_at p) ≠ none ↔
      ∃ q, q ≠ p ∧ c.named q ∧ (c.arg_at q).is_hit_ = true := by
  rw [(conflict_of_spec c (c.arg_at p)).1]
  obtain ⟨_, hml, hms⟩ := hm p hp
  constructor
  · rintro (⟨e, he, h1, h2⟩ | ⟨e, he, h1, h2⟩)
    · refine ⟨e.2, ?_, Or.inl ⟨e, he, rfl⟩, h2⟩
      intro heq
      rw [heq] at h1
      exact h1 rfl
    · have hne : e.2 ≠ p := by
        intro heq
        rw [heq] at h1
        exact h1 rfl
      by_cases hbl : e.1 = ' '
      · obtain ⟨e2, he2, h3⟩ := hb e he hbl h2
        exact ⟨e.2, hne, Or.inl ⟨e2, he2, h3⟩, h2⟩
      · exact ⟨e.2, hne, Or.inr ⟨e, he, hbl, rfl⟩, h2⟩
  · rintro ⟨q, hne, hnamed, hhit⟩
    rcases hnamed with ⟨e, he, rfl⟩ | ⟨e, he, hbl, rfl⟩
    · refine Or.inl ⟨e, he, ?_, hhit⟩
      intro heq
      rw [hn.1 e he] at heq
      exact hne (hml e he heq)
    · refine Or.inr ⟨e, he, ?_, hhit⟩
      intro heq
      rw [hn.2 e he] at heq
      exact hne (hms e he hbl heq)

theorem file_long_members (c : Command) (a : Arg) :
    (c.file_long a).current_argid_ = c.current_argid_ ∧
      (c.file_long a).shortname_2_arg_ = c.shortname_2_arg_ ∧
      (c.file_long a).argid_2_arg_ = c.argid_2_arg_ ∧
      (c.file_long a).position_args_ = c.position_args_ ∧
      (c.file_long a).current_position_id_ = c.current_position_id_ ∧
      (c.file_long a).subcommandname_2_subcommand_ = c.subcommandname_2_subcommand_ ∧
      (c.file_long a).longname_2_arg_ =
        (match a.long_name_ with
          | some long => map_assign CStrCmp long a.arg_id_ c.longname_2_arg_
          | none => c.longname_2_arg_) := by
  unfold Command.file_long
  cases a.long_name_ <;> exact ⟨rfl, rfl, rfl, rfl, rfl, rfl, rfl⟩

theorem file_short_members (c : Command) (a : Arg) :
    (c.file_short a).current_argid_ = c.current_argid_ ∧
      (c.file_short a).longname_2_arg_ = c.longname_2_arg_ ∧
      (c.file_short a).argid_2_arg_ = c.argid_2_arg_ ∧
      (c.file_short a).position_args_ = c.position_args_ ∧
      (c.file_short a).current_position_id_ = c.current_position_id_ ∧
      (c.file_short a).subcommandname_2_subcommand_ = c.subcommandname_2_subcommand_ ∧
      (c.file_short a).shortname_2_arg_ =
        (if a.short_name_ ≠ Char.ofNat 0 then
          map_assign char_lt a.short_name_ a.arg_id_ c.shortname_2_arg_
        else c.shortname_2_arg_) := by
  unfold Command.file_short Command.update_c_short_args
  split
  · split <;> exact ⟨rfl, rfl, rfl, rfl, rfl, rfl, rfl⟩
  · exact ⟨rfl, rfl, rfl, rfl, rfl, rfl, rfl⟩

theorem file_conflict_members (c : Command) (a : Arg) :
    (c.file_conflict a).current_argid_ = c.current_argid_ ∧
      (c.file_conflict a).longname_2_arg_ = c.longname_2_arg_ ∧
      (c.file_conflict a).shortname_2_arg_ = c.shortname_2_arg_ ∧
      (c.file_conflict a).argid_2_arg_ = c.argid_2_arg_ ∧
      (c.file_conflict a).position_args_ = c.position_args_ ∧
      (c.file_conflict a).current_position_id_ = c.current_position_id_ ∧
      (c.file_conflict a).subcommandname_2_subcommand_ = c.subcommandname_2_subcommand_ := by
  unfold Command.file_conflict
  split <;> exact ⟨rfl, rfl, rfl, rfl, rfl, rfl, rfl⟩

theorem file_position_members (c : Command) (a : Arg) :
    (c.file_position a).current_argid_ = c.current_argid_ ∧
      (c.file_position a).longname_2_arg_ = c.longname_2_arg_ ∧
      (c.file_position a).shortname_2_arg_ = c.shortname_2_arg_ ∧
      (c.file_position a).argid_2_arg_ = c.argid_2_arg_ ∧
      (c.file_position a).subcommandname_2_subcommand_ = c.subcommandname_2_subcommand_ ∧
      (c.file_position a).position_args_ =
        (if a.arg_type_ = ArgType.POSITION then c.position_args_ ++ [a.arg_id_]
        else c.position_args_) := by
  unfold Command.file_position
  split <;> exact ⟨rfl, rfl, rfl, rfl, rfl, rfl⟩

/-- What `Arg.filed` keeps of the argument. -/
theorem filed_members (L : Libc) (a : Arg) (pos : Int) :
    (a.filed L pos).arg_type_ = a.arg_type_ ∧ (a.filed L pos).is_hit_ = a.is_hit_ ∧
      (a.filed L pos).has_default_value_ = a.has_default_value_ ∧
      (a.filed L pos).long_name_ = a.long_name_ ∧ (a.filed L pos).short_name_ = a.short_name_ ∧
      (a.filed L pos).is_range_ = a.is_range_ ∧ (a.filed L pos).is_choice_ = a.is_choice_ ∧
      (a.filed L pos).arg_id_ = a.arg_id_ ∧
      (a.arg_type_ ≠ ArgType.FLAG → (a.filed L pos).values_ = a.values_) := by
  unfold Arg.filed
  by_cases hf : a.arg_type_ = ArgType.FLAG
  · have hp : ¬ (a.set_value L "0").state.arg_type_ = ArgType.POSITION := by
      rw [set_value_flag L a "0" hf]
      show ¬ a.arg_type_ = ArgType.POSITION
      rw [hf]
      decide
    simp only [hf, if_true, hp, if_false]
    rw [set_value_flag L a "0" hf]
    exact ⟨hf, rfl, rfl, rfl, rfl, rfl, rfl, rfl, fun h => absurd rfl h⟩
  · simp only [hf, if_false]
    split <;> exact ⟨rfl, rfl, rfl, rfl, rfl, rfl, rfl, rfl, fun _ => rfl⟩

/-- What `Command::arg` leaves when it returns: the next id, the name maps with the argument
filed under its names, the argument stored under the id it was given, the positional list. -/
theorem arg_spec (L : Libc) (c : Command) (a : Arg) (h : (c.arg L a).thrown = none) :
    (c.arg L a).state.current_argid_ = c.current_argid_ - 1 ∧
      (c.arg L a).state.longname_2_arg_ =
        (match a.long_name_ with
          | some long => map_assign CStrCmp long c.current_argid_ c.longname_2_arg_
          | none => c.longname_2_arg_) ∧
      (c.arg L a).state.shortname_2_arg_ =
        (if a.short_name_ ≠ Char.ofNat 0 then
          map_assign char_lt a.short_name_ c.current_argid_ c.shortname_2_arg_
        else c.shortname_2_arg_) ∧
      (c.arg L a).state.argid_2_arg_ =
        map_assign int_lt c.current_argid_
          ((a.set_argid c.current_argid_).filed L c.current_position_id_) c.argid_2_arg_ ∧
      (c.arg L a).state.position_args_ =
        (if a.arg_type_ = ArgType.POSITION then c.position_args_ ++ [c.current_argid_]
        else c.position_args_) ∧
      (c.arg L a).state.subcommandname_2_subcommand_ = c.subcommandname_2_subcommand_ := by
  unfold Command.arg at h ⊢
  split at h
  · simp [Res.throw] at h
  · rename_i hcond
    rw [if_neg hcond]
    simp only [Res.ok]
    obtain ⟨l1, l2, l3, l4, l5, l6, l7⟩ := file_long_members
      { c with current_argid_ := c.current_argid_ - 1 } (a.set_argid c.current_argid_)
    obtain ⟨s1, s2, s3, s4, s5, s6, s7⟩ := file_short_members
      (Command.file_long { c with current_argid_ := c.current_argid_ - 1 }
        (a.set_argid c.current_argid_)) (a.set_argid c.current_argid_)
    obtain ⟨k1, k2, k3, k4, k5, k6, k7⟩ := file_conflict_members
      (Command.file_short (Command.file_long { c with current_argid_ := c.current_argid_ - 1 }
        (a.set_argid c.current_argid_)) (a.set_argid c.current_argid_))
      (a.set_argid c.current_argid_)
    obtain ⟨p1, p2, p3, p4, p5, p6⟩ := file_position_members
      (Command.file_conflict
        (Command.file_short (Command.file_long { c with current_argid_ := c.current_argid_ - 1 }
          (a.set_argid c.current_argid_)) (a.set_argid c.current_argid_))
        (a.set_argid c.current_argid_)) (a.set_argid c.current_argid_)
    refine ⟨?_, ?_, ?_, ?_, ?_, ?_⟩
    · exact p1.trans (k1.trans (s1.trans l1))
    · exact p2.trans (k2.trans (s2.trans l7))
    · exact p3.trans (k3.trans (s7.trans (by rw [l2]; rfl)))
    · show map_assign int_lt _ _ _ = _
      rw [p4, k4, s3, l3, k6, s5, l5]
      rfl
    · exact p6.trans (by rw [k5, s4, l4]; rfl)
    · exact p5.trans (k7.trans (s6.trans l6))

/-- What holds of every argument the builder methods make: it is not hit, it holds no value
unless it has a default, and it carries neither the long name `help` nor the short
name `h`. -/
theorem built_spec (L : Libc) (a : Arg) (h : Arg.Built L a) :
    a.is_hit_ = false ∧ (a.has_default_value_ = false → a.values_ = []) ∧
      (∀ n, a.long_name_ = some n → n ≠ "help") ∧ a.short_name_ ≠ 'h' := by
  induction h with
  | new_arg type =>
    refine ⟨rfl, ?_, ?_, ?_⟩
    · intro _
      rfl
    · intro n hn
      cases hn
    · exact (by decide : (' ' : Char) ≠ 'h')
  | long_name a name _ hok ih =>
    obtain ⟨i1, i2, i3, i4⟩ := ih
    unfold Arg.long_name at hok ⊢
    split at hok
    · simp [Res.throw] at hok
    · split at hok
      · simp [Res.throw] at hok
      · rename_i hp hh
        split at hok
        · simp [Res.throw] at hok
        · split at hok
          · simp [Res.throw] at hok
          · split at hok
            · simp [Res.throw] at hok
            · rename_i h3 h4 h5
              rw [if_neg hp, if_neg hh, if_neg h3, if_neg h4, if_neg h5]
              refine ⟨i1, i2, ?_, i4⟩
              intro n hn
              have hn2 : name = n := by
                simpa [Res.ok] using hn
              subst hn2
              intro hname
              apply hh
              rw [hname]
              rfl
  | short_name a name _ hok ih =>
    obtain ⟨i1, i2, i3, i4⟩ := ih
    unfold Arg.short_name at hok ⊢
    split at hok
    · simp [Res.throw] at hok
    · split at hok
      · simp [Res.throw] at hok
      · split at hok
        · simp [Res.throw] at hok
        · rename_i hp hh hb
          rw [if_neg hp, if_neg hh, if_neg hb]
          exact ⟨i1, i2, i3, hh⟩
  | conflicts_with_all a _ hok ih =>
    obtain ⟨i1, i2, i3, i4⟩ := ih
    unfold Arg.conflicts_with_all at hok ⊢
    split at hok
    · simp [Res.throw] at hok
    · rename_i hp
      rw [if_neg hp]
      exact ⟨i1, i2, i3, i4⟩
  | default_value a value _ hok ih =>
    obtain ⟨i1, i2, i3, i4⟩ := ih
    unfold Arg.default_value at hok ⊢
    split at hok
    · simp [Res.throw] at hok
    · rename_i hp
      rw [if_neg hp, check_last_state]
      refine ⟨i1, ?_, i3, i4⟩
      intro hd
      cases hd
  | default_values a values _ hok ih =>
    obtain ⟨i1, i2, i3, i4⟩ := ih
    unfold Arg.default_values at hok ⊢
    split at hok
    · simp [Res.throw] at hok
    · split at hok
      · simp [Res.throw] at hok
      · rename_i hp he
        rw [if_neg hp, if_neg he, check_last_state]
        refine ⟨i1, ?_, i3, i4⟩
        intro hd
        cases hd
  | range a type left right il ir _ hok ih =>
    obtain ⟨i1, i2, i3, i4⟩ := ih
    unfold Arg.range at hok ⊢
    split at hok
    · simp [Res.throw] at hok
    · split at hok
      · simp [Res.throw] at hok
      · rename_i hp he
        rw [if_neg hp, if_neg he]
        exact ⟨i1, i2, i3, i4⟩
  | choices a values _ hok ih =>
    obtain ⟨i1, i2, i3, i4⟩ := ih
    unfold Arg.choices at hok ⊢
    split at hok
    · simp [Res.throw] at hok
    · split at hok
      · simp [Res.throw] at hok
      · split at hok
        · simp [Res.throw] at hok
        · split at hok
          · simp [Res.throw] at hok
          · rename_i h1 h2 h3 h4
            rw [if_neg h1, if_neg h2, if_neg h3, if_neg h4]
            exact ⟨i1, i2, i3, i4⟩

/-- The stored argument behind a handle after `Command::arg` returned. -/
theorem arg_arg_at (L : Libc) (c : Command) (a : Arg) (h : (c.arg L a).thrown = none)
    (q : Int) :
    (c.arg L a).state.arg_at q =
      if q = c.current_argid_ then (a.set_argid c.current_argid_).filed L c.current_position_id_
      else c.arg_at q := by
  unfold Command.arg_at
  rw [(arg_spec L c a h).2.2.2.1, map_find_assign]
  by_cases hq : q = c.current_argid_ <;> simp [hq]

/-- The entries of the name maps and of the positional list after `Command::arg` returned:
those of before and the argument itself, under the id it was given. -/
theorem arg_entries (L : Libc) (c : Command) (a : Arg) (h : (c.arg L a).thrown = none) :
    (∀ e ∈ (c.arg L a).state.longname_2_arg_,
        e ∈ c.longname_2_arg_ ∨ (e.2 = c.current_argid_ ∧ a.long_name_ = some e.1)) ∧
      (∀ e ∈ (c.arg L a).state.shortname_2_arg_,
        e ∈ c.shortname_2_arg_ ∨ (e.2 = c.current_argid_ ∧ e.1 = a.short_name_)) ∧
      (∀ p ∈ (c.arg L a).state.position_args_,
        p ∈ c.position_args_ ∨ (p = c.current_argid_ ∧ a.arg_type_ = ArgType.POSITION)) ∧
      (∀ q, (q = c.current_argid_ ∨ (map_find q c.argid_2_arg_).isSome = true) →
        (map_find q (c.arg L a).state.argid_2_arg_).isSome = true) := by
  obtain ⟨a1, a2, a3, a4, a5, a6⟩ := arg_spec L c a h
  refine ⟨?_, ?_, ?_, ?_⟩
  · intro e he
    rw [a2] at he
    cases hl : a.long_name_ with
    | none =>
      rw [hl] at he
      exact Or.inl he
    | some n =>
      rw [hl] at he
      rcases mem_of_mem_map_assign _ _ _ _ e he with h1 | h1
      · rw [h1]
        exact Or.inr ⟨rfl, rfl⟩
      · exact Or.inl h1
  · intro e he
    rw [a3] at he
    by_cases hs : a.short_name_ ≠ Char.ofNat 0
    · rw [if_pos hs] at he
      rcases mem_of_mem_map_assign _ _ _ _ e he with h1 | h1
      · rw [h1]
        exact Or.inr ⟨rfl, rfl⟩
      · exact Or.inl h1
    · rw [if_neg hs] at he
      exact Or.inl he
  · intro p hp
    rw [a5] at hp
    by_cases ht : a.arg_type_ = ArgType.POSITION
    · rw [if_pos ht] at hp
      rcases List.mem_append.mp hp with h1 | h1
      · exact Or.inl h1
      · exact Or.inr ⟨List.mem_singleton.mp h1, ht⟩
    · rw [if_neg ht] at hp
      exact Or.inl hp
  · intro q hq
    rw [a4, map_find_assign]
    by_cases hqc : q = c.current_argid_
    · simp [hqc]
    · rw [if_neg hqc]
      rcases hq with h1 | h1
      · exact absurd h1 hqc
      · exact h1

/-- `Command::arg` keeps a command well formed when the argument comes from the builder
methods. -/
theorem arg_wf (L : Libc) (c : Command) (a : Arg) (w : c.WF) (hb : Arg.Built L a)
    (h : (c.arg L a).thrown = none) : (c.arg L a).state.WF := by
  obtain ⟨b1, b2, b3, b4⟩ := built_spec L a hb
  obtain ⟨a1, a2, a3, a4, a5, a6⟩ := arg_spec L c a h
  obtain ⟨hlong, hshort, hposn, hpres⟩ := arg_entries L c a h
  have harg := arg_arg_at L c a h
  obtain ⟨f1, f2, f3, f4, f5, f6, f7, f8, f9⟩ :=
    filed_members L (a.set_argid c.current_argid_) c.current_position_id_
  refine ⟨?_, ?_, ?_, ?_, ?_, ?_, ?_, ?_⟩
  · intro e he
    rw [a1]
    rcases hlong e he with h1 | ⟨h1, _⟩
    · have := w.long_fresh e h1
      omega
    · omega
  · intro e he
    rw [a1]
    rcases hshort e he with h1 | ⟨h1, _⟩
    · have := w.short_fresh e h1
      omega
    · omega
  · intro p hp
    rw [a1]
    rcases hposn p hp with h1 | ⟨h1, _⟩
    · have := w.position_fresh p h1
      omega
    · omega
  · intro e he
    apply hpres
    rcases hlong e he with h1 | ⟨h1, _⟩
    · exact Or.inr (w.long_present e h1)
    · exact Or.inl h1
  · intro e he
    apply hpres
    rcases hshort e he with h1 | ⟨h1, _⟩
    · exact Or.inr (w.short_present e h1)
    · exact Or.inl h1
  · intro p hp
    rw [harg]
    rcases hposn p hp with h1 | ⟨h1, h2⟩
    · have := w.position_fresh p h1
      rw [if_neg (by omega)]
      exact w.position_kind p h1
    · rw [if_pos h1, f1]
      exact h2
  · intro e he hname
    rw [harg]
    rcases hlong e he with h1 | ⟨_, h1⟩
    · have := w.long_fresh e h1
      rw [if_neg (by omega)]
      exact w.help_long e h1 hname
    · exact absurd hname (b3 e.1 h1)
  · intro e he hname
    rw [harg]
    rcases hshort e he with h1 | ⟨_, h1⟩
    · have := w.short_fresh e h1
      rw [if_neg (by omega)]
      exact w.help_short e h1 hname
    · rw [h1] at hname
      exact absurd hname b4

/-- Invariants of a freshly built command: it is well formed, has no sub-command, none of its
arguments is hit, an argument other than a flag holds no value unless it has a default, and no
argument is filed under `help` or `h`. -/
theorem fresh_spec (L : Libc) (c : Command) (h : Command.Fresh L c) :
    c.WF ∧ c.subcommandname_2_subcommand_ = [] ∧
      (∀ q, (c.arg_at q).is_hit_ = false) ∧
      (∀ q, (c.arg_at q).has_default_value_ = false →
        (c.arg_at q).arg_type_ ≠ ArgType.FLAG → (c.arg_at q).values_ = []) ∧
      (∀ e ∈ c.longname_2_arg_, e.1 ≠ "help") ∧ (∀ e ∈ c.shortname_2_arg_, e.1 ≠ 'h') := by
  induction h with
  | new_command name =>
    refine ⟨⟨?_, ?_, ?_, ?_, ?_, ?_, ?_, ?_⟩, rfl, ?_, ?_, ?_, ?_⟩
    · intro e he
      cases he
    · intro e he
      cases he
    · intro p hp
      cases hp
    · intro e he
      cases he
    · intro e he
      cases he
    · intro p hp
      cases hp
    · intro e he
      cases he
    · intro e he
      cases he
    · intro q
      rfl
    · intro q _ _
      rfl
    · intro e he
      cases he
    · intro e he
      cases he
  | usage c text _ ih =>
    obtain ⟨w, i2, i3, i4, i5, i6⟩ := ih
    exact ⟨⟨w.long_fresh, w.short_fresh, w.position_fresh, w.long_present, w.short_present,
      w.position_kind, w.help_long, w.help_short⟩, i2, i3, i4, i5, i6⟩
  | usage_lines c lines _ ih =>
    obtain ⟨w, i2, i3, i4, i5, i6⟩ := ih
    exact ⟨⟨w.long_fresh, w.short_fresh, w.position_fresh, w.long_present, w.short_present,
      w.position_kind, w.help_long, w.help_short⟩, i2, i3, i4, i5, i6⟩
  | related_group c group _ ih =>
    obtain ⟨w, i2, i3, i4, i5, i6⟩ := ih
    exact ⟨⟨w.long_fresh, w.short_fresh, w.position_fresh, w.long_present, w.short_present,
      w.position_kind, w.help_long, w.help_short⟩, i2, i3, i4, i5, i6⟩
  | conflict_group c group _ ih =>
    obtain ⟨w, i2, i3, i4, i5, i6⟩ := ih
    exact ⟨⟨w.long_fresh, w.short_fresh, w.position_fresh, w.long_present, w.short_present,
      w.position_kind, w.help_long, w.help_short⟩, i2, i3, i4, i5, i6⟩
  | one_required_group c group _ ih =>
    obtain ⟨w, i2, i3, i4, i5, i6⟩ := ih
    exact ⟨⟨w.long_fresh, w.short_fresh, w.position_fresh, w.long_present, w.short_present,
      w.position_kind, w.help_long, w.help_short⟩, i2, i3, i4, i5, i6⟩
  | arg c a _ hb hok ih =>
    obtain ⟨w, i2, i3, i4, i5, i6⟩ := ih
    obtain ⟨b1, b2, b3, b4⟩ := built_spec L a hb
    obtain ⟨a1, a2, a3, a4, a5, a6⟩ := arg_spec L c a hok
    obtain ⟨hlong, hshort, hposn, hpres⟩ := arg_entries L c a hok
    have harg := arg_arg_at L c a hok
    obtain ⟨f1, f2, f3, f4, f5, f6, f7, f8, f9⟩ :=
      filed_members L (a.set_argid c.current_argid_) c.current_position_id_
    refine ⟨arg_wf L c a w hb hok, a6.trans i2, ?_, ?_, ?_, ?_⟩
    · intro q
      rw [harg]
      by_cases hq : q = c.current_argid_
      · rw [if_pos hq, f2]
        exact b1
      · rw [if_neg hq]
        exact i3 q
    · intro q
      rw [harg]
      by_cases hq : q = c.current_argid_
      · rw [if_pos hq, f3, f1]
        intro hd ht
        rw [f9 ht]
        exact b2 hd
      · rw [if_neg hq]
        exact i4 q
    · intro e he
      rcases hlong e he with h1 | ⟨_, h1⟩
      · exact i5 e h1
      · exact b3 e.1 h1
    · intro e he
      rcases hshort e he with h1 | ⟨_, h1⟩
      · exact i6 e h1
      · rw [h1]
        exact b4

/-- Storing a value in an argument without range and without choices never throws. -/
theorem set_value_free (L : Libc) (a : Arg) (v : String) (hr : a.is_range_ = false)
    (hc : a.is_choice_ = false) : (a.set_value L v).thrown = none := by
  unfold Arg.set_value
  split
  · rfl
  · unfold Arg.check_last
    rw [check_thrown, check_thrown, check_state]
    have h1 : Arg.check_range_void L (a.clear_default.push_back v) = none := by
      unfold Arg.check_range_void
      rw [if_neg]
      simp [hr]
    have h2 : Arg.check_choice (a.clear_default.push_back v) = none := by
      unfold Arg.check_choice
      rw [if_neg]
      simp [hc]
    show (match (match (none : Option Exn) with
      | none => Arg.check_range_void L (a.clear_default.push_back v)
      | some e => some e) with
      | none => Arg.check_choice (a.clear_default.push_back v)
      | some e => some e) = none
    simp only [h1, h2]

/-- A turn of the scan loop for an event that is routed to a stored argument other than the
help argument, and whose code is neither `'?'` nor `':'`: the argument is hit. -/
theorem scan_event_routed (L : Libc) (c : Command) (ev : Int × Option String) (p h : Int)
    (htarget : c.event_target ev = some p) (h63 : ev.1 ≠ 63) (h58 : ev.1 ≠ 58)
    (hlong : map_find "help" c.longname_2_arg_ = some h) (hid : (c.arg_at h).arg_id_ ≠ p)
    (hshort : map_find 'h' c.shortname_2_arg_ ≠ some p)
    (hpres : (map_find p c.argid_2_arg_).isSome = true) :
    c.scan_event L ev = c.hit_and_set L p ev.2 := by
  unfold Command.event_target at htarget
  unfold Command.scan_event
  by_cases hneg : ev.1 < 0
  · rw [if_pos hneg] at htarget
    have hp : ev.1 = p := Option.some.inj htarget
    rw [if_pos hneg, hlong]
    simp only
    rw [if_neg (by rw [hp]; exact fun e => hid e.symm), hp]
    cases hf : map_find p c.argid_2_arg_ with
    | none => simp [hf] at hpres
    | some s => rfl
  · rw [if_neg hneg] at htarget
    rw [if_neg hneg, if_neg (by omega)]
    have h104 : ev.1 ≠ 104 := by
      intro e
      rw [e] at htarget
      exact hshort htarget
    rw [if_neg h104, htarget]

/-- Positional capture on a command without Positional arguments only records the tokens. -/
theorem capture_no_positions (L : Libc) (c : Command) (i : Nat) (toks : List String)
    (h : c.position_args_ = []) : (c.capture L i toks).thrown = none := by
  induction toks generalizing c i with
  | nil => rfl
  | cons tok toks ih =>
    rw [capture_cons, h]
    exact ih (c.push_position tok) (i + 1) h

theorem capture_positions_no_positions (L : Libc) (c : Command) (argc : Int) (run : GetoptRun)
    (h : c.position_args_ = []) (hopt : run.optind ≤ argc) :
    (c.capture_positions L argc run).thrown = none := by
  unfold Command.capture_positions
  rw [if_neg (by omega), h, if_neg (by simp)]
  exact capture_no_positions L c 0 _ h

/-- The phases that follow the scan all pass: the parse of the own level returns. -/
theorem phases_success (L : Libc) (sc : Res Command) (argc : Int) (run : GetoptRun)
    (h0 : sc.thrown = none) (h1 : sc.state.check_required_args = none)
    (h2 : (sc.state.capture_positions L argc run).thrown = none)
    (h3 : (sc.state.capture_positions L argc run).state.check_conflict_with_all_args = none)
    (h4 : (sc.state.capture_positions L argc run).state.check_related_groups = none)
    (h5 : (sc.state.capture_positions L argc run).state.check_conflict_groups = none)
    (h6 : (sc.state.capture_positions L argc run).state.check_one_required_group = none) :
    ((((((sc.check Command.check_required_args).bind
      (fun c1 => c1.capture_positions L argc run)).check
      Command.check_conflict_with_all_args).check Command.check_related_groups).check
      Command.check_conflict_groups).check Command.check_one_required_group).thrown = none := by
  have e1 : (sc.check Command.check_required_args).thrown = none := by
    rw [check_thrown, h0]
    exact h1
  have e2 : (sc.check Command.check_required_args).bind
      (fun c1 => c1.capture_positions L argc run) = sc.state.capture_positions L argc run := by
    rw [bind_of_ok _ _ e1, check_state]
  rw [e2, check_thrown, check_thrown, check_thrown, check_thrown, h2]
  simp only [check_state]
  rw [h3]
  simp only
  rw [h4]
  simp only
  rw [h5]
  exact h6

theorem replay_single (L : Libc) (a : Arg) (v : String) (hf : a.arg_type_ ≠ ArgType.FLAG) :
    (a.replay L [v]).is_hit_ = true ∧ (a.replay L [v]).arg_type_ = a.arg_type_ ∧
      (a.replay L [v]).long_name_ = a.long_name_ ∧
      (a.replay L [v]).short_name_ = a.short_name_ := by
  rw [replay_cons, replay_nil, set_value_state L a.set_hit v (by simpa using hf)]
  simp
  exact ⟨rfl, rfl⟩

theorem reset_status_info_members (a : Arg) :
    a.reset_status_info.is_range_ = a.is_range_ ∧
      a.reset_status_info.is_choice_ = a.is_choice_ ∧
      a.reset_status_info.has_default_value_ = a.has_default_value_ ∧
      a.reset_status_info.long_name_ = a.long_name_ ∧
      a.reset_status_info.short_name_ = a.short_name_ ∧
      (a.has_default_value_ = false → a.reset_status_info.values_ = a.values_) := by
  unfold Arg.reset_status_info
  split
  · rename_i h
    refine ⟨rfl, rfl, rfl, rfl, rfl, ?_⟩
    intro h2
    rw [h2] at h
    cases h
  · refine ⟨rfl, rfl, rfl, rfl, rfl, ?_⟩
    intro _
    rfl

/-- The scan of a parse whose only event is one occurrence of a Required or Optional argument
without default and without constraint, on a freshly built command: what is known of the
command when the scan is over. -/
theorem single_scan (L : Libc) (c : Command) (args : List String) (p code : Int)
    (v : String) (hfresh : Command.Fresh L c) (hreg : c.registered p)
    (hnf : (c.arg_at p).arg_type_ ≠ ArgType.FLAG)
    (hdef : (c.arg_at p).has_default_value_ = false)
    (hrange : (c.arg_at p).is_range_ = false) (hchoice : (c.arg_at p).is_choice_ = false)
    (hev : (c.own_run L args).events = [(code, some v)])
    (htarget : (c.prepared L).event_target (code, some v) = some p)
    (h63 : code ≠ 63) (h58 : code ≠ 58) :
    (c.scanned L args).thrown = none ∧ c.occurrences L args p = [v] ∧
      p ≠ c.current_argid_ ∧ (map_find p c.argid_2_arg_).isSome = true ∧
      ((c.scanned L args).state.arg_at p).is_hit_ = true ∧
      (∀ q, q ≠ p → (c.scanned L args).state.arg_at q = (c.prepared L).arg_at q) := by
  obtain ⟨w, hsub, hunhit, hvals, hnl, hns⟩ := fresh_spec L c hfresh
  obtain ⟨hne, _⟩ := registered_prepared L c p w hreg hnf
  have hpres : (map_find p c.argid_2_arg_).isSome = true := by
    rcases hreg with hl | hs
    · obtain ⟨e, he, rfl⟩ := List.mem_map.mp hl
      exact w.long_present e he
    · obtain ⟨e, he, rfl⟩ := List.mem_map.mp hs
      exact w.short_present e he
  have hpresP := prepared_present L c p hpres
  have hprep : (c.prepared L).arg_at p = (c.arg_at p).reset_status_info := by
    rw [prepared_arg_at, if_neg hne, if_pos hreg]
  obtain ⟨r1, r2, r3, r4, r5, r6⟩ := reset_status_info_members (c.arg_at p)
  have hlong : map_find "help" (c.prepared L).longname_2_arg_ = some c.current_argid_ := by
    rw [prepared_longname, map_find_assign, if_pos rfl]
  have hid : ((c.prepared L).arg_at c.current_argid_).arg_id_ ≠ p := by
    rw [prepared_arg_at, if_pos rfl]
    exact fun e => hne e.symm
  have hshort : map_find 'h' (c.prepared L).shortname_2_arg_ ≠ some p := by
    rw [prepared_shortname, map_find_assign, if_pos rfl]
    exact fun e => hne (Option.some.inj e).symm
  have hse := scan_event_routed L (c.prepared L) (code, some v) p c.current_argid_ htarget
    h63 h58 hlong hid hshort hpresP
  have hthrown : ((c.prepared L).scan_event L (code, some v)).thrown = none := by
    rw [hse, hit_and_set_thrown]
    apply set_value_free
    · show ((c.prepared L).arg_at p).is_range_ = false
      rw [hprep, r1]
      exact hrange
    · show ((c.prepared L).arg_at p).is_choice_ = false
      rw [hprep, r2]
      exact hchoice
  have hscan : (c.scanned L args).thrown = none := by
    unfold Command.scanned
    rw [hev, scan_events_cons, hthrown]
    rfl
  have hocc : c.occurrences L args p = [v] := by
    unfold Command.occurrences
    rw [hev]
    simp [htarget]
  refine ⟨hscan, hocc, hne, hpres, ?_, ?_⟩
  · have h := scan_events_replay L (c.prepared L) (c.own_run L args).events p hpresP hscan
    have hS : (c.scanned L args).state.arg_at p = ((c.prepared L).arg_at p).replay L [v] := by
      rw [show (c.scanned L args).state.arg_at p =
        ((c.prepared L).scan_events L (c.own_run L args).events).state.arg_at p from rfl, h, hev]
      simp [htarget]
    rw [hS]
    refine (replay_single L _ v ?_).1
    rw [hprep]
    simpa using hnf
  · intro q hq
    apply scan_events_other L (c.prepared L) (c.own_run L args).events q
    intro ev hmem
    rw [hev, List.mem_singleton] at hmem
    rw [hmem, htarget]
    exact fun e => hq (Option.some.inj e).symm

/-- The parse of `single_scan` returns when the command has no other Required argument, no
Positional argument and no group, and the scanner left `optind` within the tokens. -/
theorem single_parse_returns (L : Libc) (c : Command) (args : List String) (p code : Int)
    (v : String) (hfresh : Command.Fresh L c) (hreg : c.registered p)
    (hnf : (c.arg_at p).arg_type_ ≠ ArgType.FLAG)
    (hdef : (c.arg_at p).has_default_value_ = false)
    (hrange : (c.arg_at p).is_range_ = false) (hchoice : (c.arg_at p).is_choice_ = false)
    (hev : (c.own_run L args).events = [(code, some v)])
    (htarget : (c.prepared L).event_target (code, some v) = some p)
    (h63 : code ≠ 63) (h58 : code ≠ 58)
    (hreq : ∀ q, c.registered q → (c.arg_at q).arg_type_ = ArgType.REQUIRED → q = p)
    (hposn : c.position_args_ = []) (hrel : c.related_groups_ = [])
    (hcon : c.conflict_groups_ = []) (hone : c.one_required_groups_ = [])
    (hopt : (c.own_run L args).optind ≤ args.length) :
    (c.parse_args L args).thrown = none := by
  obtain ⟨w, hsub, hunhit, hvals, hnl, hns⟩ := fresh_spec L c hfresh
  obtain ⟨hscan, hocc, hne, hpres, hhit, hother⟩ :=
    single_scan L c args p code v hfresh hreg hnf hdef hrange hchoice hev htarget h63 h58
  have hE : c.subcommandname_2_subcommand_.isEmpty = true := by
    rw [hsub]
    rfl
  have htok : c.own_tokens args = args := by
    unfold Command.own_tokens
    rw [if_pos hE]
  have hframe : Command.Frame (c.prepared L) (c.scanned L args).state :=
    scan_events_frame L (c.prepared L) (c.own_run L args).events
  have hrest := prepared_rest L c
  have hunhitS : ∀ q, q ≠ p → ((c.scanned L args).state.arg_at q).is_hit_ = false := by
    intro q hq
    rw [hother q hq, prepared_arg_at]
    split
    · rfl
    · split
      · exact reset_status_info_is_hit _
      · exact hunhit q
  have hmiss : ∀ q, (q = c.current_argid_ ∨ c.registered q) →
      (c.scanned L args).state.missing_required q = false := by
    intro q hq
    unfold Command.missing_required
    by_cases hqp : q = p
    · rw [hqp, hhit]
      simp
    · rw [hother q hqp, prepared_arg_at]
      by_cases hqc : q = c.current_argid_
      · rw [if_pos hqc]
        rfl
      · rw [if_neg hqc]
        rcases hq with h1 | h1
        · exact absurd h1 hqc
        · rw [if_pos h1, reset_status_info_arg_type]
          have : (c.arg_at q).arg_type_ ≠ ArgType.REQUIRED := fun e => hqp (hreq q h1 e)
          simp [this]
  have h1 : (c.scanned L args).state.check_required_args = none := by
    rw [(check_required_args_spec _).1]
    constructor
    · intro e he
      rw [hframe.longname, prepared_longname] at he
      apply hmiss
      rcases mem_of_mem_map_assign _ _ _ _ e he with h | h
      · rw [h]
        exact Or.inl rfl
      · exact Or.inr (Or.inl (List.mem_map.mpr ⟨e, h, rfl⟩))
    · intro e he
      rw [hframe.shortname, prepared_shortname] at he
      apply hmiss
      rcases mem_of_mem_map_assign _ _ _ _ e he with h | h
      · rw [h]
        exact Or.inl rfl
      · exact Or.inr (Or.inr (List.mem_map.mpr ⟨e, h, rfl⟩))
  have hposS : (c.scanned L args).state.position_args_ = [] := by
    rw [hframe.position_args, hrest.2.2.2.2.1, hposn]
  have h2 : ((c.scanned L args).state.capture_positions L (c.own_tokens args).length
      (c.own_run L args)).thrown = none := by
    apply capture_positions_no_positions L _ _ _ hposS
    rw [htok]
    exact hopt
  have hfr2 : Command.Frame (c.scanned L args).state
      ((c.scanned L args).state.capture_positions L (c.own_tokens args).length
        (c.own_run L args)).state := capture_positions_frame L _ _ _
  have hargs2 : ∀ q, ((c.scanned L args).state.capture_positions L (c.own_tokens args).length
      (c.own_run L args)).state.arg_at q = (c.scanned L args).state.arg_at q := by
    intro q
    apply capture_positions_other
    rw [hposS]
    exact List.not_mem_nil q
  have honly : ∀ q, (((c.scanned L args).state.capture_positions L (c.own_tokens args).length
      (c.own_run L args)).state.arg_at q).is_hit_ = true → q = p := by
    intro q hq
    by_contra hqp
    rw [hargs2, hunhitS q hqp] at hq
    cases hq
  have h3 : ((c.scanned L args).state.capture_positions L (c.own_tokens args).length
      (c.own_run L args)).state.check_conflict_with_all_args = none := by
    by_contra hne3
    obtain ⟨q, _, hqhit, hqcon⟩ := (conflict_scan_spec _ _).1.mp hne3
    have hq := honly q hqhit
    rcases (conflict_of_spec _ _).1.mp hqcon with ⟨e, _, hname, hehit⟩ | ⟨e, _, hname, hehit⟩
    · apply hname
      rw [honly e.2 hehit, hq]
    · apply hname
      rw [honly e.2 hehit, hq]
  have h4 : ((c.scanned L args).state.capture_positions L (c.own_tokens args).length
      (c.own_run L args)).state.check_related_groups = none := by
    unfold Command.check_related_groups
    rw [hfr2.related, hframe.related, hrest.2.1, hrel]
    rfl
  have h5 : ((c.scanned L args).state.capture_positions L (c.own_tokens args).length
      (c.own_run L args)).state.check_conflict_groups = none := by
    unfold Command.check_conflict_groups
    rw [hfr2.conflict, hframe.conflict, hrest.2.2.1, hcon]
    rfl
  have h6 : ((c.scanned L args).state.capture_positions L (c.own_tokens args).length
      (c.own_run L args)).state.check_one_required_group = none := by
    unfold Command.check_one_required_group
    rw [hfr2.one_required, hframe.one_required, hrest.2.2.2.1, hone]
    rfl
  have key : (c.reset_arg_status.parse_own_level L (c.own_tokens args)).thrown = none :=
    phases_success L (c.scanned L args) (c.own_tokens args).length (c.own_run L args)
      hscan h1 h2 h3 h4 h5 h6
  rw [htok] at key
  rw [(parse_args_own L c args).2.2.2 hE]
  exact key

/-- The value the argument of `single_scan` holds after the parse, whatever the later phases
of the parse did. -/
theorem single_parse_values (L : Libc) (c : Command) (args : List String) (p code : Int)
    (v : String) (hfresh : Command.Fresh L c) (hreg : c.registered p)
    (hnf : (c.arg_at p).arg_type_ ≠ ArgType.FLAG)
    (hnp : (c.arg_at p).arg_type_ ≠ ArgType.POSITION)
    (hdef : (c.arg_at p).has_default_value_ = false)
    (hrange : (c.arg_at p).is_range_ = false) (hchoice : (c.arg_at p).is_choice_ = false)
    (hev : (c.own_run L args).events = [(code, some v)])
    (htarget : (c.prepared L).event_target (code, some v) = some p)
    (h63 : code ≠ 63) (h58 : code ≠ 58) :
    ((c.parse_args L args).state.arg_at p).values_ = [v] := by
  obtain ⟨w, hsub, hunhit, hvals, hnl, hns⟩ := fresh_spec L c hfresh
  obtain ⟨hscan, hocc, hne, hpres, hhit, hother⟩ :=
    single_scan L c args p code v hfresh hreg hnf hdef hrange hchoice hev htarget h63 h58
  have hpos : p ∉ c.position_args_ := fun hmem => hnp (w.position_kind p hmem)
  obtain ⟨r1, r2, r3, r4, r5, r6⟩ := reset_status_info_members (c.arg_at p)
  rw [parsed_arg_at L c args p hne hpres hpos hreg hscan, hocc,
    replay_values L _ [v] (by simpa using hnf) (by simp), clear_default_values, r3, hdef,
    r6 hdef, hvals p hdef hnf]
  simp

theorem set_value_arg_type (L : Libc) (a : Arg) (v : String) :
    (a.set_value L v).state.arg_type_ = a.arg_type_ := by
  by_cases hf : a.arg_type_ = ArgType.FLAG
  · rw [set_value_flag L a v hf]
    rfl
  · rw [set_value_state L a v hf]
    simp

theorem hit_and_set_arg_type (L : Libc) (c : Command) (p q : Int) (optarg : Option String) :
    ((c.hit_and_set L p optarg).state.arg_at q).arg_type_ = (c.arg_at q).arg_type_ := by
  rw [hit_and_set_arg_at]
  split
  · rename_i h
    rw [set_value_arg_type, h.1]
    rfl
  · rfl

theorem scan_event_arg_type (L : Libc) (c : Command) (ev : Int × Option String) (q : Int) :
    ((c.scan_event L ev).state.arg_at q).arg_type_ = (c.arg_at q).arg_type_ := by
  rcases scan_event_cases L c ev with ⟨e, h⟩ | ⟨p, _, h⟩
  · rw [h]
    rfl
  · rw [h]
    exact hit_and_set_arg_type L c p q ev.2

theorem scan_events_arg_type (L : Libc) (c : Command) (evs : List (Int × Option String))
    (q : Int) : ((c.scan_events L evs).state.arg_at q).arg_type_ = (c.arg_at q).arg_type_ := by
  induction evs generalizing c with
  | nil => rfl
  | cons ev evs ih =>
    rw [scan_events_cons]
    cases h : (c.scan_event L ev).thrown with
    | none =>
      simp only
      rw [ih, scan_event_arg_type]
    | some e =>
      simp only
      exact scan_event_arg_type L c ev q

theorem capture_arg_type (L : Libc) (c : Command) (i : Nat) (toks : List String) (q : Int) :
    ((c.capture L i toks).state.arg_at q).arg_type_ = (c.arg_at q).arg_type_ := by
  induction toks generalizing c i with
  | nil => rfl
  | cons tok toks ih =>
    rw [capture_cons]
    cases hp : c.position_args_[i]? with
    | none => exact ih (c.push_position tok) (i + 1)
    | some p =>
      simp only [Res.bind]
      have h1 : (((c.push_position tok).set_arg p
          ((c.arg_at p).set_value L tok).state).arg_at q).arg_type_ = (c.arg_at q).arg_type_ := by
        rw [arg_at_set_arg]
        split
        · rename_i h
          rw [set_value_arg_type, h.1]
        · rfl
      cases ((c.arg_at p).set_value L tok).thrown with
      | none =>
        exact (ih ((c.push_position tok).set_arg p ((c.arg_at p).set_value L tok).state)
          (i + 1)).trans h1
      | some e => exact h1

theorem capture_positions_arg_type (L : Libc) (c : Command) (argc : Int) (run : GetoptRun)
    (q : Int) :
    ((c.capture_positions L argc run).state.arg_at q).arg_type_ = (c.arg_at q).arg_type_ := by
  rcases capture_positions_cases L c argc run with ⟨e, h⟩ | ⟨toks, h⟩
  · rw [h]
    rfl
  · rw [h]
    exact capture_arg_type L c 0 toks q

/-- The command the phases after the scan leave: the one the scan left, or the one positional
capture left. -/
theorem phases_state (L : Libc) (sc : Res Command) (argc : Int) (run : GetoptRun) :
    ((((((sc.check Command.check_required_args).bind
      (fun c1 => c1.capture_positions L argc run)).check
      Command.check_conflict_with_all_args).check Command.check_related_groups).check
      Command.check_conflict_groups).check Command.check_one_required_group).state = sc.state ∨
    ((((((sc.check Command.check_required_args).bind
      (fun c1 => c1.capture_positions L argc run)).check
      Command.check_conflict_with_all_args).check Command.check_related_groups).check
      Command.check_conflict_groups).check Command.check_one_required_group).state =
      (sc.state.capture_positions L argc run).state := by
  rw [check_state, check_state, check_state, check_state]
  cases h : (sc.check Command.check_required_args).thrown with
  | none =>
    rw [bind_of_ok _ _ h, check_state]
    exact Or.inr rfl
  | some e =>
    rw [bind_of_thrown _ _ e h, check_state]
    exact Or.inl rfl

/-- The kind of every stored argument after `parse_args`, whatever its outcome: the kind it had
in the command as presented to the scanner. -/
theorem parsed_arg_type (L : Libc) (c : Command) (args : List String) (q : Int) :
    ((c.parse_args L args).state.arg_at q).arg_type_ = ((c.prepared L).arg_at q).arg_type_ := by
  rw [toMembers_arg_at _ _ (parse_args_own L c args).2.2.1]
  have hS : ((c.scanned L args).state.arg_at q).arg_type_ =
      ((c.prepared L).arg_at q).arg_type_ :=
    scan_events_arg_type L (c.prepared L) (c.own_run L args).events q
  rcases phases_state L (c.scanned L args) (c.own_tokens args).length (c.own_run L args)
    with h | h
  · rw [show (c.reset_arg_status.parse_own_level L (c.own_tokens args)).state =
      (c.scanned L args).state from h]
    exact hS
  · rw [show (c.reset_arg_status.parse_own_level L (c.own_tokens args)).state =
      ((c.scanned L args).state.capture_positions L (c.own_tokens args).length
        (c.own_run L args)).state from h, capture_positions_arg_type]
    exact hS

theorem wf_of_members (c c1 : Command) (h : c1.toCommandMembers = c.toCommandMembers)
    (w : c.WF) : c1.WF := by
  have ha : ∀ q, c1.arg_at q = c.arg_at q := toMembers_arg_at c c1 h
  have h1 : c1.longname_2_arg_ = c.longname_2_arg_ := congrArg CommandMembers.longname_2_arg_ h
  have h2 : c1.shortname_2_arg_ = c.shortname_2_arg_ :=
    congrArg CommandMembers.shortname_2_arg_ h
  have h3 : c1.position_args_ = c.position_args_ := congrArg CommandMembers.position_args_ h
  have h4 : c1.current_argid_ = c.current_argid_ := congrArg CommandMembers.current_argid_ h
  have h5 : c1.argid_2_arg_ = c.argid_2_arg_ := congrArg CommandMembers.argid_2_arg_ h
  refine ⟨?_, ?_, ?_, ?_, ?_, ?_, ?_, ?_⟩
  · rw [h1, h4]
    exact w.long_fresh
  · rw [h2, h4]
    exact w.short_fresh
  · rw [h3, h4]
    exact w.position_fresh
  · rw [h1, h5]
    exact w.long_present
  · rw [h2, h5]
    exact w.short_present
  · intro p hp
    rw [ha]
    exact w.position_kind p (h3 ▸ hp)
  · intro e he hn
    rw [ha]
    exact w.help_long e (h1 ▸ he) hn
  · intro e he hn
    rw [ha]
    exact w.help_short e (h2 ▸ he) hn

/-- `parse_args` keeps a command well formed, whatever its outcome. -/
theorem parse_args_wf (L : Libc) (c : Command) (args : List String) (w : c.WF) :
    (c.parse_args L args).state.WF := by
  have hmaps := parsed_maps L c args
  have htype := parsed_arg_type L c args
  have hmem := (parse_args_own L c args).2.2.1
  have hfr : Command.Frame (c.prepared L)
      (c.reset_arg_status.parse_own_level L (c.own_tokens args)).state :=
    (scan_events_frame L (c.prepared L) (c.own_run L args).events).trans
      (own_level_after_scan L c args).2.2.2.1
  have hcur : (c.parse_args L args).state.current_argid_ = c.current_argid_ - 1 := by
    rw [show (c.parse_args L args).state.current_argid_ =
      (c.reset_arg_status.parse_own_level L (c.own_tokens args)).state.current_argid_ from
      congrArg CommandMembers.current_argid_ hmem, hfr.current_argid]
    show (c.reset_arg_status.add_help_arg L).current_argid_ = _
    rw [(add_help_rest L c.reset_arg_status).1, (reset_frame c).current_argid]
  have hpos : (c.parse_args L args).state.position_args_ = c.position_args_ := by
    rw [show (c.parse_args L args).state.position_args_ =
      (c.reset_arg_status.parse_own_level L (c.own_tokens args)).state.position_args_ from
      congrArg CommandMembers.position_args_ hmem, hfr.position_args]
    exact (prepared_rest L c).2.2.2.2.1
  have hpresent : ∀ q, (q = c.current_argid_ ∨ (map_find q c.argid_2_arg_).isSome = true) →
      (map_find q (c.parse_args L args).state.argid_2_arg_).isSome = true := by
    intro q hq
    rw [show (c.parse_args L args).state.argid_2_arg_ =
      (c.reset_arg_status.parse_own_level L (c.own_tokens args)).state.argid_2_arg_ from
      congrArg CommandMembers.argid_2_arg_ hmem, hfr.present]
    rcases hq with h1 | h1
    · show (map_find q (c.reset_arg_status.add_help_arg L).argid_2_arg_).isSome = true
      rw [add_help_args, map_find_assign, (reset_frame c).current_argid, if_pos h1]
      rfl
    · exact prepared_present L c q h1
  have hkind : ∀ q, q ≠ c.current_argid_ →
      ((c.parse_args L args).state.arg_at q).arg_type_ = (c.arg_at q).arg_type_ := by
    intro q hq
    rw [htype, prepared_arg_at, if_neg hq]
    split
    · exact reset_status_info_arg_type _
    · rfl
  have hhelp : ((c.parse_args L args).state.arg_at c.current_argid_).arg_type_ =
      ArgType.FLAG := by
    rw [htype, prepared_arg_at, if_pos rfl]
    rfl
  refine ⟨?_, ?_, ?_, ?_, ?_, ?_, ?_, ?_⟩
  · intro e he
    rw [hcur]
    rw [hmaps.1] at he
    rcases mem_of_mem_map_assign _ _ _ _ e he with h1 | h1
    · rw [h1]
      show c.current_argid_ - 1 < c.current_argid_
      omega
    · have := w.long_fresh e h1
      omega
  · intro e he
    rw [hcur]
    rw [hmaps.2] at he
    rcases mem_of_mem_map_assign _ _ _ _ e he with h1 | h1
    · rw [h1]
      show c.current_argid_ - 1 < c.current_argid_
      omega
    · have := w.short_fresh e h1
      omega
  · intro p hp
    rw [hcur]
    rw [hpos] at hp
    have := w.position_fresh p hp
    omega
  · intro e he
    apply hpresent
    rw [hmaps.1] at he
    rcases mem_of_mem_map_assign _ _ _ _ e he with h1 | h1
    · rw [h1]
      exact Or.inl rfl
    · exact Or.inr (w.long_present e h1)
  · intro e he
    apply hpresent
    rw [hmaps.2] at he
    rcases mem_of_mem_map_assign _ _ _ _ e he with h1 | h1
    · rw [h1]
      exact Or.inl rfl
    · exact Or.inr (w.short_present e h1)
  · intro p hp
    rw [hpos] at hp
    have := w.position_fresh p hp
    rw [hkind p (by omega)]
    exact w.position_kind p hp
  · intro e he hname
    rw [hmaps.1] at he
    rcases mem_of_mem_map_assign _ _ _ _ e he with h1 | h1
    · rw [h1]
      exact hhelp
    · have := w.long_fresh e h1
      rw [hkind e.2 (by omega)]
      exact w.help_long e h1 hname
  · intro e he hname
    rw [hmaps.2] at he
    rcases mem_of_mem_map_assign _ _ _ _ e he with h1 | h1
    · rw [h1]
      exact hhelp
    · have := w.short_fresh e h1
      rw [hkind e.2 (by omega)]
      exact w.help_short e h1 hname

/-- Every command the API produces at top level is well formed. -/
theorem reachable_wf (L : Libc) (c : Command) (h : Command.Reachable L c) : c.WF := by
  induction h with
  | new_command name =>
    refine ⟨?_, ?_, ?_, ?_, ?_, ?_, ?_, ?_⟩
    · intro e he
      cases he
    · intro e he
      cases he
    · intro p hp
      cases hp
    · intro e he
      cases he
    · intro e he
      cases he
    · intro p hp
      cases hp
    · intro e he
      cases he
    · intro e he
      cases he
  | usage c text _ w =>
    exact ⟨w.long_fresh, w.short_fresh, w.position_fresh, w.long_present, w.short_present,
      w.position_kind, w.help_long, w.help_short⟩
  | usage_lines c lines _ w =>
    exact ⟨w.long_fresh, w.short_fresh, w.position_fresh, w.long_present, w.short_present,
      w.position_kind, w.help_long, w.help_short⟩
  | arg c a _ hb hok w => exact arg_wf L c a w hb hok
  | subcommand c sub _ w =>
    exact ⟨w.long_fresh, w.short_fresh, w.position_fresh, w.long_present, w.short_present,
      w.position_kind, w.help_long, w.help_short⟩
  | related_group c group _ w =>
    exact ⟨w.long_fresh, w.short_fresh, w.position_fresh, w.long_present, w.short_present,
      w.position_kind, w.help_long, w.help_short⟩
  | conflict_group c group _ w =>
    exact ⟨w.long_fresh, w.short_fresh, w.position_fresh, w.long_present, w.short_present,
      w.position_kind, w.help_long, w.help_short⟩
  | one_required_group c group _ w =>
    exact ⟨w.long_fresh, w.short_fresh, w.position_fresh, w.long_present, w.short_present,
      w.position_kind, w.help_long, w.help_short⟩
  | parse_args c args _ w => exact parse_args_wf L c args w

/-- A turn of the scan loop keeps every member of an argument that `set_hit` and `set_value`
keep. -/
theorem scan_event_keep {α : Type} (L : Libc) (f : Arg → α)
    (hv : ∀ (a : Arg) (v : String), f (a.set_value L v).state = f a)
    (hh : ∀ a : Arg, f a.set_hit = f a) (c : Command) (ev : Int × Option String) (q : Int) :
    f ((c.scan_event L ev).state.arg_at q) = f (c.arg_at q) := by
  rcases scan_event_cases L c ev with ⟨e, h⟩ | ⟨p, _, h⟩
  · rw [h]
    rfl
  · rw [h, hit_and_set_arg_at]
    split
    · rename_i hq
      rw [hv, hh, hq.1]
    · rfl

theorem scan_events_keep {α : Type} (L : Libc) (f : Arg → α)
    (hv : ∀ (a : Arg) (v : String), f (a.set_value L v).state = f a)
    (hh : ∀ a : Arg, f a.set_hit = f a) (c : Command) (evs : List (Int × Option String))
    (q : Int) : f ((c.scan_events L evs).state.arg_at q) = f (c.arg_at q) := by
  induction evs generalizing c with
  | nil => rfl
  | cons ev evs ih =>
    rw [scan_events_cons]
    cases h : (c.scan_event L ev).thrown with
    | none =>
      simp only
      rw [ih, scan_event_keep L f hv hh]
    | some e =>
      simp only
      exact scan_event_keep L f hv hh c ev q

theorem capture_keep {α : Type} (L : Libc) (f : Arg → α)
    (hv : ∀ (a : Arg) (v : String), f (a.set_value L v).state = f a) (c : Command) (i : Nat)
    (toks : List String) (q : Int) :
    f ((c.capture L i toks).state.arg_at q) = f (c.arg_at q) := by
  induction toks generalizing c i with
  | nil => rfl
  | cons tok toks ih =>
    rw [capture_cons]
    cases hp : c.position_args_[i]? with
    | none => exact ih (c.push_position tok) (i + 1)
    | some p =>
      simp only [Res.bind]
      have h1 : f (((c.push_position tok).set_arg p
          ((c.arg_at p).set_value L tok).state).arg_at q) = f (c.arg_at q) := by
        rw [arg_at_set_arg]
        split
        · rename_i h
          rw [hv, h.1]
        · rfl
      cases ((c.arg_at p).set_value L tok).thrown with
      | none =>
        exact (ih ((c.push_position tok).set_arg p ((c.arg_at p).set_value L tok).state)
          (i + 1)).trans h1
      | some e => exact h1

theorem capture_positions_keep {α : Type} (L : Libc) (f : Arg → α)
    (hv : ∀ (a : Arg) (v : String), f (a.set_value L v).state = f a) (c : Command)
    (argc : Int) (run : GetoptRun) (q : Int) :
    f ((c.capture_positions L argc run).state.arg_at q) = f (c.arg_at q) := by
  rcases capture_positions_cases L c argc run with ⟨e, h⟩ | ⟨toks, h⟩
  · rw [h]
    rfl
  · rw [h]
    exact capture_keep L f hv c 0 toks q

/-- The parse of a command's own level keeps every member of an argument that `set_hit` and
`set_value` keep, relative to the command as presented to the scanner. -/
theorem parsed_keep {α : Type} (L : Libc) (f : Arg → α)
    (hv : ∀ (a : Arg) (v : String), f (a.set_value L v).state = f a)
    (hh : ∀ a : Arg, f a.set_hit = f a) (c : Command) (args : List String) (q : Int) :
    f ((c.parse_args L args).state.arg_at q) = f ((c.prepared L).arg_at q) := by
  rw [toMembers_arg_at _ _ (parse_args_own L c args).2.2.1]
  have hS : f ((c.scanned L args).state.arg_at q) = f ((c.prepared L).arg_at q) :=
    scan_events_keep L f hv hh (c.prepared L) (c.own_run L args).events q
  rcases phases_state L (c.scanned L args) (c.own_tokens args).length (c.own_run L args)
    with h | h
  · rw [show (c.reset_arg_status.parse_own_level L (c.own_tokens args)).state =
      (c.scanned L args).state from h]
    exact hS
  · rw [show (c.reset_arg_status.parse_own_level L (c.own_tokens args)).state =
      ((c.scanned L args).state.capture_positions L (c.own_tokens args).length
        (c.own_run L args)).state from h, capture_positions_keep L f hv]
    exact hS

theorem set_value_position_id (L : Libc) (a : Arg) (v : String) :
    (a.set_value L v).state.position_id_ = a.position_id_ := by
  by_cases hf : a.arg_type_ = ArgType.FLAG
  · rw [set_value_flag L a v hf]
    rfl
  · rw [set_value_state L a v hf]
    simp

theorem reset_status_info_position_id (a : Arg) :
    a.reset_status_info.position_id_ = a.position_id_ := by
  unfold Arg.reset_status_info
  split <;> rfl

theorem foldl_push_position (toks : List String) (c : Command) :
    (toks.foldl Command.push_position c).position_values_ = c.position_values_ ++ toks ∧
      (∀ q, (toks.foldl Command.push_position c).arg_at q = c.arg_at q) ∧
      Command.Frame c (toks.foldl Command.push_position c) := by
  induction toks generalizing c with
  | nil => exact ⟨by simp, fun _ => rfl, Command.Frame.refl c⟩
  | cons tok toks ih =>
    rw [List.foldl_cons]
    obtain ⟨h1, h2, h3⟩ := ih (c.push_position tok)
    refine ⟨?_, ?_, (push_position_frame c tok).trans h3⟩
    · rw [h1]
      show (c.position_values_ ++ [tok]) ++ toks = _
      simp
    · intro q
      rw [h2]
      rfl

/-- Tokens beyond the declared Positional arguments are only recorded. -/
theorem capture_extra (L : Libc) (c : Command) (i : Nat) (toks : List String)
    (h : c.position_args_.length ≤ i) :
    c.capture L i toks = Res.ok (toks.foldl Command.push_position c) := by
  induction toks generalizing c i with
  | nil => rfl
  | cons tok toks ih =>
    rw [capture_cons, List.getElem?_eq_none h]
    exact ih (c.push_position tok) (i + 1) (Nat.le_succ_of_le h)

theorem capture_append (L : Libc) (c : Command) (i : Nat) (xs ys : List String) :
    c.capture L i (xs ++ ys) =
      (c.capture L i xs).bind (fun c2 => c2.capture L (i + xs.length) ys) := by
  induction xs generalizing c i with
  | nil => rfl
  | cons tok xs ih =>
    rw [List.cons_append, capture_cons, capture_cons]
    have hlen : i + (tok :: xs).length = i + 1 + xs.length := by
      simp only [List.length_cons]
      omega
    rw [hlen]
    cases hp : c.position_args_[i]? with
    | none => exact ih (c.push_position tok) (i + 1)
    | some p =>
      simp only
      cases ht : ((c.arg_at p).set_value L tok).thrown with
      | none =>
        simp only [Res.bind]
        exact ih _ (i + 1)
      | some e => simp [Res.bind]

/-- The positional values after a capture loop that returns: the tokens are appended. -/
theorem capture_values (L : Libc) (c : Command) (i : Nat) (toks : List String)
    (h : (c.capture L i toks).thrown = none) :
    (c.capture L i toks).state.position_values_ = c.position_values_ ++ toks := by
  induction toks generalizing c i with
  | nil => simp [Command.capture, Res.ok]
  | cons tok toks ih =>
    rw [capture_cons] at h ⊢
    cases hp : c.position_args_[i]? with
    | none =>
      rw [hp] at h
      rw [ih (c.push_position tok) (i + 1) h]
      show (c.position_values_ ++ [tok]) ++ toks = _
      simp
    | some p =>
      rw [hp] at h
      simp only [Res.bind] at h ⊢
      cases ht : ((c.arg_at p).set_value L tok).thrown with
      | none =>
        rw [ht] at h
        simp only at h ⊢
        rw [ih _ (i + 1) h]
        show (c.position_values_ ++ [tok]) ++ toks = _
        simp
      | some e =>
        rw [ht] at h
        simp at h

/-- The capture loop started at index `i` leaves alone every argument that is not in the
positional list at an index from `i` on. -/
theorem capture_untouched (L : Libc) (c : Command) (i : Nat) (toks : List String) (q : Int)
    (hq : ∀ j, i ≤ j → c.position_args_[j]? ≠ some q) :
    (c.capture L i toks).state.arg_at q = c.arg_at q := by
  induction toks generalizing c i with
  | nil => rfl
  | cons tok toks ih =>
    rw [capture_cons]
    cases hp : c.position_args_[i]? with
    | none => exact ih (c.push_position tok) (i + 1) (fun j hj => hq j (by omega))
    | some p =>
      simp only [Res.bind]
      have hne : q ≠ p := by
        intro e
        apply hq i (Nat.le_refl i)
        rw [hp, e]
      have h1 : ((c.push_position tok).set_arg p ((c.arg_at p).set_value L tok).state).arg_at q =
          c.arg_at q := by
        rw [arg_at_set_arg]
        simp only [hne, false_and, if_false]
        rfl
      cases ((c.arg_at p).set_value L tok).thrown with
      | none =>
        exact (ih ((c.push_position tok).set_arg p ((c.arg_at p).set_value L tok).state)
          (i + 1) (fun j hj => hq j (by omega))).trans h1
      | some e => exact h1

/-- What a capture loop that returns did to the Positional argument at index `i + j`: it stored
the token at index `j`, and the checks of `set_value` passed. -/
theorem capture_bound (L : Libc) (c : Command) (i : Nat) (toks : List String)
    (hnd : c.position_args_.Nodup)
    (hpres : ∀ p ∈ c.position_args_, (map_find p c.argid_2_arg_).isSome = true)
    (h : (c.capture L i toks).thrown = none) (j : Nat) (p : Int) (tok : String)
    (hp : c.position_args_[i + j]? = some p) (ht : toks[j]? = some tok) :
    (c.capture L i toks).state.arg_at p = ((c.arg_at p).set_value L tok).state ∧
      ((c.arg_at p).set_value L tok).thrown = none := by
  induction toks generalizing c i j with
  | nil => simp at ht
  | cons tok0 toks ih =>
    rw [capture_cons] at h ⊢
    cases hp0 : c.position_args_[i]? with
    | none =>
      have := List.getElem?_eq_none_iff.mp hp0
      rw [List.getElem?_eq_none (by omega)] at hp
      cases hp
    | some p0 =>
      rw [hp0] at h
      simp only [Res.bind] at h ⊢
      cases hthrown : ((c.arg_at p0).set_value L tok0).thrown with
      | some e =>
        rw [hthrown] at h
        simp at h
      | none =>
        rw [hthrown] at h
        simp only at h ⊢
        have hfr : ((c.push_position tok0).set_arg p0
            ((c.arg_at p0).set_value L tok0).state).position_args_ = c.position_args_ := rfl
        have hmem0 : p0 ∈ c.position_args_ := List.getElem?_mem hp0
        cases j with
        | zero =>
          have hpp : p = p0 := by
            rw [Nat.add_zero, hp0] at hp
            exact (Option.some.inj hp).symm
          have htt : tok = tok0 := by
            simpa using ht.symm
          subst hpp
          subst htt
          refine ⟨?_, hthrown⟩
          rw [capture_untouched]
          · rw [arg_at_set_arg]
            simp only [true_and]
            exact if_pos (hpres p hmem0)
          · intro k hk hkp
            rw [hfr] at hkp
            have hlt : i < c.position_args_.length := by
              by_contra hge
              rw [List.getElem?_eq_none (by omega)] at hp0
              cases hp0
            have := (List.getElem?_inj hlt hnd (hp0.trans hkp.symm))
            omega
        | succ j =>
          have hne : p ≠ p0 := by
            intro e
            have hlt : i < c.position_args_.length := by
              by_contra hge
              rw [List.getElem?_eq_none (by omega)] at hp0
              cases hp0
            rw [e] at hp
            have := (List.getElem?_inj hlt hnd (hp0.trans hp.symm))
            omega
          have hsame : ((c.push_position tok0).set_arg p0
              ((c.arg_at p0).set_value L tok0).state).arg_at p = c.arg_at p := by
            rw [arg_at_set_arg]
            simp only [hne, false_and, if_false]
            rfl
          have hpres2 : ∀ q ∈ ((c.push_position tok0).set_arg p0
              ((c.arg_at p0).set_value L tok0).state).position_args_,
              (map_find q ((c.push_position tok0).set_arg p0
                ((c.arg_at p0).set_value L tok0).state).argid_2_arg_).isSome = true := by
            intro q hq
            rw [((push_position_frame c tok0).trans (set_arg_frame _ _ _)).present]
            exact hpres q hq
          have := ih ((c.push_position tok0).set_arg p0 ((c.arg_at p0).set_value L tok0).state)
            (i + 1) hnd hpres2 h j (by rw [hfr, ← hp]; congr 1; omega) (by simpa using ht)
          rw [hsame] at this
          exact this

theorem filed_position_id (L : Libc) (a : Arg) (pos : Int) :
    (a.filed L pos).position_id_ =
      if a.arg_type_ = ArgType.POSITION then pos else a.position_id_ := by
  unfold Arg.filed
  by_cases hf : a.arg_type_ = ArgType.FLAG
  · have hp : ¬ (a.set_value L "0").state.arg_type_ = ArgType.POSITION := by
      rw [set_value_arg_type, hf]
      decide
    have hp2 : ¬ a.arg_type_ = ArgType.POSITION := by
      rw [hf]
      decide
    simp only [hf, if_true, hp, if_false, hp2]
    exact set_value_position_id L a "0"
  · simp only [hf, if_false]
    split <;> rfl

theorem arg_current_position_id (L : Libc) (c : Command) (a : Arg)
    (h : (c.arg L a).thrown = none) :
    (c.arg L a).state.current_position_id_ =
      if a.arg_type_ = ArgType.POSITION then c.current_position_id_ + 1
      else c.current_position_id_ := by
  unfold Command.arg at h ⊢
  split at h
  · simp [Res.throw] at h
  · rename_i hcond
    rw [if_neg hcond]
    simp only [Res.ok]
    obtain ⟨l1, l2, l3, l4, l5, l6, l7⟩ := file_long_members
      { c with current_argid_ := c.current_argid_ - 1 } (a.set_argid c.current_argid_)
    obtain ⟨s1, s2, s3, s4, s5, s6, s7⟩ := file_short_members
      (Command.file_long { c with current_argid_ := c.current_argid_ - 1 }
        (a.set_argid c.current_argid_)) (a.set_argid c.current_argid_)
    obtain ⟨k1, k2, k3, k4, k5, k6, k7⟩ := file_conflict_members
      (Command.file_short (Command.file_long { c with current_argid_ := c.current_argid_ - 1 }
        (a.set_argid c.current_argid_)) (a.set_argid c.current_argid_))
      (a.set_argid c.current_argid_)
    show (Command.file_position _ _).current_position_id_ = _
    unfold Command.file_position
    have hk : (Command.file_conflict
        (Command.file_short (Command.file_long { c with current_argid_ := c.current_argid_ - 1 }
          (a.set_argid c.current_argid_)) (a.set_argid c.current_argid_))
        (a.set_argid c.current_argid_)).current_position_id_ = c.current_position_id_ :=
      k6.trans (s5.trans l5)
    by_cases ht : a.arg_type_ = ArgType.POSITION
    · rw [if_pos (show (a.set_argid c.current_argid_).arg_type_ = ArgType.POSITION from ht),
        if_pos ht]
      show _ + 1 = _
      rw [hk]
    · rw [if_neg (show ¬ (a.set_argid c.current_argid_).arg_type_ = ArgType.POSITION from ht),
        if_neg ht]
      exact hk

/-- The positional list, the stored ids and the position counter after `parse_args`, whatever
its outcome. -/
theorem parsed_positions (L : Libc) (c : Command) (args : List String) :
    (c.parse_args L args).state.position_args_ = c.position_args_ ∧
      (c.parse_args L args).state.current_position_id_ = c.current_position_id_ ∧
      (∀ q, (map_find q c.argid_2_arg_).isSome = true →
        (map_find q (c.parse_args L args).state.argid_2_arg_).isSome = true) := by
  have hmem := (parse_args_own L c args).2.2.1
  have hfr : Command.Frame (c.prepared L)
      (c.reset_arg_status.parse_own_level L (c.own_tokens args)).state :=
    (scan_events_frame L (c.prepared L) (c.own_run L args).events).trans
      (own_level_after_scan L c args).2.2.2.1
  refine ⟨?_, ?_, ?_⟩
  · rw [show (c.parse_args L args).state.position_args_ =
      (c.reset_arg_status.parse_own_level L (c.own_tokens args)).state.position_args_ from
      congrArg CommandMembers.position_args_ hmem, hfr.position_args]
    exact (prepared_rest L c).2.2.2.2.1
  · rw [show (c.parse_args L args).state.current_position_id_ =
      (c.reset_arg_status.parse_own_level L (c.own_tokens args)).state.current_position_id_ from
      congrArg CommandMembers.current_position_id_ hmem, hfr.current_position_id]
    show (c.reset_arg_status.add_help_arg L).current_position_id_ = _
    rw [(add_help_rest L c.reset_arg_status).2.1, (reset_frame c).current_position_id]
  · intro q hq
    rw [show (c.parse_args L args).state.argid_2_arg_ =
      (c.reset_arg_status.parse_own_level L (c.own_tokens args)).state.argid_2_arg_ from
      congrArg CommandMembers.argid_2_arg_ hmem, hfr.present]
    exact prepared_present L c q hq

/-- Every command the API produces at top level keeps its positional list in order. -/
theorem reachable_positions (L : Libc) (c : Command) (h : Command.Reachable L c) :
    c.PositionsWF := by
  induction h with
  | new_command name =>
    refine ⟨List.nodup_nil, ?_, ?_, ?_, rfl⟩
    · intro p hp
      cases hp
    · intro p hp
      cases hp
    · intro i p hp
      simp [Command.new_command] at hp
  | usage c text _ w => exact ⟨w.nodup, w.present, w.kind, w.ids, w.count⟩
  | usage_lines c lines _ w => exact ⟨w.nodup, w.present, w.kind, w.ids, w.count⟩
  | subcommand c sub _ w => exact ⟨w.nodup, w.present, w.kind, w.ids, w.count⟩
  | related_group c group _ w => exact ⟨w.nodup, w.present, w.kind, w.ids, w.count⟩
  | conflict_group c group _ w => exact ⟨w.nodup, w.present, w.kind, w.ids, w.count⟩
  | one_required_group c group _ w => exact ⟨w.nodup, w.present, w.kind, w.ids, w.count⟩
  | arg c a hr hb hok w =>
    have hwf := reachable_wf L c hr
    obtain ⟨a1, a2, a3, a4, a5, a6⟩ := arg_spec L c a hok
    obtain ⟨hlong, hshort, hposn, hpres⟩ := arg_entries L c a hok
    have harg := arg_arg_at L c a hok
    have hcur := arg_current_position_id L c a hok
    have hfresh : c.current_argid_ ∉ c.position_args_ := by
      intro hmem
      have := hwf.position_fresh _ hmem
      omega
    refine ⟨?_, ?_, (arg_wf L c a hwf hb hok).position_kind, ?_, ?_⟩
    · rw [a5]
      split
      · rw [List.nodup_append]
        refine ⟨w.nodup, List.nodup_singleton _, ?_⟩
        intro x hx hx2
        rw [List.mem_singleton] at hx2
        rw [hx2] at hx
        exact hfresh hx
      · exact w.nodup
    · intro p hp
      apply hpres
      rcases hposn p hp with h1 | ⟨h1, _⟩
      · exact Or.inr (w.present p h1)
      · exact Or.inl h1
    · intro i p hp
      rw [a5] at hp
      rw [harg]
      by_cases ht : a.arg_type_ = ArgType.POSITION
      · rw [if_pos ht] at hp
        by_cases hi : i < c.position_args_.length
        · rw [List.getElem?_append_left hi] at hp
          have hmem : p ∈ c.position_args_ := List.getElem?_mem hp
          rw [if_neg (fun e : p = c.current_argid_ => hfresh (e ▸ hmem))]
          exact w.ids i p hp
        · rw [List.getElem?_append_right (by omega)] at hp
          have hi0 : i - c.position_args_.length = 0 := by
            by_contra hne
            rw [List.getElem?_eq_none (by simp; omega)] at hp
            cases hp
          rw [hi0] at hp
          have hpc : c.current_argid_ = p := by simpa using hp
          rw [if_pos hpc.symm, filed_position_id,
            if_pos (show (a.set_argid c.current_argid_).arg_type_ = ArgType.POSITION from ht),
            w.count]
          congr 1
          omega
      · rw [if_neg ht] at hp
        have hmem : p ∈ c.position_args_ := List.getElem?_mem hp
        rw [if_neg (fun e : p = c.current_argid_ => hfresh (e ▸ hmem))]
        exact w.ids i p hp
    · rw [hcur, a5]
      split
      · rw [w.count, List.length_append]
        simp
      · exact w.count
  | parse_args c args hr w =>
    have hwf := reachable_wf L c hr
    obtain ⟨p1, p2, p3⟩ := parsed_positions L c args
    refine ⟨?_, ?_, ?_, ?_, ?_⟩
    · rw [p1]
      exact w.nodup
    · intro p hp
      rw [p1] at hp
      exact p3 p (w.present p hp)
    · exact (parse_args_wf L c args hwf).position_kind
    · intro i p hp
      rw [p1] at hp
      have hmem : p ∈ c.position_args_ := List.getElem?_mem hp
      have hne : p ≠ c.current_argid_ := by
        have := hwf.position_fresh p hmem
        omega
      rw [parsed_keep L Arg.position_id_ (set_value_position_id L) (fun _ => rfl),
        prepared_arg_at, if_neg hne]
      split
      · rw [reset_status_info_position_id]
        exact w.ids i p hp
      · exact w.ids i p hp
    · rw [p1, p2]
      exact w.count

/-- A parse of the own level that returns went through every phase. -/
theorem phases_ok (L : Libc) (sc : Res Command) (argc : Int) (run : GetoptRun)
    (h : ((((((sc.check Command.check_required_args).bind
      (fun c1 => c1.capture_positions L argc run)).check
      Command.check_conflict_with_all_args).check Command.check_related_groups).check
      Command.check_conflict_groups).check Command.check_one_required_group).thrown = none) :
    sc.thrown = none ∧ sc.state.check_required_args = none ∧
      (sc.state.capture_positions L argc run).thrown = none ∧
      ((((((sc.check Command.check_required_args).bind
        (fun c1 => c1.capture_positions L argc run)).check
        Command.check_conflict_with_all_args).check Command.check_related_groups).check
        Command.check_conflict_groups).check Command.check_one_required_group).state =
        (sc.state.capture_positions L argc run).state ∧
      (sc.state.capture_positions L argc run).state.check_conflict_with_all_args = none ∧
      (sc.state.capture_positions L argc run).state.check_related_groups = none ∧
      (sc.state.capture_positions L argc run).state.check_conflict_groups = none ∧
      (sc.state.capture_positions L argc run).state.check_one_required_group = none := by
  obtain ⟨h4, g4⟩ := check_thrown_none _ _ h
  obtain ⟨h3, g3⟩ := check_thrown_none _ _ h4
  obtain ⟨h2, g2⟩ := check_thrown_none _ _ h3
  obtain ⟨h1, g1⟩ := check_thrown_none _ _ h2
  obtain ⟨h0, g0⟩ := bind_thrown_none _ _ h1
  obtain ⟨hs, gs⟩ := check_thrown_none _ _ h0
  have e : (sc.check Command.check_required_args).bind
      (fun c1 => c1.capture_positions L argc run) = sc.state.capture_positions L argc run := by
    rw [bind_of_ok _ _ h0, check_state]
  rw [check_state, check_state, check_state] at g4
  rw [check_state, check_state] at g3
  rw [check_state] at g2
  rw [e] at g1 g2 g3 g4 h1
  refine ⟨hs, gs, h1, ?_, g1, g2, g3, g4⟩
  rw [check_state, check_state, check_state, check_state, e]

/-- Positional capture that returns passed both tests and ran the loop over the remaining
tokens. -/
theorem capture_positions_ok (L : Libc) (c : Command) (argc : Int) (run : GetoptRun)
    (h : (c.capture_positions L argc run).thrown = none) :
    run.optind ≤ argc ∧ c.position_args_.length ≤ (argc - run.optind).toNat ∧
      c.capture_positions L argc run =
        c.capture L 0 ((run.argv.drop run.optind.toNat).take (argc - run.optind).toNat) := by
  unfold Command.capture_positions at h ⊢
  split at h
  · simp [Res.throw] at h
  · split at h
    · simp [Res.throw] at h
    · rename_i h1 h2
      rw [if_neg h1, if_neg h2]
      exact ⟨by omega, by omega, rfl⟩

/-- A `parse_args` call that returns: the scan and the required check passed, the scanner left
at least as many tokens as there are Positional arguments, and the members of the command are
those the capture loop over the remaining tokens left. -/
theorem parse_ok_capture (L : Libc) (c : Command) (args : List String)
    (hok : (c.parse_args L args).thrown = none) :
    (c.scanned L args).thrown = none ∧ (c.scanned L args).state.check_required_args = none ∧
      (c.own_run L args).optind ≤ (c.own_tokens args).length ∧
      c.position_args_.length ≤
        (((c.own_tokens args).length : Int) - (c.own_run L args).optind).toNat ∧
      ((c.scanned L args).state.capture L 0 (c.remaining L args)).thrown = none ∧
      (c.parse_args L args).state.toCommandMembers =
        ((c.scanned L args).state.capture L 0 (c.remaining L args)).state.toCommandMembers := by
  have hown := (parse_args_own L c args).2.1 hok
  obtain ⟨h0, h1, h2, h3, _⟩ := phases_ok L (c.scanned L args) (c.own_tokens args).length
    (c.own_run L args) hown
  obtain ⟨k1, k2, k3⟩ := capture_positions_ok L _ _ _ h2
  have hpos : (c.scanned L args).state.position_args_ = c.position_args_ :=
    ((scan_events_frame L (c.prepared L) _).position_args).trans (prepared_rest L c).2.2.2.2.1
  rw [hpos] at k2
  refine ⟨h0, h1, k1, k2, ?_, ?_⟩
  · rw [k3] at h2
    exact h2
  · rw [(parse_args_own L c args).2.2.1]
    rw [show (c.reset_arg_status.parse_own_level L (c.own_tokens args)).state =
      ((c.scanned L args).state.capture_positions L (c.own_tokens args).length
        (c.own_run L args)).state from h3, k3]
    rfl

theorem check_last_ok (L : Libc) (b : Arg) (h : (Arg.check_last L b).thrown = none) :
    Arg.check_range_void L b = none ∧ Arg.check_choice b = none := by
  unfold Arg.check_last at h
  obtain ⟨h1, g1⟩ := check_thrown_none _ _ h
  obtain ⟨_, g0⟩ := check_thrown_none _ _ h1
  rw [check_state] at g1
  exact ⟨g0, g1⟩

/-- A value stored without exception in an argument other than a flag is the last value of
the argument and passes its range and choice checks. -/
theorem set_value_ok (L : Libc) (a : Arg) (v : String) (hf : a.arg_type_ ≠ ArgType.FLAG)
    (h : (a.set_value L v).thrown = none) :
    (a.set_value L v).state.values_.getLast? = some v ∧
      Arg.check_range_void L (a.set_value L v).state = none ∧
      Arg.check_choice (a.set_value L v).state = none := by
  have hs := set_value_state L a v hf
  have h2 : (Arg.check_last L (a.clear_default.push_back v)).thrown = none := by
    unfold Arg.set_value at h
    rw [if_neg hf] at h
    exact h
  rw [hs]
  refine ⟨?_, check_last_ok L _ h2⟩
  rw [push_back_values]
  simp

/-- The Positional arguments of a command as the capture loop of `parse_args` finds them: the
list is the declared one, its entries are stored, and they are not flags. -/
theorem scanned_positions (L : Libc) (c : Command) (args : List String)
    (hwf : c.WF) (hpw : c.PositionsWF) :
    (c.scanned L args).state.position_args_ = c.position_args_ ∧
      (c.scanned L args).state.position_values_ = [] ∧
      (∀ p ∈ (c.scanned L args).state.position_args_,
        (map_find p (c.scanned L args).state.argid_2_arg_).isSome = true) ∧
      (∀ p ∈ c.position_args_,
        ((c.scanned L args).state.arg_at p).arg_type_ = ArgType.POSITION) := by
  have hfr := scan_events_frame L (c.prepared L) (c.own_run L args).events
  have hpos : (c.scanned L args).state.position_args_ = c.position_args_ :=
    hfr.position_args.trans (prepared_rest L c).2.2.2.2.1
  refine ⟨hpos, ?_, ?_, ?_⟩
  · exact (scan_events_positions L (c.prepared L) _).1.trans (prepared_rest L c).2.2.2.2.2.1
  · intro p hp
    rw [hpos] at hp
    rw [show (c.scanned L args).state.argid_2_arg_ =
      ((c.prepared L).scan_events L (c.own_run L args).events).state.argid_2_arg_ from rfl,
      hfr.present]
    exact prepared_present L c p (hpw.present p hp)
  · intro p hp
    have hne : p ≠ c.current_argid_ := by
      have := hwf.position_fresh p hp
      omega
    rw [show (c.scanned L args).state.arg_at p =
      ((c.prepared L).scan_events L (c.own_run L args).events).state.arg_at p from rfl,
      scan_events_arg_type, prepared_arg_at, if_neg hne]
    split
    · rw [reset_status_info_arg_type]
      exact hpw.kind p hp
    · exact hpw.kind p hp

/-- The capture loop in two parts: the tokens bound to the declared Positional arguments, then
the tokens that are only recorded. -/
theorem capture_first (L : Libc) (c : Command) (toks : List String) :
    c.capture L 0 toks =
      (c.capture L 0 (toks.take c.position_args_.length)).bind
        (fun c2 => Res.ok ((toks.drop c.position_args_.length).foldl Command.push_position
          c2)) := by
  have h := capture_append L c 0 (toks.take c.position_args_.length)
    (toks.drop c.position_args_.length)
  rw [List.take_append_drop] at h
  rw [h]
  cases hthrown : (c.capture L 0 (toks.take c.position_args_.length)).thrown with
  | some e => rw [bind_of_thrown _ _ e hthrown, bind_of_thrown _ _ e hthrown]
  | none =>
    rw [bind_of_ok _ _ hthrown, bind_of_ok _ _ hthrown]
    by_cases hlen : c.position_args_.length ≤ toks.length
    · apply capture_extra
      rw [(capture_frame L c 0 _).position_args, List.length_take]
      omega
    · rw [List.drop_eq_nil_of_le (by omega)]
      rfl

theorem capture_first_thrown (L : Libc) (c : Command) (toks : List String) :
    (c.capture L 0 toks).thrown =
        (c.capture L 0 (toks.take c.position_args_.length)).thrown ∧
      (∀ q, (c.capture L 0 toks).state.arg_at q =
        (c.capture L 0 (toks.take c.position_args_.length)).state.arg_at q) := by
  rw [capture_first]
  cases hthrown : (c.capture L 0 (toks.take c.position_args_.length)).thrown with
  | some e =>
    rw [bind_of_thrown _ _ e hthrown]
    exact ⟨hthrown, fun _ => rfl⟩
  | none =>
    rw [bind_of_ok _ _ hthrown]
    exact ⟨rfl, fun q => (foldl_push_position _ _).2.1 q⟩

/-- The positional values after a `parse_args` call that returns: the tokens the scanner
left. -/
theorem parsed_position_values (L : Libc) (c : Command) (args : List String)
    (hok : (c.parse_args L args).thrown = none) :
    (c.parse_args L args).state.position_values_ = c.remaining L args := by
  obtain ⟨k0, k1, k2, k3, k4, k5⟩ := parse_ok_capture L c args hok
  have hs : (c.scanned L args).state.position_values_ = [] :=
    (scan_events_positions L (c.prepared L) _).1.trans (prepared_rest L c).2.2.2.2.2.1
  rw [show (c.parse_args L args).state.position_values_ =
    ((c.scanned L args).state.capture L 0 (c.remaining L args)).state.position_values_ from
    congrArg CommandMembers.position_values_ k5, capture_values L _ 0 _ k4, hs]
  rfl

theorem missing_tail (name : String) :
    (name ++ ": Missing required position arguments.").data.reverse.take 3 =
      ['.', 's', 't'] := by
  rw [String.data_append, List.reverse_append]
  rfl

theorem tail_lit (a b : String) (h : 3 ≤ b.data.length) :
    (a ++ b).data.reverse.take 3 = b.data.reverse.take 3 := by
  rw [String.data_append, List.reverse_append, List.take_append_of_le_length (by simpa using h)]

/-- A text that ends in two characters other than `s.` is not the missing-positional message of
any command. -/
theorem tail_two (a b : String) (x y : Char) (t : List Char) (hb : b.data = t ++ [x])
    (h : x ≠ 's') : ((a ++ b) ++ String.singleton y).data.reverse.take 3 ≠ ['.', 's', 't'] := by
  rw [String.data_append, String.data_append, hb]
  simp only [String.singleton, List.reverse_append, List.reverse_cons, List.reverse_nil,
    List.nil_append, List.singleton_append, List.cons_append, List.take_succ_cons]
  intro e
  injection e with _ e2
  injection e2 with e3 _
  exact h e3

theorem boundary_description_data (a : Arg) :
    ∃ t x, a.get_boundary_description.data = t ++ [x] ∧ x ≠ 's' := by
  unfold Arg.get_boundary_description
  by_cases h : a.include_right_ = true
  · refine ⟨((if a.include_left_ then "[" else "(") ++ a.left_.getD "" ++ ", " ++
      a.right_.getD "").data, ']', ?_, by decide⟩
    rw [if_pos h, String.data_append]
  · refine ⟨((if a.include_left_ then "[" else "(") ++ a.left_.getD "" ++ ", " ++
      a.right_.getD "").data, ')', ?_, by decide⟩
    rw [if_neg h, String.data_append]

theorem range_msg_tail (a : Arg) : a.range_msg.data.reverse.take 3 ≠ ['.', 's', 't'] := by
  obtain ⟨t, x, hd, hx⟩ := boundary_description_data a
  unfold Arg.range_msg
  split
  · exact tail_two _ _ x '.' t hd hx
  · split
    · exact tail_two _ _ x '.' t hd hx
    · split
      · exact tail_two _ _ x '.' t hd hx
      · decide

theorem choice_msg_tail (a : Arg) (d : String) (h : a.get_choice_description = some d) :
    (a.choice_msg d).data.reverse.take 3 ≠ ['.', 's', 't'] := by
  have hd : ∃ t, d.data = t ++ [']'] := by
    unfold Arg.get_choice_description at h
    simp only at h
    split at h
    · cases h
    · split at h
      · cases h
      · rename_i d2 _
        cases h
        exact ⟨d2.data, String.data_append d2 "]"⟩
  obtain ⟨t, hd⟩ := hd
  unfold Arg.choice_msg
  split
  · exact tail_two _ _ ']' '.' t hd (by decide)
  · split
    · exact tail_two _ _ ']' '.' t hd (by decide)
    · decide

theorem ne_missing_of_tail (msg : String) (h : msg.data.reverse.take 3 ≠ ['.', 's', 't'])
    (name : String) :
    fail msg ≠ Exn.ParseArgsError (name ++ ": Missing required position arguments.") := by
  intro e
  have e2 : msg = name ++ ": Missing required position arguments." := by
    injection e
  apply h
  rw [e2]
  exact missing_tail name

theorem not_missing_of_tail (msg : String) (h : msg.data.reverse.take 3 ≠ ['.', 's', 't']) :
    (fail msg).not_missing_position := ne_missing_of_tail msg h

theorem not_missing_lit (a b : String) (h : 3 ≤ b.data.length)
    (hb : b.data.reverse.take 3 ≠ ['.', 's', 't']) : (fail (a ++ b)).not_missing_position := by
  apply not_missing_of_tail
  rw [tail_lit a b h]
  exact hb

theorem stol_error (s : String) (e : Exn) (h : stol s = .error e) :
    e = Exn.invalid_argument ∨ e = Exn.out_of_range := by
  unfold stol at h
  cases hs : scan_integer s with
  | none =>
    rw [hs] at h
    cases h
    exact Or.inl rfl
  | some p =>
    rw [hs] at h
    dsimp only at h
    split_ifs at h <;> cases h <;> exact Or.inr rfl

theorem stoul_error (s : String) (e : Exn) (h : stoul s = .error e) :
    e = Exn.invalid_argument ∨ e = Exn.out_of_range := by
  unfold stoul at h
  split at h
  · cases h
    exact Or.inl rfl
  · split at h
    · cases h
      exact Or.inr rfl
    · cases h

theorem range_verdict_error {T : Type} [LT T] [LE T] [∀ x y : T, Decidable (x < y)]
    [∀ x y : T, Decidable (x ≤ y)] (a : Arg) (conv : String → Except Exn T)
    (v l r : String) (e : Exn) (h : a.range_verdict conv v l r = .error e) :
    ∃ s, conv s = .error e := by
  unfold Arg.range_verdict at h
  cases hv : conv v with
  | error e1 =>
    rw [hv] at h
    cases h
    exact ⟨v, hv⟩
  | ok value =>
    rw [hv] at h
    simp only at h
    cases hl : conv l with
    | error e1 =>
      rw [hl] at h
      cases h
      exact ⟨l, hl⟩
    | ok left =>
      rw [hl] at h
      simp only at h
      cases hr : conv r with
      | error e1 =>
        rw [hr] at h
        cases h
        exact ⟨r, hr⟩
      | ok right =>
        rw [hr] at h
        cases h

theorem not_missing_of_standard (e : Exn)
    (h : e = Exn.invalid_argument ∨ e = Exn.out_of_range) : e.not_missing_position := by
  intro name he
  rcases h with h | h <;> rw [h] at he <;> cases he

theorem undefined_not_missing : Exn.undefined_behaviour.not_missing_position := by
  intro name he
  cases he

theorem check_range_void_not_missing (L : Libc) (hL : L.stod_standard) (a : Arg) (e : Exn)
    (h : Arg.check_range_void L a = some e) : e.not_missing_position := by
  unfold Arg.check_range_void at h
  split at h
  · split at h
    · rename_i v l r _ _ _
      simp only at h
      cases hn : a.num_type_ with
      | INT =>
        rw [hn] at h
        simp only at h
        cases hv : a.range_verdict stol v l r with
        | error e1 =>
          rw [hv] at h
          cases h
          obtain ⟨s, hs⟩ := range_verdict_error a stol v l r e hv
          exact not_missing_of_standard e (stol_error s e hs)
        | ok b =>
          rw [hv] at h
          cases b
          · cases h
            exact not_missing_of_tail _ (range_msg_tail a)
          · cases h
      | UINT =>
        rw [hn] at h
        simp only at h
        cases hv : a.range_verdict stoul v l r with
        | error e1 =>
          rw [hv] at h
          cases h
          obtain ⟨s, hs⟩ := range_verdict_error a stoul v l r e hv
          exact not_missing_of_standard e (stoul_error s e hs)
        | ok b =>
          rw [hv] at h
          cases b
          · cases h
            exact not_missing_of_tail _ (range_msg_tail a)
          · cases h
      | DOUBlE =>
        rw [hn] at h
        simp only at h
        cases hv : a.range_verdict L.stod v l r with
        | error e1 =>
          rw [hv] at h
          cases h
          obtain ⟨s, hs⟩ := range_verdict_error a L.stod v l r e hv
          exact not_missing_of_standard e (hL s e hs)
        | ok b =>
          rw [hv] at h
          cases b
          · cases h
            exact not_missing_of_tail _ (range_msg_tail a)
          · cases h
    · cases h
      exact undefined_not_missing
  · cases h

theorem check_choice_not_missing (a : Arg) (e : Exn) (h : a.check_choice = some e) :
    e.not_missing_position := by
  unfold Arg.check_choice at h
  split at h
  · split at h
    · cases h
      exact undefined_not_missing
    · split at h
      · cases h
      · split at h
        · cases h
          exact undefined_not_missing
        · rename_i d hd
          cases h
          exact not_missing_of_tail _ (choice_msg_tail a d hd)
  · cases h

theorem set_value_not_missing (L : Libc) (hL : L.stod_standard) (a : Arg) (v : String)
    (e : Exn) (h : (a.set_value L v).thrown = some e) : e.not_missing_position := by
  unfold Arg.set_value at h
  split at h
  · cases h
  · unfold Arg.check_last at h
    rw [check_thrown, check_thrown, check_state] at h
    cases h1 : Arg.check_range_void L (a.clear_default.push_back v) with
    | some e1 =>
      have : e1 = e := by
        simpa [Res.ok, h1] using h
      rw [← this]
      exact check_range_void_not_missing L hL _ e1 h1
    | none =>
      have : Arg.check_choice (a.clear_default.push_back v) = some e := by
        simpa [Res.ok, h1] using h
      exact check_choice_not_missing _ e this

theorem capture_not_missing (L : Libc) (hL : L.stod_standard) (c : Command) (i : Nat)
    (toks : List String) (e : Exn) (h : (c.capture L i toks).thrown = some e) :
    e.not_missing_position := by
  induction toks generalizing c i with
  | nil => cases h
  | cons tok toks ih =>
    rw [capture_cons] at h
    cases hp : c.position_args_[i]? with
    | none =>
      rw [hp] at h
      exact ih _ _ h
    | some p =>
      rw [hp] at h
      simp only [Res.bind] at h
      cases ht : ((c.arg_at p).set_value L tok).thrown with
      | none =>
        rw [ht] at h
        exact ih _ _ h
      | some e1 =>
        rw [ht] at h
        simp only at h
        cases h
        exact set_value_not_missing L hL _ tok e ht

theorem conflict_of_not_missing (c : Command) (a : Arg) (e : Exn)
    (h : c.conflict_of a = some e) : e.not_missing_position := by
  unfold Command.conflict_of at h
  split at h
  · cases h
    unfold insert_cstr
    cases a.long_name_ with
    | none => exact not_missing_lit _ _ (by decide) (by decide)
    | some text => exact not_missing_lit _ _ (by decide) (by decide)
  · split at h
    · cases h
      exact not_missing_lit _ _ (by decide) (by decide)
    · cases h

theorem conflict_scan_not_missing (c : Command) (ps : List Int) (e : Exn)
    (h : c.conflict_scan ps = some e) : e.not_missing_position := by
  induction ps with
  | nil => cases h
  | cons p ps ih =>
    unfold Command.conflict_scan at h
    split at h
    · cases hc : c.conflict_of (c.arg_at p) with
      | some e1 =>
        rw [hc] at h
        cases h
        exact conflict_of_not_missing c _ e hc
      | none =>
        rw [hc] at h
        exact ih h
    · exact ih h

theorem member_hit_not_missing (c : Command) (name : String) (e : Exn)
    (h : c.member_hit name = .error e) : e.not_missing_position := by
  unfold Command.member_hit at h
  split at h
  · split at h
    · cases h
      exact not_missing_lit _ _ (by decide) (by decide)
    · cases h
  · split at h
    · cases h
      exact not_missing_lit _ _ (by decide) (by decide)
    · cases h

theorem group_count_not_missing (c : Command) (group : List String) (e : Exn)
    (h : c.group_count group = .error e) : e.not_missing_position := by
  induction group with
  | nil => cases h
  | cons name rest ih =>
    unfold Command.group_count at h
    cases hm : c.member_hit name with
    | error e1 =>
      rw [hm] at h
      cases h
      exact member_hit_not_missing c name e hm
    | ok b =>
      rw [hm] at h
      simp only at h
      cases hr : c.group_count rest with
      | error e1 =>
        rw [hr] at h
        cases h
        exact ih hr
      | ok n =>
        rw [hr] at h
        cases h

theorem group_failure_not_missing (c : Command) (group : List String) (before after : String)
    (h : 3 ≤ after.data.length) (ht : after.data.reverse.take 3 ≠ ['.', 's', 't']) :
    (c.group_failure group before after).not_missing_position := by
  unfold Command.group_failure
  split
  · exact undefined_not_missing
  · exact not_missing_lit _ _ h ht

theorem related_scan_not_missing (c : Command) (groups : List (List String)) (e : Exn)
    (h : c.related_scan groups = some e) : e.not_missing_position := by
  induction groups with
  | nil => cases h
  | cons group groups ih =>
    unfold Command.related_scan at h
    cases hc : c.group_count group with
    | error e1 =>
      rw [hc] at h
      cases h
      exact group_count_not_missing c group e hc
    | ok n =>
      rw [hc] at h
      simp only at h
      split at h
      · cases h
        exact group_failure_not_missing c group _ _ (by decide) (by decide)
      · exact ih h

theorem conflict_groups_scan_not_missing (c : Command) (groups : List (List String))
    (e : Exn) (h : c.conflict_groups_scan groups = some e) : e.not_missing_position := by
  induction groups with
  | nil => cases h
  | cons group groups ih =>
    unfold Command.conflict_groups_scan at h
    cases hc : c.group_count group with
    | error e1 =>
      rw [hc] at h
      cases h
      exact group_count_not_missing c group e hc
    | ok n =>
      rw [hc] at h
      simp only at h
      split at h
      · cases h
        exact group_failure_not_missing c group _ _ (by decide) (by decide)
      · exact ih h

theorem one_required_scan_not_missing (c : Command) (groups : List (List String)) (e : Exn)
    (h : c.one_required_scan groups = some e) : e.not_missing_position := by
  induction groups with
  | nil => cases h
  | cons group groups ih =>
    unfold Command.one_required_scan at h
    cases hc : c.group_count group with
    | error e1 =>
      rw [hc] at h
      cases h
      exact group_count_not_missing c group e hc
    | ok n =>
      rw [hc] at h
      simp only at h
      split at h
      · cases h
        exact group_failure_not_missing c group _ _ (by decide) (by decide)
      · exact ih h

/-- Whatever the phases from the capture loop on throw, it is not a missing-positional
failure. -/
theorem later_phases_not_missing (r : Res Command)
    (hr : ∀ e, r.thrown = some e → e.not_missing_position) (e : Exn)
    (h : ((((r.check Command.check_conflict_with_all_args).check
      Command.check_related_groups).check Command.check_conflict_groups).check
      Command.check_one_required_group).thrown = some e) : e.not_missing_position := by
  rw [check_thrown] at h
  cases h3 : (((r.check Command.check_conflict_with_all_args).check
      Command.check_related_groups).check Command.check_conflict_groups).thrown with
  | some e3 =>
    rw [h3] at h
    cases h
    rw [check_thrown] at h3
    cases h2 : ((r.check Command.check_conflict_with_all_args).check
        Command.check_related_groups).thrown with
    | some e2 =>
      rw [h2] at h3
      cases h3
      rw [check_thrown] at h2
      cases h1 : (r.check Command.check_conflict_with_all_args).thrown with
      | some e1 =>
        rw [h1] at h2
        cases h2
        rw [check_thrown] at h1
        cases h0 : r.thrown with
        | some e0 =>
          rw [h0] at h1
          cases h1
          exact hr e h0
        | none =>
          rw [h0] at h1
          exact conflict_scan_not_missing _ _ e h1
      | none =>
        rw [h1] at h2
        exact related_scan_not_missing _ _ e h2
    | none =>
      rw [h2] at h3
      exact conflict_groups_scan_not_missing _ _ e h3
  | none =>
    rw [h3] at h
    exact one_required_scan_not_missing _ _ e h

/-- The own level of a parse after a scan and a required check that passed: the outcome of
positional capture followed by the four group checks. -/
theorem own_level_after_required (L : Libc) (c : Command) (args : List String)
    (hscan : (c.scanned L args).thrown = none)
    (hreq : (c.scanned L args).state.check_required_args = none) :
    c.reset_arg_status.parse_own_level L (c.own_tokens args) =
      (((((c.scanned L args).state.capture_positions L (c.own_tokens args).length
        (c.own_run L args)).check Command.check_conflict_with_all_args).check
        Command.check_related_groups).check Command.check_conflict_groups).check
        Command.check_one_required_group := by
  have e1 : ((c.scanned L args).check Command.check_required_args).thrown = none := by
    rw [check_thrown, hscan]
    exact hreq
  have e2 : ((c.scanned L args).check Command.check_required_args).bind
      (fun c1 => c1.capture_positions L (c.own_tokens args).length (c.own_run L args)) =
      (c.scanned L args).state.capture_positions L (c.own_tokens args).length
        (c.own_run L args) := by
    rw [bind_of_ok _ _ e1, check_state]
  rw [← e2]
  rfl

theorem checks_of_thrown (r : Res Command) (e : Exn) (h : r.thrown = some e) :
    (((r.check Command.check_conflict_with_all_args).check
      Command.check_related_groups).check Command.check_conflict_groups).check
      Command.check_one_required_group = r := by
  rw [check_of_thrown r _ e h, check_of_thrown r _ e h, check_of_thrown r _ e h,
    check_of_thrown r _ e h]

theorem scanned_command_name (L : Libc) (c : Command) (args : List String) :
    (c.scanned L args).state.command_name_ = c.command_name_ ∧
      (c.scanned L args).state.position_args_ = c.position_args_ :=
  ⟨((scan_events_frame L (c.prepared L) _).command_name).trans (prepared_rest L c).2.2.2.2.2.2,
    ((scan_events_frame L (c.prepared L) _).position_args).trans (prepared_rest L c).2.2.2.2.1⟩

/-- The index at which `do_parse_args` cuts the tokens: no token before it is the name of a
registered sub-command, and the token at it, if there is one, is. -/
theorem subcommand_index_spec (subs : List (String × Command)) (t : List String) :
    Command.subcommand_index subs t ≤ t.length ∧
      (∀ (j : Nat) (tok : String), j < Command.subcommand_index subs t → t[j]? = some tok →
        map_find tok subs = none) ∧
      (∀ name, t[Command.subcommand_index subs t]? = some name →
        ∃ child, map_find name subs = some child) ∧
      ((∀ tok ∈ t, map_find tok subs = none) → Command.subcommand_index subs t = t.length) := by
  unfold Command.subcommand_index
  refine ⟨List.findIdx_le_length _, ?_, ?_, ?_⟩
  · intro j tok hj htok
    have hlt : j < t.length := Nat.lt_of_lt_of_le hj (List.findIdx_le_length _)
    have h := List.not_of_lt_findIdx hj
    rw [List.getElem?_eq_getElem hlt] at htok
    cases htok
    cases hm : map_find t[j] subs with
    | none => rfl
    | some child => simp [hm] at h
  · intro name hname
    have hlt : List.findIdx (fun tok => (map_find tok subs).isSome) t < t.length := by
      by_contra hge
      rw [List.getElem?_eq_none (by omega)] at hname
      cases hname
    have h := List.findIdx_getElem (w := hlt)
    rw [List.getElem?_eq_getElem hlt] at hname
    cases hname
    cases hm : map_find t[List.findIdx (fun tok => (map_find tok subs).isSome) t] subs with
    | none => simp [hm] at h
    | some child => exact ⟨child, rfl⟩
  · intro hall
    rw [List.findIdx_eq_length]
    intro x hx
    rw [hall x hx]
    rfl

theorem dispatch_cons (L : Libc) (k : String) (child : Command)
    (rest : List (String × Command)) (name : String) (argv : List String) :
    Command.dispatch L ((k, child) :: rest) name argv =
      if k = name then
        ⟨(k, (child.do_parse_args L argv).state) :: rest, (child.do_parse_args L argv).thrown⟩
      else
        ⟨(k, child) :: (Command.dispatch L rest name argv).state,
          (Command.dispatch L rest name argv).thrown⟩ := by
  rw [Command.dispatch]

/-- The call on the matched child: the child registered under the name is parsed in place, the
other sub-commands are left alone. -/
theorem dispatch_found (L : Libc) (subs : List (String × Command)) (name : String)
    (argv : List String) (child : Command) (h : map_find name subs = some child) :
    (Command.dispatch L subs name argv).thrown = (child.do_parse_args L argv).thrown ∧
      (∀ k, map_find k (Command.dispatch L subs name argv).state =
        if k = name then some (child.do_parse_args L argv).state else map_find k subs) := by
  induction subs with
  | nil => simp [map_find] at h
  | cons e rest ih =>
    obtain ⟨k1, c1⟩ := e
    rw [dispatch_cons]
    rw [map_find_cons] at h
    by_cases hk : k1 = name
    · simp only [hk, if_true] at h ⊢
      cases h
      refine ⟨rfl, ?_⟩
      intro k
      rw [map_find_cons, map_find_cons]
      by_cases hkn : k = name
      · simp [hkn]
      · have : ¬ name = k := fun e => hkn e.symm
        simp [hkn, this]
    · simp only [hk, if_false] at h ⊢
      obtain ⟨i1, i2⟩ := ih h
      refine ⟨i1, ?_⟩
      intro k
      rw [map_find_cons, map_find_cons]
      by_cases hkk : k1 = k
      · have : ¬ k = name := fun e => hk (hkk.trans e)
        simp [hkk, this]
      · simp only [hkk, if_false]
        exact i2 k

/-- The three outcomes of `do_parse_args` on a command with sub-commands, `r` being the parse
of the command's own level on the tokens before the first sub-command name. -/
theorem do_parse_args_cases (L : Libc) (c : Command) (argv : List String)
    (hsub : c.subcommandname_2_subcommand_.isEmpty = false) :
    (∀ e, (c.parse_own_level L
          (argv.take (Command.subcommand_index c.subcommandname_2_subcommand_ argv))).thrown =
        some e →
      c.do_parse_args L argv = c.parse_own_level L
        (argv.take (Command.subcommand_index c.subcommandname_2_subcommand_ argv))) ∧
    ((c.parse_own_level L
          (argv.take (Command.subcommand_index c.subcommandname_2_subcommand_ argv))).thrown =
        none →
      argv[Command.subcommand_index c.subcommandname_2_subcommand_ argv]? = none →
      c.do_parse_args L argv =
        Res.throw
          (c.parse_own_level L
            (argv.take (Command.subcommand_index c.subcommandname_2_subcommand_ argv))).state
          (fail ((c.parse_own_level L
            (argv.take
              (Command.subcommand_index c.subcommandname_2_subcommand_ argv))).state.command_name_
            ++ ": Missing subcommand."))) ∧
    ((c.parse_own_level L
          (argv.take (Command.subcommand_index c.subcommandname_2_subcommand_ argv))).thrown =
        none →
      ∀ name, argv[Command.subcommand_index c.subcommandname_2_subcommand_ argv]? = some name →
      c.do_parse_args L argv =
        ⟨{ (c.parse_own_level L
              (argv.take
                (Command.subcommand_index c.subcommandname_2_subcommand_ argv))).state with
            current_subcommand_name_ := some name
            subcommandname_2_subcommand_ :=
              (Command.dispatch L c.subcommandname_2_subcommand_ name
                (argv.drop
                  (Command.subcommand_index c.subcommandname_2_subcommand_ argv))).state },
          (Command.dispatch L c.subcommandname_2_subcommand_ name
            (argv.drop
              (Command.subcommand_index c.subcommandname_2_subcommand_ argv))).thrown⟩) := by
  refine ⟨?_, ?_, ?_⟩
  · intro e he
    rw [do_parse_args_eq, hsub]
    simp only [Bool.false_eq_true, if_false, he]
  · intro h0 hnone
    rw [do_parse_args_eq, hsub]
    simp only [Bool.false_eq_true, if_false, h0, hnone]
  · intro h0 name hname
    rw [do_parse_args_eq, hsub]
    simp only [Bool.false_eq_true, if_false, h0, hname]

theorem prepared_eq_presented (L : Libc) (c : Command) :
    c.prepared L = c.reset_arg_status.presented L := rfl

theorem presented_arg_at (L : Libc) (c : Command) (q : Int) :
    (c.presented L).arg_at q =
      if q = c.current_argid_ then Arg.stored_help c.current_argid_ else c.arg_at q := by
  show (c.add_help_arg L).arg_at q = _
  exact add_help_arg_at L c q

theorem presented_members (L : Libc) (c : Command) :
    (c.presented L).longname_2_arg_ =
        map_assign CStrCmp "help" c.current_argid_ c.longname_2_arg_ ∧
      (c.presented L).shortname_2_arg_ =
        map_assign char_lt 'h' c.current_argid_ c.shortname_2_arg_ ∧
      (c.presented L).command_name_ = c.command_name_ ∧
      (c.presented L).position_args_ = c.position_args_ ∧
      (c.presented L).position_values_ = c.position_values_ ∧
      (c.presented L).subcommandname_2_subcommand_ = c.subcommandname_2_subcommand_ ∧
      (c.presented L).current_subcommand_name_ = c.current_subcommand_name_ :=
  ⟨rfl, rfl, rfl, rfl, rfl, rfl, rfl⟩

theorem presented_present (L : Libc) (c : Command) (p : Int)
    (hp : (map_find p c.argid_2_arg_).isSome = true) :
    (map_find p (c.presented L).argid_2_arg_).isSome = true := by
  show (map_find p (c.add_help_arg L).argid_2_arg_).isSome = true
  rw [add_help_args, map_find_assign]
  by_cases h : p = c.current_argid_
  · simp [h]
  · simp only [h, if_false]
    exact hp

theorem parse_own_level_presented (L : Libc) (c : Command) (argv : List String) :
    c.parse_own_level L argv =
      ((((((c.level_scan L argv).check Command.check_required_args).bind
        (fun c1 => c1.capture_positions L argv.length (c.level_run L argv))).check
        Command.check_conflict_with_all_args).check Command.check_related_groups).check
        Command.check_conflict_groups).check Command.check_one_required_group := rfl

theorem capture_positions_subcommands (L : Libc) (c : Command) (argc : Int) (run : GetoptRun) :
    (c.capture_positions L argc run).state.subcommandname_2_subcommand_ =
        c.subcommandname_2_subcommand_ ∧
      (c.capture_positions L argc run).state.current_subcommand_name_ =
        c.current_subcommand_name_ := by
  rcases capture_positions_cases L c argc run with ⟨e, h⟩ | ⟨toks, h⟩
  · rw [h]
    exact ⟨rfl, rfl⟩
  · rw [h]
    exact capture_subcommands L c 0 toks

/-- What the parse of a command's own level keeps, whatever its outcome: the declarations, the
sub-commands and the selected sub-command; an argument outside the positional list is as the
scan left it. -/
theorem own_level_keeps (L : Libc) (c : Command) (argv : List String) :
    Command.Frame (c.presented L) (c.parse_own_level L argv).state ∧
      (c.parse_own_level L argv).state.subcommandname_2_subcommand_ =
        c.subcommandname_2_subcommand_ ∧
      (c.parse_own_level L argv).state.current_subcommand_name_ =
        c.current_subcommand_name_ ∧
      (∀ q, q ∉ c.position_args_ →
        (c.parse_own_level L argv).state.arg_at q = (c.level_scan L argv).state.arg_at q) ∧
      ((c.parse_own_level L argv).thrown = none → (c.level_scan L argv).thrown = none) := by
  have hfr := scan_events_frame L (c.presented L) (c.level_run L argv).events
  have hsp := scan_events_positions L (c.presented L) (c.level_run L argv).events
  have hph := phases_after_scan L (c.level_scan L argv) argv.length (c.level_run L argv)
  rw [parse_own_level_presented]
  refine ⟨hfr.trans hph.2.2.2.1, ?_, ?_, ?_, ?_⟩
  · rcases phases_state L (c.level_scan L argv) argv.length (c.level_run L argv) with h | h
    · rw [h]
      exact hsp.2.1
    · rw [h, (capture_positions_subcommands L _ _ _).1]
      exact hsp.2.1
  · rcases phases_state L (c.level_scan L argv) argv.length (c.level_run L argv) with h | h
    · rw [h]
      exact hsp.2.2
    · rw [h, (capture_positions_subcommands L _ _ _).2]
      exact hsp.2.2
  · intro q hq
    apply hph.2.2.2.2 q
    rw [show (c.level_scan L argv).state.position_args_ = (c.presented L).position_args_ from
      hfr.position_args]
    exact hq
  · intro h
    exact (hph.2.2.1 h).1

/-- The stored argument behind a handle outside the positional list after the parse of a
command's own level whose scan completed: the argument as it was, then its occurrences among
the tokens, in order. -/
theorem own_level_arg_at (L : Libc) (c : Command) (argv : List String) (p : Int)
    (hne : p ≠ c.current_argid_) (hpres : (map_find p c.argid_2_arg_).isSome = true)
    (hpos : p ∉ c.position_args_) (hscan : (c.level_scan L argv).thrown = none) :
    (c.parse_own_level L argv).state.arg_at p =
      (c.arg_at p).replay L (c.level_occurrences L argv p) := by
  rw [(own_level_keeps L c argv).2.2.2.1 p hpos]
  show ((c.presented L).scan_events L (c.level_run L argv).events).state.arg_at p = _
  rw [scan_events_replay L (c.presented L) _ p (presented_present L c p hpres) hscan,
    presented_arg_at, if_neg hne]
  rfl

/-- After a `do_parse_args` call that returns on a command with sub-commands,
`get_subcommand()` yields the child registered under the matched token, as its own
`do_parse_args` call on the tokens from the match on left it; that call returned too. -/
theorem do_parse_args_selected (L : Libc) (c : Command) (t : List String)
    (hsub : c.subcommandname_2_subcommand_.isEmpty = false)
    (hok : (c.do_parse_args L t).thrown = none) :
    ∃ name child, t[Command.subcommand_index c.subcommandname_2_subcommand_ t]? = some name ∧
      map_find name c.subcommandname_2_subcommand_ = some child ∧
      (c.do_parse_args L t).state.current_subcommand_name_ = some name ∧
      (c.do_parse_args L t).state.get_subcommand =
        .ok (child.do_parse_args L
          (t.drop (Command.subcommand_index c.subcommandname_2_subcommand_ t))).state ∧
      (child.do_parse_args L
        (t.drop (Command.subcommand_index c.subcommandname_2_subcommand_ t))).thrown = none := by
  obtain ⟨d1, d2, d3⟩ := do_parse_args_cases L c t hsub
  cases h0 : (c.parse_own_level L
      (t.take (Command.subcommand_index c.subcommandname_2_subcommand_ t))).thrown with
  | some e =>
    rw [d1 e h0, h0] at hok
    cases hok
  | none =>
    cases hname : t[Command.subcommand_index c.subcommandname_2_subcommand_ t]? with
    | none =>
      rw [d2 h0 hname] at hok
      cases hok
    | some name =>
      obtain ⟨child, hchild⟩ :=
        (subcommand_index_spec c.subcommandname_2_subcommand_ t).2.2.1 name hname
      obtain ⟨f1, f2⟩ := dispatch_found L c.subcommandname_2_subcommand_ name
        (t.drop (Command.subcommand_index c.subcommandname_2_subcommand_ t)) child hchild
      rw [d3 h0 name hname] at hok ⊢
      refine ⟨name, child, rfl, hchild, rfl, ?_, ?_⟩
      · unfold Command.get_subcommand
        simp only
        rw [f2 name, if_pos rfl]
      · rw [← f1]
        exact hok

/-- A command without sub-commands: `do_parse_args` is the parse of the own level on all the
tokens. -/
theorem do_parse_args_leaf (L : Libc) (c : Command) (t : List String)
    (hsub : c.subcommandname_2_subcommand_.isEmpty = true) :
    c.do_parse_args L t = c.parse_own_level L t := by
  rw [do_parse_args_eq, hsub]
  rfl

/-- The values an argument other than a flag, held by the long-name map of a well-formed
command without sub-commands, holds after a `do_parse_args` call that returns: those it held,
a default still in place being dropped at the first occurrence, followed by its occurrences
among the tokens. -/
theorem leaf_values (L : Libc) (c : Command) (t : List String) (name : String) (p : Int)
    (hwf : c.WF) (hsub : c.subcommandname_2_subcommand_.isEmpty = true)
    (hname : map_find name c.longname_2_arg_ = some p)
    (hkind : (c.arg_at p).arg_type_ = ArgType.REQUIRED ∨
      (c.arg_at p).arg_type_ = ArgType.OPTIONAL)
    (hok : (c.do_parse_args L t).thrown = none) :
    map_find name (c.do_parse_args L t).state.longname_2_arg_ = some p ∧
      ((c.do_parse_args L t).state.arg_at p).values_ =
        ((c.arg_at p).replay L (c.level_occurrences L t p)).values_ ∧
      (c.level_occurrences L t p ≠ [] →
        ((c.do_parse_args L t).state.arg_at p).values_ =
          (c.arg_at p).clear_default.values_ ++ c.level_occurrences L t p) := by
  have hnf : (c.arg_at p).arg_type_ ≠ ArgType.FLAG := by
    rcases hkind with h | h <;> rw [h] <;> decide
  have hnp : (c.arg_at p).arg_type_ ≠ ArgType.POSITION := by
    rcases hkind with h | h <;> rw [h] <;> decide
  have hmem := map_find_some_mem name p _ hname
  have hne : p ≠ c.current_argid_ := by
    have := hwf.long_fresh _ hmem
    exact fun e => by simp [e] at this
  have hpres := hwf.long_present _ hmem
  have hpos : p ∉ c.position_args_ := fun h => hnp (hwf.position_kind p h)
  rw [do_parse_args_leaf L c t hsub] at hok ⊢
  obtain ⟨k1, _, _, _, k5⟩ := own_level_keeps L c t
  have harg := own_level_arg_at L c t p hne hpres hpos (k5 hok)
  refine ⟨?_, ?_, ?_⟩
  · rw [k1.longname, (presented_members L c).1, map_find_assign,
      if_neg (fun e => hnf (hwf.help_long _ hmem e)), hname]
  · rw [harg]
  · intro hocc
    rw [harg, replay_values L _ _ hnf hocc]

theorem set_value_is_hit (L : Libc) (a : Arg) (v : String) :
    (a.set_value L v).state.is_hit_ = a.is_hit_ := by
  by_cases hf : a.arg_type_ = ArgType.FLAG
  · rw [set_value_flag L a v hf]
    rfl
  · rw [set_value_state L a v hf]
    simp

/-- The hit flag after a sequence of occurrences: set by the first one, never cleared. -/
theorem replay_is_hit (L : Libc) (a : Arg) (vals : List String) :
    (a.replay L vals).is_hit_ = if vals = [] then a.is_hit_ else true := by
  induction vals generalizing a with
  | nil => rfl
  | cons v vs ih =>
    rw [replay_cons, ih, set_value_is_hit]
    simp

/-- An argument whose hit flag is set when `do_parse_args` starts is not reported by the
required check after the scan: `do_parse_args` presents the stored arguments as they are. -/
theorem stale_hit_passes (L : Libc) (c : Command) (t : List String) (p : Int)
    (hne : p ≠ c.current_argid_) (hpres : (map_find p c.argid_2_arg_).isSome = true)
    (hhit : (c.arg_at p).is_hit_ = true) (hscan : (c.level_scan L t).thrown = none) :
    (c.level_scan L t).state.missing_required p = false := by
  have h := scan_events_replay L (c.presented L) (c.level_run L t).events p
    (presented_present L c p hpres) hscan
  unfold Command.missing_required
  rw [show (c.level_scan L t).state.arg_at p =
    ((c.presented L).scan_events L (c.level_run L t).events).state.arg_at p from rfl, h,
    replay_is_hit, presented_arg_at, if_neg hne, hhit]
  simp

/-- The values of an argument without default, other than a flag, after a `parse_args` call
whose scan completed and in which it occurred: the values it held before the call, then its
occurrences. -/
theorem parsed_values_accumulate (L : Libc) (c : Command) (args : List String) (p : Int)
    (hwf : c.WF) (hreg : c.registered p)
    (hkind : (c.arg_at p).arg_type_ = ArgType.REQUIRED ∨
      (c.arg_at p).arg_type_ = ArgType.OPTIONAL)
    (hdef : (c.arg_at p).has_default_value_ = false)
    (hscan : (c.scanned L args).thrown = none) (hocc : c.occurrences L args p ≠ []) :
    ((c.parse_args L args).state.arg_at p).values_ =
      (c.arg_at p).values_ ++ c.occurrences L args p := by
  have hnf : (c.arg_at p).arg_type_ ≠ ArgType.FLAG := by
    rcases hkind with h | h <;> rw [h] <;> decide
  have hnp : (c.arg_at p).arg_type_ ≠ ArgType.POSITION := by
    rcases hkind with h | h <;> rw [h] <;> decide
  obtain ⟨hne, _⟩ := registered_prepared L c p hwf hreg hnf
  have hpres : (map_find p c.argid_2_arg_).isSome = true := by
    rcases hreg with hl | hs
    · obtain ⟨e, he, rfl⟩ := List.mem_map.mp hl
      exact hwf.long_present e he
    · obtain ⟨e, he, rfl⟩ := List.mem_map.mp hs
      exact hwf.short_present e he
  have hpos : p ∉ c.position_args_ := fun hmem => hnp (hwf.position_kind p hmem)
  obtain ⟨r1, r2, r3, r4, r5, r6⟩ := reset_status_info_members (c.arg_at p)
  rw [parsed_arg_at L c args p hne hpres hpos hreg hscan,
    replay_values L _ _ (by simpa using hnf) hocc, clear_default_values, r3, hdef, r6 hdef]
  simp

theorem begins_with_help_iff (name : String) :
    name.data.take 4 = ['h', 'e', 'l', 'p'] ↔ ∃ rest : String, name = "help" ++ rest := by
  constructor
  · intro h
    refine ⟨⟨name.data.drop 4⟩, ?_⟩
    apply String.ext
    rw [String.data_append]
    have : name.data = name.data.take 4 ++ name.data.drop 4 := (List.take_append_drop 4 _).symm
    rw [h] at this
    exact this
  · rintro ⟨rest, rfl⟩
    rw [String.data_append]
    rfl

theorem begins_with_dash_iff (name : String) :
    name.data.take 1 = ['-'] ↔ ∃ rest : String, name = "-" ++ rest := by
  constructor
  · intro h
    refine ⟨⟨name.data.drop 1⟩, ?_⟩
    apply String.ext
    rw [String.data_append]
    have : name.data = name.data.take 1 ++ name.data.drop 1 := (List.take_append_drop 1 _).symm
    rw [h] at this
    exact this
  · rintro ⟨rest, rfl⟩
    rw [String.data_append]
    rfl

theorem has_space_iff (name : String) :
    name.data.any (fun elem => elem = ' ') = true ↔ ' ' ∈ name.data := by
  rw [List.any_eq_true]
  constructor
  · rintro ⟨x, hx, h⟩
    have : x = ' ' := by simpa using h
    exact this ▸ hx
  · intro h
    exact ⟨' ', h, by simp⟩

theorem long_name_cases (a : Arg) (name : String) (h : a.arg_type_ ≠ ArgType.POSITION) :
    a.long_name name =
      if name.data.take 4 = ['h', 'e', 'l', 'p'] then Res.throw a (fail Arg.help_reserved_msg)
      else if strlen name < 2 then
        Res.throw a (fail "The length of long option must be greater than 2.")
      else if name.data.take 1 = ['-'] then
        Res.throw a (fail "The name cannot start with -- or - .")
      else if name.data.any (fun elem => elem = ' ') then
        Res.throw a (fail "The long option can not contain spaces.")
      else Res.ok { a with long_name_ := some name } := by
  unfold Arg.long_name
  rw [if_neg h]

theorem long_name_members (a : Arg) (name : String) :
    (a.long_name name).state = a ∨ (a.long_name name).state = { a with long_name_ := some name } := by
  unfold Arg.long_name
  split_ifs <;> first | exact Or.inl rfl | exact Or.inr rfl

theorem short_name_members (a : Arg) (name : Char) :
    (a.short_name name).state = a ∨
      (a.short_name name).state = { a with short_name_ := name } := by
  unfold Arg.short_name
  split_ifs <;> first | exact Or.inl rfl | exact Or.inr rfl

theorem conflicts_with_all_members (a : Arg) :
    (a.conflicts_with_all.state = a) ∨
      ((a.arg_type_ = ArgType.FLAG ∨ a.arg_type_ = ArgType.OPTIONAL) ∧
        a.conflicts_with_all.state = { a with is_conflict_with_all_ := true }) := by
  unfold Arg.conflicts_with_all
  split_ifs with h
  · exact Or.inl rfl
  · refine Or.inr ⟨?_, rfl⟩
    cases ht : a.arg_type_ <;> simp [ht] at h ⊢

theorem default_value_members (L : Libc) (a : Arg) (value : String) :
    ((a.default_value L value).state = a) ∨
      (a.arg_type_ = ArgType.OPTIONAL ∧
        (a.default_value L value).state = { a with
          values_ := a.values_ ++ [value]
          default_values_ := a.default_values_ ++ [value]
          has_default_value_ := true }) := by
  unfold Arg.default_value
  split_ifs with h
  · exact Or.inl rfl
  · exact Or.inr ⟨not_not.mp h, check_last_state L _⟩

theorem default_values_members (L : Libc) (a : Arg) (values : List String) :
    ((a.default_values L values).state = a) ∨
      (a.arg_type_ = ArgType.OPTIONAL ∧ values ≠ [] ∧
        (a.default_values L values).state = { a with
          values_ := values
          default_values_ := values
          has_default_value_ := true }) := by
  unfold Arg.default_values
  split_ifs with h h2
  · exact Or.inl rfl
  · exact Or.inl rfl
  · exact Or.inr ⟨not_not.mp h, h2, check_last_state L _⟩

theorem range_members (a : Arg) (type : NumType) (left right : String) (il ir : Bool) :
    ((a.range type left right il ir).state = a) ∨
      (a.arg_type_ ≠ ArgType.FLAG ∧ a.is_choice_ = false ∧
        (a.range type left right il ir).state = { a with
          left_ := some left, right_ := some right, include_left_ := il, include_right_ := ir,
          num_type_ := type, is_range_ := true }) := by
  unfold Arg.range
  split_ifs with h h2
  · exact Or.inl rfl
  · exact Or.inl rfl
  · exact Or.inr ⟨h, by simpa using h2, rfl⟩

theorem choices_members (a : Arg) (values : List String) :
    ((a.choices values).state = a) ∨
      (a.arg_type_ ≠ ArgType.FLAG ∧ a.is_range_ = false ∧ set_of_range values ≠ [] ∧
        (a.choices values).state =
          { a with choices_ := set_of_range values, is_choice_ := true }) := by
  unfold Arg.choices
  split_ifs with h h2 h3 h4
  · exact Or.inl rfl
  · exact Or.inl rfl
  · exact Or.inl rfl
  · cases values with
    | nil => exact absurd rfl h3
    | cons v vs =>
      have hm : v ∈ set_of_range (v :: vs) := (mem_set_of_range _ v).mpr (List.mem_cons_self v vs)
      rw [h4] at hm
      exact absurd hm (List.not_mem_nil v)
  · exact Or.inr ⟨h, by simpa using h2, h4, rfl⟩

/-- What every sequence of configuration calls maintains on an argument. -/
theorem configured_spec (L : Libc) (a : Arg) (h : Arg.Configured L a) :
    ¬ (a.is_range_ = true ∧ a.is_choice_ = true) ∧
      (a.arg_type_ = ArgType.FLAG → a.is_range_ = false ∧ a.is_choice_ = false) ∧
      (a.has_default_value_ = true → a.arg_type_ = ArgType.OPTIONAL) ∧
      (a.is_conflict_with_all_ = true →
        a.arg_type_ = ArgType.FLAG ∨ a.arg_type_ = ArgType.OPTIONAL) ∧
      (a.is_range_ = true → ∃ l r, a.left_ = some l ∧ a.right_ = some r) ∧
      (a.is_choice_ = true → a.choices_ ≠ []) ∧
      a.position_id_ = -1 := by
  induction h with
  | new_arg type => simp [Arg.new_arg]
  | long_name a name _ ih =>
    rcases long_name_members a name with e | e <;> rw [e]
    · exact ih
    · exact ih
  | short_name a name _ ih =>
    rcases short_name_members a name with e | e <;> rw [e]
    · exact ih
    · exact ih
  | conflicts_with_all a _ ih =>
    rcases conflicts_with_all_members a with e | ⟨hk, e⟩ <;> rw [e]
    · exact ih
    · exact ⟨ih.1, ih.2.1, ih.2.2.1, fun _ => hk, ih.2.2.2.2.1, ih.2.2.2.2.2.1, ih.2.2.2.2.2.2⟩
  | default_value a value _ ih =>
    rcases default_value_members L a value with e | ⟨hk, e⟩ <;> rw [e]
    · exact ih
    · exact ⟨ih.1, ih.2.1, fun _ => hk, ih.2.2.2.1, ih.2.2.2.2.1, ih.2.2.2.2.2.1, ih.2.2.2.2.2.2⟩
  | default_values a values _ ih =>
    rcases default_values_members L a values with e | ⟨hk, _, e⟩ <;> rw [e]
    · exact ih
    · exact ⟨ih.1, ih.2.1, fun _ => hk, ih.2.2.2.1, ih.2.2.2.2.1, ih.2.2.2.2.2.1, ih.2.2.2.2.2.2⟩
  | range a type left right il ir _ ih =>
    rcases range_members a type left right il ir with e | ⟨hk, hc, e⟩ <;> rw [e]
    · exact ih
    · refine ⟨fun h => ?_, fun h => absurd h hk, ih.2.2.1, ih.2.2.2.1, fun _ => ⟨left, right, rfl, rfl⟩,
        fun h => ?_, ih.2.2.2.2.2.2⟩
      · exact absurd h.2 (by simp [hc])
      · exact absurd h (by simp [hc])
  | choices a values _ ih =>
    rcases choices_members a values with e | ⟨hk, hr, hne, e⟩ <;> rw [e]
    · exact ih
    · refine ⟨fun h => ?_, fun h => absurd h hk, ih.2.2.1, ih.2.2.2.1, fun h => ?_,
        fun _ => hne, ih.2.2.2.2.2.2⟩
      · exact absurd h.1 (by simp [hr])
      · exact absurd h (by simp [hr])

theorem transform_error {T : Type} (conv : String → Except Exn T) (vs : List String) (e : Exn)
    (h : transform conv vs = .error e) : ∃ v ∈ vs, conv v = .error e := by
  induction vs with
  | nil => simp [transform] at h
  | cons v vs ih =>
    unfold transform at h
    cases hv : conv v with
    | error e1 =>
      rw [hv] at h
      dsimp only at h
      cases h
      exact ⟨v, List.mem_cons_self v vs, hv⟩
    | ok x =>
      rw [hv] at h
      dsimp only at h
      cases ht : transform conv vs with
      | error e2 =>
        rw [ht] at h
        dsimp only at h
        cases h
        obtain ⟨w, hw, hc⟩ := ih ht
        exact ⟨w, List.mem_cons_of_mem v hw, hc⟩
      | ok xs =>
        rw [ht] at h
        cases h

theorem transform_ok {T : Type} (conv : String → Except Exn T) (vs : List String)
    (h : ∀ v ∈ vs, ∃ x, conv v = .ok x) : ∃ xs, transform conv vs = .ok xs := by
  cases ht : transform conv vs with
  | ok xs => exact ⟨xs, rfl⟩
  | error e =>
    obtain ⟨v, hv, hc⟩ := transform_error conv vs e ht
    obtain ⟨x, hx⟩ := h v hv
    rw [hx] at hc
    cases hc

theorem stoi_error (s : String) (e : Exn) (h : stoi s = .error e) :
    e = Exn.invalid_argument ∨ e = Exn.out_of_range := by
  unfold stoi at h
  cases hs : scan_integer s with
  | none =>
    rw [hs] at h
    cases h
    exact Or.inl rfl
  | some p =>
    rw [hs] at h
    dsimp only at h
    split_ifs at h <;> cases h <;> exact Or.inr rfl

theorem to_value_uint32_error (s : String) (e : Exn) (h : to_value_uint32 s = .error e) :
    e = Exn.invalid_argument ∨ e = Exn.out_of_range := by
  unfold to_value_uint32 at h
  cases hs : stoul s with
  | error e1 =>
    rw [hs] at h
    cases h
    exact stoul_error s e hs
  | ok n =>
    rw [hs] at h
    cases h

/-- The conversions `to_value<T>` of the integer and text types never throw
`ParseArgsError`. -/
theorem to_value_not_parse_error (s msg : String) :
    to_value_int s ≠ .error (Exn.ParseArgsError msg) ∧
      to_value_int64 s ≠ .error (Exn.ParseArgsError msg) ∧
      to_value_uint32 s ≠ .error (Exn.ParseArgsError msg) ∧
      to_value_uint64 s ≠ .error (Exn.ParseArgsError msg) ∧
      to_value_string s ≠ .error (Exn.ParseArgsError msg) := by
  refine ⟨fun h => ?_, fun h => ?_, fun h => ?_, fun h => ?_, fun h => ?_⟩
  · rcases stoi_error s _ h with e | e <;> cases e
  · rcases stol_error s _ h with e | e <;> cases e
  · rcases to_value_uint32_error s _ h with e | e <;> cases e
  · rcases stoul_error s _ h with e | e <;> cases e
  · cases h

theorem get_one_value_cases {T : Type} (conv : String → Except Exn T) (c : Command)
    (n : String) :
    (map_find n c.longname_2_arg_ = none ∧
        c.get_one_value conv n = .error (fail ("Can not find --" ++ n ++ " option."))) ∨
      (∃ p, map_find n c.longname_2_arg_ = some p ∧ (c.arg_at p).values_ = [] ∧
        c.get_one_value conv n =
          .error (fail ("Option --" ++ n ++ " does not have a value."))) ∨
      (∃ p v vs, map_find n c.longname_2_arg_ = some p ∧ (c.arg_at p).values_ = v :: vs ∧
        c.get_one_value conv n = conv v) := by
  unfold Command.get_one_value
  cases hm : map_find n c.longname_2_arg_ with
  | none => exact Or.inl ⟨rfl, rfl⟩
  | some p =>
    cases hv : (c.arg_at p).values_ with
    | nil => exact Or.inr (Or.inl ⟨p, rfl, hv, by simp [hv]⟩)
    | cons v vs => exact Or.inr (Or.inr ⟨p, v, vs, rfl, hv, by simp [hv]⟩)

theorem get_one_value_short_cases {T : Type} (conv : String → Except Exn T) (c : Command)
    (n : Char) :
    (map_find n c.shortname_2_arg_ = none ∧
        c.get_one_value_short conv n =
          .error (fail ("Can not find -" ++ String.singleton n ++ " option."))) ∨
      (∃ p, map_find n c.shortname_2_arg_ = some p ∧ (c.arg_at p).values_ = [] ∧
        c.get_one_value_short conv n =
          .error (fail ("Option -" ++ String.singleton n ++ " does not have a value."))) ∨
      (∃ p v vs, map_find n c.shortname_2_arg_ = some p ∧ (c.arg_at p).values_ = v :: vs ∧
        c.get_one_value_short conv n = conv v) := by
  unfold Command.get_one_value_short
  cases hm : map_find n c.shortname_2_arg_ with
  | none => exact Or.inl ⟨rfl, rfl⟩
  | some p =>
    cases hv : (c.arg_at p).values_ with
    | nil => exact Or.inr (Or.inl ⟨p, rfl, hv, by simp [hv]⟩)
    | cons v vs => exact Or.inr (Or.inr ⟨p, v, vs, rfl, hv, by simp [hv]⟩)

theorem get_one_value_fails_iff {T : Type} (conv : String → Except Exn T)
    (hconv : ∀ s msg, conv s ≠ .error (Exn.ParseArgsError msg)) (c : Command) (n : String) :
    (∃ msg, c.get_one_value conv n = .error (Exn.ParseArgsError msg)) ↔
      (map_find n c.longname_2_arg_ = none ∨
        ∃ p, map_find n c.longname_2_arg_ = some p ∧ (c.arg_at p).values_ = []) := by
  rcases get_one_value_cases conv c n with ⟨hm, e⟩ | ⟨p, hm, hv, e⟩ | ⟨p, v, vs, hm, hv, e⟩
  · exact ⟨fun _ => Or.inl hm, fun _ => ⟨_, e⟩⟩
  · exact ⟨fun _ => Or.inr ⟨p, hm, hv⟩, fun _ => ⟨_, e⟩⟩
  · constructor
    · rintro ⟨msg, h⟩
      rw [e] at h
      exact absurd h (hconv v msg)
    · rintro (h | ⟨q, hq, hqv⟩)
      · rw [hm] at h
        cases h
      · rw [hm] at hq
        cases hq
        rw [hv] at hqv
        cases hqv

theorem get_one_value_short_fails_iff {T : Type} (conv : String → Except Exn T)
    (hconv : ∀ s msg, conv s ≠ .error (Exn.ParseArgsError msg)) (c : Command) (n : Char) :
    (∃ msg, c.get_one_value_short conv n = .error (Exn.ParseArgsError msg)) ↔
      (map_find n c.shortname_2_arg_ = none ∨
        ∃ p, map_find n c.shortname_2_arg_ = some p ∧ (c.arg_at p).values_ = []) := by
  rcases get_one_value_short_cases conv c n with
    ⟨hm, e⟩ | ⟨p, hm, hv, e⟩ | ⟨p, v, vs, hm, hv, e⟩
  · exact ⟨fun _ => Or.inl hm, fun _ => ⟨_, e⟩⟩
  · exact ⟨fun _ => Or.inr ⟨p, hm, hv⟩, fun _ => ⟨_, e⟩⟩
  · constructor
    · rintro ⟨msg, h⟩
      rw [e] at h
      exact absurd h (hconv v msg)
    · rintro (h | ⟨q, hq, hqv⟩)
      · rw [hm] at h
        cases h
      · rw [hm] at hq
        cases hq
        rw [hv] at hqv
        cases hqv

theorem get_many_values_fails_iff {T : Type} (conv : String → Except Exn T)
    (hconv : ∀ s msg, conv s ≠ .error (Exn.ParseArgsError msg)) (c : Command) (n : String) :
    ((∃ msg, c.get_many_values conv n = .error (Exn.ParseArgsError msg)) ↔
        map_find n c.longname_2_arg_ = none) ∧
      (∀ p, map_find n c.longname_2_arg_ = some p →
        c.get_many_values conv n = transform conv (c.arg_at p).values_) := by
  unfold Command.get_many_values
  cases hm : map_find n c.longname_2_arg_ with
  | none => exact ⟨⟨fun _ => rfl, fun _ => ⟨_, rfl⟩⟩, fun p hp => by cases hp⟩
  | some p =>
    refine ⟨⟨?_, fun h => by cases h⟩, fun q hq => by cases hq; rfl⟩
    rintro ⟨msg, h⟩
    obtain ⟨v, _, hv⟩ := transform_error conv _ _ h
    exact absurd hv (hconv v msg)

theorem get_many_values_short_fails_iff {T : Type} (conv : String → Except Exn T)
    (hconv : ∀ s msg, conv s ≠ .error (Exn.ParseArgsError msg)) (c : Command) (n : Char) :
    ((∃ msg, c.get_many_values_short conv n = .error (Exn.ParseArgsError msg)) ↔
        map_find n c.shortname_2_arg_ = none) ∧
      (∀ p, map_find n c.shortname_2_arg_ = some p →
        c.get_many_values_short conv n = transform conv (c.arg_at p).values_) := by
  unfold Command.get_many_values_short
  cases hm : map_find n c.shortname_2_arg_ with
  | none => exact ⟨⟨fun _ => rfl, fun _ => ⟨_, rfl⟩⟩, fun p hp => by cases hp⟩
  | some p =>
    refine ⟨⟨?_, fun h => by cases h⟩, fun q hq => by cases hq; rfl⟩
    rintro ⟨msg, h⟩
    obtain ⟨v, _, hv⟩ := transform_error conv _ _ h
    exact absurd hv (hconv v msg)

theorem check_last_thrown (L : Libc) (b : Arg) :
    (Arg.check_last L b).thrown =
      match Arg.check_range_void L b with
      | some e => some e
      | none => Arg.check_choice b := by
  unfold Arg.check_last
  rw [check_thrown, check_thrown]
  simp only [Res.ok, check_state]
  cases Arg.check_range_void L b <;> rfl

theorem check_range_void_stored (L : Libc) (a : Arg) (X Y : List String) (d : Bool)
    (v : String) (hX : X.getLast? = some v) (hr : a.is_range_ = true)
    (hl : a.left_.isSome = true) (hrt : a.right_.isSome = true) :
    Arg.check_range_void L { a with values_ := X, default_values_ := Y, has_default_value_ := d } =
      match a.range_verdict_of L v with
      | .error e => some e
      | .ok true => none
      | .ok false => some (fail a.range_msg) := by
  obtain ⟨l, hl1⟩ := Option.isSome_iff_exists.mp hl
  obtain ⟨r, hr1⟩ := Option.isSome_iff_exists.mp hrt
  cases a with
  | mk ln sn aid pid ty hit vals dvals hdv cleared left right il ir nt isr ch isc cf =>
    simp only at hr hl1 hr1
    subst hr hl1 hr1
    unfold Arg.check_range_void Arg.range_verdict_of
    simp only [if_true, hX, Option.getD_some]
    cases nt <;> rfl

theorem check_choice_stored (a : Arg) (X Y : List String) (d : Bool) (v : String)
    (hX : X.getLast? = some v) (hc : a.is_choice_ = true) (hne : a.choices_ ≠ []) :
    (Arg.check_choice { a with values_ := X, default_values_ := Y, has_default_value_ := d } =
        none ↔ v ∈ a.choices_) ∧
      (v ∉ a.choices_ →
        Arg.check_choice { a with values_ := X, default_values_ := Y, has_default_value_ := d } =
          some (fail (a.choice_msg (a.get_choice_description.getD "")))) := by
  obtain ⟨dsc, hd⟩ := get_choice_description_isSome a hne
  cases a with
  | mk ln sn aid pid ty hit vals dvals hdv cleared left right il ir nt isr ch isc cf =>
    simp only at hc
    subst hc
    have hd2 : Arg.get_choice_description
        { long_name_ := ln, short_name_ := sn, arg_id_ := aid, position_id_ := pid,
          arg_type_ := ty, is_hit_ := hit, values_ := X, default_values_ := Y,
          has_default_value_ := d, is_default_value_cleared_ := cleared, left_ := left,
          right_ := right, include_left_ := il, include_right_ := ir, num_type_ := nt,
          is_range_ := isr, choices_ := ch, is_choice_ := true,
          is_conflict_with_all_ := cf } = some dsc := hd
    unfold Arg.check_choice
    simp only [if_true, hX]
    by_cases hm : v ∈ ch
    · rw [if_pos ((choice_found_iff ch v).mpr hm)]
      exact ⟨⟨fun _ => hm, fun _ => rfl⟩, fun h => absurd hm h⟩
    · rw [if_neg (fun h => hm ((choice_found_iff ch v).mp h)), hd2, hd]
      exact ⟨⟨fun h => (nomatch h), fun h => absurd h hm⟩, fun _ => rfl⟩

theorem check_choice_unset (a : Arg) (X Y : List String) (d : Bool)
    (hc : a.is_choice_ = false) :
    Arg.check_choice { a with values_ := X, default_values_ := Y, has_default_value_ := d } =
      none := by
  unfold Arg.check_choice
  simp [hc]

theorem check_range_void_unset (L : Libc) (a : Arg) (X Y : List String) (d : Bool)
    (hr : a.is_range_ = false) :
    Arg.check_range_void L
      { a with values_ := X, default_values_ := Y, has_default_value_ := d } = none := by
  unfold Arg.check_range_void
  simp [hr]

theorem range_verdict_of_error (L : Libc) (hL : L.stod_standard) (a : Arg) (v : String)
    (e : Exn) (h : a.range_verdict_of L v = .error e) :
    e = Exn.invalid_argument ∨ e = Exn.out_of_range := by
  unfold Arg.range_verdict_of at h
  cases hn : a.num_type_ with
  | INT =>
    rw [hn] at h
    obtain ⟨s, hs⟩ := range_verdict_error a stol _ _ _ e h
    exact stol_error s e hs
  | UINT =>
    rw [hn] at h
    obtain ⟨s, hs⟩ := range_verdict_error a stoul _ _ _ e h
    exact stoul_error s e hs
  | DOUBlE =>
    rw [hn] at h
    obtain ⟨s, hs⟩ := range_verdict_error a L.stod _ _ _ e h
    exact hL s e hs

/-- What the final constraint check of `default_value` / `default_values` throws on an
argument that stores a value sequence ending in `v`. -/
theorem stored_check (L : Libc) (hL : L.stod_standard) (a : Arg) (hcfg : Arg.Configured L a)
    (hset : a.is_range_ = true ∨ a.is_choice_ = true) (X Y : List String) (d : Bool)
    (v : String) (hX : X.getLast? = some v) :
    ((∃ msg, (Arg.check_last L
        { a with values_ := X, default_values_ := Y, has_default_value_ := d }).thrown =
          some (Exn.ParseArgsError msg)) ↔ a.violates L v) ∧
      ((Arg.check_last L
        { a with values_ := X, default_values_ := Y, has_default_value_ := d }).thrown = none ↔
          a.passes L v) ∧
      (Arg.check_last L
        { a with values_ := X, default_values_ := Y, has_default_value_ := d }).thrown =
        (Arg.check_last L { a with values_ := [v], default_values_ := [], has_default_value_ := true }).thrown := by
  have hs := configured_spec L a hcfg
  have key : ∀ (X Y : List String) (d : Bool), X.getLast? = some v →
      (Arg.check_last L
        { a with values_ := X, default_values_ := Y, has_default_value_ := d }).thrown =
      if a.is_range_ = true then
        (match a.range_verdict_of L v with
          | .error e => some e
          | .ok true => none
          | .ok false => some (fail a.range_msg))
      else if v ∈ a.choices_ then none
      else some (fail (a.choice_msg (a.get_choice_description.getD ""))) := by
    intro X Y d hX
    rw [check_last_thrown]
    by_cases hr : a.is_range_ = true
    · have hc : a.is_choice_ = false := by
        cases h : a.is_choice_
        · rfl
        · exact absurd ⟨hr, h⟩ hs.1
      obtain ⟨l, r, hl, hrt⟩ := hs.2.2.2.2.1 hr
      rw [check_range_void_stored L a X Y d v hX hr (by simp [hl]) (by simp [hrt]),
        check_choice_unset a X Y d hc, if_pos hr]
      cases hv : a.range_verdict_of L v with
      | error e => rfl
      | ok b => cases b <;> rfl
    · have hr2 : a.is_range_ = false := by simpa using hr
      have hc : a.is_choice_ = true := hset.resolve_left hr
      rw [check_range_void_unset L a X Y d hr2, if_neg hr]
      have h := check_choice_stored a X Y d v hX hc (hs.2.2.2.2.2.1 hc)
      by_cases hm : v ∈ a.choices_
      · rw [if_pos hm]
        exact h.1.mpr hm
      · rw [if_neg hm]
        exact h.2 hm
  refine ⟨?_, ?_, ?_⟩
  · rw [key X Y d hX]
    unfold Arg.violates
    by_cases hr : a.is_range_ = true
    · have hc : ¬ a.is_choice_ = true := fun h => hs.1 ⟨hr, h⟩
      rw [if_pos hr]
      cases hv : a.range_verdict_of L v with
      | error e =>
        constructor
        · rintro ⟨msg, h⟩
          rcases range_verdict_of_error L hL a v e hv with e1 | e1 <;> rw [e1] at h <;> cases h
        · rintro (⟨_, h⟩ | ⟨h, _⟩)
          · cases h
          · exact absurd h hc
      | ok b =>
        cases b
        · exact ⟨fun _ => Or.inl ⟨hr, rfl⟩, fun _ => ⟨_, rfl⟩⟩
        · constructor
          · rintro ⟨msg, h⟩
            cases h
          · rintro (⟨_, h⟩ | ⟨h, _⟩)
            · cases h
            · exact absurd h hc
    · have hc : a.is_choice_ = true := hset.resolve_left hr
      rw [if_neg hr]
      by_cases hm : v ∈ a.choices_
      · rw [if_pos hm]
        constructor
        · rintro ⟨msg, h⟩
          cases h
        · rintro (⟨h, _⟩ | ⟨_, h⟩)
          · exact absurd h hr
          · exact absurd hm h
      · rw [if_neg hm]
        exact ⟨fun _ => Or.inr ⟨hc, hm⟩, fun _ => ⟨_, rfl⟩⟩
  · rw [key X Y d hX]
    unfold Arg.passes
    by_cases hr : a.is_range_ = true
    · have hc : ¬ a.is_choice_ = true := fun h => hs.1 ⟨hr, h⟩
      rw [if_pos hr]
      cases hv : a.range_verdict_of L v with
      | error e =>
        constructor
        · intro h
          cases h
        · intro h
          cases h.1 hr
      | ok b =>
        cases b
        · constructor
          · intro h
            cases h
          · intro h
            cases h.1 hr
        · exact ⟨fun _ => ⟨fun _ => rfl, fun h => absurd h hc⟩, fun _ => rfl⟩
    · have hc : a.is_choice_ = true := hset.resolve_left hr
      rw [if_neg hr]
      by_cases hm : v ∈ a.choices_
      · rw [if_pos hm]
        exact ⟨fun _ => ⟨fun h => absurd h hr, fun _ => hm⟩, fun _ => rfl⟩
      · rw [if_neg hm]
        constructor
        · intro h
          cases h
        · intro h
          exact absurd (h.2 hc) hm
  · rw [key X Y d hX, key [v] [] true rfl]

theorem violates_int (L : Libc) (a : Arg) (v l r : String) (x lv rv : Int)
    (hc : a.is_choice_ = false) (hr : a.is_range_ = true) (hn : a.num_type_ = NumType.INT)
    (hl : a.left_ = some l) (hrt : a.right_ = some r)
    (h1 : stol v = .ok x) (h2 : stol l = .ok lv) (h3 : stol r = .ok rv) :
    a.violates L v ↔
      ¬ ((if a.include_left_ = true then lv ≤ x else lv < x) ∧
        (if a.include_right_ = true then x ≤ rv else x < rv)) := by
  unfold Arg.violates Arg.range_verdict_of
  rw [hn, hl, hrt]
  simp only [Option.getD_some]
  unfold Arg.range_verdict
  rw [h1, h2, h3]
  simp only
  rw [← check_range_linear a x lv rv]
  constructor
  · rintro (⟨_, h⟩ | ⟨h, _⟩)
    · intro h4
      rw [h4] at h
      cases h
    · rw [hc] at h
      cases h
  · intro h
    refine Or.inl ⟨hr, ?_⟩
    cases hb : a.check_range x lv rv
    · rfl
    · exact absurd hb h

theorem check_eq {σ : Type} (r : Res σ) (f : σ → Option Exn) (h : r.thrown = none) :
    r.check f = ⟨r.state, f r.state⟩ := by
  unfold Res.check
  rw [bind_of_ok r _ h]

/-- Four checks in a row on an object: the first that fails is what is thrown. -/
theorem checks_cascade {σ : Type} (r : Res σ) (f1 f2 f3 f4 : σ → Option Exn)
    (h : r.thrown = none) :
    (∀ e, f1 r.state = some e →
        (((r.check f1).check f2).check f3).check f4 = ⟨r.state, some e⟩) ∧
      (f1 r.state = none →
        (∀ e, f2 r.state = some e →
          (((r.check f1).check f2).check f3).check f4 = ⟨r.state, some e⟩) ∧
        (f2 r.state = none →
          (∀ e, f3 r.state = some e →
            (((r.check f1).check f2).check f3).check f4 = ⟨r.state, some e⟩) ∧
          (f3 r.state = none →
            (((r.check f1).check f2).check f3).check f4 = ⟨r.state, f4 r.state⟩))) := by
  have e1 : r.check f1 = ⟨r.state, f1 r.state⟩ := check_eq r f1 h
  refine ⟨fun e h1 => ?_, fun h1 => ⟨fun e h2 => ?_, fun h2 => ⟨fun e h3 => ?_, fun h3 => ?_⟩⟩⟩
  · rw [e1, h1, check_of_thrown _ f2 e rfl, check_of_thrown _ f3 e rfl,
      check_of_thrown _ f4 e rfl]
  · rw [e1, h1, check_eq _ f2 rfl]
    simp only
    rw [h2, check_of_thrown _ f3 e rfl, check_of_thrown _ f4 e rfl]
  · rw [e1, h1, check_eq _ f2 rfl]
    simp only
    rw [h2, check_eq _ f3 rfl]
    simp only
    rw [h3, check_of_thrown _ f4 e rfl]
  · rw [e1, h1, check_eq _ f2 rfl]
    simp only
    rw [h2, check_eq _ f3 rfl]
    simp only
    rw [h3, check_eq _ f4 rfl]

theorem scan_events_append (L : Libc) (c : Command) (xs ys : List (Int × Option String)) :
    c.scan_events L (xs ++ ys) = (c.scan_events L xs).bind (fun c1 => c1.scan_events L ys) := by
  induction xs generalizing c with
  | nil => rfl
  | cons x xs ih =>
    rw [List.cons_append, scan_events_cons, scan_events_cons]
    cases h : (c.scan_event L x).thrown with
    | none => exact ih _
    | some e =>
      simp only
      rw [bind_of_thrown _ _ e h]

theorem set_value_arg_id (L : Libc) (a : Arg) (v : String) :
    (a.set_value L v).state.arg_id_ = a.arg_id_ := by
  by_cases hf : a.arg_type_ = ArgType.FLAG
  · rw [set_value_flag L a v hf]
    rfl
  · rw [set_value_state L a v hf]
    simp

/-- The turn of the scan loop for a help event throws the exception of `print_usage_help`
and changes nothing, in every state a scan of the presented command reaches. -/
theorem scan_help_event (L : Libc) (d : Command) (pre : List (Int × Option String))
    (ev : Int × Option String) (hh : d.help_event ev) :
    ((d.presented L).scan_events L pre).state.scan_event L ev =
      ⟨((d.presented L).scan_events L pre).state, some (Exn.ParseArgsError "")⟩ := by
  rcases hh with h | ⟨hneg, hid⟩
  · unfold Command.scan_event
    rw [h]
    rfl
  · have hfr := scan_events_frame L (d.presented L) pre
    have hlong : map_find "help" ((d.presented L).scan_events L pre).state.longname_2_arg_ =
        some d.current_argid_ := by
      rw [hfr.longname, (presented_members L d).1, map_find_assign, if_pos rfl]
    have hkeep : (((d.presented L).scan_events L pre).state.arg_at d.current_argid_).arg_id_ =
        d.current_argid_ := by
      rw [scan_events_keep L (fun a => a.arg_id_) (set_value_arg_id L) (fun _ => rfl),
        presented_arg_at, if_pos rfl]
      rfl
    unfold Command.scan_event
    rw [if_pos hneg, hlong]
    simp only
    rw [hkeep, if_pos hid]
    rfl

/-- A help event among the events of the command's own level ends `do_parse_args` there. -/
theorem help_at_level (L : Libc) (d : Command) (argv : List String)
    (pre post : List (Int × Option String)) (ev : Int × Option String)
    (hev : (d.level_run L (d.own_tokens argv)).events = pre ++ ev :: post)
    (hh : d.help_event ev) (hpre : ((d.presented L).scan_events L pre).thrown = none) :
    d.do_parse_args L argv =
      ⟨((d.presented L).scan_events L pre).state, some (Exn.ParseArgsError "")⟩ := by
  have hscan : d.level_scan L (d.own_tokens argv) =
      ⟨((d.presented L).scan_events L pre).state, some (Exn.ParseArgsError "")⟩ := by
    unfold Command.level_scan
    rw [hev, scan_events_append, bind_of_ok _ _ hpre, scan_events_cons,
      scan_help_event L d pre ev hh]
  have hlevel : d.parse_own_level L (d.own_tokens argv) =
      ⟨((d.presented L).scan_events L pre).state, some (Exn.ParseArgsError "")⟩ := by
    rw [parse_own_level_presented]
    rw [(phases_after_scan L (d.level_scan L (d.own_tokens argv)) _ _).1
      (Exn.ParseArgsError "") (by rw [hscan])]
    exact hscan
  by_cases hsub : d.subcommandname_2_subcommand_.isEmpty = true
  · have ht : d.own_tokens argv = argv := by
      unfold Command.own_tokens
      rw [if_pos hsub]
    rw [do_parse_args_leaf L d argv hsub, ← ht]
    exact hlevel
  · have hsub2 : d.subcommandname_2_subcommand_.isEmpty = false := by simpa using hsub
    have ht : d.own_tokens argv =
        argv.take (Command.subcommand_index d.subcommandname_2_subcommand_ argv) := by
      unfold Command.own_tokens
      rw [if_neg hsub]
    rw [ht] at hlevel
    rw [(do_parse_args_cases L d argv hsub2).1 (Exn.ParseArgsError "") (by rw [hlevel])]
    exact hlevel

/-- An exception of the sub-command that `do_parse_args` dispatches to is the exception of
the call on the parent. -/
theorem child_failure (L : Libc) (c : Command) (t : List String) (name : String)
    (child : Command) (e : Exn)
    (hown : (c.parse_own_level L
      (t.take (Command.subcommand_index c.subcommandname_2_subcommand_ t))).thrown = none)
    (hname : t[Command.subcommand_index c.subcommandname_2_subcommand_ t]? = some name)
    (hchild : map_find name c.subcommandname_2_subcommand_ = some child)
    (he : (child.do_parse_args L
      (t.drop (Command.subcommand_index c.subcommandname_2_subcommand_ t))).thrown = some e) :
    (c.do_parse_args L t).thrown = some e := by
  have hsub : c.subcommandname_2_subcommand_.isEmpty = false := by
    cases h : c.subcommandname_2_subcommand_ with
    | nil =>
      rw [h] at hchild
      cases hchild
    | cons x xs => rfl
  rw [(do_parse_args_cases L c t hsub).2.2 hown name hname]
  show (Command.dispatch L c.subcommandname_2_subcommand_ name _).thrown = some e
  rw [(dispatch_found L _ name _ child hchild).1]
  exact he

theorem add_help_long_opts (L : Libc) (c : Command) :
    (c.add_help_arg L).c_long_opts_ =
      c.c_long_opts_ ++ [{ name := some "help", has_arg := no_argument, val := 104 }] ∧
    (c.add_help_arg L).c_short_opts_ = c.c_short_opts_.push 'h' := ⟨rfl, rfl⟩

theorem member_hit_eq (c : Command) (name : String) :
    c.member_hit name =
      match c.resolve name with
      | some p => .ok (c.arg_at p).is_hit_
      | none => .error (c.unresolved_error name) := by
  unfold Command.member_hit Command.resolve Command.unresolved_error
  by_cases h1 : strlen name = 1
  · simp only [h1, if_true]
    cases map_find (name.data.headD (Char.ofNat 0)) c.shortname_2_arg_ <;> rfl
  · simp only [h1, if_false]
    cases map_find name c.longname_2_arg_ <;> rfl

theorem group_count_unresolved (c : Command) (group : List String)
    (h : ∃ name ∈ group, c.resolve name = none) :
    ∃ name ∈ group, c.resolve name = none ∧
      c.group_count group = .error (c.unresolved_error name) := by
  induction group with
  | nil =>
    obtain ⟨name, hm, _⟩ := h
    cases hm
  | cons x rest ih =>
    unfold Command.group_count
    rw [member_hit_eq]
    cases hx : c.resolve x with
    | none => exact ⟨x, List.mem_cons_self x rest, hx, rfl⟩
    | some p =>
      have h2 : ∃ name ∈ rest, c.resolve name = none := by
        obtain ⟨name, hm, hn⟩ := h
        rcases List.mem_cons.mp hm with e | hm2
        · rw [e, hx] at hn
          cases hn
        · exact ⟨name, hm2, hn⟩
      obtain ⟨name, hm, hn, he⟩ := ih h2
      refine ⟨name, List.mem_cons_of_mem x hm, hn, ?_⟩
      simp only
      rw [he]

theorem group_count_resolves (c : Command) (group : List String) (n : Nat)
    (h : c.group_count group = .ok n) : c.group_resolves group := by
  intro name hm
  cases hr : c.resolve name with
  | some p => rfl
  | none =>
    obtain ⟨x, _, _, he⟩ := group_count_unresolved c group ⟨name, hm, hr⟩
    rw [he] at h
    cases h

theorem related_scan_resolves (c : Command) (groups : List (List String))
    (h : c.related_scan groups = none) : ∀ g ∈ groups, c.group_resolves g := by
  induction groups with
  | nil => intro g hg; cases hg
  | cons g rest ih =>
    unfold Command.related_scan at h
    cases hc : c.group_count g with
    | error e =>
      rw [hc] at h
      cases h
    | ok n =>
      rw [hc] at h
      simp only at h
      split_ifs at h
      intro g2 hg2
      rcases List.mem_cons.mp hg2 with e | hm
      · rw [e]
        exact group_count_resolves c g n hc
      · exact ih h g2 hm

theorem conflict_groups_scan_resolves (c : Command) (groups : List (List String))
    (h : c.conflict_groups_scan groups = none) : ∀ g ∈ groups, c.group_resolves g := by
  induction groups with
  | nil => intro g hg; cases hg
  | cons g rest ih =>
    unfold Command.conflict_groups_scan at h
    cases hc : c.group_count g with
    | error e =>
      rw [hc] at h
      cases h
    | ok n =>
      rw [hc] at h
      simp only at h
      split_ifs at h
      intro g2 hg2
      rcases List.mem_cons.mp hg2 with e | hm
      · rw [e]
        exact group_count_resolves c g n hc
      · exact ih h g2 hm

theorem one_required_scan_resolves (c : Command) (groups : List (List String))
    (h : c.one_required_scan groups = none) : ∀ g ∈ groups, c.group_resolves g := by
  induction groups with
  | nil => intro g hg; cases hg
  | cons g rest ih =>
    unfold Command.one_required_scan at h
    cases hc : c.group_count g with
    | error e =>
      rw [hc] at h
      cases h
    | ok n =>
      rw [hc] at h
      simp only at h
      split_ifs at h
      intro g2 hg2
      rcases List.mem_cons.mp hg2 with e | hm
      · rw [e]
        exact group_count_resolves c g n hc
      · exact ih h g2 hm

theorem resolve_congr (c c1 : Command) (hl : c1.longname_2_arg_ = c.longname_2_arg_)
    (hs : c1.shortname_2_arg_ = c.shortname_2_arg_) (name : String) :
    c1.resolve name = c.resolve name := by
  unfold Command.resolve
  rw [hl, hs]

/-- A command one of whose groups holds a name that does not resolve in the name maps a
parse works with cannot be parsed without exception. -/
theorem unresolved_group_blocks (L : Libc) (c : Command) (args : List String)
    (g : List String) (name : String)
    (hg : g ∈ c.related_groups_ ∨ g ∈ c.conflict_groups_ ∨ g ∈ c.one_required_groups_)
    (hname : name ∈ g) (hres : (c.prepared L).resolve name = none) :
    (c.parse_args L args).thrown ≠ none := by
  intro hok
  have hown := (parse_args_own L c args).2.1 hok
  obtain ⟨_, _, _, _, _, h4, h5, h6⟩ := phases_ok L (c.scanned L args)
    (c.own_tokens args).length (c.own_run L args) hown
  have hfr : Command.Frame (c.prepared L)
      ((c.scanned L args).state.capture_positions L (c.own_tokens args).length
        (c.own_run L args)).state :=
    (scan_events_frame L (c.prepared L) _).trans (capture_positions_frame L _ _ _)
  have hr : ((c.scanned L args).state.capture_positions L (c.own_tokens args).length
      (c.own_run L args)).state.resolve name = none := by
    rw [resolve_congr _ _ hfr.longname hfr.shortname]
    exact hres
  have hbad : ∀ gs : List (List String), g ∈ gs →
      ¬ (∀ g2 ∈ gs, ((c.scanned L args).state.capture_positions L (c.own_tokens args).length
        (c.own_run L args)).state.group_resolves g2) := by
    intro gs hm hall
    have := hall g hm name hname
    rw [hr] at this
    cases this
  rcases hg with hg | hg | hg
  · refine hbad _ ?_ (related_scan_resolves _ _ h4)
    rw [hfr.related, (prepared_rest L c).2.1]
    exact hg
  · refine hbad _ ?_ (conflict_groups_scan_resolves _ _ h5)
    rw [hfr.conflict, (prepared_rest L c).2.2.1]
    exact hg
  · refine hbad _ ?_ (one_required_scan_resolves _ _ h6)
    rw [hfr.one_required, (prepared_rest L c).2.2.2.1]
    exact hg

theorem related_scan_append (c : Command) (pre rest : List (List String))
    (h : c.related_scan pre = none) :
    c.related_scan (pre ++ rest) = c.related_scan rest := by
  induction pre with
  | nil => rfl
  | cons g pre ih =>
    unfold Command.related_scan at h
    rw [List.cons_append]
    conv_lhs => unfold Command.related_scan
    cases hc : c.group_count g with
    | error e =>
      rw [hc] at h
      cases h
    | ok n =>
      rw [hc] at h
      simp only at h ⊢
      split_ifs at h ⊢
      exact ih h

theorem conflict_groups_scan_append (c : Command) (pre rest : List (List String))
    (h : c.conflict_groups_scan pre = none) :
    c.conflict_groups_scan (pre ++ rest) = c.conflict_groups_scan rest := by
  induction pre with
  | nil => rfl
  | cons g pre ih =>
    unfold Command.conflict_groups_scan at h
    rw [List.cons_append]
    conv_lhs => unfold Command.conflict_groups_scan
    cases hc : c.group_count g with
    | error e =>
      rw [hc] at h
      cases h
    | ok n =>
      rw [hc] at h
      simp only at h ⊢
      split_ifs at h ⊢
      exact ih h

theorem one_required_scan_append (c : Command) (pre rest : List (List String))
    (h : c.one_required_scan pre = none) :
    c.one_required_scan (pre ++ rest) = c.one_required_scan rest := by
  induction pre with
  | nil => rfl
  | cons g pre ih =>
    unfold Command.one_required_scan at h
    rw [List.cons_append]
    conv_lhs => unfold Command.one_required_scan
    cases hc : c.group_count g with
    | error e =>
      rw [hc] at h
      cases h
    | ok n =>
      rw [hc] at h
      simp only at h ⊢
      split_ifs at h ⊢
      exact ih h

theorem check_range_void_fails (L : Libc) (a : Arg) (v : String)
    (hv : a.values_.getLast? = some v) (hr : a.is_range_ = true)
    (hl : a.left_.isSome = true) (hrt : a.right_.isSome = true) :
    Arg.check_range_void L a =
      match a.range_verdict_of L v with
      | .error e => some e
      | .ok true => none
      | .ok false => some (fail a.range_msg) :=
  check_range_void_stored L a a.values_ a.default_values_ a.has_default_value_ v hv hr hl hrt

theorem check_choice_fails (a : Arg) (v : String) (hv : a.values_.getLast? = some v)
    (hc : a.is_choice_ = true) (hne : a.choices_ ≠ []) (hm : v ∉ a.choices_) :
    Arg.check_choice a = some (fail (a.choice_msg (a.get_choice_description.getD ""))) :=
  (check_choice_stored a a.values_ a.default_values_ a.has_default_value_ v hv hc hne).2 hm

theorem set_value_has_default (L : Libc) (a : Arg) (v : String) :
    (a.set_value L v).state.has_default_value_ = a.has_default_value_ := by
  by_cases hf : a.arg_type_ = ArgType.FLAG
  · rw [set_value_flag L a v hf]
    rfl
  · rw [set_value_state L a v hf]
    simp

theorem three_optional_fresh : Command.Fresh example_libc three_optional :=
  Command.Fresh.arg _ _
    (Command.Fresh.arg _ _
      (Command.Fresh.arg _ _ (Command.Fresh.new_command _)
        (Arg.Built.long_name _ _ (Arg.Built.new_arg _) (by decide)) (by decide))
      (Arg.Built.long_name _ _ (Arg.Built.new_arg _) (by decide)) (by decide))
    (Arg.Built.short_name _ _ (Arg.Built.new_arg _) (by decide)) (by decide)

/-- What a parse keeps of a registered Required or Optional argument: it is registered in
the command the parse leaves, under the names it had, with its kind and its default mark. -/
theorem parsed_registered (L : Libc) (c : Command) (args : List String) (p : Int)
    (hwf : c.WF) (hreg : c.registered p)
    (hkind : (c.arg_at p).arg_type_ = ArgType.REQUIRED ∨
      (c.arg_at p).arg_type_ = ArgType.OPTIONAL) :
    (c.parse_args L args).state.registered p ∧
      ((c.parse_args L args).state.arg_at p).arg_type_ = (c.arg_at p).arg_type_ ∧
      ((c.parse_args L args).state.arg_at p).has_default_value_ =
        (c.arg_at p).has_default_value_ ∧
      (∀ n, map_find n c.longname_2_arg_ = some p →
        map_find n (c.parse_args L args).state.longname_2_arg_ = some p) ∧
      (∀ n, map_find n c.shortname_2_arg_ = some p →
        map_find n (c.parse_args L args).state.shortname_2_arg_ = some p) := by
  have hnf : (c.arg_at p).arg_type_ ≠ ArgType.FLAG := by
    rcases hkind with h | h <;> rw [h] <;> decide
  obtain ⟨hne, hprep⟩ := registered_prepared L c p hwf hreg hnf
  have hpa : (c.prepared L).arg_at p = (c.arg_at p).reset_status_info := by
    rw [prepared_arg_at, if_neg hne, if_pos hreg]
  refine ⟨?_, ?_, ?_, ?_, ?_⟩
  · unfold Command.registered
    rw [(parsed_maps L c args).1, (parsed_maps L c args).2, ← prepared_longname L c,
      ← prepared_shortname L c]
    rcases hprep with ⟨e, he, hep⟩ | ⟨e, he, hep⟩
    · exact Or.inl (List.mem_map.mpr ⟨e, he, hep⟩)
    · exact Or.inr (List.mem_map.mpr ⟨e, he, hep⟩)
  · rw [parsed_arg_type, hpa, reset_status_info_arg_type]
  · rw [parsed_keep L (fun a => a.has_default_value_) (set_value_has_default L) (fun _ => rfl),
      hpa]
    exact (reset_status_info_members _).2.2.1
  · intro n hn
    rw [(parsed_maps L c args).1, map_find_assign]
    have hmem := map_find_some_mem n p _ hn
    have hnh : n ≠ "help" := by
      intro e
      have := hwf.help_long (n, p) hmem e
      exact hnf this
    rw [if_neg hnh]
    exact hn
  · intro n hn
    rw [(parsed_maps L c args).2, map_find_assign]
    have hmem := map_find_some_mem n p _ hn
    have hnh : n ≠ 'h' := by
      intro e
      have := hwf.help_short (n, p) hmem e
      exact hnf this
    rw [if_neg hnh]
    exact hn

theorem transform_head {T : Type} (conv : String → Except Exn T) (v : String)
    (vs : List String) (xs : List T) (h : transform conv (v :: vs) = .ok xs) :
    ∃ x rest, xs = x :: rest ∧ conv v = .ok x := by
  unfold transform at h
  cases hv : conv v with
  | error e =>
    rw [hv] at h
    cases h
  | ok x =>
    rw [hv] at h
    dsimp only at h
    cases ht : transform conv vs with
    | error e =>
      rw [ht] at h
      cases h
    | ok ys =>
      rw [ht] at h
      cases h
      exact ⟨x, ys, rfl, rfl⟩

theorem default_values_command_fresh : Command.Fresh example_libc default_values_command :=
  Command.Fresh.arg _ _ (Command.Fresh.new_command _)
    (Arg.Built.default_values _ _
      (Arg.Built.long_name _ _ (Arg.Built.new_arg _) (by decide)) (by decide)) (by decide)

theorem depth_eq (c : Command) :
    c.depth = 1 + Command.depth_of_children c.subcommandname_2_subcommand_ := by
  cases c
  rfl

theorem depth_of_child (subs : List (String × Command)) (name : String) (child : Command)
    (h : map_find name subs = some child) : child.depth ≤ Command.depth_of_children subs := by
  induction subs with
  | nil => simp [map_find] at h
  | cons e rest ih =>
    obtain ⟨k, x⟩ := e
    simp only [map_find] at h
    simp only [Command.depth_of_children]
    by_cases hk : k = name
    · rw [if_pos hk] at h
      cases h
      exact le_max_left _ _
    · rw [if_neg hk] at h
      exact le_trans (ih h) (le_max_right _ _)

theorem dispatch_eq (L : Libc) (subs : List (String × Command)) (name : String)
    (argv : List String) :
    Command.dispatch L subs name argv =
      match map_find name subs with
      | none => ⟨subs, some Exn.out_of_range⟩
      | some child =>
        ⟨Command.store_child name (child.do_parse_args L argv).state subs,
          (child.do_parse_args L argv).thrown⟩ := by
  induction subs with
  | nil =>
    unfold Command.dispatch
    rfl
  | cons e rest ih =>
    obtain ⟨k, x⟩ := e
    unfold Command.dispatch
    simp only [map_find, Command.store_child]
    by_cases hk : k = name
    · simp only [hk, if_true]
    · simp only [hk, if_false]
      rw [ih]
      cases map_find name rest <;> rfl

theorem fuel_suffices (L : Libc) (fuel : Nat) (c : Command) (argv : List String)
    (h : c.depth ≤ fuel) : c.do_parse_args_fuel L fuel argv = some (c.do_parse_args L argv) := by
  induction fuel generalizing c argv with
  | zero =>
    rw [depth_eq] at h
    omega
  | succ fuel ih =>
    unfold Command.do_parse_args_fuel
    rw [do_parse_args_eq]
    by_cases hE : c.subcommandname_2_subcommand_.isEmpty = true
    · simp only [hE, if_true]
    · simp only [hE, Bool.false_eq_true, if_false]
      cases ht : (c.parse_own_level L
          (argv.take (Command.subcommand_index c.subcommandname_2_subcommand_ argv))).thrown with
      | some e => rfl
      | none =>
        simp only
        cases hn : argv[Command.subcommand_index c.subcommandname_2_subcommand_ argv]? with
        | none => rfl
        | some name =>
          simp only
          rw [dispatch_eq]
          cases hm : map_find name c.subcommandname_2_subcommand_ with
          | none => rfl
          | some child =>
            simp only
            have hd : child.depth ≤ fuel := by
              have h1 := depth_of_child _ name child hm
              rw [depth_eq] at h
              omega
            rw [ih child _ hd]

/-- With a negative count `argc - optind` after a scan and a required check that passed,
the positional phase runs past the tokens. -/
theorem negative_count_undefined (L : Libc) (c : Command) (args : List String)
    (hscan : (c.scanned L args).thrown = none)
    (hreq : (c.scanned L args).state.check_required_args = none)
    (hneg : ((c.own_tokens args).length : Int) - (c.own_run L args).optind < 0) :
    c.parse_args L args = ⟨(c.scanned L args).state, some Exn.undefined_behaviour⟩ := by
  have hown := own_level_after_required L c args hscan hreq
  have hcap : (c.scanned L args).state.capture_positions L (c.own_tokens args).length
      (c.own_run L args) = ⟨(c.scanned L args).state, some Exn.undefined_behaviour⟩ := by
    unfold Command.capture_positions
    rw [if_pos hneg]
    rfl
  have hlevel : c.reset_arg_status.parse_own_level L (c.own_tokens args) =
      ⟨(c.scanned L args).state, some Exn.undefined_behaviour⟩ := by
    rw [hown, checks_of_thrown _ Exn.undefined_behaviour (by rw [hcap]), hcap]
  rw [(parse_args_own L c args).1 Exn.undefined_behaviour (by rw [hlevel]), hlevel]

theorem own_tokens_at_zero (c : Command) (tok : String) (rest : List String)
    (hsub : c.subcommandname_2_subcommand_.isEmpty = false)
    (htok : (map_find tok c.subcommandname_2_subcommand_).isSome = true) :
    c.own_tokens (tok :: rest) = [] := by
  unfold Command.own_tokens Command.subcommand_index
  rw [hsub]
  simp [List.findIdx_cons, htok]

theorem out_of_ok {σ : Type} (buf : String) (s : σ) : Out.of buf (Res.ok s) = Out.ok s buf := rfl

theorem out_of_none {σ : Type} (buf : String) (s : σ) : Out.of buf ⟨s, none⟩ = Out.ok s buf := rfl

theorem out_of_fail {σ : Type} (buf text : String) (s : σ) :
    Out.of buf (Res.throw s (fail text)) = Out.fail s buf text := rfl

theorem out_of_error {σ : Type} (buf text : String) (s : σ) :
    Out.of buf ⟨s, some (Exn.ParseArgsError text)⟩ = Out.fail s buf text := rfl

theorem out_of_foreign {σ : Type} (buf : String) (s : σ) (e : Exn) (h : e.foreign) :
    Out.of buf ⟨s, some e⟩ = Out.throw s e buf := by
  cases e with
  | ParseArgsError msg => exact absurd rfl (h msg)
  | invalid_argument => rfl
  | out_of_range => rfl
  | undefined_behaviour => rfl

theorem foreign_invalid_argument : Exn.invalid_argument.foreign := fun _ h => nomatch h

theorem foreign_out_of_range : Exn.out_of_range.foreign := fun _ h => nomatch h

theorem foreign_undefined_behaviour : Exn.undefined_behaviour.foreign := fun _ h => nomatch h

theorem out_of_bind {σ : Type} (buf : String) (r : Res σ) (f : σ → Res σ) :
    Out.of buf (r.bind f) = (Out.of buf r).bind (fun s b => Out.of b (f s)) := by
  obtain ⟨s, t⟩ := r
  cases t with
  | none => rfl
  | some e => cases e <;> rfl

theorem out_of_check {σ : Type} (buf : String) (r : Res σ) (f : σ → Option Exn) :
    Out.of buf (r.check f) = (Out.of buf r).bind (fun s b => Out.of b ⟨s, f s⟩) :=
  out_of_bind buf r _

theorem out_of_map {σ τ : Type} (buf : String) (r : Res σ) (g : σ → τ) :
    Out.of buf ⟨g r.state, r.thrown⟩ =
      ⟨g (Out.of buf r).state, (Out.of buf r).thrown, (Out.of buf r).error_msg⟩ := by
  obtain ⟨s, t⟩ := r
  cases t with
  | none => rfl
  | some e => cases e <;> rfl

theorem out_of_state {σ : Type} (buf : String) (r : Res σ) : (Out.of buf r).state = r.state := by
  obtain ⟨s, t⟩ := r
  cases t with
  | none => rfl
  | some e => cases e <;> rfl

theorem out_of_thrown_none {σ : Type} (buf : String) (r : Res σ) :
    (Out.of buf r).thrown = none ↔ r.thrown = none := by
  obtain ⟨s, t⟩ := r
  cases t with
  | none => exact ⟨fun _ => rfl, fun _ => rfl⟩
  | some e => cases e <;> exact ⟨fun h => (nomatch h), fun h => (nomatch h)⟩

/-- A call leaves the buffer as it found it or empty. -/
theorem out_of_error_msg {σ : Type} (buf : String) (r : Res σ) :
    (Out.of buf r).error_msg = buf ∨ (Out.of buf r).error_msg = "" := by
  obtain ⟨s, t⟩ := r
  cases t with
  | none => exact Or.inl rfl
  | some e => cases e <;> first | exact Or.inl rfl | exact Or.inr rfl

/-- On the empty buffer a call is the call of the model. -/
theorem out_of_empty {σ : Type} (r : Res σ) : Out.of "" r = ⟨r.state, r.thrown, ""⟩ := by
  obtain ⟨s, t⟩ := r
  cases t with
  | none => rfl
  | some e =>
    cases e with
    | ParseArgsError msg =>
      show (⟨s, some (Exn.ParseArgsError ("" ++ msg)), ""⟩ : Out _) = _
      rw [String.empty_append]
    | invalid_argument => rfl
    | out_of_range => rfl
    | undefined_behaviour => rfl

theorem of_except_empty {T : Type} (r : Except Exn T) : Out.of_except "" r = (r, "") := by
  cases r with
  | ok x => rfl
  | error e =>
    cases e with
    | ParseArgsError msg =>
      show ((.error (Exn.ParseArgsError ("" ++ msg)), "") : Except Exn T × String) = _
      rw [String.empty_append]
    | invalid_argument => rfl
    | out_of_range => rfl
    | undefined_behaviour => rfl

theorem of_except_error_msg {T : Type} (buf : String) (r : Except Exn T) :
    (Out.of_except buf r).2 = buf ∨ (Out.of_except buf r).2 = "" := by
  cases r with
  | ok x => exact Or.inl rfl
  | error e => cases e <;> first | exact Or.inl rfl | exact Or.inr rfl

theorem of_except_standard {T : Type} (buf : String) (conv : String → Except Exn T)
    (h : standard conv) (v : String) : Out.of_except buf (conv v) = (conv v, buf) := by
  cases hc : conv v with
  | ok x => rfl
  | error e =>
    have hf := h v e hc
    cases e with
    | ParseArgsError msg => exact absurd rfl (hf msg)
    | invalid_argument => rfl
    | out_of_range => rfl
    | undefined_behaviour => rfl

theorem stol_standard : standard stol := by
  intro s e h
  unfold stol at h
  cases hs : scan_integer s with
  | none =>
    rw [hs] at h
    cases h
    exact foreign_invalid_argument
  | some p =>
    obtain ⟨neg, n⟩ := p
    rw [hs] at h
    dsimp only at h
    split_ifs at h <;> (cases h; exact foreign_out_of_range)

theorem stoul_standard : standard stoul := by
  intro s e h
  unfold stoul at h
  cases hs : scan_integer s with
  | none =>
    rw [hs] at h
    cases h
    exact foreign_invalid_argument
  | some p =>
    obtain ⟨neg, n⟩ := p
    rw [hs] at h
    dsimp only at h
    split_ifs at h
    cases h
    exact foreign_out_of_range

theorem stoi_standard : standard stoi := by
  intro s e h
  unfold stoi at h
  cases hs : scan_integer s with
  | none =>
    rw [hs] at h
    cases h
    exact foreign_invalid_argument
  | some p =>
    obtain ⟨neg, n⟩ := p
    rw [hs] at h
    dsimp only at h
    split_ifs at h <;> (cases h; exact foreign_out_of_range)

theorem to_value_standard :
    standard to_value_int ∧ standard to_value_int64 ∧ standard to_value_uint32 ∧
      standard to_value_uint64 ∧ standard to_value_string := by
  refine ⟨stoi_standard, stol_standard, ?_, stoul_standard, ?_⟩
  · intro s e h
    unfold to_value_uint32 at h
    cases hs : stoul s with
    | error e2 =>
      rw [hs] at h
      cases h
      exact stoul_standard s _ hs
    | ok n =>
      rw [hs] at h
      cases h
  · intro s e h
    cases h

theorem range_verdict_standard {T : Type} [LT T] [LE T] [∀ x y : T, Decidable (x < y)]
    [∀ x y : T, Decidable (x ≤ y)] (a : Arg) (conv : String → Except Exn T)
    (h : standard conv) (v l r : String) (e : Exn)
    (he : a.range_verdict conv v l r = .error e) : e.foreign := by
  unfold Arg.range_verdict at he
  cases hv : conv v with
  | error e1 =>
    rw [hv] at he
    cases he
    exact h v _ hv
  | ok x =>
    rw [hv] at he
    cases hl : conv l with
    | error e1 =>
      rw [hl] at he
      cases he
      exact h l _ hl
    | ok y =>
      rw [hl] at he
      cases hr : conv r with
      | error e1 =>
        rw [hr] at he
        cases he
        exact h r _ hr
      | ok z =>
        rw [hr] at he
        cases he

theorem long_name_buf_eq (a : Arg) (name buf : String) :
    a.long_name_buf name buf = Out.of buf (a.long_name name) := by
  unfold Arg.long_name_buf Arg.long_name
  split_ifs <;> rfl

theorem short_name_buf_eq (a : Arg) (name : Char) (buf : String) :
    a.short_name_buf name buf = Out.of buf (a.short_name name) := by
  unfold Arg.short_name_buf Arg.short_name
  split_ifs <;> rfl

theorem conflicts_with_all_buf_eq (a : Arg) (buf : String) :
    a.conflicts_with_all_buf buf = Out.of buf a.conflicts_with_all := by
  unfold Arg.conflicts_with_all_buf Arg.conflicts_with_all
  split_ifs <;> rfl

theorem range_buf_eq (a : Arg) (type : NumType) (left right : String) (il ir : Bool)
    (buf : String) :
    a.range_buf type left right il ir buf = Out.of buf (a.range type left right il ir) := by
  unfold Arg.range_buf Arg.range
  split_ifs <;> rfl

theorem choices_buf_eq (a : Arg) (choices : List String) (buf : String) :
    a.choices_buf choices buf = Out.of buf (a.choices choices) := by
  unfold Arg.choices_buf Arg.choices
  split_ifs <;> rfl

theorem check_range_void_buf_eq (L : Libc) (hL : standard L.stod) (a : Arg) (buf : String) :
    a.check_range_void_buf L buf = Out.of buf ⟨a, a.check_range_void L⟩ := by
  unfold Arg.check_range_void_buf Arg.check_range_void
  by_cases hr : a.is_range_ = true
  · simp only [hr, if_true]
    cases a.values_.getLast? with
    | none => rfl
    | some v =>
      cases a.left_ with
      | none => rfl
      | some l =>
        cases a.right_ with
        | none => rfl
        | some r =>
          cases hn : a.num_type_ with
          | INT =>
            dsimp only
            cases hv : a.range_verdict stol v l r with
            | error e =>
              exact (out_of_foreign buf a e
                (range_verdict_standard a stol stol_standard v l r e hv)).symm
            | ok b => cases b <;> rfl
          | UINT =>
            dsimp only
            cases hv : a.range_verdict stoul v l r with
            | error e =>
              exact (out_of_foreign buf a e
                (range_verdict_standard a stoul stoul_standard v l r e hv)).symm
            | ok b => cases b <;> rfl
          | DOUBlE =>
            dsimp only
            cases hv : a.range_verdict L.stod v l r with
            | error e =>
              exact (out_of_foreign buf a e
                (range_verdict_standard a L.stod hL v l r e hv)).symm
            | ok b => cases b <;> rfl
  · simp only [hr, Bool.false_eq_true, if_false]
    rfl

theorem check_choice_buf_eq (a : Arg) (buf : String) :
    a.check_choice_buf buf = Out.of buf ⟨a, a.check_choice⟩ := by
  unfold Arg.check_choice_buf Arg.check_choice
  by_cases hc : a.is_choice_ = true
  · simp only [hc, if_true]
    cases a.values_.getLast? with
    | none => rfl
    | some v =>
      simp only
      split_ifs
      · rfl
      · cases a.get_choice_description <;> rfl
  · simp only [hc, Bool.false_eq_true, if_false]
    rfl

theorem check_last_buf_eq (L : Libc) (hL : standard L.stod) (a : Arg) (buf : String) :
    a.check_last_buf L buf = Out.of buf (a.check_last L) := by
  unfold Arg.check_last_buf Arg.check_last
  rw [out_of_check, out_of_check, out_of_ok]
  have h1 : (Out.ok a buf).bind (fun s b => Out.of b ⟨s, s.check_range_void L⟩) =
      a.check_range_void_buf L buf := by
    rw [check_range_void_buf_eq L hL]
    rfl
  rw [h1]
  congr 1
  funext s b
  exact check_choice_buf_eq s b

theorem default_value_buf_eq (L : Libc) (hL : standard L.stod) (a : Arg) (value buf : String) :
    a.default_value_buf L value buf = Out.of buf (a.default_value L value) := by
  unfold Arg.default_value_buf Arg.default_value
  split_ifs
  · rfl
  · exact check_last_buf_eq L hL _ buf

theorem default_values_buf_eq (L : Libc) (hL : standard L.stod) (a : Arg)
    (values : List String) (buf : String) :
    a.default_values_buf L values buf = Out.of buf (a.default_values L values) := by
  unfold Arg.default_values_buf Arg.default_values
  split_ifs
  · rfl
  · rfl
  · exact check_last_buf_eq L hL _ buf

theorem set_value_buf_eq (L : Libc) (hL : standard L.stod) (a : Arg) (value buf : String) :
    a.set_value_buf L value buf = Out.of buf (a.set_value L value) := by
  unfold Arg.set_value_buf Arg.set_value
  split_ifs
  · rfl
  · exact check_last_buf_eq L hL _ buf


theorem insert_cstr_append (buf pre : String) (p : Option String) (rest : String) :
    insert_cstr (buf ++ pre) p rest = buf ++ insert_cstr pre p rest := by
  cases p with
  | none => rfl
  | some text =>
    show buf ++ pre ++ text ++ rest = buf ++ (pre ++ text ++ rest)
    simp only [String.append_assoc]

theorem arg_buf_eq (L : Libc) (c : Command) (a : Arg) (buf : String) :
    c.arg_buf L a buf = Out.of buf (c.arg L a) := by
  unfold Command.arg_buf Command.arg
  split_ifs <;> rfl

theorem print_usage_help_buf_eq (c : Command) (buf : String) :
    c.print_usage_help_buf buf = Out.of buf (Res.throw c c.print_usage_help) := by
  show (⟨c, some (Exn.ParseArgsError buf), ""⟩ : Out Command) =
    ⟨c, some (Exn.ParseArgsError (buf ++ "")), ""⟩
  rw [String.append_empty]

theorem hit_and_set_buf_eq (L : Libc) (hL : standard L.stod) (c : Command) (p : Int)
    (optarg : Option String) (buf : String) :
    c.hit_and_set_buf L p optarg buf = Out.of buf (c.hit_and_set L p optarg) := by
  unfold Command.hit_and_set_buf Command.hit_and_set
  dsimp only
  rw [set_value_buf_eq L hL]
  exact (out_of_map buf _ (fun s => c.set_arg p s)).symm

theorem scan_event_buf_eq (L : Libc) (hL : standard L.stod) (c : Command)
    (ev : Int × Option String) (buf : String) :
    c.scan_event_buf L ev buf = Out.of buf (c.scan_event L ev) := by
  unfold Command.scan_event_buf Command.scan_event
  by_cases h0 : ev.1 < 0
  · simp only [h0, if_true]
    cases map_find "help" c.longname_2_arg_ with
    | none => rfl
    | some h =>
      dsimp only
      by_cases h1 : ev.1 = (c.arg_at h).arg_id_
      · simp only [h1, if_true]
        exact print_usage_help_buf_eq c buf
      · simp only [h1, if_false]
        cases map_find ev.1 c.argid_2_arg_ with
        | none => rfl
        | some _ => exact hit_and_set_buf_eq L hL c ev.1 ev.2 buf
  · simp only [h0, if_false]
    by_cases h1 : ev.1 = 63 ∨ ev.1 = 58
    · simp only [h1, if_true]
      rfl
    · simp only [h1, if_false]
      by_cases h2 : ev.1 = 104
      · simp only [h2, if_true]
        exact print_usage_help_buf_eq c buf
      · simp only [h2, if_false]
        cases map_find (Char.ofNat (ev.1.toNat % 256)) c.shortname_2_arg_ with
        | none => rfl
        | some p => exact hit_and_set_buf_eq L hL c p ev.2 buf

theorem scan_events_buf_eq (L : Libc) (hL : standard L.stod) (c : Command)
    (evs : List (Int × Option String)) (buf : String) :
    c.scan_events_buf L evs buf = Out.of buf (c.scan_events L evs) := by
  induction evs generalizing c buf with
  | nil => rfl
  | cons ev evs ih =>
    unfold Command.scan_events_buf Command.scan_events
    rw [out_of_bind, scan_event_buf_eq L hL]
    congr 1
    funext c1 b
    exact ih c1 b

theorem check_required_args_buf_eq (c : Command) (buf : String) :
    c.check_required_args_buf buf = Out.of buf ⟨c, c.check_required_args⟩ := by
  unfold Command.check_required_args_buf Command.check_required_args
  cases c.longname_2_arg_.find? (fun e => c.missing_required e.2) with
  | some e =>
    dsimp only
    rw [insert_cstr_append]
    rfl
  | none =>
    dsimp only
    cases c.shortname_2_arg_.find? (fun e => c.missing_required e.2) with
    | some e => rfl
    | none => rfl

theorem conflict_of_buf_eq (c : Command) (arg : Arg) (buf : String) :
    c.conflict_of_buf arg buf = Out.of buf ⟨c, c.conflict_of arg⟩ := by
  unfold Command.conflict_of_buf Command.conflict_of
  cases c.longname_2_arg_.find?
      (fun e => decide (arg.long_name_ ≠ (c.arg_at e.2).long_name_) && (c.arg_at e.2).is_hit_) with
  | some e =>
    dsimp only
    rw [insert_cstr_append]
    rfl
  | none =>
    dsimp only
    cases c.shortname_2_arg_.find?
        (fun e => decide (arg.short_name_ ≠ (c.arg_at e.2).short_name_) &&
          (c.arg_at e.2).is_hit_) with
    | some e => rfl
    | none => rfl

theorem conflict_scan_buf_eq (c : Command) (ps : List Int) (buf : String) :
    c.conflict_scan_buf ps buf = Out.of buf ⟨c, c.conflict_scan ps⟩ := by
  induction ps generalizing buf with
  | nil => rfl
  | cons p ps ih =>
    unfold Command.conflict_scan_buf Command.conflict_scan
    by_cases hh : (c.arg_at p).is_hit_ = true
    · simp only [hh, if_true]
      rw [conflict_of_buf_eq]
      cases hc : c.conflict_of (c.arg_at p) with
      | some e => cases e <;> rfl
      | none =>
        show c.conflict_scan_buf ps buf = _
        exact ih buf
    · simp only [hh, Bool.false_eq_true, if_false]
      exact ih buf

theorem check_conflict_with_all_args_buf_eq (c : Command) (buf : String) :
    c.check_conflict_with_all_args_buf buf = Out.of buf ⟨c, c.check_conflict_with_all_args⟩ :=
  conflict_scan_buf_eq c _ buf

theorem member_hit_buf_eq (c : Command) (name buf : String) :
    c.member_hit_buf name buf = Out.of_except buf (c.member_hit name) := by
  unfold Command.member_hit_buf Command.member_hit
  split_ifs
  · cases map_find (name.data.headD (Char.ofNat 0)) c.shortname_2_arg_ <;> rfl
  · cases map_find name c.longname_2_arg_ <;> rfl

theorem group_count_buf_eq (c : Command) (group : List String) (buf : String) :
    c.group_count_buf group buf = Out.of_except buf (c.group_count group) := by
  induction group generalizing buf with
  | nil => rfl
  | cons name rest ih =>
    unfold Command.group_count_buf Command.group_count
    rw [member_hit_buf_eq]
    cases hm : c.member_hit name with
    | error e => cases e <;> rfl
    | ok b =>
      have h1 : Out.of_except buf (Except.ok b : Except Exn Bool) = (Except.ok b, buf) := rfl
      rw [h1]
      dsimp only
      rw [ih]
      cases hg : c.group_count rest with
      | error e => cases e <;> rfl
      | ok n => rfl

theorem group_failure_buf_eq (c : Command) (group : List String) (before after buf : String) :
    c.group_failure_buf group before after buf =
      Out.of buf ⟨c, some (c.group_failure group before after)⟩ := by
  unfold Command.group_failure_buf Command.group_failure
  cases Command.get_description group <;> rfl

theorem related_scan_buf_eq (c : Command) (groups : List (List String)) (buf : String) :
    c.related_scan_buf groups buf = Out.of buf ⟨c, c.related_scan groups⟩ := by
  induction groups generalizing buf with
  | nil => rfl
  | cons group groups ih =>
    unfold Command.related_scan_buf Command.related_scan
    rw [group_count_buf_eq]
    cases hg : c.group_count group with
    | error e => cases e <;> rfl
    | ok count =>
      have h1 : Out.of_except buf (Except.ok count : Except Exn Nat) = (Except.ok count, buf) :=
        rfl
      rw [h1]
      dsimp only
      split_ifs
      · exact group_failure_buf_eq c group _ _ buf
      · exact ih buf

theorem conflict_groups_scan_buf_eq (c : Command) (groups : List (List String))
    (buf : String) :
    c.conflict_groups_scan_buf groups buf = Out.of buf ⟨c, c.conflict_groups_scan groups⟩ := by
  induction groups generalizing buf with
  | nil => rfl
  | cons group groups ih =>
    unfold Command.conflict_groups_scan_buf Command.conflict_groups_scan
    rw [group_count_buf_eq]
    cases hg : c.group_count group with
    | error e => cases e <;> rfl
    | ok count =>
      have h1 : Out.of_except buf (Except.ok count : Except Exn Nat) = (Except.ok count, buf) :=
        rfl
      rw [h1]
      dsimp only
      split_ifs
      · exact group_failure_buf_eq c group _ _ buf
      · exact ih buf

theorem one_required_scan_buf_eq (c : Command) (groups : List (List String)) (buf : String) :
    c.one_required_scan_buf groups buf = Out.of buf ⟨c, c.one_required_scan groups⟩ := by
  induction groups generalizing buf with
  | nil => rfl
  | cons group groups ih =>
    unfold Command.one_required_scan_buf Command.one_required_scan
    rw [group_count_buf_eq]
    cases hg : c.group_count group with
    | error e => cases e <;> rfl
    | ok count =>
      have h1 : Out.of_except buf (Except.ok count : Except Exn Nat) = (Except.ok count, buf) :=
        rfl
      rw [h1]
      dsimp only
      split_ifs
      · exact group_failure_buf_eq c group _ _ buf
      · exact ih buf

theorem capture_buf_eq (L : Libc) (hL : standard L.stod) (c : Command) (i : Nat)
    (toks : List String) (buf : String) :
    c.capture_buf L i toks buf = Out.of buf (c.capture L i toks) := by
  induction toks generalizing c i buf with
  | nil => rfl
  | cons tok toks ih =>
    unfold Command.capture_buf Command.capture
    cases (c.push_position tok).position_args_[i]? with
    | none => exact ih _ _ buf
    | some p =>
      dsimp only
      rw [out_of_bind, set_value_buf_eq L hL,
        out_of_map buf _ (fun s => (c.push_position tok).set_arg p s)]
      congr 1
      funext c2 b
      exact ih c2 _ b

theorem capture_positions_buf_eq (L : Libc) (hL : standard L.stod) (c : Command) (argc : Int)
    (run : GetoptRun) (buf : String) :
    c.capture_positions_buf L argc run buf = Out.of buf (c.capture_positions L argc run) := by
  unfold Command.capture_positions_buf Command.capture_positions
  split_ifs
  · rfl
  · rfl
  · exact capture_buf_eq L hL c 0 _ buf

theorem do_parse_args_internel_buf_eq (L : Libc) (hL : standard L.stod) (c : Command)
    (argv : List String) (buf : String) :
    c.do_parse_args_internel_buf L argv buf = Out.of buf (c.do_parse_args_internel L argv) := by
  unfold Command.do_parse_args_internel_buf Command.do_parse_args_internel
  dsimp only
  rw [out_of_bind, out_of_check, scan_events_buf_eq L hL]
  congr 1
  · congr 1
    funext s b
    exact check_required_args_buf_eq s b
  · funext c1 b
    exact capture_positions_buf_eq L hL c1 _ _ b

theorem parse_own_level_buf_eq (L : Libc) (hL : standard L.stod) (c : Command)
    (argv : List String) (buf : String) :
    c.parse_own_level_buf L argv buf = Out.of buf (c.parse_own_level L argv) := by
  unfold Command.parse_own_level_buf Command.parse_own_level
  dsimp only
  rw [out_of_check, out_of_check, out_of_check, out_of_check,
    do_parse_args_internel_buf_eq L hL]
  congr 1
  · congr 1
    · congr 1
      · congr 1
        funext s b
        exact check_conflict_with_all_args_buf_eq s b
      · funext s b
        exact related_scan_buf_eq s _ b
    · funext s b
      exact conflict_groups_scan_buf_eq s _ b
  · funext s b
    exact one_required_scan_buf_eq s _ b


/-- `do_parse_args_buf` in terms of the fields of the command. -/
theorem do_parse_args_buf_unfold (L : Libc) (c : Command) (argv : List String) (buf : String) :
    c.do_parse_args_buf L argv buf =
      if c.subcommandname_2_subcommand_.isEmpty then c.parse_own_level_buf L argv buf
      else
        match (c.parse_own_level_buf L
            (argv.take (Command.subcommand_index c.subcommandname_2_subcommand_ argv))
            buf).thrown with
        | some _ =>
          c.parse_own_level_buf L
            (argv.take (Command.subcommand_index c.subcommandname_2_subcommand_ argv)) buf
        | none =>
          match argv[Command.subcommand_index c.subcommandname_2_subcommand_ argv]? with
          | none =>
            Out.fail
              (c.parse_own_level_buf L
                (argv.take (Command.subcommand_index c.subcommandname_2_subcommand_ argv))
                buf).state
              (c.parse_own_level_buf L
                (argv.take (Command.subcommand_index c.subcommandname_2_subcommand_ argv))
                buf).error_msg
              ((c.parse_own_level_buf L
                (argv.take (Command.subcommand_index c.subcommandname_2_subcommand_ argv))
                buf).state.command_name_ ++ ": Missing subcommand.")
          | some name =>
            ⟨{ (c.parse_own_level_buf L
                (argv.take (Command.subcommand_index c.subcommandname_2_subcommand_ argv))
                buf).state with
                current_subcommand_name_ := some name
                subcommandname_2_subcommand_ :=
                  (Command.dispatch_buf L c.subcommandname_2_subcommand_ name
                    (argv.drop (Command.subcommand_index c.subcommandname_2_subcommand_ argv))
                    (c.parse_own_level_buf L
                      (argv.take (Command.subcommand_index c.subcommandname_2_subcommand_ argv))
                      buf).error_msg).state },
              (Command.dispatch_buf L c.subcommandname_2_subcommand_ name
                (argv.drop (Command.subcommand_index c.subcommandname_2_subcommand_ argv))
                (c.parse_own_level_buf L
                  (argv.take (Command.subcommand_index c.subcommandname_2_subcommand_ argv))
                  buf).error_msg).thrown,
              (Command.dispatch_buf L c.subcommandname_2_subcommand_ name
                (argv.drop (Command.subcommand_index c.subcommandname_2_subcommand_ argv))
                (c.parse_own_level_buf L
                  (argv.take (Command.subcommand_index c.subcommandname_2_subcommand_ argv))
                  buf).error_msg).error_msg⟩ := by
  cases c with
  | mk members subs current =>
    rw [Command.do_parse_args_buf]

theorem dispatch_buf_found (L : Libc) (subs : List (String × Command)) (name : String)
    (argv : List String) (buf : String) :
    Command.dispatch_buf L subs name argv buf =
      match map_find name subs with
      | none => ⟨subs, some Exn.out_of_range, buf⟩
      | some child =>
        ⟨Command.store_child name (child.do_parse_args_buf L argv buf).state subs,
          (child.do_parse_args_buf L argv buf).thrown,
          (child.do_parse_args_buf L argv buf).error_msg⟩ := by
  induction subs with
  | nil =>
    unfold Command.dispatch_buf
    rfl
  | cons e rest ih =>
    obtain ⟨k, x⟩ := e
    unfold Command.dispatch_buf
    simp only [map_find, Command.store_child]
    by_cases hk : k = name
    · simp only [hk, if_true]
    · simp only [hk, if_false]
      rw [ih]
      cases map_find name rest <;> rfl

theorem do_parse_args_buf_depth (L : Libc) (hL : standard L.stod) (n : Nat) :
    ∀ (c : Command) (argv : List String) (buf : String), c.depth ≤ n →
      c.do_parse_args_buf L argv buf = Out.of buf (c.do_parse_args L argv) := by
  induction n with
  | zero =>
    intro c argv buf h
    rw [depth_eq] at h
    omega
  | succ n ih =>
    intro c argv buf h
    rw [do_parse_args_buf_unfold, do_parse_args_eq]
    by_cases hE : c.subcommandname_2_subcommand_.isEmpty = true
    · simp only [hE, if_true]
      exact parse_own_level_buf_eq L hL c argv buf
    · simp only [hE, Bool.false_eq_true, if_false]
      rw [parse_own_level_buf_eq L hL]
      cases ht : (c.parse_own_level L
          (argv.take (Command.subcommand_index c.subcommandname_2_subcommand_ argv))).thrown with
      | some e =>
        have h1 : (Out.of buf (c.parse_own_level L
            (argv.take (Command.subcommand_index c.subcommandname_2_subcommand_ argv)))).thrown
            ≠ none := by
          rw [Ne, out_of_thrown_none, ht]
          exact fun h2 => nomatch h2
        cases h2 : (Out.of buf (c.parse_own_level L
            (argv.take (Command.subcommand_index c.subcommandname_2_subcommand_ argv)))).thrown
          with
        | none => exact absurd h2 h1
        | some e2 => rfl
      | none =>
        have h1 : Out.of buf (c.parse_own_level L
            (argv.take (Command.subcommand_index c.subcommandname_2_subcommand_ argv))) =
            ⟨(c.parse_own_level L
              (argv.take (Command.subcommand_index c.subcommandname_2_subcommand_ argv))).state,
              none, buf⟩ := by
          unfold Out.of
          rw [ht]
        rw [h1]
        dsimp only
        cases hn : argv[Command.subcommand_index c.subcommandname_2_subcommand_ argv]? with
        | none => rfl
        | some name =>
          dsimp only
          rw [dispatch_buf_found, dispatch_eq]
          cases hm : map_find name c.subcommandname_2_subcommand_ with
          | none => rfl
          | some child =>
            dsimp only
            have hd : child.depth ≤ n := by
              have h3 := depth_of_child _ name child hm
              rw [depth_eq] at h
              omega
            rw [ih child _ buf hd]
            exact (out_of_map buf (child.do_parse_args L
              (argv.drop (Command.subcommand_index c.subcommandname_2_subcommand_ argv)))
              (fun s => ({ (c.parse_own_level L
                (argv.take
                  (Command.subcommand_index c.subcommandname_2_subcommand_ argv))).state with
                current_subcommand_name_ := some name
                subcommandname_2_subcommand_ :=
                  Command.store_child name s c.subcommandname_2_subcommand_ } : Command))).symm

theorem do_parse_args_buf_eq (L : Libc) (hL : standard L.stod) (c : Command)
    (argv : List String) (buf : String) :
    c.do_parse_args_buf L argv buf = Out.of buf (c.do_parse_args L argv) :=
  do_parse_args_buf_depth L hL c.depth c argv buf (le_refl _)

theorem parse_args_buf_eq (L : Libc) (hL : standard L.stod) (c : Command)
    (args : List String) (buf : String) :
    c.parse_args_buf L args buf = Out.of "" (c.parse_args L args) :=
  do_parse_args_buf_eq L hL c.reset_arg_status args ""

theorem get_one_value_buf_eq {T : Type} (conv : String → Except Exn T) (h : standard conv)
    (c : Command) (name buf : String) :
    c.get_one_value_buf conv name buf = Out.of_except buf (c.get_one_value conv name) := by
  unfold Command.get_one_value_buf Command.get_one_value
  cases map_find name c.longname_2_arg_ with
  | none => rfl
  | some p =>
    dsimp only
    cases (c.arg_at p).values_ with
    | nil => rfl
    | cons v vs => exact (of_except_standard buf conv h v).symm

theorem get_one_value_short_buf_eq {T : Type} (conv : String → Except Exn T)
    (h : standard conv) (c : Command) (name : Char) (buf : String) :
    c.get_one_value_short_buf conv name buf =
      Out.of_except buf (c.get_one_value_short conv name) := by
  unfold Command.get_one_value_short_buf Command.get_one_value_short
  cases map_find name c.shortname_2_arg_ with
  | none => rfl
  | some p =>
    dsimp only
    cases (c.arg_at p).values_ with
    | nil => rfl
    | cons v vs => exact (of_except_standard buf conv h v).symm

theorem transform_foreign {T : Type} (conv : String → Except Exn T) (h : standard conv)
    (vs : List String) (e : Exn) (he : transform conv vs = .error e) : e.foreign := by
  obtain ⟨v, _, hc⟩ := transform_error conv vs e he
  exact h v e hc

theorem of_except_foreign {T : Type} (buf : String) (r : Except Exn T)
    (h : ∀ e, r = .error e → e.foreign) : Out.of_except buf r = (r, buf) := by
  cases r with
  | ok x => rfl
  | error e =>
    have hf := h e rfl
    cases e with
    | ParseArgsError msg => exact absurd rfl (hf msg)
    | invalid_argument => rfl
    | out_of_range => rfl
    | undefined_behaviour => rfl

theorem get_many_values_buf_eq {T : Type} (conv : String → Except Exn T) (h : standard conv)
    (c : Command) (name buf : String) :
    c.get_many_values_buf conv name buf = Out.of_except buf (c.get_many_values conv name) := by
  unfold Command.get_many_values_buf Command.get_many_values
  cases map_find name c.longname_2_arg_ with
  | none => rfl
  | some p =>
    exact (of_except_foreign buf _ (fun e he => transform_foreign conv h _ e he)).symm

theorem get_many_values_short_buf_eq {T : Type} (conv : String → Except Exn T)
    (h : standard conv) (c : Command) (name : Char) (buf : String) :
    c.get_many_values_short_buf conv name buf =
      Out.of_except buf (c.get_many_values_short conv name) := by
  unfold Command.get_many_values_short_buf Command.get_many_values_short
  cases map_find name c.shortname_2_arg_ with
  | none => rfl
  | some p =>
    exact (of_except_foreign buf _ (fun e he => transform_foreign conv h _ e he)).symm

theorem get_one_position_value_buf_eq {T : Type} (conv : String → Except Exn T)
    (h : standard conv) (c : Command) (position : Nat) (buf : String) :
    c.get_one_position_value_buf conv position buf =
      Out.of_except buf (c.get_one_position_value conv position) := by
  unfold Command.get_one_position_value_buf Command.get_one_position_value
  cases c.position_values_[position]? with
  | none => rfl
  | some v => exact (of_except_standard buf conv h v).symm

/-- The getters leave an empty buffer empty, whatever the conversion does. -/
theorem getters_keep_empty {T : Type} (conv : String → Except Exn T) (c : Command) :
    (∀ name, (c.get_one_value_buf conv name "").2 = "") ∧
      (∀ name, (c.get_one_value_short_buf conv name "").2 = "") ∧
      (∀ name, (c.get_many_values_buf conv name "").2 = "") ∧
      (∀ name, (c.get_many_values_short_buf conv name "").2 = "") ∧
      (∀ position, (c.get_one_position_value_buf conv position "").2 = "") := by
  refine ⟨?_, ?_, ?_, ?_, ?_⟩
  · intro name
    unfold Command.get_one_value_buf
    cases map_find name c.longname_2_arg_ with
    | none => rfl
    | some p =>
      dsimp only
      cases (c.arg_at p).values_ <;> rfl
  · intro name
    unfold Command.get_one_value_short_buf
    cases map_find name c.shortname_2_arg_ with
    | none => rfl
    | some p =>
      dsimp only
      cases (c.arg_at p).values_ <;> rfl
  · intro name
    unfold Command.get_many_values_buf
    cases map_find name c.longname_2_arg_ <;> rfl
  · intro name
    unfold Command.get_many_values_short_buf
    cases map_find name c.shortname_2_arg_ <;> rfl
  · intro position
    unfold Command.get_one_position_value_buf
    cases c.position_values_[position]? <;> rfl

theorem out_of_empty_error_msg {σ : Type} (r : Res σ) : (Out.of "" r).error_msg = "" := by
  rw [out_of_empty]

/-- The buffer is empty between any two calls of the library. -/
theorem between_calls_empty (L : Libc) (hL : standard L.stod) (buf : String)
    (h : BetweenCalls L buf) : buf = "" := by
  induction h with
  | start => rfl
  | long_name buf a name _ ih => rw [ih, long_name_buf_eq, out_of_empty]
  | short_name buf a name _ ih => rw [ih, short_name_buf_eq, out_of_empty]
  | conflicts_with_all buf a _ ih => rw [ih, conflicts_with_all_buf_eq, out_of_empty]
  | default_value buf a value _ ih => rw [ih, default_value_buf_eq L hL, out_of_empty]
  | default_values buf a values _ ih => rw [ih, default_values_buf_eq L hL, out_of_empty]
  | range buf a type left right il ir _ ih => rw [ih, range_buf_eq, out_of_empty]
  | choices buf a values _ ih => rw [ih, choices_buf_eq, out_of_empty]
  | arg buf c a _ ih => rw [ih, arg_buf_eq, out_of_empty]
  | parse_args buf c args _ ih => rw [parse_args_buf_eq L hL, out_of_empty]
  | get_one_value buf T conv c name _ ih =>
    rw [ih]
    exact (getters_keep_empty conv c).1 name
  | get_one_value_short buf T conv c name _ ih =>
    rw [ih]
    exact (getters_keep_empty conv c).2.1 name
  | get_many_values buf T conv c name _ ih =>
    rw [ih]
    exact (getters_keep_empty conv c).2.2.1 name
  | get_many_values_short buf T conv c name _ ih =>
    rw [ih]
    exact (getters_keep_empty conv c).2.2.2.1 name
  | get_one_position_value buf T conv c position _ ih =>
    rw [ih]
    exact (getters_keep_empty conv c).2.2.2.2 position

/-- Ids of a freshly built command: the ids given out are the integers from -2 down to the
one before `current_argid_`, and every stored argument carries the id it is stored under. -/
theorem fresh_ids (L : Libc) (c : Command) (h : Command.Fresh L c) :
    c.current_argid_ ≤ -2 ∧
      ∀ q, (map_find q c.argid_2_arg_).isSome = true →
        c.current_argid_ < q ∧ q ≤ -2 ∧ (c.arg_at q).arg_id_ = q := by
  induction h with
  | new_command name =>
    refine ⟨le_refl _, ?_⟩
    intro q hq
    cases hq
  | usage c text _ ih => exact ih
  | usage_lines c lines _ ih => exact ih
  | related_group c group _ ih => exact ih
  | conflict_group c group _ ih => exact ih
  | one_required_group c group _ ih => exact ih
  | arg c a _ hb hok ih =>
    obtain ⟨a1, a2, a3, a4, a5, a6⟩ := arg_spec L c a hok
    have harg := arg_arg_at L c a hok
    obtain ⟨f1, f2, f3, f4, f5, f6, f7, f8, f9⟩ :=
      filed_members L (a.set_argid c.current_argid_) c.current_position_id_
    refine ⟨by rw [a1]; omega, ?_⟩
    intro q hq
    rw [a1, harg]
    rw [a4, map_find_assign] at hq
    by_cases hqc : q = c.current_argid_
    · rw [if_pos hqc, f8, hqc]
      exact ⟨by omega, ih.1, rfl⟩
    · rw [if_neg hqc] at hq ⊢
      obtain ⟨h1, h2, h3⟩ := ih.2 q hq
      exact ⟨by omega, h2, h3⟩

theorem char_to_int_ascii (ch : Char) (h : ch.toNat < 128) : char_to_int ch = (ch.toNat : Int) := by
  unfold char_to_int
  rw [if_neg]
  omega

/-- The return value of the scanner for an occurrence of an argument of a freshly built
command is routed to the argument by the scan loop, when the short name of the argument, if it
has one, is an ASCII character other than `'?'` and `':'` under which the command holds the
argument. -/
theorem occurrence_routed (L : Libc) (c : Command) (p : Int) (v : String)
    (hfresh : Command.Fresh L c) (hreg : c.registered p)
    (hshort : (c.arg_at p).short_name_ ≠ ' ' →
      (c.arg_at p).short_name_.toNat < 128 ∧ (c.arg_at p).short_name_ ≠ '?' ∧
        (c.arg_at p).short_name_ ≠ ':' ∧
        map_find (c.arg_at p).short_name_ c.shortname_2_arg_ = some p) :
    (c.prepared L).event_target ((c.arg_at p).return_code, some v) = some p ∧
      (c.arg_at p).return_code ≠ 63 ∧ (c.arg_at p).return_code ≠ 58 := by
  obtain ⟨w, hsub, hunhit, hvals, hnl, hns⟩ := fresh_spec L c hfresh
  have hpres : (map_find p c.argid_2_arg_).isSome = true := by
    rcases hreg with hl | hs
    · obtain ⟨e, he, rfl⟩ := List.mem_map.mp hl
      exact w.long_present e he
    · obtain ⟨e, he, rfl⟩ := List.mem_map.mp hs
      exact w.short_present e he
  obtain ⟨_, hneg, hid⟩ := (fresh_ids L c hfresh).2 p hpres
  by_cases hs : (c.arg_at p).short_name_ = ' '
  · have hcode : (c.arg_at p).return_code = p := by
      unfold Arg.return_code
      rw [if_neg (fun h => h hs)]
      exact hid
    rw [hcode]
    refine ⟨?_, by omega, by omega⟩
    unfold Command.event_target
    rw [if_pos (by show p < 0; omega)]
  · obtain ⟨h1, h2, h3, h4⟩ := hshort hs
    have hcode : (c.arg_at p).return_code = ((c.arg_at p).short_name_.toNat : Int) := by
      unfold Arg.return_code
      rw [if_pos hs, char_to_int_ascii _ h1]
    rw [hcode]
    have hne63 : ((c.arg_at p).short_name_.toNat : Int) ≠ 63 := by
      intro e
      apply h2
      apply char_toNat_inj
      have : (c.arg_at p).short_name_.toNat = 63 := by omega
      rw [this]
      rfl
    have hne58 : ((c.arg_at p).short_name_.toNat : Int) ≠ 58 := by
      intro e
      apply h3
      apply char_toNat_inj
      have : (c.arg_at p).short_name_.toNat = 58 := by omega
      rw [this]
      rfl
    refine ⟨?_, hne63, hne58⟩
    unfold Command.event_target
    rw [if_neg (by show ¬ ((c.arg_at p).short_name_.toNat : Int) < 0; omega)]
    have hch : Char.ofNat (((c.arg_at p).short_name_.toNat : Int).toNat % 256) =
        (c.arg_at p).short_name_ := by
      rw [Int.toNat_ofNat, Nat.mod_eq_of_lt (by omega)]
      exact Char.ofNat_toNat _
    show map_find (Char.ofNat (((c.arg_at p).short_name_.toNat : Int).toNat % 256))
      (c.prepared L).shortname_2_arg_ = some p
    rw [hch, prepared_shortname, map_find_assign]
    have hh : (c.arg_at p).short_name_ ≠ 'h' := hns _ (map_find_some_mem _ _ _ h4)
    rw [if_neg hh]
    exact h4

/-- The own level of a parse returns exactly when each phase passes: the scan, the required
check, the positional phase and the four group checks. -/
theorem own_level_returns_iff (L : Libc) (c : Command) (args : List String) :
    (c.reset_arg_status.parse_own_level L (c.own_tokens args)).thrown = none ↔
      (c.scanned L args).thrown = none ∧ (c.scanned L args).state.check_required_args = none ∧
        c.later_checks_pass L args := by
  constructor
  · intro h
    obtain ⟨hscan, hreq⟩ := (own_level_after_scan L c args).2.2.1 h
    rw [own_level_after_required L c args hscan hreq] at h
    obtain ⟨h6a, h6⟩ := check_thrown_none _ _ h
    obtain ⟨h5a, h5⟩ := check_thrown_none _ _ h6a
    obtain ⟨h4a, h4⟩ := check_thrown_none _ _ h5a
    obtain ⟨h3a, h3⟩ := check_thrown_none _ _ h4a
    simp only [check_state] at h4 h5 h6
    exact ⟨hscan, hreq, h3a, h3, h4, h5, h6⟩
  · rintro ⟨hscan, hreq, h2, h3, h4, h5, h6⟩
    exact phases_success L (c.scanned L args) (c.own_tokens args).length (c.own_run L args)
      hscan hreq h2 h3 h4 h5 h6

/-- When a command without sub-commands is parsed, the parse returns exactly when each phase
passes: the scan, the required check, the positional phase and the four group checks. -/
theorem parse_returns_iff (L : Libc) (c : Command) (args : List String)
    (hE : c.subcommandname_2_subcommand_.isEmpty = true) :
    (c.parse_args L args).thrown = none ↔
      (c.scanned L args).thrown = none ∧ (c.scanned L args).state.check_required_args = none ∧
        c.later_checks_pass L args := by
  have htok : c.own_tokens args = args := by
    unfold Command.own_tokens
    rw [if_pos hE]
  have hown : c.parse_args L args = c.reset_arg_status.parse_own_level L (c.own_tokens args) := by
    rw [htok]
    exact (parse_args_own L c args).2.2.2 hE
  rw [hown]
  exact own_level_returns_iff L c args

/-- After the scan of `single_scan` the required check passes exactly when the command holds
no Required argument other than the one that occurred. -/
theorem single_required_iff (L : Libc) (c : Command) (args : List String) (p code : Int)
    (v : String) (hfresh : Command.Fresh L c) (hreg : c.registered p)
    (hnf : (c.arg_at p).arg_type_ ≠ ArgType.FLAG)
    (hdef : (c.arg_at p).has_default_value_ = false)
    (hrange : (c.arg_at p).is_range_ = false) (hchoice : (c.arg_at p).is_choice_ = false)
    (hev : (c.own_run L args).events = [(code, some v)])
    (htarget : (c.prepared L).event_target (code, some v) = some p)
    (h63 : code ≠ 63) (h58 : code ≠ 58) :
    (c.scanned L args).state.check_required_args = none ↔
      ∀ q, c.registered q → (c.arg_at q).arg_type_ = ArgType.REQUIRED → q = p := by
  obtain ⟨w, hsub, hunhit, hvals, hnl, hns⟩ := fresh_spec L c hfresh
  obtain ⟨hscan, hocc, hne, hpres, hhit, hother⟩ :=
    single_scan L c args p code v hfresh hreg hnf hdef hrange hchoice hev htarget h63 h58
  have hframe : Command.Frame (c.prepared L) (c.scanned L args).state :=
    scan_events_frame L (c.prepared L) (c.own_run L args).events
  constructor
  · intro hnone q hq hreqd
    by_contra hqp
    have hqc : q ≠ c.current_argid_ := by
      rcases hq with hl | hs
      · obtain ⟨e, he, rfl⟩ := List.mem_map.mp hl
        exact fun e2 => absurd (w.long_fresh e he) (by rw [e2]; exact lt_irrefl _)
      · obtain ⟨e, he, rfl⟩ := List.mem_map.mp hs
        exact fun e2 => absurd (w.short_fresh e he) (by rw [e2]; exact lt_irrefl _)
    have hmiss : (c.scanned L args).state.missing_required q = true := by
      unfold Command.missing_required
      rw [hother q hqp, prepared_arg_at, if_neg hqc, if_pos hq, reset_status_info_arg_type,
        reset_status_info_is_hit, hreqd]
      rfl
    obtain ⟨hl, hs⟩ := (check_required_args_spec _).1.mp hnone
    rcases hq with h1 | h1
    · obtain ⟨e, he, rfl⟩ := List.mem_map.mp h1
      have hmem : e ∈ (c.scanned L args).state.longname_2_arg_ := by
        rw [hframe.longname, prepared_longname]
        exact mem_map_assign_of_mem _ _ _ _ e he (hnl e he)
      rw [hl e hmem] at hmiss
      cases hmiss
    · obtain ⟨e, he, rfl⟩ := List.mem_map.mp h1
      have hmem : e ∈ (c.scanned L args).state.shortname_2_arg_ := by
        rw [hframe.shortname, prepared_shortname]
        exact mem_map_assign_of_mem _ _ _ _ e he (hns e he)
      rw [hs e hmem] at hmiss
      cases hmiss
  · intro hreq
    have hmiss : ∀ q, (q = c.current_argid_ ∨ c.registered q) →
        (c.scanned L args).state.missing_required q = false := by
      intro q hq
      unfold Command.missing_required
      by_cases hqp : q = p
      · rw [hqp, hhit]
        simp
      · rw [hother q hqp, prepared_arg_at]
        by_cases hqc : q = c.current_argid_
        · rw [if_pos hqc]
          rfl
        · rw [if_neg hqc]
          rcases hq with h1 | h1
          · exact absurd h1 hqc
          · rw [if_pos h1, reset_status_info_arg_type]
            have : (c.arg_at q).arg_type_ ≠ ArgType.REQUIRED := fun e => hqp (hreq q h1 e)
            simp [this]
    rw [(check_required_args_spec _).1]
    constructor
    · intro e he
      rw [hframe.longname, prepared_longname] at he
      apply hmiss
      rcases mem_of_mem_map_assign _ _ _ _ e he with h | h
      · rw [h]
        exact Or.inl rfl
      · exact Or.inr (Or.inl (List.mem_map.mpr ⟨e, h, rfl⟩))
    · intro e he
      rw [hframe.shortname, prepared_shortname] at he
      apply hmiss
      rcases mem_of_mem_map_assign _ _ _ _ e he with h | h
      · rw [h]
        exact Or.inl rfl
      · exact Or.inr (Or.inr (List.mem_map.mpr ⟨e, h, rfl⟩))

/-- `transform` returns exactly when every element converts, and then with the conversions of
the elements in order. -/
theorem transform_ok_iff {T : Type} (conv : String → Except Exn T) (vs : List String)
    (xs : List T) : transform conv vs = .ok xs ↔ vs.map conv = xs.map Except.ok := by
  induction vs generalizing xs with
  | nil =>
    unfold transform
    constructor
    · intro h
      cases h
      rfl
    · intro h
      cases xs with
      | nil => rfl
      | cons x xs => cases h
  | cons v vs ih =>
    unfold transform
    cases hv : conv v with
    | error e =>
      constructor
      · intro h
        cases h
      · intro h
        cases xs with
        | nil => cases h
        | cons x xs =>
          simp only [List.map_cons, List.cons.injEq] at h
          rw [hv] at h
          cases h.1
    | ok x =>
      dsimp only
      cases ht : transform conv vs with
      | error e =>
        constructor
        · intro h
          cases h
        · intro h
          cases xs with
          | nil => cases h
          | cons y ys =>
            simp only [List.map_cons, List.cons.injEq] at h
            have := (ih ys).mpr h.2
            rw [ht] at this
            cases this
      | ok ys =>
        dsimp only
        have hys := (ih ys).mp ht
        constructor
        · intro h
          cases h
          simp only [List.map_cons, hv, hys]
        · intro h
          cases xs with
          | nil => cases h
          | cons y zs =>
            simp only [List.map_cons, List.cons.injEq] at h
            rw [hv] at h
            cases h.1
            have h2 := (ih zs).mpr h.2
            rw [ht] at h2
            cases h2
            rfl

/-- `transform` throws exactly what the first failing conversion throws. -/
theorem transform_error_iff {T : Type} (conv : String → Except Exn T) (vs : List String)
    (e : Exn) :
    transform conv vs = .error e ↔
      ∃ pre v post, vs = pre ++ v :: post ∧ (∀ u ∈ pre, ∃ x, conv u = .ok x) ∧
        conv v = .error e := by
  induction vs with
  | nil =>
    unfold transform
    constructor
    · intro h
      cases h
    · rintro ⟨pre, v, post, h, _⟩
      cases pre <;> cases h
  | cons w ws ih =>
    unfold transform
    cases hw : conv w with
    | error e1 =>
      dsimp only
      constructor
      · intro h
        cases h
        exact ⟨[], w, ws, rfl, fun u hu => absurd hu (List.not_mem_nil u), hw⟩
      · rintro ⟨pre, v, post, h, hpre, hv⟩
        cases pre with
        | nil =>
          simp only [List.nil_append, List.cons.injEq] at h
          rw [← h.1, hw] at hv
          cases hv
          rfl
        | cons u us =>
          simp only [List.cons_append, List.cons.injEq] at h
          obtain ⟨x, hx⟩ := hpre u (List.mem_cons_self _ _)
          rw [← h.1, hw] at hx
          cases hx
    | ok x =>
      dsimp only
      have hback : (∃ pre v post, w :: ws = pre ++ v :: post ∧
          (∀ u ∈ pre, ∃ x, conv u = .ok x) ∧ conv v = .error e) →
          transform conv ws = .error e := by
        rintro ⟨pre, v, post, h, hpre, hv⟩
        cases pre with
        | nil =>
          simp only [List.nil_append, List.cons.injEq] at h
          rw [← h.1, hw] at hv
          cases hv
        | cons u us =>
          simp only [List.cons_append, List.cons.injEq] at h
          exact ih.mpr ⟨us, v, post, h.2,
            fun u2 hu2 => hpre u2 (List.mem_cons_of_mem _ hu2), hv⟩
      cases ht : transform conv ws with
      | error e1 =>
        dsimp only
        constructor
        · intro h
          cases h
          obtain ⟨pre, v, post, h1, h2, h3⟩ := ih.mp ht
          refine ⟨w :: pre, v, post, by rw [h1]; rfl, ?_, h3⟩
          intro u hu
          rcases List.mem_cons.mp hu with rfl | hm
          · exact ⟨x, hw⟩
          · exact h2 u hm
        · intro h
          have h2 := hback h
          rw [ht] at h2
          exact h2
      | ok ys =>
        dsimp only
        constructor
        · intro h
          cases h
        · intro h
          have h2 := hback h
          rw [ht] at h2
          cases h2

/-- C8. Related groups: when the member names of every related group resolve,
`check_related_groups` throws, and then a `ParseArgsError`, iff some group has a number of hit
members strictly between 0 and its size; it returns iff in every group that number is 0 or the
size. For one group of three members: it returns iff none or all three are hit. -/
theorem check_related_groups_fails_iff (c : Command)
    (h : ∀ g ∈ c.related_groups_, c.group_resolves g) :
    ((∃ msg, c.check_related_groups = some (Exn.ParseArgsError msg)) ↔
        ∃ g ∈ c.related_groups_, 0 < c.hit_count g ∧ c.hit_count g < g.length) ∧
      (c.check_related_groups = none ↔
        ∀ g ∈ c.related_groups_, c.hit_count g = 0 ∨ c.hit_count g = g.length) ∧
      (∀ n1 n2 n3, c.related_groups_ = [[n1, n2, n3]] →
        (c.check_related_groups = none ↔
          (c.member_is_hit n1 = false ∧ c.member_is_hit n2 = false ∧
              c.member_is_hit n3 = false) ∨
            (c.member_is_hit n1 = true ∧ c.member_is_hit n2 = true ∧
              c.member_is_hit n3 = true))) := by
  have hs := related_scan_spec c c.related_groups_ h
  have hnone : c.check_related_groups = none ↔
      ∀ g ∈ c.related_groups_, c.hit_count g = 0 ∨ c.hit_count g = g.length := hs.1
  refine ⟨?_, hnone, ?_⟩
  · constructor
    · rintro ⟨msg, hmsg⟩
      by_contra hcon
      have hall : ∀ g ∈ c.related_groups_, c.hit_count g = 0 ∨ c.hit_count g = g.length := by
        intro g hg
        by_contra hng
        have := hit_count_le c g
        exact hcon ⟨g, hg, by omega, by omega⟩
      rw [hnone.mpr hall] at hmsg
      cases hmsg
    · rintro ⟨g, hg, h1, h2⟩
      cases hc : c.check_related_groups with
      | none =>
        have := hnone.mp hc g hg
        omega
      | some e =>
        obtain ⟨msg, rfl⟩ := hs.2 e hc
        exact ⟨msg, rfl⟩
  · intro n1 n2 n3 hgroups
    rw [hnone, hgroups]
    simp only [List.mem_singleton, forall_eq, hit_count_three, List.length_cons, List.length_nil]
    cases c.member_is_hit n1 <;> cases c.member_is_hit n2 <;> cases c.member_is_hit n3 <;> simp

theorem check_related_groups_fails_iff_witness :
    (∀ g ∈ related_example.related_groups_, related_example.group_resolves g) ∧
      ((∃ msg, related_example.check_related_groups = some (Exn.ParseArgsError msg)) ↔
        ∃ g ∈ related_example.related_groups_,
          0 < related_example.hit_count g ∧ related_example.hit_count g < g.length) :=
  ⟨by decide, (check_related_groups_fails_iff related_example (by decide)).1⟩

/-- C9. Conflict groups: when the member names of every conflict group resolve,
`check_conflict_groups` throws, and then a `ParseArgsError`, iff some group has more than one
hit member; it returns iff every group has at most one. For one group of three members: it
returns iff no two of them are hit. -/
theorem check_conflict_groups_fails_iff (c : Command)
    (h : ∀ g ∈ c.conflict_groups_, c.group_resolves g) :
    ((∃ msg, c.check_conflict_groups = some (Exn.ParseArgsError msg)) ↔
        ∃ g ∈ c.conflict_groups_, 1 < c.hit_count g) ∧
      (c.check_conflict_groups = none ↔ ∀ g ∈ c.conflict_groups_, c.hit_count g ≤ 1) ∧
      (∀ n1 n2 n3, c.conflict_groups_ = [[n1, n2, n3]] →
        (c.check_conflict_groups = none ↔
          ¬ (c.member_is_hit n1 = true ∧ c.member_is_hit n2 = true) ∧
            ¬ (c.member_is_hit n1 = true ∧ c.member_is_hit n3 = true) ∧
            ¬ (c.member_is_hit n2 = true ∧ c.member_is_hit n3 = true))) := by
  have hs := conflict_groups_scan_spec c c.conflict_groups_ h
  have hnone : c.check_conflict_groups = none ↔
      ∀ g ∈ c.conflict_groups_, c.hit_count g ≤ 1 := hs.1
  refine ⟨?_, hnone, ?_⟩
  · constructor
    · rintro ⟨msg, hmsg⟩
      by_contra hcon
      have hall : ∀ g ∈ c.conflict_groups_, c.hit_count g ≤ 1 := by
        intro g hg
        by_contra hng
        exact hcon ⟨g, hg, by omega⟩
      rw [hnone.mpr hall] at hmsg
      cases hmsg
    · rintro ⟨g, hg, h1⟩
      cases hc : c.check_conflict_groups with
      | none =>
        have := hnone.mp hc g hg
        omega
      | some e =>
        obtain ⟨msg, rfl⟩ := hs.2 e hc
        exact ⟨msg, rfl⟩
  · intro n1 n2 n3 hgroups
    rw [hnone, hgroups]
    simp only [List.mem_singleton, forall_eq, hit_count_three]
    cases c.member_is_hit n1 <;> cases c.member_is_hit n2 <;> cases c.member_is_hit n3 <;> simp

theorem check_conflict_groups_fails_iff_witness :
    (∀ g ∈ conflict_group_example.conflict_groups_, conflict_group_example.group_resolves g) ∧
      ((∃ msg, conflict_group_example.check_conflict_groups = some (Exn.ParseArgsError msg)) ↔
        ∃ g ∈ conflict_group_example.conflict_groups_, 1 < conflict_group_example.hit_count g) :=
  ⟨by decide, (check_conflict_groups_fails_iff conflict_group_example (by decide)).1⟩

/-- C10. One-required groups: when the member names of every one-required group resolve,
`check_one_required_group` throws iff some group has no hit member, and what it throws is a
`ParseArgsError` when no group is empty (for an empty group the message is built by `pop_back`
on an empty string). For one group of three members: it returns iff at least one of them is
hit. -/
theorem check_one_required_group_fails_iff (c : Command)
    (h : ∀ g ∈ c.one_required_groups_, c.group_resolves g) :
    (c.check_one_required_group ≠ none ↔ ∃ g ∈ c.one_required_groups_, c.hit_count g = 0) ∧
      ((∀ g ∈ c.one_required_groups_, g ≠ []) →
        ((∃ msg, c.check_one_required_group = some (Exn.ParseArgsError msg)) ↔
          ∃ g ∈ c.one_required_groups_, c.hit_count g = 0)) ∧
      (∀ n1 n2 n3, c.one_required_groups_ = [[n1, n2, n3]] →
        ((∃ msg, c.check_one_required_group = some (Exn.ParseArgsError msg)) ↔
            c.member_is_hit n1 = false ∧ c.member_is_hit n2 = false ∧
              c.member_is_hit n3 = false) ∧
          (c.check_one_required_group = none ↔
            c.member_is_hit n1 = true ∨ c.member_is_hit n2 = true ∨
              c.member_is_hit n3 = true)) := by
  have hs := one_required_scan_spec c c.one_required_groups_ h
  have hnone : c.check_one_required_group = none ↔
      ∀ g ∈ c.one_required_groups_, 1 ≤ c.hit_count g := hs.1
  have hfail : c.check_one_required_group ≠ none ↔
      ∃ g ∈ c.one_required_groups_, c.hit_count g = 0 := by
    rw [Ne, hnone]
    constructor
    · intro hcon
      by_contra hno
      apply hcon
      intro g hg
      by_contra hng
      exact hno ⟨g, hg, by omega⟩
    · rintro ⟨g, hg, h0⟩ hall
      have := hall g hg
      omega
  have herr : (∀ g ∈ c.one_required_groups_, g ≠ []) →
      ((∃ msg, c.check_one_required_group = some (Exn.ParseArgsError msg)) ↔
        ∃ g ∈ c.one_required_groups_, c.hit_count g = 0) := by
    intro hne
    rw [← hfail]
    constructor
    · rintro ⟨msg, hmsg⟩ h0
      rw [h0] at hmsg
      cases hmsg
    · intro hsome
      cases hc : c.check_one_required_group with
      | none => exact absurd hc hsome
      | some e =>
        obtain ⟨msg, rfl⟩ := hs.2 hne e hc
        exact ⟨msg, rfl⟩
  refine ⟨hfail, herr, ?_⟩
  intro n1 n2 n3 hgroups
  have hne : ∀ g ∈ c.one_required_groups_, g ≠ [] := by
    intro g hg
    rw [hgroups] at hg
    rw [List.mem_singleton.mp hg]
    simp
  rw [herr hne, hnone, hgroups]
  simp only [List.mem_singleton, forall_eq, exists_eq_left, hit_count_three]
  cases c.member_is_hit n1 <;> cases c.member_is_hit n2 <;> cases c.member_is_hit n3 <;> simp

theorem check_one_required_group_fails_iff_witness :
    (∀ g ∈ one_required_example.one_required_groups_, one_required_example.group_resolves g) ∧
      (one_required_example.check_one_required_group ≠ none ↔
        ∃ g ∈ one_required_example.one_required_groups_, one_required_example.hit_count g = 0) :=
  ⟨by decide, (check_one_required_group_fails_iff one_required_example (by decide)).1⟩

/-- C6. Choice check. For every argument on which `choices(S)` succeeded and every text `v`,
storing `v` (`set_value`, the path of every supplied value) returns iff `v` is an element of
`S`, equality of texts, and throws a `ParseArgsError` otherwise. On the commands of the tests
with `S = {"1", "2", "3"}` the parse of the value 1, 2 or 3 returns and the parse of 4 or 01
throws a `ParseArgsError`, for a Required option and for a Positional argument. -/
theorem choice_accepted_iff :
    (∀ (L : Libc) (a : Arg) (S : List String) (v : String), (a.choices S).thrown = none →
      (((a.choices S).state.set_value L v).thrown = none ↔ v ∈ S) ∧
        (v ∉ S →
          ∃ msg, ((a.choices S).state.set_value L v).thrown = some (Exn.ParseArgsError msg))) ∧
      (choice_command.parse_args example_libc ["my_command", "--choarg", "1"]).thrown = none ∧
      (choice_command.parse_args example_libc ["my_command", "--choarg", "2"]).thrown = none ∧
      (choice_command.parse_args example_libc ["my_command", "--choarg", "3"]).thrown = none ∧
      (choice_command.parse_args example_libc ["my_command", "--choarg", "4"]).thrown =
        some (Exn.ParseArgsError "The value of option --choarg is not within [1, 2, 3].") ∧
      (choice_command.parse_args example_libc ["my_command", "--choarg", "01"]).thrown =
        some (Exn.ParseArgsError "The value of option --choarg is not within [1, 2, 3].") ∧
      (choice_position_command.parse_args example_libc ["my_command", "3"]).thrown = none ∧
      (choice_position_command.parse_args example_libc ["my_command", "01"]).thrown =
        some (Exn.ParseArgsError
          "The value of position argument (position index 0) is not within [1, 2, 3].") := by
  refine ⟨?_, by decide, by decide, by decide, by decide, by decide, by decide, by decide⟩
  intro L a S v h
  obtain ⟨h1, h2, h3, h4⟩ := choices_ok a S h
  have := set_value_choice L (a.choices S).state v (by rw [h3]; exact h1) (by rw [h3]; exact h2)
    (by rw [h3]) (by rw [h3]; exact h4)
  rw [h3] at this ⊢
  simpa [mem_set_of_range] using this

/-- C5 as stated fails on a `double` NaN: with both bounds inclusive `check_range(NaN, 5, 10)`
is true although neither `5 <= NaN` nor `NaN <= 10` holds, and a parse that supplies `nan` to
an argument with the floating-point range 5 to 10 returns normally. -/
theorem check_range_accepts_nan :
    Arg.check_range (Arg.new_arg ArgType.REQUIRED) Double.nan (Double.finite 5)
        (Double.finite 10) = true ∧
      ¬ (Double.finite 5 ≤ Double.nan) ∧ ¬ (Double.nan ≤ Double.finite 10) ∧
      (double_range_command.parse_args nan_libc ["my_command", "--limit", "nan"]).thrown =
        none := by
  refine ⟨by decide, by decide, by decide, by decide⟩

/-- C5, amended. `check_range(v, l, r)` is true iff `(include_left ? l <= v : l < v)` and
`(include_right ? v <= r : v < r)` for values of a totally ordered type (the signed and the
unsigned 64-bit integers) and for `double` values none of which is a NaN. With both bounds
inclusive, a text supplied to an argument on which `range(type, l, r)` succeeded is stored
without exception iff `l <= v <= r`, the three texts being converted by `stol` (INT), `stoul`
(UINT) or `stod` (DOUBlE, no NaN). On the commands of the tests with the range 5 to 10 the
values 5, 8, 10 are accepted and 4 and 11 make the parse throw a `ParseArgsError`. -/
theorem check_range_iff :
    (∀ (T : Type) [LinearOrder T] (a : Arg) (v l r : T),
      a.check_range v l r = true ↔
        (if a.include_left_ = true then l ≤ v else l < v) ∧
          (if a.include_right_ = true then v ≤ r else v < r)) ∧
    (∀ (a : Arg) (v l r : Double), v ≠ Double.nan → l ≠ Double.nan → r ≠ Double.nan →
      (a.check_range v l r = true ↔
        (if a.include_left_ = true then l ≤ v else l < v) ∧
          (if a.include_right_ = true then v ≤ r else v < r))) ∧
    (∀ (L : Libc) (a : Arg) (l r text : String) (v lv rv : Int),
      (a.range NumType.INT l r true true).thrown = none →
      stol text = .ok v → stol l = .ok lv → stol r = .ok rv →
      (((a.range NumType.INT l r true true).state.set_value L text).thrown = none ↔
        lv ≤ v ∧ v ≤ rv)) ∧
    (∀ (L : Libc) (a : Arg) (l r text : String) (v lv rv : Nat),
      (a.range NumType.UINT l r true true).thrown = none →
      stoul text = .ok v → stoul l = .ok lv → stoul r = .ok rv →
      (((a.range NumType.UINT l r true true).state.set_value L text).thrown = none ↔
        lv ≤ v ∧ v ≤ rv)) ∧
    (∀ (L : Libc) (a : Arg) (l r text : String) (v lv rv : Double),
      (a.range NumType.DOUBlE l r true true).thrown = none →
      L.stod text = .ok v → L.stod l = .ok lv → L.stod r = .ok rv →
      v ≠ Double.nan → lv ≠ Double.nan → rv ≠ Double.nan →
      (((a.range NumType.DOUBlE l r true true).state.set_value L text).thrown = none ↔
        lv ≤ v ∧ v ≤ rv)) ∧
    (range_command.parse_args example_libc ["my_command", "--rangearg", "5"]).thrown = none ∧
    (range_command.parse_args example_libc ["my_command", "--rangearg", "8"]).thrown = none ∧
    (range_command.parse_args example_libc ["my_command", "--rangearg", "10"]).thrown = none ∧
    (range_command.parse_args example_libc ["my_command", "--rangearg", "4"]).thrown =
      some (Exn.ParseArgsError "The value of option --rangearg is not in the range of [5, 10].") ∧
    (range_command.parse_args example_libc ["my_command", "--rangearg", "11"]).thrown =
      some (Exn.ParseArgsError "The value of option --rangearg is not in the range of [5, 10].") ∧
    (range_position_command.parse_args example_libc ["my_command", "10"]).thrown = none ∧
    (range_position_command.parse_args example_libc ["my_command", "11"]).thrown =
      some (Exn.ParseArgsError
        "The value of position argument (position index 0) is not within the range of [5, 10].") := by
  refine ⟨fun T _ a v l r => check_range_linear a v l r,
    fun a v l r hv hl hr => check_range_double a v l r hv hl hr, ?_, ?_, ?_,
    by decide, by decide, by decide, by decide, by decide, by decide, by decide⟩
  · intro L a l r text v lv rv h h1 h2 h3
    obtain ⟨hf, hc, hs⟩ := range_ok a NumType.INT l r true true h
    have := (set_value_range L (a.range NumType.INT l r true true).state stol text l r v lv rv
      (by rw [hs]; exact hf) (by rw [hs]) (by rw [hs]; exact hc) (by rw [hs]) (by rw [hs])
      (by intro b hb; rw [hs] at hb; simp only [hb]) h1 h2 h3).1
    rw [this, check_range_linear, hs]
    simp
  · intro L a l r text v lv rv h h1 h2 h3
    obtain ⟨hf, hc, hs⟩ := range_ok a NumType.UINT l r true true h
    have := (set_value_range L (a.range NumType.UINT l r true true).state stoul text l r v lv rv
      (by rw [hs]; exact hf) (by rw [hs]) (by rw [hs]; exact hc) (by rw [hs]) (by rw [hs])
      (by intro b hb; rw [hs] at hb; simp only [hb]) h1 h2 h3).1
    rw [this, check_range_linear, hs]
    simp
  · intro L a l r text v lv rv h h1 h2 h3 hv hl hr
    obtain ⟨hf, hc, hs⟩ := range_ok a NumType.DOUBlE l r true true h
    have := (set_value_range L (a.range NumType.DOUBlE l r true true).state L.stod text l r
      v lv rv
      (by rw [hs]; exact hf) (by rw [hs]) (by rw [hs]; exact hc) (by rw [hs]) (by rw [hs])
      (by intro b hb; rw [hs] at hb; simp only [hb]) h1 h2 h3).1
    rw [this, check_range_double _ v lv rv hv hl hr, hs]
    simp

/-- C1. On every well-formed command (`Command.WF` holds of every command that declarations
and earlier parses produce, `reachable_wf`), on a first or a later `parse_args` call: when the
scan of the command's own tokens completes (no scanner error, no value error, no help) and some
Required argument held by its name maps is not hit in this parse, the call throws a
`ParseArgsError` whose message is the missing-required message of `check_required_args`. -/
theorem missing_required_fails (L : Libc) (c : Command) (args : List String) (p : Int)
    (hwf : c.WF) (hreg : c.registered p)
    (hreq : (c.arg_at p).arg_type_ = ArgType.REQUIRED)
    (hscan : (c.scanned L args).thrown = none)
    (hnot : c.occurrences L args p = []) :
    ∃ text, (c.parse_args L args).thrown =
      some (Exn.ParseArgsError (c.command_name_ ++ ": Missing required option: -" ++ text)) := by
  have hkind : (c.arg_at p).arg_type_ ≠ ArgType.FLAG := by
    rw [hreq]
    decide
  obtain ⟨hne, hmem⟩ := registered_prepared L c p hwf hreg hkind
  have hfr := scan_events_frame L (c.prepared L) (c.own_run L args).events
  have harg : (c.scanned L args).state.arg_at p = (c.arg_at p).reset_status_info := by
    show ((c.prepared L).scan_events L (c.own_run L args).events).state.arg_at p = _
    rw [scan_events_other L (c.prepared L) _ p (occurrences_nil L c args p hnot),
      prepared_arg_at]
    simp [hne, hreg]
  have hmiss : (c.scanned L args).state.missing_required p = true := by
    unfold Command.missing_required
    rw [harg]
    simp [hreq]
  have hname : (c.scanned L args).state.command_name_ = c.command_name_ :=
    hfr.command_name.trans (prepared_rest L c).2.2.2.2.2.2
  have hspec := check_required_args_spec (c.scanned L args).state
  cases hc : (c.scanned L args).state.check_required_args with
  | none =>
    have hnone := hspec.1.mp hc
    rcases hmem with ⟨e, he, rfl⟩ | ⟨e, he, rfl⟩
    · have := hnone.1 e (by rw [show (c.scanned L args).state.longname_2_arg_ =
          (c.prepared L).longname_2_arg_ from hfr.longname]; exact he)
      rw [this] at hmiss
      cases hmiss
    · have := hnone.2 e (by rw [show (c.scanned L args).state.shortname_2_arg_ =
          (c.prepared L).shortname_2_arg_ from hfr.shortname]; exact he)
      rw [this] at hmiss
      cases hmiss
  | some e =>
    obtain ⟨text, rfl⟩ := hspec.2 e hc
    refine ⟨text, ?_⟩
    have hown := (own_level_after_scan L c args).2.1 _ hscan hc
    have hpa := (parse_args_own L c args).1 _ (by rw [hown])
    rw [hpa, hown, hname]

theorem missing_required_fails_witness :
    required_command_parsed.WF ∧ required_command_parsed.registered (-2) ∧
      (required_command_parsed.arg_at (-2)).arg_type_ = ArgType.REQUIRED ∧
      (required_command_parsed.scanned example_libc ["my_command"]).thrown = none ∧
      required_command_parsed.occurrences example_libc ["my_command"] (-2) = [] ∧
      ∃ text, (required_command_parsed.parse_args example_libc ["my_command"]).thrown =
        some (Exn.ParseArgsError
          (required_command_parsed.command_name_ ++ ": Missing required option: -" ++ text)) :=
  ⟨required_command_parsed_wf, by decide, by decide, by decide, by decide,
    missing_required_fails example_libc required_command_parsed ["my_command"] (-2)
      required_command_parsed_wf (by decide) (by decide) (by decide) (by decide)⟩

/-- C3. Optional argument with a default, on a first or a later parse of a well-formed
top-level command (`Command.WF` holds of every command that declarations and earlier parses
produce, `reachable_wf`). After a successful `parse_args`, `get_many_values` of the argument
(by its long or its short name) is the conversion of exactly the default sequence, in declared order,
when the argument did not occur in this parse, and of exactly the values of its occurrences,
in order of occurrence, when it occurred; `get_one_value` converts the first element of that
sequence. For the text types the sequence itself is returned. -/
theorem default_or_occurrences (L : Libc) (c : Command) (args : List String) (p : Int)
    (hwf : c.WF) (hopt : (c.arg_at p).arg_type_ = ArgType.OPTIONAL)
    (hdef : (c.arg_at p).has_default_value_ = true)
    (hok : (c.parse_args L args).thrown = none) :
    (∀ name, map_find name c.longname_2_arg_ = some p →
      (c.parse_args L args).state.get_many_values to_value_string name =
          .ok (c.values_after L args p) ∧
        (∀ (T : Type) (conv : String → Except Exn T),
          (c.parse_args L args).state.get_many_values conv name =
              transform conv (c.values_after L args p) ∧
            (c.parse_args L args).state.get_one_value conv name =
              match c.values_after L args p with
              | [] => .error (fail ("Option --" ++ name ++ " does not have a value."))
              | v :: _ => conv v)) ∧
    (∀ name, map_find name c.shortname_2_arg_ = some p →
      (c.parse_args L args).state.get_many_values_short to_value_string name =
          .ok (c.values_after L args p) ∧
        (∀ (T : Type) (conv : String → Except Exn T),
          (c.parse_args L args).state.get_many_values_short conv name =
              transform conv (c.values_after L args p) ∧
            (c.parse_args L args).state.get_one_value_short conv name =
              match c.values_after L args p with
              | [] => .error
                  (fail ("Option -" ++ String.singleton name ++ " does not have a value."))
              | v :: _ => conv v)) := by
  have hkind : (c.arg_at p).arg_type_ ≠ ArgType.FLAG := by
    rw [hopt]
    decide
  constructor
  · intro name hname
    have hmem := map_find_some_mem name p _ hname
    have hreg : c.registered p := Or.inl (List.mem_map.mpr ⟨(name, p), hmem, rfl⟩)
    have hvals := parsed_default_values L c args p hwf hreg hopt hdef
      (hwf.long_present _ hmem) hok
    have hnh : name ≠ "help" := fun h => hkind (hwf.help_long _ hmem h)
    have hfind : map_find name (c.parse_args L args).state.longname_2_arg_ = some p := by
      rw [(parsed_maps L c args).1, map_find_assign, if_neg hnh, hname]
    have hgen : ∀ (T : Type) (conv : String → Except Exn T),
        (c.parse_args L args).state.get_many_values conv name =
            transform conv (c.values_after L args p) ∧
          (c.parse_args L args).state.get_one_value conv name =
            match c.values_after L args p with
            | [] => .error (fail ("Option --" ++ name ++ " does not have a value."))
            | v :: _ => conv v := by
      intro T conv
      unfold Command.get_many_values Command.get_one_value
      rw [hfind]
      simp only [hvals]
      constructor <;> first | rfl | trivial
    refine ⟨?_, hgen⟩
    rw [(hgen String to_value_string).1, transform_string]
  · intro name hname
    have hmem := map_find_some_mem name p _ hname
    have hreg : c.registered p := Or.inr (List.mem_map.mpr ⟨(name, p), hmem, rfl⟩)
    have hvals := parsed_default_values L c args p hwf hreg hopt hdef
      (hwf.short_present _ hmem) hok
    have hnh : name ≠ 'h' := fun h => hkind (hwf.help_short _ hmem h)
    have hfind : map_find name (c.parse_args L args).state.shortname_2_arg_ = some p := by
      rw [(parsed_maps L c args).2, map_find_assign, if_neg hnh, hname]
    have hgen : ∀ (T : Type) (conv : String → Except Exn T),
        (c.parse_args L args).state.get_many_values_short conv name =
            transform conv (c.values_after L args p) ∧
          (c.parse_args L args).state.get_one_value_short conv name =
            match c.values_after L args p with
            | [] => .error
                (fail ("Option -" ++ String.singleton name ++ " does not have a value."))
            | v :: _ => conv v := by
      intro T conv
      unfold Command.get_many_values_short Command.get_one_value_short
      rw [hfind]
      simp only [hvals]
      constructor <;> first | rfl | trivial
    refine ⟨?_, hgen⟩
    rw [(hgen String to_value_string).1, transform_string]

theorem default_or_occurrences_witness :
    default_values_command_parsed.WF ∧
      (default_values_command_parsed.arg_at (-2)).arg_type_ = ArgType.OPTIONAL ∧
      (default_values_command_parsed.arg_at (-2)).has_default_value_ = true ∧
      (default_values_command_parsed.parse_args example_libc ["my_command"]).thrown = none ∧
      map_find "optional_arg" default_values_command_parsed.longname_2_arg_ = some (-2) ∧
      default_values_command_parsed.values_after example_libc ["my_command"] (-2) =
        ["100", "200", "300"] ∧
      (default_values_command_parsed.parse_args example_libc
          ["my_command"]).state.get_many_values to_value_string "optional_arg" =
        .ok (default_values_command_parsed.values_after example_libc ["my_command"] (-2)) :=
  ⟨default_values_command_parsed_wf, by decide, by decide, by decide, by decide, by decide,
    ((default_or_occurrences example_libc default_values_command_parsed ["my_command"] (-2)
      default_values_command_parsed_wf (by decide) (by decide) (by decide)).1
      "optional_arg" (by decide)).1⟩

/-- C4, the code at the failing input. On the command of `test_flag_long_name_arg` the first
parse behaves as the claim says in both cases (absent: `has_arg` false and value 0; present:
`has_arg` true and value 1). A successful parse without the flag that follows a parse with the
flag leaves `has_arg` false but `get_one_value<int>` equal to 1: `reset_status_info` does not
put the stored "1" back to "0". -/
theorem flag_value_survives_reparse :
    (flag_command.parse_args example_libc ["my_command"]).thrown = none ∧
      (flag_command.parse_args example_libc ["my_command"]).state.has_arg "flag_arg" = false ∧
      (flag_command.parse_args example_libc ["my_command"]).state.get_one_value to_value_int
        "flag_arg" = .ok 0 ∧
      (flag_command.parse_args example_libc ["my_command", "--flag_arg"]).thrown = none ∧
      (flag_command.parse_args example_libc ["my_command", "--flag_arg"]).state.has_arg
        "flag_arg" = true ∧
      (flag_command.parse_args example_libc
        ["my_command", "--flag_arg"]).state.get_one_value to_value_int "flag_arg" = .ok 1 ∧
      ((flag_command.parse_args example_libc ["my_command", "--flag_arg"]).state.parse_args
        example_libc ["my_command"]).thrown = none ∧
      ((flag_command.parse_args example_libc ["my_command", "--flag_arg"]).state.parse_args
        example_libc ["my_command"]).state.has_arg "flag_arg" = false ∧
      ((flag_command.parse_args example_libc ["my_command", "--flag_arg"]).state.parse_args
        example_libc ["my_command"]).state.get_one_value to_value_int "flag_arg" = .ok 1 := by
  refine ⟨by decide, by decide, by decide, by decide, by decide, by decide, by decide,
    by decide, by decide⟩

/-- C7, the code at the failing input: a Positional argument is hit through the blank short
option. On a command with the flag `-a` marked `conflicts_with_all` and one Positional
argument, the tokens `-a "- " v p` pass the scan, the required check and positional capture,
and `check_conflict_with_all_args` throws, although the only named argument that is hit is
`-a` itself: the other hit argument is the Positional one, filed under the blank short name. -/
theorem conflict_check_counts_blank_hit :
    (blank_command.parse_args blank_libc ["my_command", "-a", "- ", "v", "p"]).thrown =
        some (Exn.ParseArgsError
          "my_command: The conflict relationship is not satisfied. Option -a is conflict with all other options.") ∧
      (blank_command.scanned blank_libc ["my_command", "-a", "- ", "v", "p"]).thrown = none ∧
      (blank_command.parse_args blank_libc
          ["my_command", "-a", "- ", "v", "p"]).state.check_required_args = none ∧
      (blank_command.parse_args blank_libc
          ["my_command", "-a", "- ", "v", "p"]).state.position_values_ = ["p"] ∧
      (blank_command.parse_args blank_libc
          ["my_command", "-a", "- ", "v", "p"]).state.check_conflict_with_all_args ≠ none ∧
      (blank_command.parse_args blank_libc
          ["my_command", "-a", "- ", "v", "p"]).state.conflict_with_all_args_ = [-2] ∧
      ¬ ∃ q, q ≠ -2 ∧
        (blank_command.parse_args blank_libc
          ["my_command", "-a", "- ", "v", "p"]).state.named q ∧
        ((blank_command.parse_args blank_libc
          ["my_command", "-a", "- ", "v", "p"]).state.arg_at q).is_hit_ = true := by
  refine ⟨by decide, by decide, by decide, by decide, by decide, by decide, ?_⟩
  rintro ⟨q, hne, hnamed, hhit⟩
  have hall : ∀ e ∈ (blank_command.parse_args blank_libc
      ["my_command", "-a", "- ", "v", "p"]).state.longname_2_arg_,
      ((blank_command.parse_args blank_libc
        ["my_command", "-a", "- ", "v", "p"]).state.arg_at e.2).is_hit_ = true → e.2 = -2 := by
    decide
  have hals : ∀ e ∈ (blank_command.parse_args blank_libc
      ["my_command", "-a", "- ", "v", "p"]).state.shortname_2_arg_, e.1 ≠ ' ' →
      ((blank_command.parse_args blank_libc
        ["my_command", "-a", "- ", "v", "p"]).state.arg_at e.2).is_hit_ = true → e.2 = -2 := by
    decide
  rcases hnamed with ⟨e, he, rfl⟩ | ⟨e, he, hbl, rfl⟩
  · exact hne (hall e he hhit)
  · exact hne (hals e he hbl hhit)

/-- C7 outside the failing input. On a command state in which every name-map entry points to
an argument carrying that name, every marked argument is the one filed under its names, and
no argument was hit through the blank short option: `check_conflict_with_all_args` throws,
and then a `ParseArgsError`, iff some argument of `conflict_with_all_args_` is hit and some
other named argument (filed under a long name or a non-blank short name, of any kind) is hit;
it returns iff there is no such pair. -/
theorem conflicts_with_all_iff (c : Command) (hn : c.names_filed) (hm : c.marked_filed)
    (hb : c.blank_unhit) :
    ((∃ msg, c.check_conflict_with_all_args = some (Exn.ParseArgsError msg)) ↔
        ∃ p ∈ c.conflict_with_all_args_, (c.arg_at p).is_hit_ = true ∧
          ∃ q, q ≠ p ∧ c.named q ∧ (c.arg_at q).is_hit_ = true) ∧
      (c.check_conflict_with_all_args = none ↔
        ¬ ∃ p ∈ c.conflict_with_all_args_, (c.arg_at p).is_hit_ = true ∧
          ∃ q, q ≠ p ∧ c.named q ∧ (c.arg_at q).is_hit_ = true) := by
  have hs := conflict_scan_spec c c.conflict_with_all_args_
  have hiff : c.check_conflict_with_all_args ≠ none ↔
      ∃ p ∈ c.conflict_with_all_args_, (c.arg_at p).is_hit_ = true ∧
        ∃ q, q ≠ p ∧ c.named q ∧ (c.arg_at q).is_hit_ = true := by
    unfold Command.check_conflict_with_all_args
    rw [hs.1]
    constructor
    · rintro ⟨p, hp, h1, h2⟩
      exact ⟨p, hp, h1, (conflict_of_marked c p hn hm hb hp).mp h2⟩
    · rintro ⟨p, hp, h1, h2⟩
      exact ⟨p, hp, h1, (conflict_of_marked c p hn hm hb hp).mpr h2⟩
  constructor
  · rw [← hiff]
    constructor
    · rintro ⟨msg, hmsg⟩ h0
      rw [h0] at hmsg
      cases hmsg
    · intro hne
      cases hc : c.check_conflict_with_all_args with
      | none => exact absurd hc hne
      | some e =>
        obtain ⟨msg, rfl⟩ := hs.2 e hc
        exact ⟨msg, rfl⟩
  · rw [← hiff]
    simp

theorem conflicts_with_all_iff_witness :
    (conflict_flags_command.parse_args example_libc
        ["my_command", "--aa", "--bb"]).state.names_filed ∧
      (conflict_flags_command.parse_args example_libc
        ["my_command", "--aa", "--bb"]).state.marked_filed ∧
      (conflict_flags_command.parse_args example_libc
        ["my_command", "--aa", "--bb"]).state.blank_unhit ∧
      ((∃ msg, (conflict_flags_command.parse_args example_libc
          ["my_command", "--aa", "--bb"]).state.check_conflict_with_all_args =
            some (Exn.ParseArgsError msg)) ↔
        ∃ p ∈ (conflict_flags_command.parse_args example_libc
            ["my_command", "--aa", "--bb"]).state.conflict_with_all_args_,
          ((conflict_flags_command.parse_args example_libc
            ["my_command", "--aa", "--bb"]).state.arg_at p).is_hit_ = true ∧
          ∃ q, q ≠ p ∧
            (conflict_flags_command.parse_args example_libc
              ["my_command", "--aa", "--bb"]).state.named q ∧
            ((conflict_flags_command.parse_args example_libc
              ["my_command", "--aa", "--bb"]).state.arg_at q).is_hit_ = true) ∧
      (conflict_flags_command.parse_args example_libc ["my_command", "--aa"]).thrown = none ∧
      (conflict_flags_command.parse_args example_libc ["my_command", "--aa", "--bb"]).thrown =
        some (Exn.ParseArgsError
          "my_command: The conflict relationship is not satisfied. Option --aa is conflict with all other options.") ∧
      (conflict_flags_command.parse_args example_libc
        ["my_command", "--aa", "--bb", "--cc"]).thrown =
        some (Exn.ParseArgsError
          "my_command: The conflict relationship is not satisfied. Option --aa is conflict with all other options.") ∧
      (conflict_flags_command.parse_args example_libc ["my_command", "--bb", "--cc"]).thrown =
        none :=
  ⟨by decide, by decide, by decide,
    (conflicts_with_all_iff
      (conflict_flags_command.parse_args example_libc ["my_command", "--aa", "--bb"]).state
      (by decide) (by decide) (by decide)).1,
    by decide, by decide, by decide, by decide⟩

/-- C2 as stated fails, in each of these freshly built commands without sub-commands, on a
parse whose only scanner event is one occurrence of a Required or Optional argument without
default and without constraint. With a second Required argument `--bb`, the parse of
`--aa 1` throws "Missing required option: --bb.". With the short name `?`, which
`Arg::short_name` accepts, the scanner returns the character 63 for `-? 1` and the scan loop
takes it for the error return. With the short name `:` the scanner itself returns the error.
With a short name of a byte from 0x80 on (here 0xE9) the `val` of the option is negative, the
scan loop takes it for an argument id and `argid_2_arg_.at` throws `std::out_of_range`. With
the NUL character as short name the `val` is 0, under which the short-name map holds nothing.
With a short name that a later argument also carries, the value goes to the later argument
and `get_one_value` of the first throws. -/
theorem single_occurrence_second_required :
    (Command.Fresh example_libc two_required_command ∧
      two_required_command.subcommandname_2_subcommand_ = [] ∧
      map_find "aa" two_required_command.longname_2_arg_ = some (-2) ∧
      (two_required_command.arg_at (-2)).arg_type_ = ArgType.REQUIRED ∧
      (two_required_command.arg_at (-2)).has_default_value_ = false ∧
      (two_required_command.arg_at (-2)).is_range_ = false ∧
      (two_required_command.arg_at (-2)).is_choice_ = false ∧
      (two_required_command.own_run example_libc ["my_command", "--aa", "1"]).events =
        [((two_required_command.arg_at (-2)).return_code, some "1")] ∧
      (two_required_command.parse_args example_libc ["my_command", "--aa", "1"]).thrown =
        some (Exn.ParseArgsError "my_command: Missing required option: --bb.")) ∧
    (Command.Fresh codes_libc question_command ∧
      map_find '?' question_command.shortname_2_arg_ = some (-2) ∧
      (question_command.arg_at (-2)).arg_type_ = ArgType.OPTIONAL ∧
      (question_command.arg_at (-2)).has_default_value_ = false ∧
      (question_command.arg_at (-2)).is_range_ = false ∧
      (question_command.arg_at (-2)).is_choice_ = false ∧
      (question_command.own_run codes_libc ["my_command", "-?", "1"]).events =
        [((question_command.arg_at (-2)).return_code, some "1")] ∧
      (question_command.parse_args codes_libc ["my_command", "-?", "1"]).thrown =
        some (Exn.ParseArgsError
          "my_command: Function `getopt_long_only` returned an error.")) ∧
    (Command.Fresh codes_libc colon_command ∧
      map_find ':' colon_command.shortname_2_arg_ = some (-2) ∧
      (colon_command.arg_at (-2)).arg_type_ = ArgType.OPTIONAL ∧
      (colon_command.own_run codes_libc ["my_command", "-:", "1"]).events = [(63, none)] ∧
      (colon_command.parse_args codes_libc ["my_command", "-:", "1"]).thrown =
        some (Exn.ParseArgsError
          "my_command: Function `getopt_long_only` returned an error.")) ∧
    (Command.Fresh codes_libc high_byte_command ∧
      map_find "hi" high_byte_command.longname_2_arg_ = some (-2) ∧
      map_find (Char.ofNat 233) high_byte_command.shortname_2_arg_ = some (-2) ∧
      (high_byte_command.arg_at (-2)).arg_type_ = ArgType.OPTIONAL ∧
      (high_byte_command.arg_at (-2)).has_default_value_ = false ∧
      (high_byte_command.arg_at (-2)).is_range_ = false ∧
      (high_byte_command.arg_at (-2)).is_choice_ = false ∧
      high_byte_command.c_long_opts_ =
        [{ name := some "hi", has_arg := required_argument, val := -23 }] ∧
      (high_byte_command.own_run codes_libc ["my_command", "--hi", "1"]).events =
        [((high_byte_command.arg_at (-2)).return_code, some "1")] ∧
      (high_byte_command.parse_args codes_libc ["my_command", "--hi", "1"]).thrown =
        some Exn.out_of_range) ∧
    (Command.Fresh codes_libc nul_command ∧
      map_find "nul" nul_command.longname_2_arg_ = some (-2) ∧
      nul_command.shortname_2_arg_ = [] ∧
      (nul_command.arg_at (-2)).arg_type_ = ArgType.OPTIONAL ∧
      nul_command.c_long_opts_ =
        [{ name := some "nul", has_arg := required_argument, val := 0 }] ∧
      (nul_command.own_run codes_libc ["my_command", "--nul", "1"]).events =
        [((nul_command.arg_at (-2)).return_code, some "1")] ∧
      (nul_command.parse_args codes_libc ["my_command", "--nul", "1"]).thrown =
        some Exn.out_of_range) ∧
    (Command.Fresh codes_libc displaced_command ∧
      map_find "first" displaced_command.longname_2_arg_ = some (-2) ∧
      map_find 'a' displaced_command.shortname_2_arg_ = some (-3) ∧
      (displaced_command.arg_at (-2)).arg_type_ = ArgType.OPTIONAL ∧
      (displaced_command.arg_at (-2)).short_name_ = 'a' ∧
      (displaced_command.own_run codes_libc ["my_command", "--first", "1"]).events =
        [((displaced_command.arg_at (-2)).return_code, some "1")] ∧
      (displaced_command.parse_args codes_libc ["my_command", "--first", "1"]).thrown = none ∧
      (displaced_command.parse_args codes_libc
        ["my_command", "--first", "1"]).state.get_one_value to_value_string "first" =
        .error (Exn.ParseArgsError "Option --first does not have a value.") ∧
      (displaced_command.parse_args codes_libc
        ["my_command", "--first", "1"]).state.get_one_value to_value_string "second" =
        .ok "1") := by
  refine ⟨⟨?_, rfl, by decide, by decide, by decide, by decide, by decide, by decide,
      by decide⟩,
    ⟨?_, by decide, by decide, by decide, by decide, by decide, by decide, by decide⟩,
    ⟨?_, by decide, by decide, by decide, by decide⟩,
    ⟨?_, by decide, by decide, by decide, by decide, by decide, by decide, by decide,
      by decide, by decide⟩,
    ⟨?_, by decide, by decide, by decide, by decide, by decide, by decide⟩,
    ⟨?_, by decide, by decide, by decide, by decide, by decide, by decide, by decide,
      by decide⟩⟩
  · exact Command.Fresh.arg _ _
      (Command.Fresh.arg _ _ (Command.Fresh.new_command _)
        (Arg.Built.long_name _ _ (Arg.Built.new_arg _) (by decide)) (by decide))
      (Arg.Built.long_name _ _ (Arg.Built.new_arg _) (by decide)) (by decide)
  · exact Command.Fresh.arg _ _ (Command.Fresh.new_command _)
      (Arg.Built.short_name _ _ (Arg.Built.new_arg _) (by decide)) (by decide)
  · exact Command.Fresh.arg _ _ (Command.Fresh.new_command _)
      (Arg.Built.short_name _ _ (Arg.Built.new_arg _) (by decide)) (by decide)
  · exact Command.Fresh.arg _ _ (Command.Fresh.new_command _)
      (Arg.Built.short_name _ _ (Arg.Built.long_name _ _ (Arg.Built.new_arg _) (by decide))
        (by decide)) (by decide)
  · exact Command.Fresh.arg _ _ (Command.Fresh.new_command _)
      (Arg.Built.short_name _ _ (Arg.Built.long_name _ _ (Arg.Built.new_arg _) (by decide))
        (by decide)) (by decide)
  · exact Command.Fresh.arg _ _
      (Command.Fresh.arg _ _ (Command.Fresh.new_command _)
        (Arg.Built.short_name _ _ (Arg.Built.long_name _ _ (Arg.Built.new_arg _) (by decide))
          (by decide)) (by decide))
      (Arg.Built.short_name _ _ (Arg.Built.long_name _ _ (Arg.Built.new_arg _) (by decide))
        (by decide)) (by decide)

/-- C2, amended. On a freshly built command without sub-commands, for every Required or
Optional argument held by a name map, without default and without constraint, whose short
name, if it has one, is an ASCII character other than `'?'` and `':'` under which the command
holds this argument, and every text `v`: on a parse whose only scanner event is one
occurrence of the argument (the return value the option tables give it) with the value `v`,
the scan completes with `v` as the only occurrence; the parse returns exactly when the command
holds no other Required argument and the positional phase and the four group checks pass,
which is the case when the command has no Positional argument and no group and `optind` is
within the tokens; and after the parse `get_one_value` of the argument, by each long or short
name the command holds it under, is the conversion of `v` to the requested type (the text `v`
itself for the text types). -/
theorem single_occurrence_value (L : Libc) (c : Command) (args : List String) (p : Int)
    (v : String) (hfresh : Command.Fresh L c) (hreg : c.registered p)
    (hkind : (c.arg_at p).arg_type_ = ArgType.REQUIRED ∨
      (c.arg_at p).arg_type_ = ArgType.OPTIONAL)
    (hdef : (c.arg_at p).has_default_value_ = false)
    (hrange : (c.arg_at p).is_range_ = false) (hchoice : (c.arg_at p).is_choice_ = false)
    (hshort : (c.arg_at p).short_name_ ≠ ' ' →
      (c.arg_at p).short_name_.toNat < 128 ∧ (c.arg_at p).short_name_ ≠ '?' ∧
        (c.arg_at p).short_name_ ≠ ':' ∧
        map_find (c.arg_at p).short_name_ c.shortname_2_arg_ = some p)
    (hev : (c.own_run L args).events = [((c.arg_at p).return_code, some v)]) :
    (c.scanned L args).thrown = none ∧ c.occurrences L args p = [v] ∧
      ((c.parse_args L args).thrown = none ↔
        (∀ q, c.registered q → (c.arg_at q).arg_type_ = ArgType.REQUIRED → q = p) ∧
          c.later_checks_pass L args) ∧
      (c.position_args_ = [] → c.related_groups_ = [] → c.conflict_groups_ = [] →
        c.one_required_groups_ = [] → (c.own_run L args).optind ≤ args.length →
        ((c.parse_args L args).thrown = none ↔
          ∀ q, c.registered q → (c.arg_at q).arg_type_ = ArgType.REQUIRED → q = p)) ∧
      (∀ name, map_find name c.longname_2_arg_ = some p →
        (c.parse_args L args).state.get_one_value to_value_string name = .ok v ∧
          ∀ (T : Type) (conv : String → Except Exn T),
            (c.parse_args L args).state.get_one_value conv name = conv v) ∧
      (∀ name, map_find name c.shortname_2_arg_ = some p →
        (c.parse_args L args).state.get_one_value_short to_value_string name = .ok v ∧
          ∀ (T : Type) (conv : String → Except Exn T),
            (c.parse_args L args).state.get_one_value_short conv name = conv v) := by
  have hnf : (c.arg_at p).arg_type_ ≠ ArgType.FLAG := by
    rcases hkind with h | h <;> rw [h] <;> decide
  have hnp : (c.arg_at p).arg_type_ ≠ ArgType.POSITION := by
    rcases hkind with h | h <;> rw [h] <;> decide
  obtain ⟨w, hsub, hunhit, hvals, hnl, hns⟩ := fresh_spec L c hfresh
  obtain ⟨htarget, h63, h58⟩ := occurrence_routed L c p v hfresh hreg hshort
  have hE : c.subcommandname_2_subcommand_.isEmpty = true := by
    rw [hsub]
    rfl
  have hvalues := single_parse_values L c args p _ v hfresh hreg hnf hnp hdef hrange
    hchoice hev htarget h63 h58
  obtain ⟨hscan, hocc, _, _, _, _⟩ :=
    single_scan L c args p _ v hfresh hreg hnf hdef hrange hchoice hev htarget h63 h58
  have hreqiff := single_required_iff L c args p _ v hfresh hreg hnf hdef hrange hchoice hev
    htarget h63 h58
  have hiff : (c.parse_args L args).thrown = none ↔
      (∀ q, c.registered q → (c.arg_at q).arg_type_ = ArgType.REQUIRED → q = p) ∧
        c.later_checks_pass L args := by
    rw [parse_returns_iff L c args hE, ← hreqiff]
    constructor
    · rintro ⟨_, h2, h3⟩
      exact ⟨h2, h3⟩
    · rintro ⟨h2, h3⟩
      exact ⟨hscan, h2, h3⟩
  refine ⟨hscan, hocc, hiff, ?_, ?_, ?_⟩
  · intro hposn hrel hcon hone hopt
    constructor
    · intro h
      exact (hiff.mp h).1
    · intro hreq
      exact single_parse_returns L c args p _ v hfresh hreg hnf hdef hrange hchoice hev
        htarget h63 h58 hreq hposn hrel hcon hone hopt
  · intro name hname
    have hmem := map_find_some_mem name p _ hname
    have hfind : map_find name (c.parse_args L args).state.longname_2_arg_ = some p := by
      rw [(parsed_maps L c args).1, map_find_assign, if_neg (hnl _ hmem), hname]
    have hgen : ∀ (T : Type) (conv : String → Except Exn T),
        (c.parse_args L args).state.get_one_value conv name = conv v := by
      intro T conv
      unfold Command.get_one_value
      rw [hfind]
      simp only [hvalues]
    exact ⟨hgen String to_value_string, hgen⟩
  · intro name hname
    have hmem := map_find_some_mem name p _ hname
    have hfind : map_find name (c.parse_args L args).state.shortname_2_arg_ = some p := by
      rw [(parsed_maps L c args).2, map_find_assign, if_neg (hns _ hmem), hname]
    have hgen : ∀ (T : Type) (conv : String → Except Exn T),
        (c.parse_args L args).state.get_one_value_short conv name = conv v := by
      intro T conv
      unfold Command.get_one_value_short
      rw [hfind]
      simp only [hvalues]
    exact ⟨hgen String to_value_string, hgen⟩

/-- C2 on the command of `test_required_long_name_arg`, and on a command with a Positional
argument and a group, where the parse of `--aa 1 x` returns as well. -/
theorem single_occurrence_value_witness :
    Command.Fresh example_libc required_command ∧ required_command.registered (-2) ∧
      (required_command.arg_at (-2)).arg_type_ = ArgType.REQUIRED ∧
      (required_command.own_run example_libc ["my_command", "--reqarg", "1"]).events =
        [((required_command.arg_at (-2)).return_code, some "1")] ∧
      (required_command.parse_args example_libc ["my_command", "--reqarg", "1"]).thrown =
        none ∧
      (required_command.parse_args example_libc
        ["my_command", "--reqarg", "1"]).state.get_one_value to_value_string "reqarg" =
        .ok "1" ∧
      (required_command.parse_args example_libc
        ["my_command", "--reqarg", "1"]).state.get_one_value to_value_int "reqarg" = .ok 1 ∧
      single_positional_command.later_checks_pass example_libc
        ["my_command", "--aa", "1", "x"] ∧
      (single_positional_command.parse_args example_libc
        ["my_command", "--aa", "1", "x"]).thrown = none :=
  have hfresh : Command.Fresh example_libc required_command :=
    Command.Fresh.arg _ _ (Command.Fresh.new_command _)
      (Arg.Built.long_name _ _ (Arg.Built.new_arg _) (by decide)) (by decide)
  have h := single_occurrence_value example_libc required_command
    ["my_command", "--reqarg", "1"] (-2) "1" hfresh (by decide) (Or.inl (by decide))
    (by decide) (by decide) (by decide) (fun hs => absurd rfl hs) (by decide)
  have hall : ∀ q, required_command.registered q →
      (required_command.arg_at q).arg_type_ = ArgType.REQUIRED → q = -2 := by
    intro q hq _
    have h1 : required_command.longname_2_arg_.map Prod.snd = [-2] := by decide
    have h2 : required_command.shortname_2_arg_.map Prod.snd = [-2] := by decide
    unfold Command.registered at hq
    rw [h1, h2] at hq
    simpa using hq
  ⟨hfresh, by decide, by decide, by decide,
    (h.2.2.2.1 (by decide) (by decide) (by decide) (by decide) (by decide)).mpr hall,
    (h.2.2.2.2.1 "reqarg" (by decide)).1,
    ((h.2.2.2.2.1 "reqarg" (by decide)).2 Int to_value_int).trans (by decide),
    by decide, by decide⟩

/-- C11. Positional values, for every command the API produces and every `parse_args` call on
it that returns, `remaining` being the tokens the scanner left (from `optind` on). The
positional values of the command are exactly the remaining tokens in order:
`get_all_position_values` converts that sequence, `get_one_position_value(i)` converts its
element at `i` and throws a `ParseArgsError` for every `i` from its length on. The Positional
argument declared at index `i` carries the position id `i`, there is a remaining token for it,
and the token at index `i` is the one stored last in it and checked by its range and choice
checks. -/
theorem positional_values (L : Libc) (c : Command) (args : List String)
    (hreach : Command.Reachable L c) (hok : (c.parse_args L args).thrown = none) :
    (c.parse_args L args).state.position_values_ = c.remaining L args ∧
      (c.parse_args L args).state.get_all_position_values to_value_string =
        .ok (c.remaining L args) ∧
      (∀ (T : Type) (conv : String → Except Exn T),
        (c.parse_args L args).state.get_all_position_values conv =
          transform conv (c.remaining L args)) ∧
      (∀ (i : Nat) (tok : String), (c.remaining L args)[i]? = some tok →
        (c.parse_args L args).state.get_one_position_value to_value_string i = .ok tok ∧
          ∀ (T : Type) (conv : String → Except Exn T),
            (c.parse_args L args).state.get_one_position_value conv i = conv tok) ∧
      (∀ (i : Nat), (c.remaining L args).length ≤ i →
        ∀ (T : Type) (conv : String → Except Exn T),
          (c.parse_args L args).state.get_one_position_value conv i =
            .error (Exn.ParseArgsError "No corresponding position argument.")) ∧
      (∀ (i : Nat) (p : Int), c.position_args_[i]? = some p →
        (c.parse_args L args).state.position_args_[i]? = some p ∧
          ((c.parse_args L args).state.arg_at p).position_id_ = i ∧
          ((c.parse_args L args).state.arg_at p).arg_type_ = ArgType.POSITION ∧
          (i : Int) < ((c.own_tokens args).length : Int) - (c.own_run L args).optind ∧
          (0 ≤ (c.own_run L args).optind →
            (c.own_run L args).argv.length = (c.own_tokens args).length →
            ∃ tok, (c.remaining L args)[i]? = some tok) ∧
          ∀ tok, (c.remaining L args)[i]? = some tok →
            ((c.parse_args L args).state.arg_at p).values_.getLast? = some tok ∧
              Arg.check_range_void L ((c.parse_args L args).state.arg_at p) = none ∧
              Arg.check_choice ((c.parse_args L args).state.arg_at p) = none) := by
  have hwf := reachable_wf L c hreach
  have hpw := reachable_positions L c hreach
  have hpw2 := reachable_positions L _ (Command.Reachable.parse_args c args hreach)
  have hwf2 := reachable_wf L _ (Command.Reachable.parse_args c args hreach)
  obtain ⟨k0, k1, k2, k3, k4, k5⟩ := parse_ok_capture L c args hok
  obtain ⟨s1, s2, s3, s4⟩ := scanned_positions L c args hwf hpw
  have hvals : (c.parse_args L args).state.position_values_ = c.remaining L args := by
    rw [show (c.parse_args L args).state.position_values_ =
      ((c.scanned L args).state.capture L 0 (c.remaining L args)).state.position_values_ from
      congrArg CommandMembers.position_values_ k5, capture_values L _ 0 _ k4, s2]
    rfl
  have hall : ∀ (T : Type) (conv : String → Except Exn T),
      (c.parse_args L args).state.get_all_position_values conv =
        transform conv (c.remaining L args) := by
    intro T conv
    unfold Command.get_all_position_values
    rw [hvals]
  have hone : ∀ (i : Nat) (T : Type) (conv : String → Except Exn T),
      (c.parse_args L args).state.get_one_position_value conv i =
        match (c.remaining L args)[i]? with
        | none => .error (fail "No corresponding position argument.")
        | some v => conv v := by
    intro i T conv
    unfold Command.get_one_position_value
    rw [hvals]
  refine ⟨hvals, ?_, hall, ?_, ?_, ?_⟩
  · rw [hall, transform_string]
  · intro i tok htok
    have h : ∀ (T : Type) (conv : String → Except Exn T),
        (c.parse_args L args).state.get_one_position_value conv i = conv tok := by
      intro T conv
      rw [hone, htok]
    exact ⟨h String to_value_string, h⟩
  · intro i hi T conv
    rw [hone, List.getElem?_eq_none hi]
    rfl
  · intro i p hp
    have hp2 : (c.parse_args L args).state.position_args_[i]? = some p := by
      rw [(parsed_positions L c args).1]
      exact hp
    have hmem : p ∈ c.position_args_ := List.getElem?_mem hp
    have hlt : i < c.position_args_.length := by
      by_contra hge
      rw [List.getElem?_eq_none (by omega)] at hp
      cases hp
    refine ⟨hp2, hpw2.ids i p hp2, hwf2.position_kind p (List.getElem?_mem hp2), by omega,
      ?_, ?_⟩
    · intro hopt hlen
      have hl : i < (c.remaining L args).length := by
        unfold Command.remaining
        rw [List.length_take, List.length_drop, hlen]
        omega
      exact ⟨_, List.getElem?_eq_getElem hl⟩
    · intro tok htok
      have hb := capture_bound L (c.scanned L args).state 0 (c.remaining L args)
        (by rw [s1]; exact hpw.nodup) s3 k4 i p tok (by rw [s1, Nat.zero_add]; exact hp) htok
      rw [toMembers_arg_at _ _ k5, hb.1]
      exact set_value_ok L _ tok (by rw [s4 p hmem]; decide) hb.2

theorem positional_values_witness :
    Command.Reachable example_libc position_command ∧
      (position_command.parse_args example_libc ["my_command", "1", "2", "3"]).thrown = none ∧
      position_command.remaining example_libc ["my_command", "1", "2", "3"] = ["1", "2", "3"] ∧
      (position_command.parse_args example_libc
        ["my_command", "1", "2", "3"]).state.get_all_position_values to_value_string =
        .ok ["1", "2", "3"] ∧
      (position_command.parse_args example_libc
        ["my_command", "1", "2", "3"]).state.get_all_position_values to_value_int =
        .ok [1, 2, 3] ∧
      (position_command.parse_args example_libc
        ["my_command", "1", "2", "3"]).state.get_one_position_value to_value_int 0 = .ok 1 ∧
      (position_command.parse_args example_libc
        ["my_command", "1", "2", "3"]).state.get_one_position_value to_value_int 3 =
        .error (Exn.ParseArgsError "No corresponding position argument.") ∧
      (position_command.parse_args example_libc
        ["my_command", "1", "2", "name"]).state.get_one_position_value to_value_string 2 =
        .ok "name" :=
  have hreach : Command.Reachable example_libc position_command :=
    Command.Reachable.arg _ _
      (Command.Reachable.arg _ _
        (Command.Reachable.arg _ _ (Command.Reachable.new_command _) (Arg.Built.new_arg _)
          (by decide))
        (Arg.Built.new_arg _) (by decide))
      (Arg.Built.new_arg _) (by decide)
  have h := positional_values example_libc position_command ["my_command", "1", "2", "3"] hreach
    (by decide)
  ⟨hreach, by decide, by decide,
    h.2.1.trans (congrArg Except.ok (by decide)),
    (h.2.2.1 Int to_value_int).trans (by decide),
    ((h.2.2.2.1 0 "1" (by decide)).2 Int to_value_int).trans (by decide),
    h.2.2.2.2.1 3 (by decide) Int to_value_int, by decide⟩

/-- C20. Extra positional tokens. For every command state with `m` declared Positional
arguments and every list of remaining tokens, the outcome of the capture loop and what it
stores in the arguments are those of the loop over the first `m` tokens alone; with at least
`m` tokens they do not depend on the tokens from index `m` on, whatever their text; when the
loop returns, all the tokens are appended to the positional values. After a `parse_args` call that returns, every
remaining token is retrievable by its index. With `m = 0` the tokens 1 2 3 give the positional
values 1, 2, 3, and a second token after the one Positional argument with the choices 1, 2, 3
is accepted although it is no choice. -/
theorem extra_positional_tokens (L : Libc) (c : Command) (toks : List String)
    (args : List String) :
    (c.capture L 0 toks).thrown =
        (c.capture L 0 (toks.take c.position_args_.length)).thrown ∧
      (∀ q, (c.capture L 0 toks).state.arg_at q =
        (c.capture L 0 (toks.take c.position_args_.length)).state.arg_at q) ∧
      (c.position_args_.length ≤ toks.length → ∀ extra : List String,
        (c.capture L 0 (toks.take c.position_args_.length ++ extra)).thrown =
          (c.capture L 0 (toks.take c.position_args_.length)).thrown) ∧
      ((c.capture L 0 toks).thrown = none →
        (c.capture L 0 toks).state.position_values_ = c.position_values_ ++ toks) ∧
      ((c.parse_args L args).thrown = none →
        (c.parse_args L args).state.position_values_ = c.remaining L args ∧
          ∀ (i : Nat) (tok : String), (c.remaining L args)[i]? = some tok →
            (c.parse_args L args).state.get_one_position_value to_value_string i = .ok tok) ∧
      ((Command.new_command "my_command").parse_args example_libc
          ["my_command", "1", "2", "3"]).thrown = none ∧
      ((Command.new_command "my_command").parse_args example_libc
          ["my_command", "1", "2", "3"]).state.get_all_position_values to_value_int =
        .ok [1, 2, 3] ∧
      (choice_position_command.parse_args example_libc
          ["my_command", "3", "01"]).thrown = none ∧
      (choice_position_command.parse_args example_libc
          ["my_command", "3", "01"]).state.get_all_position_values to_value_string =
        .ok ["3", "01"] := by
  refine ⟨(capture_first_thrown L c toks).1, (capture_first_thrown L c toks).2, ?_,
    capture_values L c 0 toks, ?_, by decide, by decide, by decide, by decide⟩
  · intro hlen extra
    rw [(capture_first_thrown L c _).1,
      List.take_append_of_le_length (by rw [List.length_take]; omega), List.take_take]
    simp
  · intro hok
    have hv := parsed_position_values L c args hok
    refine ⟨hv, ?_⟩
    intro i tok htok
    unfold Command.get_one_position_value
    rw [hv, htok]
    rfl

/-- C12. Missing positional, on a parse whose scan and required check pass, for a command with
`m` declared Positional arguments and a scanner that left `optind` within the `argc` tokens of
the command: the parse of the command's own level throws the missing-positional
`ParseArgsError` iff `argc - optind < m`; `parse_args` throws it in that case, and for a
command without sub-commands `parse_args` throws it iff `argc - optind < m`. When the scanner
left `optind` beyond `argc` (an empty token list), the count `argc - optind` is negative, the
test does not fire whatever `m` is, and the capture loop runs past the tokens. -/
theorem missing_position_iff (L : Libc) (c : Command) (args : List String)
    (hL : L.stod_standard) (hscan : (c.scanned L args).thrown = none)
    (hreq : (c.scanned L args).state.check_required_args = none) :
    (((c.own_tokens args).length : Int) - (c.own_run L args).optind < 0 →
        (c.parse_args L args).thrown = some Exn.undefined_behaviour) ∧
      ((c.own_run L args).optind ≤ (c.own_tokens args).length →
        ((c.reset_arg_status.parse_own_level L (c.own_tokens args)).thrown =
            some (Exn.ParseArgsError
              (c.command_name_ ++ ": Missing required position arguments.")) ↔
          ((c.own_tokens args).length : Int) - (c.own_run L args).optind <
            c.position_args_.length) ∧
        (((c.own_tokens args).length : Int) - (c.own_run L args).optind <
            c.position_args_.length →
          (c.parse_args L args).thrown =
            some (Exn.ParseArgsError
              (c.command_name_ ++ ": Missing required position arguments."))) ∧
        (c.subcommandname_2_subcommand_.isEmpty = true →
          ((c.parse_args L args).thrown =
              some (Exn.ParseArgsError
                (c.command_name_ ++ ": Missing required position arguments.")) ↔
            ((c.own_tokens args).length : Int) - (c.own_run L args).optind <
              c.position_args_.length))) := by
  have hown := own_level_after_required L c args hscan hreq
  obtain ⟨hname, hpos⟩ := scanned_command_name L c args
  have hiff : (c.own_run L args).optind ≤ (c.own_tokens args).length →
      ((c.reset_arg_status.parse_own_level L (c.own_tokens args)).thrown =
          some (Exn.ParseArgsError
            (c.command_name_ ++ ": Missing required position arguments.")) ↔
        ((c.own_tokens args).length : Int) - (c.own_run L args).optind <
          c.position_args_.length) := by
    intro hopt
    by_cases hlt : ((c.own_tokens args).length : Int) - (c.own_run L args).optind <
        c.position_args_.length
    · have hcap : (c.scanned L args).state.capture_positions L (c.own_tokens args).length
          (c.own_run L args) = Res.throw (c.scanned L args).state
            (fail (c.command_name_ ++ ": Missing required position arguments.")) := by
        unfold Command.capture_positions
        rw [if_neg (by omega), hpos, if_pos (by omega), hname]
      rw [hown, checks_of_thrown _ _ (by rw [hcap]; rfl), hcap]
      exact ⟨fun _ => hlt, fun _ => rfl⟩
    · constructor
      · intro hthrown
        exfalso
        have hcap : (c.scanned L args).state.capture_positions L (c.own_tokens args).length
            (c.own_run L args) = (c.scanned L args).state.capture L 0
              (((c.own_run L args).argv.drop (c.own_run L args).optind.toNat).take
                (((c.own_tokens args).length : Int) - (c.own_run L args).optind).toNat) := by
          unfold Command.capture_positions
          rw [if_neg (by omega), hpos, if_neg (by omega)]
        rw [hown, hcap] at hthrown
        exact later_phases_not_missing _ (fun e he => capture_not_missing L hL _ 0 _ e he) _
          hthrown c.command_name_ rfl
      · intro h
        exact absurd h hlt
  refine ⟨?_, fun hopt => ⟨hiff hopt, ?_, ?_⟩⟩
  · intro hlt
    have hcap : (c.scanned L args).state.capture_positions L (c.own_tokens args).length
        (c.own_run L args) = Res.throw (c.scanned L args).state Exn.undefined_behaviour := by
      unfold Command.capture_positions
      rw [if_pos hlt]
    have hthrown : (c.reset_arg_status.parse_own_level L (c.own_tokens args)).thrown =
        some Exn.undefined_behaviour := by
      rw [hown, checks_of_thrown _ _ (by rw [hcap]; rfl), hcap]
      rfl
    rw [(parse_args_own L c args).1 _ hthrown]
    exact hthrown
  · intro hlt
    rw [(parse_args_own L c args).1 _ ((hiff hopt).mpr hlt)]
    exact (hiff hopt).mpr hlt
  · intro hE
    rw [(parse_args_own L c args).2.2.2 hE]
    have htok : c.own_tokens args = args := by
      unfold Command.own_tokens
      rw [if_pos hE]
    have := hiff hopt
    rw [htok] at this
    rw [htok]
    exact this

theorem missing_position_iff_witness :
    example_libc.stod_standard ∧
      (position_command.scanned example_libc ["my_command", "1", "2"]).thrown = none ∧
      (position_command.own_run example_libc ["my_command", "1", "2"]).optind = 1 ∧
      position_command.position_args_.length = 3 ∧
      (position_command.parse_args example_libc ["my_command", "1", "2"]).thrown =
        some (Exn.ParseArgsError "my_command: Missing required position arguments.") ∧
      (position_command.parse_args example_libc ["my_command", "1", "2", "3"]).thrown = none ∧
      (position_command.own_run example_libc []).optind = 1 ∧
      (position_command.parse_args example_libc []).thrown =
        some Exn.undefined_behaviour :=
  have hL : example_libc.stod_standard := by
    intro s e h
    cases h
    exact Or.inl rfl
  have h := missing_position_iff example_libc position_command ["my_command", "1", "2"] hL
    (by decide) (by decide)
  ⟨hL, by decide, by decide, by decide, (h.2 (by decide)).2.1 (by decide), by decide,
    by decide, by decide⟩

/-- C13. Sub-command boundary. For a command with at least one sub-command and tokens `t`,
`idx` is the least index of a token that is the name of a registered sub-command (no token
before it is one, the token at it is one when there is one). `do_parse_args`, which
`parse_args` runs after the reset and which every matched child runs in turn, parses the
command's own level on exactly `t[0:idx)`; a failure there is the outcome. Otherwise the child
registered under `t[idx]` is parsed by `do_parse_args` on exactly `t[idx:end)`, whose first
token is `t[idx]`, its outcome is the outcome of the call, and it is stored back under its name
while the other sub-commands are left alone. -/
theorem subcommand_boundary (L : Libc) (c : Command) (t : List String)
    (hsub : c.subcommandname_2_subcommand_.isEmpty = false) :
    (Command.subcommand_index c.subcommandname_2_subcommand_ t ≤ t.length ∧
      (∀ (j : Nat) (tok : String),
        j < Command.subcommand_index c.subcommandname_2_subcommand_ t → t[j]? = some tok →
        map_find tok c.subcommandname_2_subcommand_ = none) ∧
      (∀ name, t[Command.subcommand_index c.subcommandname_2_subcommand_ t]? = some name →
        ∃ child, map_find name c.subcommandname_2_subcommand_ = some child)) ∧
    c.own_tokens t = t.take (Command.subcommand_index c.subcommandname_2_subcommand_ t) ∧
    (∀ e, (c.parse_own_level L
          (t.take (Command.subcommand_index c.subcommandname_2_subcommand_ t))).thrown =
        some e →
      c.do_parse_args L t = c.parse_own_level L
        (t.take (Command.subcommand_index c.subcommandname_2_subcommand_ t))) ∧
    ((c.parse_own_level L
          (t.take (Command.subcommand_index c.subcommandname_2_subcommand_ t))).thrown =
        none →
      ∀ name child, t[Command.subcommand_index c.subcommandname_2_subcommand_ t]? = some name →
        map_find name c.subcommandname_2_subcommand_ = some child →
        (c.do_parse_args L t).thrown =
          (child.do_parse_args L
            (t.drop (Command.subcommand_index c.subcommandname_2_subcommand_ t))).thrown ∧
        map_find name (c.do_parse_args L t).state.subcommandname_2_subcommand_ =
          some (child.do_parse_args L
            (t.drop (Command.subcommand_index c.subcommandname_2_subcommand_ t))).state ∧
        (∀ k, k ≠ name →
          map_find k (c.do_parse_args L t).state.subcommandname_2_subcommand_ =
            map_find k c.subcommandname_2_subcommand_) ∧
        (c.do_parse_args L t).state.toCommandMembers =
          (c.parse_own_level L
            (t.take
              (Command.subcommand_index c.subcommandname_2_subcommand_ t))).state.toCommandMembers ∧
        (t.drop (Command.subcommand_index c.subcommandname_2_subcommand_ t)).head? =
          some name) ∧
    (c.parse_args L t = c.reset_arg_status.do_parse_args L t ∧
      c.reset_arg_status.subcommandname_2_subcommand_ = c.subcommandname_2_subcommand_) := by
  obtain ⟨i1, i2, i3, _⟩ := subcommand_index_spec c.subcommandname_2_subcommand_ t
  obtain ⟨d1, d2, d3⟩ := do_parse_args_cases L c t hsub
  refine ⟨⟨i1, i2, i3⟩, ?_, d1, ?_, rfl, (reset_subcommands c).1⟩
  · unfold Command.own_tokens
    rw [hsub]
    rfl
  · intro h0 name child hname hchild
    obtain ⟨f1, f2⟩ := dispatch_found L c.subcommandname_2_subcommand_ name
      (t.drop (Command.subcommand_index c.subcommandname_2_subcommand_ t)) child hchild
    rw [d3 h0 name hname]
    refine ⟨f1, ?_, ?_, rfl, ?_⟩
    · show map_find name (Command.dispatch L c.subcommandname_2_subcommand_ name _).state = _
      rw [f2 name, if_pos rfl]
    · intro k hk
      show map_find k (Command.dispatch L c.subcommandname_2_subcommand_ name _).state = _
      rw [f2 k, if_neg hk]
    · rw [List.head?_drop]
      exact hname

theorem subcommand_boundary_witness :
    subcommand_tree.subcommandname_2_subcommand_.isEmpty = false ∧
      Command.subcommand_index subcommand_tree.subcommandname_2_subcommand_
        ["my_command", "--detail", "myfind", "mydirfind", "--dirpath", "xx1", "--pattern",
          "yy2"] = 2 ∧
      subcommand_tree.own_tokens
        ["my_command", "--detail", "myfind", "mydirfind", "--dirpath", "xx1", "--pattern",
          "yy2"] = ["my_command", "--detail"] ∧
      map_find "myfind" subcommand_tree.subcommandname_2_subcommand_ = some myfind_command ∧
      (subcommand_tree.parse_args subcommand_libc
        ["my_command", "--detail", "myfind", "mydirfind", "--dirpath", "xx1", "--pattern",
          "yy2"]).thrown =
        (myfind_command.do_parse_args subcommand_libc
          ["myfind", "mydirfind", "--dirpath", "xx1", "--pattern", "yy2"]).thrown :=
  have h := subcommand_boundary subcommand_libc subcommand_tree.reset_arg_status
    ["my_command", "--detail", "myfind", "mydirfind", "--dirpath", "xx1", "--pattern", "yy2"]
    (by decide)
  ⟨by decide, by decide, by decide, rfl,
    (h.2.2.2.1 (by decide) "myfind" myfind_command (by decide) rfl).1⟩

/-- C14. Missing sub-command ordering. For a command with sub-commands and tokens none of
which is the name of a registered sub-command, the command's own level is parsed on all the
tokens; `parse_args` always throws: the exception of the own level when that parse throws
(scan error, missing required, missing positional, group violation), and the `ParseArgsError`
"Missing subcommand." only when the own level returns. `do_parse_args`, run by a matched child
that has sub-commands of its own, behaves in the same way. -/
theorem missing_subcommand_order (L : Libc) (c : Command) (t : List String)
    (hsub : c.subcommandname_2_subcommand_.isEmpty = false)
    (hno : ∀ tok ∈ t, (map_find tok c.subcommandname_2_subcommand_).isSome = false) :
    c.own_tokens t = t ∧
      (c.parse_args L t).thrown =
        (match (c.reset_arg_status.parse_own_level L t).thrown with
          | some e => some e
          | none => some (Exn.ParseArgsError (c.command_name_ ++ ": Missing subcommand."))) ∧
      (c.parse_args L t).thrown ≠ none ∧
      (c.do_parse_args L t).thrown =
        (match (c.parse_own_level L t).thrown with
          | some e => some e
          | none => some (Exn.ParseArgsError (c.command_name_ ++ ": Missing subcommand."))) := by
  have key : ∀ c0 : Command, c0.subcommandname_2_subcommand_ = c.subcommandname_2_subcommand_ →
      (c0.do_parse_args L t).thrown =
        (match (c0.parse_own_level L t).thrown with
          | some e => some e
          | none => some (Exn.ParseArgsError (c0.command_name_ ++ ": Missing subcommand."))) := by
    intro c0 h0
    have hall : ∀ tok ∈ t, map_find tok c0.subcommandname_2_subcommand_ = none := by
      intro tok htok
      have := hno tok htok
      rw [h0]
      cases hm : map_find tok c.subcommandname_2_subcommand_ with
      | none => rfl
      | some x => simp [hm] at this
    have hidx := (subcommand_index_spec c0.subcommandname_2_subcommand_ t).2.2.2 hall
    obtain ⟨d1, d2, _⟩ := do_parse_args_cases L c0 t (by rw [h0]; exact hsub)
    rw [hidx, List.take_length] at d1 d2
    cases hr : (c0.parse_own_level L t).thrown with
    | some e => rw [d1 e hr, hr]
    | none =>
      rw [d2 hr (List.getElem?_eq_none (Nat.le_refl _))]
      show some (fail _) = _
      rw [(own_level_keeps L c0 t).1.command_name]
      rfl
  have htok : c.own_tokens t = t := by
    have hall : ∀ tok ∈ t, map_find tok c.subcommandname_2_subcommand_ = none := by
      intro tok htok
      have := hno tok htok
      cases hm : map_find tok c.subcommandname_2_subcommand_ with
      | none => rfl
      | some x => simp [hm] at this
    unfold Command.own_tokens
    rw [hsub, (subcommand_index_spec c.subcommandname_2_subcommand_ t).2.2.2 hall]
    simp
  have hp : (c.parse_args L t).thrown =
      (match (c.reset_arg_status.parse_own_level L t).thrown with
        | some e => some e
        | none => some (Exn.ParseArgsError (c.command_name_ ++ ": Missing subcommand."))) := by
    have := key c.reset_arg_status (reset_subcommands c).1
    rw [(reset_frame c).command_name] at this
    exact this
  refine ⟨htok, hp, ?_, key c rfl⟩
  rw [hp]
  cases (c.reset_arg_status.parse_own_level L t).thrown <;> simp

theorem missing_subcommand_order_witness :
    subcommand_tree.subcommandname_2_subcommand_.isEmpty = false ∧
      (∀ tok ∈ ["my_command", "--detail"],
        (map_find tok subcommand_tree.subcommandname_2_subcommand_).isSome = false) ∧
      (subcommand_tree.reset_arg_status.parse_own_level subcommand_libc
        ["my_command", "--detail"]).thrown = none ∧
      (subcommand_tree.parse_args subcommand_libc ["my_command", "--detail"]).thrown =
        some (Exn.ParseArgsError "my_command: Missing subcommand.") ∧
      (subcommand_tree.parse_args subcommand_libc ["my_command", "--nosuch"]).thrown =
        some (Exn.ParseArgsError
          "my_command: Function `getopt_long_only` returned an error.") ∧
      (subcommand_tree.parse_args subcommand_libc
        ["my_command", "--detail", "myfind"]).thrown =
        some (Exn.ParseArgsError "myfind: Missing subcommand.") :=
  have h := missing_subcommand_order subcommand_libc subcommand_tree ["my_command", "--detail"]
    (by decide) (by decide)
  ⟨by decide, by decide, by decide, h.2.1.trans (by decide), by decide, by decide⟩

/-- C18 as stated fails: a selection made by an earlier parse survives a later parse that
matched no sub-command. On the tree of `test_subcommand`, after the parse of
`my_command --detail mygrep` has returned, the parse of `my_command --detail`, none of whose
tokens is a sub-command name, throws "Missing subcommand.", and `get_subcommand()` still yields
the child `mygrep`. -/
theorem stale_subcommand_selection :
    (subcommand_tree.parse_args subcommand_libc ["my_command", "--detail", "mygrep"]).thrown =
        none ∧
      Command.subcommand_index
        (subcommand_tree.parse_args subcommand_libc
          ["my_command", "--detail", "mygrep"]).state.subcommandname_2_subcommand_
        ["my_command", "--detail"] = 2 ∧
      ((subcommand_tree.parse_args subcommand_libc
        ["my_command", "--detail", "mygrep"]).state.parse_args subcommand_libc
          ["my_command", "--detail"]).thrown =
        some (Exn.ParseArgsError "my_command: Missing subcommand.") ∧
      ((subcommand_tree.parse_args subcommand_libc
        ["my_command", "--detail", "mygrep"]).state.parse_args subcommand_libc
          ["my_command", "--detail"]).state.current_subcommand_name_ = some "mygrep" ∧
      (((subcommand_tree.parse_args subcommand_libc
        ["my_command", "--detail", "mygrep"]).state.parse_args subcommand_libc
          ["my_command", "--detail"]).state.get_subcommand.map Command.command_name) =
        .ok "mygrep" := by
  refine ⟨by decide, by decide, by decide, by decide, by decide⟩

/-- C18, amended. For every command with sub-commands and every `parse_args` call on it, `own`
being the parse of the command's own level and `idx` the index of the first token that is a
sub-command name: when `own` throws, or returns while no token is a sub-command name (the call
then throws "Missing subcommand."), the selection and the sub-commands are left as they were
before the call, so that `get_subcommand()` answers as before the call; when `own` returns and
the token at `idx` is the name of a registered child, the selection is that name, whether the
parse of the child returns or throws, and `get_subcommand()` yields that child as its parse
left it. -/
theorem subcommand_selection (L : Libc) (c : Command) (t : List String)
    (hsub : c.subcommandname_2_subcommand_.isEmpty = false) :
    (∀ e, (c.reset_arg_status.parse_own_level L (c.own_tokens t)).thrown = some e →
      (c.parse_args L t).thrown = some e ∧
        (c.parse_args L t).state.current_subcommand_name_ = c.current_subcommand_name_ ∧
        (c.parse_args L t).state.get_subcommand = c.get_subcommand) ∧
    ((c.reset_arg_status.parse_own_level L (c.own_tokens t)).thrown = none →
      t[Command.subcommand_index c.subcommandname_2_subcommand_ t]? = none →
      (c.parse_args L t).thrown =
          some (Exn.ParseArgsError (c.command_name_ ++ ": Missing subcommand.")) ∧
        (c.parse_args L t).state.current_subcommand_name_ = c.current_subcommand_name_ ∧
        (c.parse_args L t).state.get_subcommand = c.get_subcommand) ∧
    ((c.reset_arg_status.parse_own_level L (c.own_tokens t)).thrown = none →
      ∀ name child, t[Command.subcommand_index c.subcommandname_2_subcommand_ t]? = some name →
        map_find name c.subcommandname_2_subcommand_ = some child →
        (c.parse_args L t).state.current_subcommand_name_ = some name ∧
          (c.parse_args L t).state.get_subcommand =
            .ok (child.do_parse_args L
              (t.drop (Command.subcommand_index c.subcommandname_2_subcommand_ t))).state) := by
  have hs := (reset_subcommands c).1
  have hcur := (reset_subcommands c).2
  have hsub2 : c.reset_arg_status.subcommandname_2_subcommand_.isEmpty = false := by
    rw [hs]
    exact hsub
  have htok : c.own_tokens t =
      t.take (Command.subcommand_index c.subcommandname_2_subcommand_ t) := by
    unfold Command.own_tokens
    rw [hsub]
    rfl
  obtain ⟨d1, d2, d3⟩ := do_parse_args_cases L c.reset_arg_status t hsub2
  rw [hs, ← htok] at d1 d2 d3
  obtain ⟨k1, k2, k3, _⟩ := own_level_keeps L c.reset_arg_status (c.own_tokens t)
  rw [hs] at k2
  rw [hcur] at k3
  have hget : (c.reset_arg_status.parse_own_level L (c.own_tokens t)).state.get_subcommand =
      c.get_subcommand := by
    unfold Command.get_subcommand
    rw [k2, k3]
  refine ⟨?_, ?_, ?_⟩
  · intro e he
    have : c.parse_args L t = c.reset_arg_status.parse_own_level L (c.own_tokens t) := d1 e he
    rw [this]
    exact ⟨he, k3, hget⟩
  · intro h0 hnone
    have : c.parse_args L t = Res.throw _ _ := d2 h0 hnone
    rw [this]
    refine ⟨?_, k3, hget⟩
    show some (fail _) = _
    rw [k1.command_name]
    show some (fail (c.reset_arg_status.command_name_ ++ _)) = _
    rw [(reset_frame c).command_name]
    rfl
  · intro h0 name child hname hchild
    have : c.parse_args L t = _ := d3 h0 name hname
    rw [this]
    refine ⟨rfl, ?_⟩
    unfold Command.get_subcommand
    simp only
    rw [(dispatch_found L c.subcommandname_2_subcommand_ name _ child hchild).2 name,
      if_pos rfl]

theorem subcommand_selection_witness :
    subcommand_tree.subcommandname_2_subcommand_.isEmpty = false ∧
      (subcommand_tree.parse_args subcommand_libc
        ["my_command", "--detail", "mygrep"]).state.current_subcommand_name_ =
        some "mygrep" ∧
      ((subcommand_tree.parse_args subcommand_libc
        ["my_command", "--detail", "mygrep"]).state.get_subcommand.map Command.command_name) =
        .ok "mygrep" ∧
      (subcommand_tree.parse_args subcommand_libc
        ["my_command", "--nosuch", "mygrep"]).state.current_subcommand_name_ = none :=
  have h := subcommand_selection subcommand_libc subcommand_tree
    ["my_command", "--detail", "mygrep"] (by decide)
  ⟨by decide, (h.2.2 (by decide) "mygrep" mygrep_command (by decide) rfl).1, by decide,
    by decide⟩

/-- C17, the code at the failing input. `do_parse_args`, the function run on a matched child,
presents the stored arguments to the scanner as they are (only `parse_args` resets them), so
an argument whose hit flag is set before the call is not reported by the required check. On
the freshly built tree of `test_subcommand` the parse of `my_command --detail myfind mydirfind`
throws, the Required `--dirpath` of the leaf being omitted. After a parse on the same tree that
supplied `--dirpath xx1 --pattern yy2`, the same tokens are parsed without exception, and the
leaf still answers with the hit flags and the values of the earlier parse. -/
theorem subcommand_not_reset :
    (∀ (L : Libc) (c : Command) (p : Int), p ≠ c.current_argid_ →
      (c.presented L).arg_at p = c.arg_at p) ∧
      (∀ (L : Libc) (c : Command) (t : List String) (p : Int), p ≠ c.current_argid_ →
        (map_find p c.argid_2_arg_).isSome = true → (c.arg_at p).is_hit_ = true →
        (c.level_scan L t).thrown = none →
        (c.level_scan L t).state.missing_required p = false) ∧
      (subcommand_tree.parse_args subcommand_libc
        ["my_command", "--detail", "myfind", "mydirfind"]).thrown =
        some (Exn.ParseArgsError "mydirfind: Missing required option: --dirpath.") ∧
      (subcommand_tree.parse_args subcommand_libc
        ["my_command", "--detail", "myfind", "mydirfind", "--dirpath", "xx1", "--pattern",
          "yy2"]).thrown = none ∧
      ((subcommand_tree.parse_args subcommand_libc
        ["my_command", "--detail", "myfind", "mydirfind", "--dirpath", "xx1", "--pattern",
          "yy2"]).state.parse_args subcommand_libc
          ["my_command", "--detail", "myfind", "mydirfind"]).thrown = none ∧
      (((subcommand_tree.parse_args subcommand_libc
        ["my_command", "--detail", "myfind", "mydirfind", "--dirpath", "xx1", "--pattern",
          "yy2"]).state.parse_args subcommand_libc
          ["my_command", "--detail", "myfind", "mydirfind"]).state.get_subcommand.bind
        (fun myfind => myfind.get_subcommand.map
          (fun leaf => (leaf.has_arg "dirpath", leaf.has_arg "pattern")))) =
        .ok (true, true) ∧
      (((subcommand_tree.parse_args subcommand_libc
        ["my_command", "--detail", "myfind", "mydirfind", "--dirpath", "xx1", "--pattern",
          "yy2"]).state.parse_args subcommand_libc
          ["my_command", "--detail", "myfind", "mydirfind"]).state.get_subcommand.bind
        (fun myfind => myfind.get_subcommand.bind
          (fun leaf => leaf.get_one_value to_value_string "dirpath"))) = .ok "xx1" := by
  refine ⟨?_, stale_hit_passes, by decide, by decide, by decide, by decide, by decide⟩
  intro L c p hne
  rw [presented_arg_at, if_neg hne]

/-- C15. Nested retrieval. After a `parse_args` call that returns on a command with
sub-commands, and after the `do_parse_args` call every matched child with sub-commands of its
own runs, `get_subcommand()` yields the child registered under the token matched at that level,
as its own parse of the tokens from the match on left it, and that parse returned. On the leaf
(a well-formed command without sub-commands) an argument held under a long name, Required or
Optional, holds after the parse the values it held followed by the values supplied among the
leaf's tokens, in order, and `get_many_values` converts that sequence; when it held none
before, `get_many_values` is exactly the supplied values and `get_one_value` the first of them.
On the tree of `test_subcommand` the tokens
`my_command --detail myfind mydirfind --dirpath xx1 --pattern yy2` select `myfind`, then
`mydirfind`, where `dirpath` is "xx1" and `pattern` is "yy2". -/
theorem nested_retrieval :
    (∀ (L : Libc) (c : Command) (t : List String),
      c.subcommandname_2_subcommand_.isEmpty = false → (c.parse_args L t).thrown = none →
      ∃ name child,
        t[Command.subcommand_index c.subcommandname_2_subcommand_ t]? = some name ∧
        map_find name c.subcommandname_2_subcommand_ = some child ∧
        (c.parse_args L t).state.get_subcommand =
          .ok (child.do_parse_args L
            (t.drop (Command.subcommand_index c.subcommandname_2_subcommand_ t))).state ∧
        (child.do_parse_args L
          (t.drop (Command.subcommand_index c.subcommandname_2_subcommand_ t))).thrown =
          none) ∧
    (∀ (L : Libc) (c : Command) (t : List String),
      c.subcommandname_2_subcommand_.isEmpty = false → (c.do_parse_args L t).thrown = none →
      ∃ name child,
        t[Command.subcommand_index c.subcommandname_2_subcommand_ t]? = some name ∧
        map_find name c.subcommandname_2_subcommand_ = some child ∧
        (c.do_parse_args L t).state.get_subcommand =
          .ok (child.do_parse_args L
            (t.drop (Command.subcommand_index c.subcommandname_2_subcommand_ t))).state ∧
        (child.do_parse_args L
          (t.drop (Command.subcommand_index c.subcommandname_2_subcommand_ t))).thrown =
          none) ∧
    (∀ (L : Libc) (leaf : Command) (t : List String) (name : String) (p : Int),
      leaf.WF → leaf.subcommandname_2_subcommand_.isEmpty = true →
      map_find name leaf.longname_2_arg_ = some p →
      ((leaf.arg_at p).arg_type_ = ArgType.REQUIRED ∨
        (leaf.arg_at p).arg_type_ = ArgType.OPTIONAL) →
      (leaf.do_parse_args L t).thrown = none →
      ∀ (v : String) (rest : List String), leaf.level_occurrences L t p = v :: rest →
        (∀ (T : Type) (conv : String → Except Exn T),
          (leaf.do_parse_args L t).state.get_many_values conv name =
            transform conv ((leaf.arg_at p).clear_default.values_ ++ v :: rest)) ∧
        ((leaf.arg_at p).clear_default.values_ = [] →
          (leaf.do_parse_args L t).state.get_many_values to_value_string name =
              .ok (v :: rest) ∧
            ∀ (T : Type) (conv : String → Except Exn T),
              (leaf.do_parse_args L t).state.get_one_value conv name = conv v)) ∧
    (subcommand_tree.parse_args subcommand_libc
      ["my_command", "--detail", "myfind", "mydirfind", "--dirpath", "xx1", "--pattern",
        "yy2"]).thrown = none ∧
    ((subcommand_tree.parse_args subcommand_libc
      ["my_command", "--detail", "myfind", "mydirfind", "--dirpath", "xx1", "--pattern",
        "yy2"]).state.get_subcommand.bind
      (fun myfind => myfind.get_subcommand.map
        (fun leaf => (myfind.command_name, leaf.command_name)))) =
      .ok ("myfind", "mydirfind") ∧
    ((subcommand_tree.parse_args subcommand_libc
      ["my_command", "--detail", "myfind", "mydirfind", "--dirpath", "xx1", "--pattern",
        "yy2"]).state.get_subcommand.bind
      (fun myfind => myfind.get_subcommand.bind
        (fun leaf => leaf.get_one_value to_value_string "dirpath"))) = .ok "xx1" ∧
    ((subcommand_tree.parse_args subcommand_libc
      ["my_command", "--detail", "myfind", "mydirfind", "--dirpath", "xx1", "--pattern",
        "yy2"]).state.get_subcommand.bind
      (fun myfind => myfind.get_subcommand.bind
        (fun leaf => leaf.get_one_value to_value_string "pattern"))) = .ok "yy2" := by
  refine ⟨?_, ?_, ?_, by decide, by decide, by decide, by decide⟩
  · intro L c t hsub hok
    have hs := (reset_subcommands c).1
    obtain ⟨name, child, h1, h2, _, h4, h5⟩ :=
      do_parse_args_selected L c.reset_arg_status t (by rw [hs]; exact hsub) hok
    rw [hs] at h1 h2 h4 h5
    exact ⟨name, child, h1, h2, h4, h5⟩
  · intro L c t hsub hok
    obtain ⟨name, child, h1, h2, _, h4, h5⟩ := do_parse_args_selected L c t hsub hok
    exact ⟨name, child, h1, h2, h4, h5⟩
  · intro L leaf t name p hwf hsub hname hkind hok v rest hocc
    obtain ⟨l1, _, l3⟩ := leaf_values L leaf t name p hwf hsub hname hkind hok
    have hvals := l3 (by rw [hocc]; simp)
    rw [hocc] at hvals
    have hgen : ∀ (T : Type) (conv : String → Except Exn T),
        (leaf.do_parse_args L t).state.get_many_values conv name =
          transform conv ((leaf.arg_at p).clear_default.values_ ++ v :: rest) := by
      intro T conv
      unfold Command.get_many_values
      rw [l1]
      simp only [hvals]
    refine ⟨hgen, ?_⟩
    intro hempty
    rw [hempty, List.nil_append] at hvals
    refine ⟨?_, ?_⟩
    · rw [hgen, hempty, List.nil_append, transform_string]
    · intro T conv
      unfold Command.get_one_value
      rw [l1]
      simp only [hvals]

/-- C16, the code at the failing input. `reset_status_info` leaves the stored values of an
argument without default in place, so that after a `parse_args` call an argument without
default that occurred holds the values it held before the call followed by its occurrences. On
the command with the Optional arguments `--aa`, `--bb` and `-c` (no default) the parse of
`my_command --aa 1 x` and then the parse of `my_command --aa 2` both return. After the two,
`get_one_value` of `aa` is "1" and `get_many_values` is "1", "2", while after the parse of
`my_command --aa 2` alone on the freshly built command they are "2" and "2". The hit flags and
the positional values are those of the second parse alone. -/
theorem values_leak_into_second_parse :
    (∀ a : Arg, a.has_default_value_ = false → a.reset_status_info.values_ = a.values_) ∧
      (∀ (L : Libc) (c : Command) (args : List String) (p : Int), c.WF → c.registered p →
        ((c.arg_at p).arg_type_ = ArgType.REQUIRED ∨
          (c.arg_at p).arg_type_ = ArgType.OPTIONAL) →
        (c.arg_at p).has_default_value_ = false → (c.scanned L args).thrown = none →
        c.occurrences L args p ≠ [] →
        ((c.parse_args L args).state.arg_at p).values_ =
          (c.arg_at p).values_ ++ c.occurrences L args p) ∧
      (three_optional.parse_args example_libc ["my_command", "--aa", "1", "x"]).thrown = none ∧
      ((three_optional.parse_args example_libc
        ["my_command", "--aa", "1", "x"]).state.parse_args example_libc
          ["my_command", "--aa", "2"]).thrown = none ∧
      (three_optional.parse_args example_libc ["my_command", "--aa", "2"]).thrown = none ∧
      ((three_optional.parse_args example_libc
        ["my_command", "--aa", "1", "x"]).state.parse_args example_libc
          ["my_command", "--aa", "2"]).state.get_one_value to_value_string "aa" = .ok "1" ∧
      (three_optional.parse_args example_libc
        ["my_command", "--aa", "2"]).state.get_one_value to_value_string "aa" = .ok "2" ∧
      ((three_optional.parse_args example_libc
        ["my_command", "--aa", "1", "x"]).state.parse_args example_libc
          ["my_command", "--aa", "2"]).state.get_many_values to_value_string "aa" =
        .ok ["1", "2"] ∧
      (three_optional.parse_args example_libc
        ["my_command", "--aa", "2"]).state.get_many_values to_value_string "aa" = .ok ["2"] ∧
      ((three_optional.parse_args example_libc
        ["my_command", "--aa", "1", "x"]).state.parse_args example_libc
          ["my_command", "--aa", "2"]).state.has_arg "aa" =
        (three_optional.parse_args example_libc ["my_command", "--aa", "2"]).state.has_arg
          "aa" ∧
      ((three_optional.parse_args example_libc
        ["my_command", "--aa", "1", "x"]).state.parse_args example_libc
          ["my_command", "--aa", "2"]).state.get_all_position_values to_value_string =
        (three_optional.parse_args example_libc
          ["my_command", "--aa", "2"]).state.get_all_position_values to_value_string := by
  refine ⟨fun a h => (reset_status_info_members a).2.2.2.2.2 h, parsed_values_accumulate,
    by decide, by decide, by decide, by decide, by decide, by decide, by decide, by decide,
    by decide⟩

/-- C19. Range bounds at the extremes. In the INT domain the candidate and the bounds are the
values `stol` gives (signed 64 bits), in the UINT domain those `stoul` gives (unsigned 64
bits): 2147483648 and 4294967296 convert to themselves, and so do the limits of the 64-bit
ranges. For an inclusive range `[l, r]` with `l <= r` a text is stored without exception iff
its value lies in the range; so a text whose value is `l` or `r` is accepted, and a text whose
value is `l - 1` or `r + 1` makes `set_value` throw a `ParseArgsError`. On the command of
`test_very_big_range_value`, range 5 to 2147483647, the values 5 and 2147483647 are accepted
and 4 and 2147483648 make the parse throw. -/
theorem range_extremes :
    (∀ (L : Libc) (a : Arg) (l r text : String) (v lv rv : Int),
      (a.range NumType.INT l r true true).thrown = none →
      stol l = .ok lv → stol r = .ok rv → lv ≤ rv → stol text = .ok v →
      (((a.range NumType.INT l r true true).state.set_value L text).thrown = none ↔
          lv ≤ v ∧ v ≤ rv) ∧
        ((v = lv ∨ v = rv) →
          ((a.range NumType.INT l r true true).state.set_value L text).thrown = none) ∧
        ((v = lv - 1 ∨ v = rv + 1) →
          ∃ msg, ((a.range NumType.INT l r true true).state.set_value L text).thrown =
            some (Exn.ParseArgsError msg))) ∧
    (∀ (L : Libc) (a : Arg) (l r text : String) (v lv rv : Nat),
      (a.range NumType.UINT l r true true).thrown = none →
      stoul l = .ok lv → stoul r = .ok rv → lv ≤ rv → stoul text = .ok v →
      (((a.range NumType.UINT l r true true).state.set_value L text).thrown = none ↔
          lv ≤ v ∧ v ≤ rv) ∧
        ((v = lv ∨ v = rv) →
          ((a.range NumType.UINT l r true true).state.set_value L text).thrown = none) ∧
        ((v + 1 = lv ∨ v = rv + 1) →
          ∃ msg, ((a.range NumType.UINT l r true true).state.set_value L text).thrown =
            some (Exn.ParseArgsError msg))) ∧
    (stol "2147483647" = .ok 2147483647 ∧ stol "2147483648" = .ok 2147483648 ∧
      stol "9223372036854775807" = .ok 9223372036854775807 ∧
      stol "-9223372036854775808" = .ok (-9223372036854775808) ∧
      stoul "4294967296" = .ok 4294967296 ∧
      stoul "18446744073709551615" = .ok 18446744073709551615) ∧
    (big_range_command.parse_args example_libc ["my_command", "--rangearg", "5"]).thrown =
      none ∧
    (big_range_command.parse_args example_libc
      ["my_command", "--rangearg", "2147483647"]).thrown = none ∧
    (big_range_command.parse_args example_libc ["my_command", "--rangearg", "4"]).thrown =
      some (Exn.ParseArgsError
        "The value of option --rangearg is not in the range of [5, 2147483647].") ∧
    (big_range_command.parse_args example_libc
      ["my_command", "--rangearg", "2147483648"]).thrown =
      some (Exn.ParseArgsError
        "The value of option --rangearg is not in the range of [5, 2147483647].") := by
  refine ⟨?_, ?_, ⟨by decide, by decide, by decide, by decide, by decide, by decide⟩,
    by decide, by decide, by decide, by decide⟩
  · intro L a l r text v lv rv hrange hl hr hle hv
    obtain ⟨h1, h2, h3⟩ := range_ok a NumType.INT l r true true hrange
    have hs := set_value_range L (a.range NumType.INT l r true true).state stol text l r v lv rv
      (by rw [h3]; exact h1) (by rw [h3]) (by rw [h3]; exact h2) (by rw [h3]) (by rw [h3])
      (by
        intro b hb
        rw [h3] at hb
        rw [show b.num_type_ = NumType.INT from hb]) hv hl hr
    have hcr : (a.range NumType.INT l r true true).state.check_range v lv rv = true ↔
        lv ≤ v ∧ v ≤ rv := by
      rw [check_range_linear, h3]
      simp
    have hiff := hs.1.trans hcr
    refine ⟨hiff, ?_, ?_⟩
    · intro hb
      rw [hiff]
      rcases hb with hb | hb <;> rw [hb] <;> omega
    · intro hb
      apply hs.2
      cases hc : (a.range NumType.INT l r true true).state.check_range v lv rv with
      | false => rfl
      | true =>
        have := hcr.mp hc
        rcases hb with hb | hb <;> rw [hb] at this <;> omega
  · intro L a l r text v lv rv hrange hl hr hle hv
    obtain ⟨h1, h2, h3⟩ := range_ok a NumType.UINT l r true true hrange
    have hs := set_value_range L (a.range NumType.UINT l r true true).state stoul text l r v lv
      rv (by rw [h3]; exact h1) (by rw [h3]) (by rw [h3]; exact h2) (by rw [h3]) (by rw [h3])
      (by
        intro b hb
        rw [h3] at hb
        rw [show b.num_type_ = NumType.UINT from hb]) hv hl hr
    have hcr : (a.range NumType.UINT l r true true).state.check_range v lv rv = true ↔
        lv ≤ v ∧ v ≤ rv := by
      rw [check_range_linear, h3]
      simp
    have hiff := hs.1.trans hcr
    refine ⟨hiff, ?_, ?_⟩
    · intro hb
      rw [hiff]
      rcases hb with hb | hb <;> rw [hb] <;> omega
    · intro hb
      apply hs.2
      cases hc : (a.range NumType.UINT l r true true).state.check_range v lv rv with
      | false => rfl
      | true =>
        have := hcr.mp hc
        rcases hb with hb | hb
        · omega
        · rw [hb] at this
          omega

/-- C21. When the scanner reports the help option during `parse_args` (the return value 104
of the injected `--help` / `-h`, or the id of the injected argument) after events that threw
nothing, the call ends at that event with the `ParseArgsError` of `print_usage_help` (empty
message), and the command is left as the scan of the earlier events left it: no positional
token is captured, an argument no earlier event was routed to is as the call presented it to
the scanner, whatever the later events are, and no check of required arguments, positional
arguments or groups decides the outcome. The same holds for `do_parse_args` on a matched
sub-command, whose exception is the exception of the call on the parent. -/
theorem help_short_circuits (L : Libc) (c : Command) (args : List String)
    (pre post : List (Int × Option String)) (ev : Int × Option String)
    (hev : (c.own_run L args).events = pre ++ ev :: post) (hh : c.help_event ev)
    (hpre : ((c.prepared L).scan_events L pre).thrown = none) :
    c.parse_args L args =
        ⟨((c.prepared L).scan_events L pre).state, some (Exn.ParseArgsError "")⟩ ∧
      (c.parse_args L args).state.position_values_ = [] ∧
      (∀ q, (∀ e ∈ pre, (c.prepared L).event_target e ≠ some q) →
        (c.parse_args L args).state.arg_at q = (c.prepared L).arg_at q) ∧
      { name := some "help", has_arg := no_argument, val := 104 } ∈ (c.prepared L).c_long_opts_ ∧
      (∀ (d : Command) (argv : List String) (pre2 post2 : List (Int × Option String))
        (ev2 : Int × Option String),
        (d.level_run L (d.own_tokens argv)).events = pre2 ++ ev2 :: post2 → d.help_event ev2 →
        ((d.presented L).scan_events L pre2).thrown = none →
        d.do_parse_args L argv =
          ⟨((d.presented L).scan_events L pre2).state, some (Exn.ParseArgsError "")⟩) ∧
      (∀ (parent : Command) (t : List String) (name : String) (child : Command) (e : Exn),
        (parent.parse_own_level L
          (t.take (Command.subcommand_index parent.subcommandname_2_subcommand_ t))).thrown =
          none →
        t[Command.subcommand_index parent.subcommandname_2_subcommand_ t]? = some name →
        map_find name parent.subcommandname_2_subcommand_ = some child →
        (child.do_parse_args L
          (t.drop (Command.subcommand_index parent.subcommandname_2_subcommand_ t))).thrown =
          some e →
        (parent.do_parse_args L t).thrown = some e) := by
  have htok : c.reset_arg_status.own_tokens args = c.own_tokens args := by
    unfold Command.own_tokens
    rw [(reset_subcommands c).1]
  have hmain : c.parse_args L args =
      ⟨((c.prepared L).scan_events L pre).state, some (Exn.ParseArgsError "")⟩ := by
    refine help_at_level L c.reset_arg_status args pre post ev ?_ ?_ hpre
    · rw [htok]
      exact hev
    · rcases hh with h | ⟨h1, h2⟩
      · exact Or.inl h
      · exact Or.inr ⟨h1, h2.trans (reset_frame c).current_argid.symm⟩
  refine ⟨hmain, ?_, ?_, ?_, fun d argv pre2 post2 ev2 h1 h2 h3 =>
    help_at_level L d argv pre2 post2 ev2 h1 h2 h3,
    fun parent t name child e h1 h2 h3 h4 => child_failure L parent t name child e h1 h2 h3 h4⟩
  · rw [hmain]
    show ((c.prepared L).scan_events L pre).state.position_values_ = []
    rw [(scan_events_positions L _ pre).1]
    exact (prepared_rest L c).2.2.2.2.2.1
  · intro q hq
    rw [hmain]
    exact scan_events_other L _ pre q hq
  · show _ ∈ (c.reset_arg_status.add_help_arg L).c_long_opts_ ++ _
    rw [(add_help_long_opts L _).1]
    simp

/-- C21 on the command of the validation-order example: for `--bb --help --cc` the parse
ends at the help event with the empty `ParseArgsError`, although the Required `--req` and the
positional argument are missing and the groups are violated; `--bb` is hit, `--cc`, reported
after the help option, is not, and no positional value is stored. -/
theorem help_short_circuits_witness :
    (order_command.own_run order_libc ["my_command", "--bb", "--help", "--cc"]).events =
        [(-3, none)] ++ (104, none) :: [(-4, none)] ∧
      order_command.help_event (104, none) ∧
      ((order_command.prepared order_libc).scan_events order_libc [(-3, none)]).thrown = none ∧
      (order_command.parse_args order_libc ["my_command", "--bb", "--help", "--cc"]).thrown =
        some (Exn.ParseArgsError "") ∧
      (order_command.parse_args order_libc
        ["my_command", "--bb", "--help", "--cc"]).state.has_arg "bb" = true ∧
      (order_command.parse_args order_libc
        ["my_command", "--bb", "--help", "--cc"]).state.has_arg "cc" = false ∧
      (order_command.parse_args order_libc
        ["my_command", "--bb", "--help", "--cc"]).state.position_values_ = [] ∧
      (order_command.parse_args order_libc ["my_command", "-h"]).thrown =
        some (Exn.ParseArgsError "") ∧
      (order_command.parse_args order_libc ["my_command", "--bb", "--cc"]).thrown =
        some (Exn.ParseArgsError "my_command: Missing required option: --req.") :=
  have h := help_short_circuits order_libc order_command
    ["my_command", "--bb", "--help", "--cc"] [(-3, none)] [(-4, none)] (104, none)
    (by decide) (by decide) (by decide)
  ⟨by decide, by decide, by decide, congrArg Res.thrown h.1, by decide, by decide, h.2.1,
    by decide, by decide⟩

/-- C22, counterexample. On the command with the Optional argument `--aa` / `-a` whose default
is "abc", the names are registered and the argument stores a value, and yet
`get_many_values<int>` fails, by long and by short name: the conversion `std::stoi` throws
`std::invalid_argument`. `get_one_value<int>` throws the same exception instead of
returning. -/
theorem typed_getter_conversion_fails :
    map_find "aa" text_default_command.longname_2_arg_ = some (-2) ∧
      map_find 'a' text_default_command.shortname_2_arg_ = some (-2) ∧
      (text_default_command.arg_at (-2)).values_ = ["abc"] ∧
      text_default_command.get_many_values to_value_int "aa" = .error Exn.invalid_argument ∧
      text_default_command.get_many_values_short to_value_int 'a' =
        .error Exn.invalid_argument ∧
      text_default_command.get_one_value to_value_int "aa" = .error Exn.invalid_argument ∧
      text_default_command.get_one_value_short to_value_int 'a' =
        .error Exn.invalid_argument ∧
      text_default_command.get_many_values to_value_string "aa" = .ok ["abc"] := by
  refine ⟨by decide, by decide, by decide, by decide, by decide, by decide, by decide,
    by decide⟩

/-- C22, amended. For a conversion `to_value<T>` that throws no `ParseArgsError` (all of them):
`get_one_value`, by long or by short name, throws `ParseArgsError` exactly when the name is not
in the name map of the command or the argument found holds no value, and is otherwise the
conversion of the first stored value, throwing what that conversion throws.
`get_many_values` throws `ParseArgsError` exactly when the name is not in the name map;
otherwise it is `std::transform` of the conversion over the stored values: it returns `xs`
exactly when the stored values convert, in order, to the elements of `xs` (the empty vector
for no stored value), and it throws `e` exactly when some stored value throws `e` in the
conversion and every stored value before it converts. With a text type the getters of a name
that is found never throw in the conversion: `get_many_values` returns the stored texts and
`get_one_value` the first of them. The integer conversions throw `std::invalid_argument` or
`std::out_of_range` only. -/
theorem getter_failures {T : Type} (conv : String → Except Exn T) (c : Command)
    (hconv : ∀ s msg, conv s ≠ .error (Exn.ParseArgsError msg)) :
    (∀ n : String,
      ((∃ msg, c.get_one_value conv n = .error (Exn.ParseArgsError msg)) ↔
          (map_find n c.longname_2_arg_ = none ∨
            ∃ p, map_find n c.longname_2_arg_ = some p ∧ (c.arg_at p).values_ = [])) ∧
        (∀ p v vs, map_find n c.longname_2_arg_ = some p → (c.arg_at p).values_ = v :: vs →
          c.get_one_value conv n = conv v) ∧
        ((∃ msg, c.get_many_values conv n = .error (Exn.ParseArgsError msg)) ↔
          map_find n c.longname_2_arg_ = none) ∧
        (∀ p, map_find n c.longname_2_arg_ = some p →
          c.get_many_values conv n = transform conv (c.arg_at p).values_ ∧
          (∀ xs, c.get_many_values conv n = .ok xs ↔
            (c.arg_at p).values_.map conv = xs.map Except.ok) ∧
          (∀ e, c.get_many_values conv n = .error e ↔
            ∃ pre v post, (c.arg_at p).values_ = pre ++ v :: post ∧
              (∀ u ∈ pre, ∃ x, conv u = .ok x) ∧ conv v = .error e) ∧
          ((c.arg_at p).values_ = [] → c.get_many_values conv n = .ok []) ∧
          ((∀ v ∈ (c.arg_at p).values_, ∃ x, conv v = .ok x) →
            ∃ xs, c.get_many_values conv n = .ok xs)) ∧
        (∀ p, map_find n c.longname_2_arg_ = some p →
          c.get_many_values to_value_string n = .ok (c.arg_at p).values_ ∧
          ∀ v vs, (c.arg_at p).values_ = v :: vs →
            c.get_one_value to_value_string n = .ok v)) ∧
    (∀ n : Char,
      ((∃ msg, c.get_one_value_short conv n = .error (Exn.ParseArgsError msg)) ↔
          (map_find n c.shortname_2_arg_ = none ∨
            ∃ p, map_find n c.shortname_2_arg_ = some p ∧ (c.arg_at p).values_ = [])) ∧
        (∀ p v vs, map_find n c.shortname_2_arg_ = some p → (c.arg_at p).values_ = v :: vs →
          c.get_one_value_short conv n = conv v) ∧
        ((∃ msg, c.get_many_values_short conv n = .error (Exn.ParseArgsError msg)) ↔
          map_find n c.shortname_2_arg_ = none) ∧
        (∀ p, map_find n c.shortname_2_arg_ = some p →
          c.get_many_values_short conv n = transform conv (c.arg_at p).values_ ∧
          (∀ xs, c.get_many_values_short conv n = .ok xs ↔
            (c.arg_at p).values_.map conv = xs.map Except.ok) ∧
          (∀ e, c.get_many_values_short conv n = .error e ↔
            ∃ pre v post, (c.arg_at p).values_ = pre ++ v :: post ∧
              (∀ u ∈ pre, ∃ x, conv u = .ok x) ∧ conv v = .error e) ∧
          ((c.arg_at p).values_ = [] → c.get_many_values_short conv n = .ok []) ∧
          ((∀ v ∈ (c.arg_at p).values_, ∃ x, conv v = .ok x) →
            ∃ xs, c.get_many_values_short conv n = .ok xs)) ∧
        (∀ p, map_find n c.shortname_2_arg_ = some p →
          c.get_many_values_short to_value_string n = .ok (c.arg_at p).values_ ∧
          ∀ v vs, (c.arg_at p).values_ = v :: vs →
            c.get_one_value_short to_value_string n = .ok v)) ∧
    (∀ (s : String) (e : Exn),
      (to_value_int s = .error e ∨ to_value_int64 s = .error e ∨ to_value_uint32 s = .error e ∨
        to_value_uint64 s = .error e) → e = Exn.invalid_argument ∨ e = Exn.out_of_range) ∧
    (∀ s : String, to_value_string s = .ok s) := by
  have hmany : ∀ (vs : List String) (r : Except Exn (List T)), r = transform conv vs →
      (∀ xs, r = .ok xs ↔ vs.map conv = xs.map Except.ok) ∧
      (∀ e, r = .error e ↔
        ∃ pre v post, vs = pre ++ v :: post ∧ (∀ u ∈ pre, ∃ x, conv u = .ok x) ∧
          conv v = .error e) ∧
      (vs = [] → r = .ok []) ∧
      ((∀ v ∈ vs, ∃ x, conv v = .ok x) → ∃ xs, r = .ok xs) := by
    intro vs r hr
    subst hr
    refine ⟨fun xs => transform_ok_iff conv vs xs, fun e => transform_error_iff conv vs e,
      fun h => ?_, transform_ok conv vs⟩
    rw [h]
    rfl
  refine ⟨fun n => ⟨get_one_value_fails_iff conv hconv c n, ?_,
      (get_many_values_fails_iff conv hconv c n).1, ?_, ?_⟩,
    fun n => ⟨get_one_value_short_fails_iff conv hconv c n, ?_,
      (get_many_values_short_fails_iff conv hconv c n).1, ?_, ?_⟩, ?_, fun _ => rfl⟩
  · intro p v vs hm hv
    unfold Command.get_one_value
    simp [hm, hv]
  · intro p hm
    have h := (get_many_values_fails_iff conv hconv c n).2 p hm
    exact ⟨h, hmany _ _ h⟩
  · intro p hm
    refine ⟨?_, ?_⟩
    · unfold Command.get_many_values
      rw [hm]
      exact transform_string _
    · intro v vs hv
      unfold Command.get_one_value
      simp [hm, hv, to_value_string]
  · intro p v vs hm hv
    unfold Command.get_one_value_short
    simp [hm, hv]
  · intro p hm
    have h := (get_many_values_short_fails_iff conv hconv c n).2 p hm
    exact ⟨h, hmany _ _ h⟩
  · intro p hm
    refine ⟨?_, ?_⟩
    · unfold Command.get_many_values_short
      rw [hm]
      exact transform_string _
    · intro v vs hv
      unfold Command.get_one_value_short
      simp [hm, hv, to_value_string]
  · intro s e h
    rcases h with h | h | h | h
    · exact stoi_error s e h
    · exact stol_error s e h
    · exact to_value_uint32_error s e h
    · exact stoul_error s e h

/-- C22 at `get_one_value<int>` and `get_many_values<int>` on the command with the Optional
argument `--aa` / `-a` of default "abc": the name "bb" is not registered, and the stored text
of `--aa` does not convert. -/
theorem getter_failures_witness :
    (∀ s msg, to_value_int s ≠ .error (Exn.ParseArgsError msg)) ∧
      ((∃ msg, text_default_command.get_one_value to_value_int "bb" =
          .error (Exn.ParseArgsError msg)) ↔
        (map_find "bb" text_default_command.longname_2_arg_ = none ∨
          ∃ p, map_find "bb" text_default_command.longname_2_arg_ = some p ∧
            (text_default_command.arg_at p).values_ = [])) ∧
      text_default_command.get_one_value to_value_int "bb" =
        .error (Exn.ParseArgsError "Can not find --bb option.") ∧
      (text_default_command.get_many_values to_value_int "aa" = .error Exn.invalid_argument ↔
        ∃ pre v post, (text_default_command.arg_at (-2)).values_ = pre ++ v :: post ∧
          (∀ u ∈ pre, ∃ x, to_value_int u = .ok x) ∧
          to_value_int v = .error Exn.invalid_argument) ∧
      text_default_command.get_many_values to_value_int "aa" = .error Exn.invalid_argument ∧
      text_default_command.get_many_values to_value_string "aa" = .ok ["abc"] :=
  ⟨fun s msg => (to_value_not_parse_error s msg).1,
    ((getter_failures to_value_int text_default_command
      (fun s msg => (to_value_not_parse_error s msg).1)).1 "bb").1, by decide,
    (((getter_failures to_value_int text_default_command
      (fun s msg => (to_value_not_parse_error s msg).1)).1 "aa").2.2.2.1 (-2)
      (by decide)).2.2.1 Exn.invalid_argument, by decide, by decide⟩

/-- C23. For an argument of a kind other than Positional, `long_name("help")` and
`short_name('h')` throw `ParseArgsError` (with the text that points to the automatically added
help option) and leave the argument as it was, its names included. -/
theorem reserved_help_names (a : Arg) (h : a.arg_type_ ≠ ArgType.POSITION) :
    (a.long_name "help").thrown = some (Exn.ParseArgsError Arg.help_reserved_msg) ∧
      (a.long_name "help").state = a ∧
      (a.short_name 'h').thrown = some (Exn.ParseArgsError Arg.help_reserved_msg) ∧
      (a.short_name 'h').state = a := by
  refine ⟨?_, ?_, ?_, ?_⟩
  · rw [long_name_cases a "help" h]; rfl
  · rw [long_name_cases a "help" h]; rfl
  · unfold Arg.short_name; rw [if_neg h]; rfl
  · unfold Arg.short_name; rw [if_neg h]; rfl

/-- C23 at the arguments of `test_cannot_add_help_by_yourself`: a new Optional argument. -/
theorem reserved_help_names_witness :
    (Arg.new_arg ArgType.OPTIONAL).arg_type_ ≠ ArgType.POSITION ∧
      ((Arg.new_arg ArgType.OPTIONAL).long_name "help").thrown =
        some (Exn.ParseArgsError Arg.help_reserved_msg) ∧
      ((Arg.new_arg ArgType.OPTIONAL).long_name "help").state = Arg.new_arg ArgType.OPTIONAL ∧
      ((Arg.new_arg ArgType.OPTIONAL).short_name 'h').thrown =
        some (Exn.ParseArgsError Arg.help_reserved_msg) ∧
      ((Arg.new_arg ArgType.OPTIONAL).short_name 'h').state = Arg.new_arg ArgType.OPTIONAL :=
  ⟨by decide, reserved_help_names (Arg.new_arg ArgType.OPTIONAL) (by decide)⟩

/-- C24, the code at the failing input. The test `strncmp(name, "help", 4) == 0` rejects
every name that begins with "help": `long_name("helper")` on a new Optional argument throws
and stores no name, although "helper" has six characters, no leading dash and no space and is
not the name "help". -/
theorem long_name_rejects_helper :
    ((Arg.new_arg ArgType.OPTIONAL).long_name "helper").thrown =
        some (Exn.ParseArgsError Arg.help_reserved_msg) ∧
      ((Arg.new_arg ArgType.OPTIONAL).long_name "helper").state.long_name_ = none ∧
      "helper" ≠ "help" ∧ ¬ (strlen "helper" < 2) ∧ (¬ ∃ rest : String, "helper" = "-" ++ rest) ∧
      ' ' ∉ "helper".data := by
  refine ⟨by decide, by decide, by decide, by decide, ?_, by decide⟩
  rw [← begins_with_dash_iff]
  decide

/-- C24 as the code behaves. For an argument of a kind other than Positional,
`long_name(name)` throws (a `ParseArgsError`, the argument being left as it was) exactly when
`name` begins with "help", has fewer than 2 bytes, begins with `-` or contains a space; for
every other name it returns and the argument is the one before the call with `name` as its
long name. -/
theorem long_name_format (a : Arg) (name : String) (h : a.arg_type_ ≠ ArgType.POSITION) :
    ((a.long_name name).thrown ≠ none ↔
        ((∃ rest : String, name = "help" ++ rest) ∨ strlen name < 2 ∨
          (∃ rest : String, name = "-" ++ rest) ∨ ' ' ∈ name.data)) ∧
      (∀ e, (a.long_name name).thrown = some e → ∃ msg, e = Exn.ParseArgsError msg) ∧
      ((a.long_name name).thrown ≠ none → (a.long_name name).state = a) ∧
      ((a.long_name name).thrown = none →
        (a.long_name name).state = { a with long_name_ := some name }) := by
  rw [long_name_cases a name h, ← begins_with_help_iff, ← begins_with_dash_iff, ← has_space_iff]
  by_cases h1 : name.data.take 4 = ['h', 'e', 'l', 'p']
  · rw [if_pos h1]
    exact ⟨⟨fun _ => Or.inl h1, fun _ => by simp [Res.throw]⟩,
      fun e he => ⟨_, (Option.some.inj he).symm⟩, fun _ => rfl, fun hn => by simp [Res.throw] at hn⟩
  · rw [if_neg h1]
    by_cases h2 : strlen name < 2
    · rw [if_pos h2]
      exact ⟨⟨fun _ => Or.inr (Or.inl h2), fun _ => by simp [Res.throw]⟩,
        fun e he => ⟨_, (Option.some.inj he).symm⟩, fun _ => rfl,
        fun hn => by simp [Res.throw] at hn⟩
    · rw [if_neg h2]
      by_cases h3 : name.data.take 1 = ['-']
      · rw [if_pos h3]
        exact ⟨⟨fun _ => Or.inr (Or.inr (Or.inl h3)), fun _ => by simp [Res.throw]⟩,
          fun e he => ⟨_, (Option.some.inj he).symm⟩, fun _ => rfl,
          fun hn => by simp [Res.throw] at hn⟩
      · rw [if_neg h3]
        by_cases h4 : name.data.any (fun elem => elem = ' ') = true
        · rw [if_pos h4]
          exact ⟨⟨fun _ => Or.inr (Or.inr (Or.inr h4)), fun _ => by simp [Res.throw]⟩,
            fun e he => ⟨_, (Option.some.inj he).symm⟩, fun _ => rfl,
            fun hn => by simp [Res.throw] at hn⟩
        · rw [if_neg h4]
          refine ⟨⟨fun hn => absurd rfl hn, ?_⟩, fun e he => ?_, fun hn => absurd rfl hn,
            fun _ => rfl⟩
          · rintro (h5 | h5 | h5 | h5)
            · exact absurd h5 h1
            · exact absurd h5 h2
            · exact absurd h5 h3
            · exact absurd h5 h4
          · simp [Res.ok] at he

/-- C24 at the name "file_path" of the header comment, on a new Optional argument. -/
theorem long_name_format_witness :
    (Arg.new_arg ArgType.OPTIONAL).arg_type_ ≠ ArgType.POSITION ∧
      ((Arg.new_arg ArgType.OPTIONAL).long_name "file_path").thrown = none ∧
      ((Arg.new_arg ArgType.OPTIONAL).long_name "file_path").state =
        { Arg.new_arg ArgType.OPTIONAL with long_name_ := some "file_path" } :=
  ⟨by decide, by decide,
    (long_name_format (Arg.new_arg ArgType.OPTIONAL) "file_path" (by decide)).2.2.2 (by decide)⟩

/-- C26. `arg(a)` throws exactly when `a` is not Positional and has neither a long name nor a
short name (`long_name_` null and `short_name_` the blank); what it throws is the
`ParseArgsError` "The argument should have a long name or a short name."; and when it throws
the command is the one before the call. -/
theorem arg_fails_iff (L : Libc) (c : Command) (a : Arg) :
    ((c.arg L a).thrown ≠ none ↔
        (a.arg_type_ ≠ ArgType.POSITION ∧ a.long_name_ = none ∧ a.short_name_ = ' ')) ∧
      (∀ e, (c.arg L a).thrown = some e →
        e = Exn.ParseArgsError "The argument should have a long name or a short name.") ∧
      ((c.arg L a).thrown ≠ none → (c.arg L a).state = c) ∧
      ((Command.new_command "my_command").arg L (Arg.new_arg ArgType.OPTIONAL)).thrown =
        some (Exn.ParseArgsError "The argument should have a long name or a short name.") ∧
      ((Command.new_command "my_command").arg L (Arg.new_arg ArgType.POSITION)).thrown = none := by
  refine ⟨?_, ?_, ?_, rfl, rfl⟩
  · unfold Command.arg
    split_ifs with h
    · exact ⟨fun _ => h, fun _ => by simp [Res.throw]⟩
    · exact ⟨fun hn => absurd rfl hn, fun h2 => absurd h2 h⟩
  · intro e he
    unfold Command.arg at he
    split_ifs at he with h
    · exact (Option.some.inj he).symm
    · simp [Res.ok] at he
  · intro hn
    unfold Command.arg at hn ⊢
    split_ifs at hn ⊢ with h
    · rfl
    · exact absurd rfl hn

/-- C27. Every argument that `new_arg` followed by any sequence of calls of `long_name`,
`short_name`, `conflicts_with_all`, `default_value`, `default_values`, `range` and `choices`
produces, the calls that throw included, satisfies: it does not have both a range and a
choice constraint; a Flag has neither; it has a default only if it is Optional; it is marked
`conflicts_with_all` only if it is a Flag or Optional. -/
theorem configured_well_formed (L : Libc) (a : Arg) (h : Arg.Configured L a) :
    ¬ (a.is_range_ = true ∧ a.is_choice_ = true) ∧
      (a.arg_type_ = ArgType.FLAG → a.is_range_ = false ∧ a.is_choice_ = false) ∧
      (a.has_default_value_ = true → a.arg_type_ = ArgType.OPTIONAL) ∧
      (a.is_conflict_with_all_ = true →
        a.arg_type_ = ArgType.FLAG ∨ a.arg_type_ = ArgType.OPTIONAL) :=
  ⟨(configured_spec L a h).1, (configured_spec L a h).2.1, (configured_spec L a h).2.2.1,
    (configured_spec L a h).2.2.2.1⟩

/-- C27 at an argument configured by calls that return and a call that throws: an Optional
argument on which `range` returns, `choices` throws, `default_value` and `conflicts_with_all`
return. -/
theorem configured_well_formed_witness :
    ((Arg.new_arg ArgType.OPTIONAL).range NumType.INT "1" "9" true true).thrown = none ∧
      ((((Arg.new_arg ArgType.OPTIONAL).range NumType.INT "1" "9" true true).state.choices
        ["1", "2"]).thrown ≠ none) ∧
      mixed_calls_arg.is_range_ = true ∧ mixed_calls_arg.has_default_value_ = true ∧
      mixed_calls_arg.is_conflict_with_all_ = true ∧
      (¬ (mixed_calls_arg.is_range_ = true ∧ mixed_calls_arg.is_choice_ = true) ∧
        (mixed_calls_arg.arg_type_ = ArgType.FLAG →
          mixed_calls_arg.is_range_ = false ∧ mixed_calls_arg.is_choice_ = false) ∧
        (mixed_calls_arg.has_default_value_ = true →
          mixed_calls_arg.arg_type_ = ArgType.OPTIONAL) ∧
        (mixed_calls_arg.is_conflict_with_all_ = true →
          mixed_calls_arg.arg_type_ = ArgType.FLAG ∨
            mixed_calls_arg.arg_type_ = ArgType.OPTIONAL)) :=
  ⟨by decide, by decide, by decide, by decide, by decide,
    configured_well_formed example_libc mixed_calls_arg
      (Arg.Configured.conflicts_with_all _
        (Arg.Configured.default_value _ "5"
          (Arg.Configured.choices _ ["1", "2"]
            (Arg.Configured.range _ NumType.INT "1" "9" true true
              (Arg.Configured.new_arg ArgType.OPTIONAL)))))⟩

/-- C28, counterexample. `default_value` appends: on a new Optional argument
`default_value("1")` followed by `default_value("2")` both return, and the value sequence and
the default sequence are then "1", "2", not "2" alone. -/
theorem default_value_appends :
    ((Arg.new_arg ArgType.OPTIONAL).default_value example_libc "1").thrown = none ∧
      (((Arg.new_arg ArgType.OPTIONAL).default_value example_libc "1").state.default_value
        example_libc "2").thrown = none ∧
      (((Arg.new_arg ArgType.OPTIONAL).default_value example_libc "1").state.default_value
        example_libc "2").state.values_ = ["1", "2"] ∧
      (((Arg.new_arg ArgType.OPTIONAL).default_value example_libc "1").state.default_value
        example_libc "2").state.default_values_ = ["1", "2"] ∧
      (((Arg.new_arg ArgType.OPTIONAL).default_values example_libc ["1", "2"]).state.default_value
        example_libc "3").state.values_ = ["1", "2", "3"] := by
  refine ⟨by decide, by decide, by decide, by decide, by decide⟩

/-- C28, amended. On an Optional argument `default_value(v)` appends `v` to the value sequence
and to the default sequence (so both are exactly `v` alone when they were empty before the
call, as on an argument on which no default was set), `default_values(vs)` with a non-empty
`vs` replaces both by `vs`, and both calls mark the argument as having a default; this is the
state of the argument whether the final constraint check of the call throws or not. -/
theorem default_sets_values (L : Libc) (a : Arg) (v : String) (vs : List String)
    (h : a.arg_type_ = ArgType.OPTIONAL) :
    (a.default_value L v).state.values_ = a.values_ ++ [v] ∧
      (a.default_value L v).state.default_values_ = a.default_values_ ++ [v] ∧
      (a.default_value L v).state.has_default_value_ = true ∧
      (a.values_ = [] → a.default_values_ = [] →
        (a.default_value L v).state.values_ = [v] ∧
          (a.default_value L v).state.default_values_ = [v]) ∧
      (vs ≠ [] →
        (a.default_values L vs).state.values_ = vs ∧
          (a.default_values L vs).state.default_values_ = vs ∧
          (a.default_values L vs).state.has_default_value_ = true) ∧
      (a.is_range_ = false → a.is_choice_ = false →
        (a.default_value L v).thrown = none ∧ (vs ≠ [] → (a.default_values L vs).thrown = none)) := by
  have h1 : (a.default_value L v).state = { a with
      values_ := a.values_ ++ [v]
      default_values_ := a.default_values_ ++ [v]
      has_default_value_ := true } := by
    rcases default_value_members L a v with e | ⟨_, e⟩
    · unfold Arg.default_value at e ⊢
      rw [if_neg (not_not.mpr h)]
      exact check_last_state L _
    · exact e
  refine ⟨by rw [h1], by rw [h1], by rw [h1], fun hv hd => ?_, fun hne => ?_, fun hr hc => ?_⟩
  · rw [h1]
    exact ⟨by simp [hv], by simp [hd]⟩
  · have h2 : (a.default_values L vs).state = { a with
        values_ := vs, default_values_ := vs, has_default_value_ := true } := by
      unfold Arg.default_values
      rw [if_neg (not_not.mpr h), if_neg hne]
      exact check_last_state L _
    rw [h2]
    exact ⟨rfl, rfl, rfl⟩
  · constructor
    · unfold Arg.default_value
      rw [if_neg (not_not.mpr h)]
      simp [Arg.check_last, Res.check, Res.bind, Res.ok, Arg.check_range_void, Arg.check_choice,
        hr, hc]
    · intro hne
      unfold Arg.default_values
      rw [if_neg (not_not.mpr h), if_neg hne]
      simp [Arg.check_last, Res.check, Res.bind, Res.ok, Arg.check_range_void, Arg.check_choice,
        hr, hc]

/-- C28 at a new Optional argument and at one with the default "1". -/
theorem default_sets_values_witness :
    (Arg.new_arg ArgType.OPTIONAL).arg_type_ = ArgType.OPTIONAL ∧
      ((Arg.new_arg ArgType.OPTIONAL).default_value example_libc "1000").state.values_ =
        ["1000"] ∧
      ((Arg.new_arg ArgType.OPTIONAL).default_values example_libc
        ["100", "200", "300"]).state.values_ = ["100", "200", "300"] :=
  ⟨by decide,
    (default_sets_values example_libc (Arg.new_arg ArgType.OPTIONAL) "1000"
      ["100", "200", "300"] (by decide)).1,
    ((default_sets_values example_libc (Arg.new_arg ArgType.OPTIONAL) "1000"
      ["100", "200", "300"] (by decide)).2.2.2.2.1 (by decide)).1⟩

/-- C29. For an Optional argument that the configuration calls produced and on which a range
or choices are set: `default_value(v)` throws `ParseArgsError` exactly when `v` violates the
constraint (with a range: `v` and the bounds convert and the comparison of `check_range`
fails, which for an INT range is the comparison of the integers read with the bounds; with
choices: `v` is not one of them) and returns exactly when `v` passes it; `default_values`
with a list that ends in `v` throws what `default_value(v)` throws, whatever the earlier
elements are; `default_values` with the empty list throws `ParseArgsError`. -/
theorem default_validated (L : Libc) (a : Arg) (v : String) (ws : List String)
    (hL : L.stod_standard) (hcfg : Arg.Configured L a) (hk : a.arg_type_ = ArgType.OPTIONAL)
    (hset : a.is_range_ = true ∨ a.is_choice_ = true) :
    ((∃ msg, (a.default_value L v).thrown = some (Exn.ParseArgsError msg)) ↔ a.violates L v) ∧
      ((a.default_value L v).thrown = none ↔ a.passes L v) ∧
      (a.default_values L (ws ++ [v])).thrown = (a.default_value L v).thrown ∧
      ((∃ msg, (a.default_values L (ws ++ [v])).thrown = some (Exn.ParseArgsError msg)) ↔
        a.violates L v) ∧
      (a.default_values L []).thrown =
        some (Exn.ParseArgsError "The default values can not empty.") ∧
      (∀ (l r : String) (x lv rv : Int), a.is_range_ = true → a.num_type_ = NumType.INT →
        a.left_ = some l → a.right_ = some r →
        stol v = .ok x → stol l = .ok lv → stol r = .ok rv →
        (a.violates L v ↔
          ¬ ((if a.include_left_ = true then lv ≤ x else lv < x) ∧
            (if a.include_right_ = true then x ≤ rv else x < rv)))) := by
  have e1 : a.default_value L v = Arg.check_last L { a with
      values_ := a.values_ ++ [v]
      default_values_ := a.default_values_ ++ [v]
      has_default_value_ := true } := by
    unfold Arg.default_value
    rw [if_neg (not_not.mpr hk)]
  have e2 : a.default_values L (ws ++ [v]) = Arg.check_last L { a with
      values_ := ws ++ [v]
      default_values_ := ws ++ [v]
      has_default_value_ := true } := by
    unfold Arg.default_values
    rw [if_neg (not_not.mpr hk), if_neg (by simp)]
  have h1 := stored_check L hL a hcfg hset (a.values_ ++ [v]) (a.default_values_ ++ [v]) true v
    (by simp)
  have h2 := stored_check L hL a hcfg hset (ws ++ [v]) (ws ++ [v]) true v (by simp)
  refine ⟨?_, ?_, ?_, ?_, ?_, ?_⟩
  · rw [e1]; exact h1.1
  · rw [e1]; exact h1.2.1
  · rw [e1, e2, h1.2.2, h2.2.2]
  · rw [e2]; exact h2.1
  · unfold Arg.default_values
    rw [if_neg (not_not.mpr hk), if_pos rfl]
    rfl
  · intro l r x lv rv hr hn hl hrt hv hlv hrv
    have hc : a.is_choice_ = false := by
      cases h : a.is_choice_
      · rfl
      · exact absurd ⟨hr, h⟩ (configured_spec L a hcfg).1
    exact violates_int L a v l r x lv rv hc hr hn hl hrt hv hlv hrv

/-- C29 at the Optional argument `--limit` with the range [1, 9] of type INT: the default "5"
is accepted and "10" is rejected; the list "100", "5" is accepted although "100" lies outside
the range, and the list "5", "10" is rejected. -/
theorem default_validated_witness :
    example_libc.stod_standard ∧ Arg.Configured example_libc ranged_optional_arg ∧
      ranged_optional_arg.arg_type_ = ArgType.OPTIONAL ∧
      (ranged_optional_arg.is_range_ = true ∨ ranged_optional_arg.is_choice_ = true) ∧
      (ranged_optional_arg.default_values example_libc (["100"] ++ ["5"])).thrown =
        (ranged_optional_arg.default_value example_libc "5").thrown ∧
      (ranged_optional_arg.default_value example_libc "5").thrown = none ∧
      (ranged_optional_arg.default_values example_libc ["100", "5"]).thrown = none ∧
      (ranged_optional_arg.default_value example_libc "10").thrown =
        some (Exn.ParseArgsError "The value of option --limit is not in the range of [1, 9].") ∧
      (ranged_optional_arg.default_values example_libc ["5", "10"]).thrown =
        some (Exn.ParseArgsError "The value of option --limit is not in the range of [1, 9].") ∧
      (ranged_optional_arg.default_value example_libc "abc").thrown =
        some Exn.invalid_argument :=
  have hL : example_libc.stod_standard := fun _ e h => by cases h; exact Or.inl rfl
  have hcfg : Arg.Configured example_libc ranged_optional_arg :=
    Arg.Configured.range _ NumType.INT "1" "9" true true
      (Arg.Configured.long_name _ "limit" (Arg.Configured.new_arg ArgType.OPTIONAL))
  ⟨hL, hcfg, by decide, by decide,
    (default_validated example_libc ranged_optional_arg "5" ["100"] hL hcfg (by decide)
      (by decide)).2.2.1,
    by decide, by decide, by decide, by decide, by decide⟩

/-- C30. After a scan of the command's own level that threw nothing, `parse_args` runs the
validators in this order, and the first that fails ends the call with its exception: the
required check (the state is the one the scan left: no positional token was captured), the
positional phase (first the missing-positional test, which fails before any token is
captured, then the capture loop with its per-token range and choice checks),
`check_conflict_with_all_args`, `check_related_groups`, `check_conflict_groups`,
`check_one_required_group`. Each validator decides only when all the earlier ones passed; when
all pass, the command's own level is done without exception (and the call returns when the
command has no sub-command). -/
theorem validation_order (L : Libc) (c : Command) (args : List String)
    (hscan : (c.scanned L args).thrown = none) :
    (∀ e, (c.scanned L args).state.check_required_args = some e →
        c.parse_args L args = ⟨(c.scanned L args).state, some e⟩) ∧
      ((c.scanned L args).state.check_required_args = none →
        (0 ≤ ((c.own_tokens args).length : Int) - (c.own_run L args).optind →
          (((c.own_tokens args).length : Int) - (c.own_run L args).optind).toNat <
            c.position_args_.length →
          c.parse_args L args = ⟨(c.scanned L args).state,
            some (Exn.ParseArgsError (c.command_name_ ++
              ": Missing required position arguments."))⟩) ∧
        (∀ e, (c.captured L args).thrown = some e → c.parse_args L args = c.captured L args) ∧
        ((c.captured L args).thrown = none →
          (∀ e, (c.captured L args).state.check_conflict_with_all_args = some e →
            c.parse_args L args = ⟨(c.captured L args).state, some e⟩) ∧
          ((c.captured L args).state.check_conflict_with_all_args = none →
            (∀ e, (c.captured L args).state.check_related_groups = some e →
              c.parse_args L args = ⟨(c.captured L args).state, some e⟩) ∧
            ((c.captured L args).state.check_related_groups = none →
              (∀ e, (c.captured L args).state.check_conflict_groups = some e →
                c.parse_args L args = ⟨(c.captured L args).state, some e⟩) ∧
              ((c.captured L args).state.check_conflict_groups = none →
                (∀ e, (c.captured L args).state.check_one_required_group = some e →
                  c.parse_args L args = ⟨(c.captured L args).state, some e⟩) ∧
                ((c.captured L args).state.check_one_required_group = none →
                  (c.reset_arg_status.parse_own_level L (c.own_tokens args)).thrown = none ∧
                    (c.subcommandname_2_subcommand_.isEmpty = true →
                      (c.parse_args L args).thrown = none))))))) := by
  have hown := parse_args_own L c args
  have lift : ∀ (r : Res Command) (e : Exn),
      c.reset_arg_status.parse_own_level L (c.own_tokens args) = r → r.thrown = some e →
      c.parse_args L args = r := by
    intro r e hr he
    rw [← hr]
    exact hown.1 e (by rw [hr]; exact he)
  refine ⟨fun e hreq => ?_, fun hreq => ?_⟩
  · exact lift _ e ((own_level_after_scan L c args).2.1 e hscan hreq) rfl
  · have hlevel : c.reset_arg_status.parse_own_level L (c.own_tokens args) =
        ((((c.captured L args).check Command.check_conflict_with_all_args).check
          Command.check_related_groups).check Command.check_conflict_groups).check
          Command.check_one_required_group := own_level_after_required L c args hscan hreq
    have hcap : ∀ e, (c.captured L args).thrown = some e →
        c.parse_args L args = c.captured L args := by
      intro e he
      refine lift _ e ?_ he
      rw [hlevel]
      exact checks_of_thrown _ e he
    refine ⟨fun h0 hlt => ?_, hcap, fun hc => ?_⟩
    · have hm : c.captured L args = ⟨(c.scanned L args).state,
          some (Exn.ParseArgsError (c.command_name_ ++
            ": Missing required position arguments."))⟩ := by
        unfold Command.captured Command.capture_positions
        rw [if_neg (not_lt.mpr h0), (scanned_command_name L c args).2, if_pos hlt,
          (scanned_command_name L c args).1]
        rfl
      rw [hcap _ (by rw [hm]), hm]
    · have hcas := checks_cascade (c.captured L args) Command.check_conflict_with_all_args
        Command.check_related_groups Command.check_conflict_groups
        Command.check_one_required_group hc
      rw [← hlevel] at hcas
      refine ⟨fun e h1 => lift _ e (hcas.1 e h1) rfl, fun h1 =>
        ⟨fun e h2 => lift _ e ((hcas.2 h1).1 e h2) rfl, fun h2 =>
          ⟨fun e h3 => lift _ e (((hcas.2 h1).2 h2).1 e h3) rfl, fun h3 =>
            ⟨fun e h4 => lift _ e ?_ rfl, fun h4 => ?_⟩⟩⟩⟩
      · rw [((hcas.2 h1).2 h2).2 h3, h4]
      · have hl : (c.reset_arg_status.parse_own_level L (c.own_tokens args)).thrown = none := by
          rw [((hcas.2 h1).2 h2).2 h3]
          exact h4
        refine ⟨hl, fun hempty => ?_⟩
        rw [hown.2.2.2 hempty]
        have : c.own_tokens args = args := by
          unfold Command.own_tokens
          rw [if_pos hempty]
        rw [← this]
        exact hl

/-- C30 on a command on which every validator can fail. With `--aa --bb --cc` the required
check, the positional test, `conflicts_with_all`, the related group and the conflict group
are all violated, and the failure is the one of the required check. Adding `--req 1` leaves
the positional failure, adding the positional token the one of `conflicts_with_all`; without
`--aa` the related group fails, with `--ee` the conflict group, and with neither `--aa` nor
`--cc` the one-required group; `--cc --req 1 p` passes all. -/
theorem validation_order_witness :
    (order_command.scanned order_libc ["my_command", "--aa", "--bb", "--cc"]).thrown = none ∧
      order_command.parse_args order_libc ["my_command", "--aa", "--bb", "--cc"] =
        ⟨(order_command.scanned order_libc ["my_command", "--aa", "--bb", "--cc"]).state,
          some (Exn.ParseArgsError "my_command: Missing required option: --req.")⟩ ∧
      (order_command.captured order_libc ["my_command", "--aa", "--bb", "--cc"]).thrown =
        some (Exn.ParseArgsError "my_command: Missing required position arguments.") ∧
      (order_command.scanned order_libc
        ["my_command", "--aa", "--bb", "--cc"]).state.check_conflict_with_all_args ≠ none ∧
      (order_command.scanned order_libc
        ["my_command", "--aa", "--bb", "--cc"]).state.check_related_groups ≠ none ∧
      (order_command.scanned order_libc
        ["my_command", "--aa", "--bb", "--cc"]).state.check_conflict_groups ≠ none ∧
      (order_command.parse_args order_libc
        ["my_command", "--aa", "--bb", "--cc", "--req", "1"]).thrown =
        some (Exn.ParseArgsError "my_command: Missing required position arguments.") ∧
      (order_command.parse_args order_libc
        ["my_command", "--aa", "--bb", "--cc", "--req", "1", "p"]).thrown =
        some (Exn.ParseArgsError ("my_command: The conflict relationship is not satisfied. " ++
          "Option --aa is conflict with all other options.")) ∧
      (order_command.parse_args order_libc
        ["my_command", "--bb", "--cc", "--req", "1", "p"]).thrown =
        some (Exn.ParseArgsError ("my_command: The related relationship is not satisfied. " ++
          "[--, --]: is related with each other.")) ∧
      (order_command.parse_args order_libc
        ["my_command", "--bb", "--cc", "--ee", "--req", "1", "p"]).thrown =
        some (Exn.ParseArgsError ("my_command: The conflict relationship is not satisfied. " ++
          "[--, --]: is conflict with each other.")) ∧
      (order_command.parse_args order_libc ["my_command", "--req", "1", "p"]).thrown =
        some (Exn.ParseArgsError ("my_command: The one of require relationship is not " ++
          "satisfied. [--, --]: at least one option should exist.")) ∧
      (order_command.parse_args order_libc ["my_command", "--cc", "--req", "1", "p"]).thrown =
        none :=
  ⟨by decide,
    (validation_order order_libc order_command ["my_command", "--aa", "--bb", "--cc"]
      (by decide)).1 _ (by decide),
    by decide, by decide, by decide, by decide, by decide, by decide, by decide, by decide,
    by decide, by decide⟩

/-- C31. A member name of a group is resolved by its length: a name of one byte in the
short-name map (under its character), any other name in the long-name map, and the
predicate of the three group checks throws the `ParseArgsError` "Can not find" when the name
is not in the map. The three group declarations append the list and cannot fail. In each of
the three checks, when the loop reaches a group (the groups before it passed) that holds a
name which does not resolve, the check throws that `ParseArgsError` for the first such name,
whatever the hit flags are. A command with such a group cannot be parsed without exception;
the names `help` and `h` resolve, the help argument being added by every parse. -/
theorem group_member_resolution :
    (∀ (c : Command) (name : String),
      (strlen name = 1 →
        c.resolve name = map_find (name.data.headD (Char.ofNat 0)) c.shortname_2_arg_) ∧
      (strlen name ≠ 1 → c.resolve name = map_find name c.longname_2_arg_) ∧
      c.member_hit name =
        (match c.resolve name with
          | some p => .ok (c.arg_at p).is_hit_
          | none => .error (c.unresolved_error name)) ∧
      ∃ msg, c.unresolved_error name = Exn.ParseArgsError msg) ∧
    (∀ (c : Command) (g : List String),
      (c.related_group g).related_groups_ = c.related_groups_ ++ [g] ∧
        (c.conflict_group g).conflict_groups_ = c.conflict_groups_ ++ [g] ∧
        (c.one_required_group g).one_required_groups_ = c.one_required_groups_ ++ [g]) ∧
    (∀ (c : Command) (pre : List (List String)) (g : List String) (rest : List (List String)),
      (∃ name ∈ g, c.resolve name = none) →
      ∃ name ∈ g, c.resolve name = none ∧
        (c.related_scan pre = none →
          c.related_scan (pre ++ g :: rest) = some (c.unresolved_error name)) ∧
        (c.conflict_groups_scan pre = none →
          c.conflict_groups_scan (pre ++ g :: rest) = some (c.unresolved_error name)) ∧
        (c.one_required_scan pre = none →
          c.one_required_scan (pre ++ g :: rest) = some (c.unresolved_error name))) ∧
    (∀ (L : Libc) (c : Command) (args : List String) (g : List String) (name : String),
      (g ∈ c.related_groups_ ∨ g ∈ c.conflict_groups_ ∨ g ∈ c.one_required_groups_) →
      name ∈ g → (c.prepared L).resolve name = none → (c.parse_args L args).thrown ≠ none) ∧
    (unresolved_group_command.parse_args example_libc ["my_command", "--aa", "1"]).thrown =
      some (Exn.ParseArgsError "my_command: Can not find -x option.") ∧
    (unresolved_group_command.parse_args example_libc ["my_command"]).thrown =
      some (Exn.ParseArgsError "my_command: Can not find -x option.") ∧
    (help_group_command.parse_args example_libc ["my_command", "--aa", "1"]).thrown = none := by
  refine ⟨fun c name => ⟨fun h => ?_, fun h => ?_, member_hit_eq c name, ?_⟩,
    fun c g => ⟨rfl, rfl, rfl⟩, fun c pre g rest h => ?_,
    fun L c args g name hg hname hres => unresolved_group_blocks L c args g name hg hname hres,
    by decide, by decide, by decide⟩
  · unfold Command.resolve
    rw [if_pos h]
  · unfold Command.resolve
    rw [if_neg h]
  · unfold Command.unresolved_error
    split_ifs
    · exact ⟨_, rfl⟩
    · exact ⟨_, rfl⟩
  · obtain ⟨name, hm, hn, he⟩ := group_count_unresolved c g h
    refine ⟨name, hm, hn, fun hp => ?_, fun hp => ?_, fun hp => ?_⟩
    · rw [related_scan_append c pre _ hp]
      unfold Command.related_scan
      rw [he]
    · rw [conflict_groups_scan_append c pre _ hp]
      unfold Command.conflict_groups_scan
      rw [he]
    · rw [one_required_scan_append c pre _ hp]
      unfold Command.one_required_scan
      rw [he]

/-- C32. After `reset_arg_status`, every argument held by the long-name map or by the
short-name map of the command is not hit, and when it has a default its value sequence is its
default sequence and the default is marked as not cleared (an argument without default keeps
its value sequence); the positional values are empty; the error buffer is empty; and the name
maps, the ids and everything else a declaration sets are as before. -/
theorem reset_clears (c : Command) :
    (∀ q, c.reset_arg_status.registered q →
      (c.reset_arg_status.arg_at q).is_hit_ = false ∧
        ((c.reset_arg_status.arg_at q).has_default_value_ = true →
          (c.reset_arg_status.arg_at q).values_ = (c.reset_arg_status.arg_at q).default_values_ ∧
            (c.reset_arg_status.arg_at q).is_default_value_cleared_ = false) ∧
        ((c.reset_arg_status.arg_at q).has_default_value_ = false →
          (c.reset_arg_status.arg_at q).values_ = (c.arg_at q).values_)) ∧
      (∀ q, c.reset_arg_status.registered q ↔ c.registered q) ∧
      c.reset_arg_status.position_values_ = [] ∧
      (∀ buf : String, (c.reset_arg_status_buffer buf).2 = "") ∧
      (∀ buf : String, (c.reset_arg_status_buffer buf).1 = c.reset_arg_status) ∧
      Command.Frame c c.reset_arg_status := by
  have hreg : ∀ q, c.reset_arg_status.registered q ↔ c.registered q := by
    intro q
    unfold Command.registered
    rw [(reset_frame c).longname, (reset_frame c).shortname]
  refine ⟨fun q hq => ?_, hreg, rfl, fun _ => rfl, fun _ => rfl, reset_frame c⟩
  have hq2 := (hreg q).mp hq
  rw [reset_arg_at, if_pos hq2]
  unfold Arg.reset_status_info
  by_cases hd : (c.arg_at q).has_default_value_ = true
  · rw [if_pos hd]
    refine ⟨rfl, fun _ => ⟨rfl, rfl⟩, fun h => ?_⟩
    have h2 : (c.arg_at q).has_default_value_ = false := h
    rw [hd] at h2
    cases h2
  · rw [if_neg hd]
    exact ⟨rfl, fun h => absurd h hd, fun _ => rfl⟩

/-- C33. Finalize step in throw mode, with the global buffer `internel::error_msg` as part of
the state of every call. `exit_or_throw` throws a `ParseArgsError` whose message is the content
of the buffer and leaves the buffer empty; a failure written as `error_msg << text;
exit_or_throw(error_msg)` on a buffer holding `buf` therefore carries `buf` followed by
`text`. Every member function that writes to the buffer, run on a buffer holding `buf`, does
what `Out.of buf` says of its run on the empty buffer: a `ParseArgsError` carries `buf` in
front of the text written for the failure and the buffer is left empty, every other outcome
leaves the buffer as it was (the conversions of the standard library do not throw a
`ParseArgsError`); `parse_args` empties the buffer before anything else. Consequently the
buffer is empty between any two calls of the library, in every sequence of calls started on
the empty buffer the program begins with, so that every failure carries exactly the text
written for it. Evaluated: on a buffer holding left-over text the message of `long_name("help")`
would begin with that text; two failing parses in a row, run with the buffer, throw each
their own message and leave the buffer empty. -/
theorem finalize_step :
    (∀ buf : String, exit_or_throw buf = (Exn.ParseArgsError buf, "")) ∧
      (∀ (σ : Type) (s : σ) (buf text : String),
        Out.fail s buf text = ⟨s, some (Exn.ParseArgsError (buf ++ text)), ""⟩) ∧
      (∀ (a : Arg) (buf : String),
        (∀ name, a.long_name_buf name buf = Out.of buf (a.long_name name)) ∧
          (∀ name, a.short_name_buf name buf = Out.of buf (a.short_name name)) ∧
          a.conflicts_with_all_buf buf = Out.of buf a.conflicts_with_all ∧
          (∀ type left right il ir,
            a.range_buf type left right il ir buf = Out.of buf (a.range type left right il ir)) ∧
          (∀ values, a.choices_buf values buf = Out.of buf (a.choices values))) ∧
      (∀ L : Libc, standard L.stod → ∀ (a : Arg) (buf : String),
        (∀ value, a.default_value_buf L value buf = Out.of buf (a.default_value L value)) ∧
          (∀ values,
            a.default_values_buf L values buf = Out.of buf (a.default_values L values))) ∧
      (∀ (L : Libc) (c : Command) (a : Arg) (buf : String),
        c.arg_buf L a buf = Out.of buf (c.arg L a)) ∧
      (∀ L : Libc, standard L.stod → ∀ (c : Command) (args : List String) (buf : String),
        c.do_parse_args_buf L args buf = Out.of buf (c.do_parse_args L args) ∧
          c.parse_args_buf L args buf = Out.of "" (c.parse_args L args) ∧
          (c.parse_args_buf L args buf).res = c.parse_args L args) ∧
      (∀ (T : Type) (conv : String → Except Exn T), standard conv →
        ∀ (c : Command) (buf : String),
          (∀ name, c.get_one_value_buf conv name buf =
            Out.of_except buf (c.get_one_value conv name)) ∧
          (∀ name, c.get_one_value_short_buf conv name buf =
            Out.of_except buf (c.get_one_value_short conv name)) ∧
          (∀ name, c.get_many_values_buf conv name buf =
            Out.of_except buf (c.get_many_values conv name)) ∧
          (∀ name, c.get_many_values_short_buf conv name buf =
            Out.of_except buf (c.get_many_values_short conv name)) ∧
          (∀ position, c.get_one_position_value_buf conv position buf =
            Out.of_except buf (c.get_one_position_value conv position))) ∧
      (standard to_value_int ∧ standard to_value_int64 ∧ standard to_value_uint32 ∧
        standard to_value_uint64 ∧ standard to_value_string) ∧
      (∀ (σ : Type) (r : Res σ), Out.of "" r = ⟨r.state, r.thrown, ""⟩) ∧
      (∀ (T : Type) (r : Except Exn T), Out.of_except "" r = (r, "")) ∧
      (∀ L : Libc, standard L.stod → ∀ buf, BetweenCalls L buf → buf = "") ∧
      standard order_libc.stod ∧
      ((Arg.new_arg ArgType.OPTIONAL).long_name_buf "help" "left over").thrown =
        some (Exn.ParseArgsError ("left over" ++ Arg.help_reserved_msg)) ∧
      ((Arg.new_arg ArgType.OPTIONAL).long_name_buf "help" "left over").error_msg = "" ∧
      (order_command.parse_args_buf order_libc ["my_command", "--aa", "--bb", "--cc"] "").thrown =
        some (Exn.ParseArgsError "my_command: Missing required option: --req.") ∧
      (order_command.parse_args_buf order_libc
        ["my_command", "--aa", "--bb", "--cc"] "").error_msg = "" ∧
      ((order_command.parse_args_buf order_libc
        ["my_command", "--aa", "--bb", "--cc"] "").state.parse_args_buf order_libc
        ["my_command", "--aa", "--bb", "--cc", "--req", "1"]
        (order_command.parse_args_buf order_libc
          ["my_command", "--aa", "--bb", "--cc"] "").error_msg).thrown =
        some (Exn.ParseArgsError "my_command: Missing required position arguments.") := by
  refine ⟨fun _ => rfl, fun _ _ _ _ => rfl, fun a buf => ?_, fun L hL a buf => ?_,
    fun L c a buf => arg_buf_eq L c a buf, fun L hL c args buf => ?_,
    fun T conv hc c buf => ?_, to_value_standard, fun _ r => out_of_empty r,
    fun _ r => of_except_empty r, between_calls_empty, ?_, by decide, by decide, by decide,
    by decide, by decide⟩
  · exact ⟨fun name => long_name_buf_eq a name buf, fun name => short_name_buf_eq a name buf,
      conflicts_with_all_buf_eq a buf, fun t l r il ir => range_buf_eq a t l r il ir buf,
      fun vs => choices_buf_eq a vs buf⟩
  · exact ⟨fun v => default_value_buf_eq L hL a v buf,
      fun vs => default_values_buf_eq L hL a vs buf⟩
  · refine ⟨do_parse_args_buf_eq L hL c args buf, parse_args_buf_eq L hL c args buf, ?_⟩
    rw [parse_args_buf_eq L hL, out_of_empty]
    rfl
  · exact ⟨fun n => get_one_value_buf_eq conv hc c n buf,
      fun n => get_one_value_short_buf_eq conv hc c n buf,
      fun n => get_many_values_buf_eq conv hc c n buf,
      fun n => get_many_values_short_buf_eq conv hc c n buf,
      fun n => get_one_position_value_buf_eq conv hc c n buf⟩
  · intro s e h
    cases h
    exact foreign_invalid_argument

/-- C34 as stated fails: the messages of the range and choice checks do not name the
command. On `my_command` the parse of `--rangearg 4` against the range [5, 10] throws "The
value of option --rangearg is not in the range of [5, 10].", and the parse of `--choarg 4`
against the choices 1, 2, 3 throws "The value of option --choarg is not within [1, 2, 3].";
the text `my_command` occurs in neither. -/
theorem constraint_message_omits_command :
    (range_command.parse_args example_libc ["my_command", "--rangearg", "4"]).thrown =
        some (Exn.ParseArgsError
          "The value of option --rangearg is not in the range of [5, 10].") ∧
      range_command.command_name_ = "my_command" ∧
      ¬ ("my_command".data <:+:
        "The value of option --rangearg is not in the range of [5, 10].".data) ∧
      (choice_command.parse_args example_libc ["my_command", "--choarg", "4"]).thrown =
        some (Exn.ParseArgsError "The value of option --choarg is not within [1, 2, 3].") ∧
      choice_command.command_name_ = "my_command" ∧
      ¬ ("my_command".data <:+:
        "The value of option --choarg is not within [1, 2, 3].".data) := by
  refine ⟨by decide, by decide, by decide, by decide, by decide, by decide⟩

/-- A defect of `check_choice` met at C34: it has no branch for an argument with a short name
only, and writes `--` followed by the (null) long name, where the text of the message
stops. On the command with the Optional `--aa` and the Optional `-c` of choices 1, 2, the
parse of `--aa 1 -c 3` throws "The value of option --"; `default_value("3")` on such an
argument throws the same. -/
theorem choice_message_truncated :
    (short_choice_command.arg_at (-3)).long_name_ = none ∧
      (short_choice_command.arg_at (-3)).short_name_ = 'c' ∧
      (short_choice_command.arg_at (-3)).choices_ = ["1", "2"] ∧
      (short_choice_command.parse_args example_libc
        ["my_command", "--aa", "1", "-c", "3"]).thrown =
        some (Exn.ParseArgsError "The value of option --") ∧
      ((((Arg.new_arg ArgType.OPTIONAL).short_name 'c').state.choices
        ["1", "2"]).state.default_value example_libc "3").thrown =
        some (Exn.ParseArgsError "The value of option --") := by
  refine ⟨by decide, by decide, by decide, by decide, by decide⟩

/-- C34, amended. The message of a failed range or choice check is built from the argument
alone: the check is a function of the argument, and the turn of the scan loop that runs it
throws the same on the command under any other name. A failed range check throws
`ParseArgsError` with: for an argument with a position id, "The value of position argument
(position index i) is not within the range of B."; otherwise, with a long name n, "The value
of option --n is not in the range of B."; otherwise, with a short name s, "The value of option
-s is not in the range of B."; B is `[` or `(`, the left bound, ", ", the right bound, `]` or
`)`, by inclusivity. A failed choice check throws `ParseArgsError` with: for an argument
with a position id, "The value of position argument (position index i) is not within D.";
otherwise, for an argument with a long name n, "The value of option --n is not within D."; D
is the description of the choice set. -/
theorem constraint_message (L : Libc) (a : Arg) :
    (∀ (c : Command) (name : String) (p : Int) (optarg : Option String),
      (Command.hit_and_set L { c with command_name_ := name } p optarg).thrown =
        (c.hit_and_set L p optarg).thrown) ∧
    (∀ v, a.values_.getLast? = some v → a.is_range_ = true → a.left_.isSome = true →
      a.right_.isSome = true → a.range_verdict_of L v = .ok false →
      Arg.check_range_void L a = some (Exn.ParseArgsError a.range_msg)) ∧
    (a.position_id_ ≠ -1 →
      a.range_msg = "The value of position argument (position index " ++
        toString a.position_id_ ++ ") is not within the range of " ++
        a.get_boundary_description ++ ".") ∧
    (∀ n, a.position_id_ = -1 → a.long_name_ = some n →
      a.range_msg = "The value of option --" ++ n ++ " is not in the range of " ++
        a.get_boundary_description ++ ".") ∧
    (a.position_id_ = -1 → a.long_name_ = none → a.short_name_ ≠ ' ' →
      a.range_msg = "The value of option -" ++ String.singleton a.short_name_ ++
        " is not in the range of " ++ a.get_boundary_description ++ ".") ∧
    (∀ l r, a.left_ = some l → a.right_ = some r →
      a.get_boundary_description =
        (if a.include_left_ = true then "[" else "(") ++ l ++ ", " ++ r ++
          (if a.include_right_ = true then "]" else ")")) ∧
    (∀ v, a.values_.getLast? = some v → a.is_choice_ = true → a.choices_ ≠ [] →
      v ∉ a.choices_ →
      ∃ d, a.get_choice_description = some d ∧
        Arg.check_choice a = some (Exn.ParseArgsError (a.choice_msg d))) ∧
    (∀ d, a.position_id_ ≠ -1 →
      a.choice_msg d = "The value of position argument (position index " ++
        toString a.position_id_ ++ ") is not within " ++ d ++ ".") ∧
    (∀ d n, a.position_id_ = -1 → a.long_name_ = some n →
      a.choice_msg d = "The value of option --" ++ n ++ " is not within " ++ d ++ ".") ∧
    (range_position_command.parse_args example_libc ["my_command", "11"]).thrown =
      some (Exn.ParseArgsError
        "The value of position argument (position index 0) is not within the range of [5, 10].") ∧
    (short_range_command.parse_args example_libc ["my_command", "--aa", "1", "-c", "3"]).thrown =
      some (Exn.ParseArgsError "The value of option -c is not in the range of (5, 10].") ∧
    (choice_command.parse_args example_libc ["my_command", "--choarg", "4"]).thrown =
      some (Exn.ParseArgsError "The value of option --choarg is not within [1, 2, 3].") ∧
    (choice_position_command.parse_args example_libc ["my_command", "01"]).thrown =
      some (Exn.ParseArgsError
        "The value of position argument (position index 0) is not within [1, 2, 3].") := by
  refine ⟨fun c name p optarg => rfl, fun v hv hr hl hrt hver => ?_, fun h => ?_,
    fun n h1 h2 => ?_, fun h1 h2 h3 => ?_,
    fun l r hl hr => ?_, fun v hv hc hne hm => ?_, fun d h => ?_, fun d n h1 h2 => ?_,
    by decide, by decide, by decide, by decide⟩
  · rw [check_range_void_fails L a v hv hr hl hrt, hver]
    rfl
  · unfold Arg.range_msg
    rw [if_pos h]
  · unfold Arg.range_msg
    rw [if_neg (not_not.mpr h1), h2]
  · unfold Arg.range_msg
    rw [if_neg (not_not.mpr h1), h2]
    simp only
    rw [if_pos h3]
  · unfold Arg.get_boundary_description
    rw [hl, hr]
    rfl
  · obtain ⟨d, hd⟩ := get_choice_description_isSome a hne
    refine ⟨d, hd, ?_⟩
    rw [check_choice_fails a v hv hc hne hm, hd]
    rfl
  · unfold Arg.choice_msg
    rw [if_pos h]
  · unfold Arg.choice_msg
    rw [if_neg (not_not.mpr h1), h2]

/-- C35. `reset_status_info` changes only the hit flag of an argument without default. On a
command that declarations and parses produced, for a Required or Optional argument without
default held by a name map: after two successive calls of `parse_args` that return, in which
the argument occurs once each, with `v1` and then with `v2`, its value sequence is the one
it had before the first call followed by `v1`, `v2`, and `get_many_values`, by each name it
is filed under, converts that sequence; on a freshly built command the sequence before is
empty, so the result is `v1`, `v2`. -/
theorem two_parses_accumulate (L : Libc) (c : Command) (args1 args2 : List String) (p : Int)
    (v1 v2 : String) (hwf : c.WF) (hreg : c.registered p)
    (hkind : (c.arg_at p).arg_type_ = ArgType.REQUIRED ∨
      (c.arg_at p).arg_type_ = ArgType.OPTIONAL)
    (hdef : (c.arg_at p).has_default_value_ = false)
    (hok1 : (c.parse_args L args1).thrown = none)
    (hocc1 : c.occurrences L args1 p = [v1])
    (hok2 : ((c.parse_args L args1).state.parse_args L args2).thrown = none)
    (hocc2 : (c.parse_args L args1).state.occurrences L args2 p = [v2]) :
    (∀ a : Arg, a.has_default_value_ = false → a.reset_status_info = { a with is_hit_ := false }) ∧
      (((c.parse_args L args1).state.parse_args L args2).state.arg_at p).values_ =
        (c.arg_at p).values_ ++ [v1, v2] ∧
      (∀ {T : Type} (conv : String → Except Exn T) (n : String),
        map_find n c.longname_2_arg_ = some p →
        ((c.parse_args L args1).state.parse_args L args2).state.get_many_values conv n =
          transform conv ((c.arg_at p).values_ ++ [v1, v2])) ∧
      (∀ {T : Type} (conv : String → Except Exn T) (n : Char),
        map_find n c.shortname_2_arg_ = some p →
        ((c.parse_args L args1).state.parse_args L args2).state.get_many_values_short conv n =
          transform conv ((c.arg_at p).values_ ++ [v1, v2])) ∧
      (Command.Fresh L c → (c.arg_at p).values_ = []) := by
  have hk1 := parsed_registered L c args1 p hwf hreg hkind
  have hwf1 : (c.parse_args L args1).state.WF := parse_args_wf L c args1 hwf
  have hkind1 : ((c.parse_args L args1).state.arg_at p).arg_type_ = ArgType.REQUIRED ∨
      ((c.parse_args L args1).state.arg_at p).arg_type_ = ArgType.OPTIONAL := by
    rw [hk1.2.1]
    exact hkind
  have hk2 := parsed_registered L _ args2 p hwf1 hk1.1 hkind1
  have hv1 := parsed_values_accumulate L c args1 p hwf hreg hkind hdef
    (parse_ok_scanned L c args1 hok1) (by rw [hocc1]; simp)
  have hv2 := parsed_values_accumulate L _ args2 p hwf1 hk1.1 hkind1
    (by rw [hk1.2.2.1]; exact hdef) (parse_ok_scanned L _ args2 hok2) (by rw [hocc2]; simp)
  have hvals : (((c.parse_args L args1).state.parse_args L args2).state.arg_at p).values_ =
      (c.arg_at p).values_ ++ [v1, v2] := by
    rw [hv2, hv1, hocc1, hocc2]
    simp
  refine ⟨fun a ha => ?_, hvals, fun conv n hn => ?_, fun conv n hn => ?_, fun hfresh => ?_⟩
  · unfold Arg.reset_status_info
    rw [if_neg (by simp [ha])]
  · unfold Command.get_many_values
    rw [hk2.2.2.2.1 n (hk1.2.2.2.1 n hn)]
    simp only
    rw [hvals]
  · unfold Command.get_many_values_short
    rw [hk2.2.2.2.2 n (hk1.2.2.2.2 n hn)]
    simp only
    rw [hvals]
  · refine (fresh_spec L c hfresh).2.2.2.1 p hdef ?_
    rcases hkind with h | h <;> rw [h] <;> decide

/-- C35 on the command of the group tests: `--aa 1` and then `--aa 2`. -/
theorem two_parses_accumulate_witness :
    three_optional.WF ∧ three_optional.registered (-2) ∧
      (three_optional.arg_at (-2)).arg_type_ = ArgType.OPTIONAL ∧
      (three_optional.arg_at (-2)).has_default_value_ = false ∧
      (three_optional.parse_args example_libc ["my_command", "--aa", "1"]).thrown = none ∧
      three_optional.occurrences example_libc ["my_command", "--aa", "1"] (-2) = ["1"] ∧
      ((three_optional.parse_args example_libc ["my_command", "--aa", "1"]).state.parse_args
        example_libc ["my_command", "--aa", "2"]).thrown = none ∧
      (three_optional.parse_args example_libc ["my_command", "--aa", "1"]).state.occurrences
        example_libc ["my_command", "--aa", "2"] (-2) = ["2"] ∧
      ((three_optional.parse_args example_libc ["my_command", "--aa", "1"]).state.parse_args
        example_libc ["my_command", "--aa", "2"]).state.get_many_values to_value_int "aa" =
        .ok [1, 2] :=
  have hwf : three_optional.WF := (fresh_spec example_libc three_optional three_optional_fresh).1
  have h := two_parses_accumulate example_libc three_optional ["my_command", "--aa", "1"]
    ["my_command", "--aa", "2"] (-2) "1" "2" hwf (by decide) (Or.inr (by decide)) (by decide)
    (by decide) (by decide) (by decide) (by decide)
  ⟨hwf, by decide, by decide, by decide, by decide, by decide, by decide, by decide,
    (h.2.2.1 to_value_int "aa" (by decide)).trans (by decide)⟩

/-- C36, the code at the failing input. On the command with the Optional arguments `--aa`,
`--bb` and `-c` (no default), after a parse of `--aa 1` that returned, the parse of
`--aa 2 --aa 3` returns, `--aa` occurs in it with 2 and then 3, and `get_one_value<int>("aa")`
is 1, the value of the earlier parse, not the first occurrence 2; `get_many_values<int>` is
1, 2, 3, whose head `get_one_value` is. On the freshly built command the same parse gives the
first occurrence, 2. -/
theorem first_value_of_earlier_parse :
    (three_optional.parse_args reparse_libc ["my_command", "--aa", "1"]).thrown = none ∧
      ((three_optional.parse_args reparse_libc ["my_command", "--aa", "1"]).state.parse_args
        reparse_libc ["my_command", "--aa", "2", "--aa", "3"]).thrown = none ∧
      (three_optional.parse_args reparse_libc ["my_command", "--aa", "1"]).state.occurrences
        reparse_libc ["my_command", "--aa", "2", "--aa", "3"] (-2) = ["2", "3"] ∧
      ((three_optional.parse_args reparse_libc ["my_command", "--aa", "1"]).state.parse_args
        reparse_libc ["my_command", "--aa", "2", "--aa", "3"]).state.get_one_value
        to_value_int "aa" = .ok 1 ∧
      ((three_optional.parse_args reparse_libc ["my_command", "--aa", "1"]).state.parse_args
        reparse_libc ["my_command", "--aa", "2", "--aa", "3"]).state.get_many_values
        to_value_int "aa" = .ok [1, 2, 3] ∧
      (three_optional.arg_at (-2)).has_default_value_ = false ∧
      (three_optional.parse_args reparse_libc
        ["my_command", "--aa", "2", "--aa", "3"]).state.get_one_value to_value_int "aa" =
        .ok 2 ∧
      (three_optional.parse_args reparse_libc
        ["my_command", "--aa", "2", "--aa", "3"]).state.get_many_values to_value_int "aa" =
        .ok [2, 3] := by
  refine ⟨by decide, by decide, by decide, by decide, by decide, by decide, by decide,
    by decide⟩

/-- C36 outside the failing input. `get_one_value` is the conversion of the first stored
value, and so the head of what `get_many_values` returns, by long and by short name, on every
command. After a call of `parse_args` that returns, in which a Required or Optional argument
held by a name map occurs with the values `o`, then `os`, and which either has a default or
held no value before the call, the argument holds exactly `o`, `os`, and `get_one_value`
converts `o`, the first occurrence. -/
theorem one_value_is_first {T : Type} (conv : String → Except Exn T) (L : Libc) (c : Command)
    (args : List String) (p : Int) (o : String) (os : List String) (hwf : c.WF)
    (hreg : c.registered p)
    (hprior : ((c.arg_at p).arg_type_ = ArgType.OPTIONAL ∧
        (c.arg_at p).has_default_value_ = true) ∨
      (((c.arg_at p).arg_type_ = ArgType.REQUIRED ∨ (c.arg_at p).arg_type_ = ArgType.OPTIONAL) ∧
        (c.arg_at p).has_default_value_ = false ∧ (c.arg_at p).values_ = []))
    (hok : (c.parse_args L args).thrown = none) (hocc : c.occurrences L args p = o :: os) :
    (∀ (d : Command) (n : String) (q : Int) (v : String) (vs : List String),
      map_find n d.longname_2_arg_ = some q → (d.arg_at q).values_ = v :: vs →
      d.get_one_value conv n = conv v ∧
        (∀ xs, d.get_many_values conv n = .ok xs →
          ∃ x rest, xs = x :: rest ∧ d.get_one_value conv n = .ok x)) ∧
    (∀ (d : Command) (n : Char) (q : Int) (v : String) (vs : List String),
      map_find n d.shortname_2_arg_ = some q → (d.arg_at q).values_ = v :: vs →
      d.get_one_value_short conv n = conv v ∧
        (∀ xs, d.get_many_values_short conv n = .ok xs →
          ∃ x rest, xs = x :: rest ∧ d.get_one_value_short conv n = .ok x)) ∧
    ((c.parse_args L args).state.arg_at p).values_ = o :: os ∧
    (∀ n : String, map_find n c.longname_2_arg_ = some p →
      (c.parse_args L args).state.get_one_value conv n = conv o ∧
        (c.parse_args L args).state.get_many_values conv n = transform conv (o :: os)) ∧
    (∀ n : Char, map_find n c.shortname_2_arg_ = some p →
      (c.parse_args L args).state.get_one_value_short conv n = conv o ∧
        (c.parse_args L args).state.get_many_values_short conv n =
          transform conv (o :: os)) := by
  have hkind : (c.arg_at p).arg_type_ = ArgType.REQUIRED ∨
      (c.arg_at p).arg_type_ = ArgType.OPTIONAL := by
    rcases hprior with ⟨h, _⟩ | ⟨h, _⟩
    · exact Or.inr h
    · exact h
  have hpres : (map_find p c.argid_2_arg_).isSome = true := by
    rcases hreg with h | h
    · obtain ⟨e, he, hep⟩ := List.mem_map.mp h
      rw [← hep]
      exact hwf.long_present e he
    · obtain ⟨e, he, hep⟩ := List.mem_map.mp h
      rw [← hep]
      exact hwf.short_present e he
  have hvals : ((c.parse_args L args).state.arg_at p).values_ = o :: os := by
    rcases hprior with ⟨hopt, hdef⟩ | ⟨_, hdef, hempty⟩
    · rw [parsed_default_values L c args p hwf hreg hopt hdef hpres hok]
      unfold Command.values_after
      rw [hocc]
      simp
    · rw [parsed_values_accumulate L c args p hwf hreg hkind hdef
        (parse_ok_scanned L c args hok) (by rw [hocc]; simp), hempty, hocc]
      rfl
  have hk := parsed_registered L c args p hwf hreg hkind
  refine ⟨fun d n q v vs hm hv => ⟨?_, fun xs hxs => ?_⟩,
    fun d n q v vs hm hv => ⟨?_, fun xs hxs => ?_⟩, hvals, fun n hn => ⟨?_, ?_⟩,
    fun n hn => ⟨?_, ?_⟩⟩
  · unfold Command.get_one_value
    simp [hm, hv]
  · have h1 : d.get_one_value conv n = conv v := by
      unfold Command.get_one_value
      simp [hm, hv]
    unfold Command.get_many_values at hxs
    rw [hm] at hxs
    simp only at hxs
    rw [hv] at hxs
    obtain ⟨x, rest, e1, e2⟩ := transform_head conv v vs xs hxs
    exact ⟨x, rest, e1, h1.trans e2⟩
  · unfold Command.get_one_value_short
    simp [hm, hv]
  · have h1 : d.get_one_value_short conv n = conv v := by
      unfold Command.get_one_value_short
      simp [hm, hv]
    unfold Command.get_many_values_short at hxs
    rw [hm] at hxs
    simp only at hxs
    rw [hv] at hxs
    obtain ⟨x, rest, e1, e2⟩ := transform_head conv v vs xs hxs
    exact ⟨x, rest, e1, h1.trans e2⟩
  · unfold Command.get_one_value
    simp [hk.2.2.2.1 n hn, hvals]
  · unfold Command.get_many_values
    simp [hk.2.2.2.1 n hn, hvals]
  · unfold Command.get_one_value_short
    simp [hk.2.2.2.2 n hn, hvals]
  · unfold Command.get_many_values_short
    simp [hk.2.2.2.2 n hn, hvals]

/-- C36 on the command of `test_optional_long_name_arg_with_default_values` for the tokens
`--optional_arg 1 --optional_arg 2 --optional_arg 3`: `get_one_value<int>` is 1, the first
occurrence, and `get_many_values<int>` is 1, 2, 3. -/
theorem one_value_is_first_witness :
    default_values_command.WF ∧ default_values_command.registered (-2) ∧
      (default_values_command.arg_at (-2)).arg_type_ = ArgType.OPTIONAL ∧
      (default_values_command.arg_at (-2)).has_default_value_ = true ∧
      (default_values_command.parse_args example_libc
        ["my_command", "--optional_arg", "1", "--optional_arg", "2", "--optional_arg",
          "3"]).thrown = none ∧
      default_values_command.occurrences example_libc
        ["my_command", "--optional_arg", "1", "--optional_arg", "2", "--optional_arg", "3"]
        (-2) = "1" :: ["2", "3"] ∧
      (default_values_command.parse_args example_libc
        ["my_command", "--optional_arg", "1", "--optional_arg", "2", "--optional_arg",
          "3"]).state.get_one_value to_value_int "optional_arg" = .ok 1 ∧
      (default_values_command.parse_args example_libc
        ["my_command", "--optional_arg", "1", "--optional_arg", "2", "--optional_arg",
          "3"]).state.get_many_values to_value_int "optional_arg" = .ok [1, 2, 3] :=
  have hwf : default_values_command.WF :=
    (fresh_spec example_libc default_values_command default_values_command_fresh).1
  have h := one_value_is_first to_value_int example_libc default_values_command
    ["my_command", "--optional_arg", "1", "--optional_arg", "2", "--optional_arg", "3"]
    (-2) "1" ["2", "3"] hwf (by decide) (Or.inl ⟨by decide, by decide⟩) (by decide) (by decide)
  ⟨hwf, by decide, by decide, by decide, by decide, by decide,
    ((h.2.2.2.1 "optional_arg" (by decide)).1).trans (by decide),
    ((h.2.2.2.1 "optional_arg" (by decide)).2).trans (by decide)⟩

/-- C37. `has_arg`, by long and by short name, is a function of the command into `bool`
that throws nothing and changes nothing: it is false when the name is not in the name map,
and the hit flag of the argument the map holds under the name otherwise. -/
theorem has_arg_total (c : Command) :
    (∀ name : String,
      (map_find name c.longname_2_arg_ = none → c.has_arg name = false) ∧
        (∀ p, map_find name c.longname_2_arg_ = some p →
          c.has_arg name = (c.arg_at p).is_hit_)) ∧
    (∀ name : Char,
      (map_find name c.shortname_2_arg_ = none → c.has_arg_short name = false) ∧
        (∀ p, map_find name c.shortname_2_arg_ = some p →
          c.has_arg_short name = (c.arg_at p).is_hit_)) ∧
    three_optional.has_arg "nosuch" = false ∧ three_optional.has_arg_short 'x' = false ∧
    (three_optional.parse_args example_libc
      ["my_command", "--aa", "1", "-c", "3"]).state.has_arg "aa" = true ∧
    (three_optional.parse_args example_libc
      ["my_command", "--aa", "1", "-c", "3"]).state.has_arg "bb" = false ∧
    (three_optional.parse_args example_libc
      ["my_command", "--aa", "1", "-c", "3"]).state.has_arg_short 'c' = true ∧
    (three_optional.parse_args example_libc
      ["my_command", "--aa", "1", "-c", "3"]).state.get_one_value to_value_int "nosuch" =
      .error (Exn.ParseArgsError "Can not find --nosuch option.") := by
  refine ⟨fun name => ⟨fun h => ?_, fun p h => ?_⟩, fun name => ⟨fun h => ?_, fun p h => ?_⟩,
    by decide, by decide, by decide, by decide, by decide, by decide⟩
  · unfold Command.has_arg
    rw [h]
  · unfold Command.has_arg
    rw [h]
  · unfold Command.has_arg_short
    rw [h]
  · unfold Command.has_arg_short
    rw [h]

/-- C39. `do_parse_args` on a command tree terminates: run as the recursive function of
the source with a bound on the depth of the nested calls, it gives the result of
`do_parse_args` for every bound from the height of the tree on, for every library and every
token list (also when the matched token is at index 0 and the child is given the token list
of its parent); the callee is a registered sub-command, whose tree is strictly lower. On the
tree of `test_subcommand`, of height 3, the tokens that select `myfind` and then `mydirfind`
need three nested calls: the bound 2 is exceeded, the bound 3 gives the result. -/
theorem dispatch_terminates (L : Libc) (c : Command) (argv : List String) :
    (∀ k, c.do_parse_args_fuel L (c.depth + k) argv = some (c.do_parse_args L argv)) ∧
      c.reset_arg_status.do_parse_args_fuel L c.depth argv = some (c.parse_args L argv) ∧
      (∀ name child, map_find name c.subcommandname_2_subcommand_ = some child →
        child.depth < c.depth) ∧
      (c.subcommandname_2_subcommand_.isEmpty = true → c.depth = 1) ∧
      c.do_parse_args_fuel L 0 argv = none ∧
      subcommand_tree.depth = 3 ∧
      (subcommand_tree.reset_arg_status.do_parse_args_fuel subcommand_libc 2
        ["my_command", "--detail", "myfind", "mydirfind", "--dirpath", "xx1", "--pattern",
          "yy2"]).isNone = true ∧
      (subcommand_tree.reset_arg_status.do_parse_args_fuel subcommand_libc 3
        ["my_command", "--detail", "myfind", "mydirfind", "--dirpath", "xx1", "--pattern",
          "yy2"]).map Res.thrown = some none := by
  refine ⟨fun k => fuel_suffices L _ c argv (Nat.le_add_right _ _), ?_,
    fun name child h => ?_, fun hE => ?_, rfl, by decide, by decide, by decide⟩
  · have hd : c.reset_arg_status.depth = c.depth := by
      rw [depth_eq, depth_eq c, (reset_subcommands c).1]
    exact fuel_suffices L _ _ argv (le_of_eq hd)
  · have := depth_of_child _ name child h
    rw [depth_eq c]
    omega
  · rw [depth_eq]
    cases hs : c.subcommandname_2_subcommand_ with
    | nil => rfl
    | cons x xs =>
      rw [hs] at hE
      cases hE

/-- C40, the code at the failing inputs. When the token list handed to the scan of a command
is empty, `getopt_long_only` returns -1 at once and `optind` keeps the value 1 that
`do_parse_args_internel` gave it, so that `argc - optind` is -1; the test for missing
positional arguments, made on the count converted to `size_t`, does not fire, and the
capture loop reads past the tokens. This is the case for `parse_args({})` on any command
and for the parent whose token 0 is the name of a registered sub-command (its own tokens are
the empty prefix). -/
theorem capture_count_negative :
    (∀ (L : Libc) (c : Command) (args : List String), (c.scanned L args).thrown = none →
      (c.scanned L args).state.check_required_args = none →
      ((c.own_tokens args).length : Int) - (c.own_run L args).optind < 0 →
      c.parse_args L args = ⟨(c.scanned L args).state, some Exn.undefined_behaviour⟩) ∧
    (∀ c : Command, c.own_tokens [] = []) ∧
    (∀ (c : Command) (tok : String) (rest : List String),
      c.subcommandname_2_subcommand_.isEmpty = false →
      (map_find tok c.subcommandname_2_subcommand_).isSome = true →
      c.own_tokens (tok :: rest) = []) ∧
    (∀ (L : Libc) (c : Command) (args : List String), c.own_tokens args = [] →
      (c.own_run L args).optind = 1 →
      ((c.own_tokens args).length : Int) - (c.own_run L args).optind = -1) ∧
    (three_optional.own_run example_libc []).events = [] ∧
    (three_optional.own_run example_libc []).optind = 1 ∧
    (three_optional.parse_args example_libc []).thrown = some Exn.undefined_behaviour ∧
    subcommand_tree.own_tokens
      ["myfind", "mydirfind", "--dirpath", "xx1", "--pattern", "yy2"] = [] ∧
    (subcommand_tree.own_run subcommand_libc
      ["myfind", "mydirfind", "--dirpath", "xx1", "--pattern", "yy2"]).optind = 1 ∧
    (subcommand_tree.parse_args subcommand_libc
      ["myfind", "mydirfind", "--dirpath", "xx1", "--pattern", "yy2"]).thrown =
      some Exn.undefined_behaviour := by
  refine ⟨negative_count_undefined, fun c => ?_, own_tokens_at_zero, fun L c args h1 h2 => ?_,
    by decide, by decide, by decide, by decide, by decide, by decide⟩
  · unfold Command.own_tokens
    split_ifs <;> rfl
  · rw [h1, h2]
    rfl

end zul
